import Mathlib

/-!
# Cloth simulation engine: embedding and verified properties

A shallow embedding of the physics engine of the cloth simulator
(`src/physics/ClothSimulation.cpp`, `src/physics/OGCContactModel.cpp` and their
headers) together with theorems about it.

Modelling conventions.

* `float` values are elements of an arbitrary linearly ordered field `K`
  (exact arithmetic: rounding, infinities and NaN are outside the model).
  Decimal constants of the source are written as fractions (`0.8f` is `8/10`).
  Instantiating `K` with `ℚ` makes every definition executable.
* Where rounding decides the outcome of a comparison, the code is written a
  second time with every operation rounded to binary32 (`round32`, `sqrt32`,
  `checkCollision32`, `basicCollisionStep32`); a `float` is then the rational
  number it stands for.
* The numeric library the engine calls but does not define (`sqrt`,
  `QVector3D::normalized`) is a parameter, `FloatLib K`.
* `int` values are unbounded integers; every index the engine computes is
  bounded by the number of particles it has allocated.
* A `ClothParticle*` is an `Option Nat`: `none` is `nullptr`, `some i` points to
  the `i`-th element of `m_particles`.  Dereferencing `nullptr` or an index that
  is not in the particle list makes the enclosing operation return `none`.
* Rendering-only members (`transform`, the OpenGL handles, vertex caches) are
  left out; they are never read by the physics code.  Of `render()` the model
  keeps what it does to the fields above (the dirty flag and the normal pass).
* Division by zero has the value zero, as everywhere in Mathlib.  The engine
  guards its divisions (`satisfy`, `checkCollision`); the only unguarded one is the
  texture coordinate of a grid of width or height 1, which no property reads.
* `initialize` cannot be used as a name; the two overloads of
  `ClothSimulation::initialize` are `initialize0` (no argument) and `initialize3`
  (width, height, spacing).  Constructors are called `new`.
-/

set_option linter.unusedSectionVars false
set_option linter.unusedVariables false

namespace Physics

/-! ## Vectors -/

/-- The `QVector3D` value type. -/
structure Vec3 (K : Type) where
  x : K
  y : K
  z : K
deriving DecidableEq

/-- The `QVector2D` value type. -/
structure Vec2 (K : Type) where
  x : K
  y : K
deriving DecidableEq

/-- Library functions used by the engine and defined outside the repository:
`sqrt` (called directly and inside `QVector3D::length`) and
`QVector3D::normalized` / `normalize`. -/
structure FloatLib (K : Type) where
  sqrt : K → K
  normalized : Vec3 K → Vec3 K

namespace Vec3

variable {K : Type} [LinearOrderedField K]

/-- `QVector3D(0, 0, 0)`. -/
def zero : Vec3 K := ⟨0, 0, 0⟩

/-- `a + b`. -/
def add (a b : Vec3 K) : Vec3 K := ⟨a.x + b.x, a.y + b.y, a.z + b.z⟩

/-- `a - b`. -/
def sub (a b : Vec3 K) : Vec3 K := ⟨a.x - b.x, a.y - b.y, a.z - b.z⟩

/-- `a * k` for a scalar `k`. -/
def scale (a : Vec3 K) (k : K) : Vec3 K := ⟨a.x * k, a.y * k, a.z * k⟩

/-- `QVector3D::dotProduct`. -/
def dotProduct (a b : Vec3 K) : K := a.x * b.x + a.y * b.y + a.z * b.z

/-- `QVector3D::crossProduct`. -/
def crossProduct (a b : Vec3 K) : Vec3 K :=
  ⟨a.y * b.z - a.z * b.y, a.z * b.x - a.x * b.z, a.x * b.y - a.y * b.x⟩

/-- `QVector3D::lengthSquared`. -/
def lengthSquared (a : Vec3 K) : K := a.x * a.x + a.y * a.y + a.z * a.z

/-- `QVector3D::length`. -/
def length (L : FloatLib K) (a : Vec3 K) : K := L.sqrt (lengthSquared a)

end Vec3

/-! ## Particles -/

/-- The fields of `class ClothParticle`. -/
structure ClothParticle (K : Type) where
  position : Vec3 K
  velocity : Vec3 K
  acceleration : Vec3 K
  force : Vec3 K
  mass : K
  invMass : K
  pinned : Bool
  normal : Vec3 K
  texCoord : Vec2 K
deriving DecidableEq

namespace ClothParticle

variable {K : Type} [LinearOrderedField K]

/-- The constructor `ClothParticle::ClothParticle(pos, m)`. -/
def new (pos : Vec3 K) (m : K) : ClothParticle K :=
  { position := pos
    velocity := ⟨0, 0, 0⟩
    acceleration := ⟨0, 0, 0⟩
    force := ⟨0, 0, 0⟩
    mass := m
    invMass := if m > 0 then 1 / m else 0
    pinned := false
    normal := ⟨0, 1, 0⟩
    texCoord := ⟨0, 0⟩ }

/-- `ClothParticle::addForce`. -/
def addForce (p : ClothParticle K) (f : Vec3 K) : ClothParticle K :=
  { p with force := p.force.add f }

/-- `ClothParticle::clearForces`. -/
def clearForces (p : ClothParticle K) : ClothParticle K :=
  { p with force := ⟨0, 0, 0⟩ }

/-- `ClothParticle::update`. -/
def update (p : ClothParticle K) (deltaTime : K) : ClothParticle K :=
  if p.pinned then p
  else
    let p1 := { p with acceleration := p.force.scale p.invMass }
    let p2 := { p1 with velocity := p1.velocity.add (p1.acceleration.scale deltaTime) }
    let p3 := { p2 with position := p2.position.add (p2.velocity.scale deltaTime) }
    p3.clearForces

end ClothParticle

/-! ## Particle store and pointers -/

section Store

variable {K : Type}

/-- Reading through a `ClothParticle*`: `none` for `nullptr` and for an index
outside the particle list. -/
def deref (ps : List (ClothParticle K)) (p : Option Nat) : Option (ClothParticle K) :=
  match p with
  | none => none
  | some i => ps[i]?

/-- Writing through a valid pointer: the `i`-th particle is replaced by its
image under `f`; an index outside the list leaves the list as it is. -/
def updateAt (ps : List (ClothParticle K)) (i : Nat)
    (f : ClothParticle K → ClothParticle K) : List (ClothParticle K) :=
  match ps[i]? with
  | some p => ps.set i (f p)
  | none => ps

end Store

/-! ## Constraints -/

/-- The fields of `class ClothConstraint`. -/
structure ClothConstraint (K : Type) where
  particle1 : Option Nat
  particle2 : Option Nat
  restLength : K
  stiffness : K
  damping : K
deriving DecidableEq

namespace ClothConstraint

variable {K : Type} [LinearOrderedField K]

/-- The constructor `ClothConstraint::ClothConstraint(p1, p2, restLen)`; the
particles are read only when `restLen < 0`. -/
def new (L : FloatLib K) (ps : List (ClothParticle K)) (p1 p2 : Option Nat) (restLen : K) :
    Option (ClothConstraint K) :=
  if restLen < 0 then
    match deref ps p1, deref ps p2 with
    | some a, some b =>
      some { particle1 := p1, particle2 := p2, stiffness := 8 / 10, damping := 1 / 10,
             restLength := (a.position.sub b.position).length L }
    | _, _ => none
  else
    some { particle1 := p1, particle2 := p2, stiffness := 8 / 10, damping := 1 / 10,
           restLength := restLen }

/-- `ClothConstraint::satisfy`, acting on the particle store. -/
def satisfy (L : FloatLib K) (c : ClothConstraint K) (ps : List (ClothParticle K)) :
    Option (List (ClothParticle K)) :=
  match c.particle1, c.particle2 with
  | some i, some j =>
    match ps[i]?, ps[j]? with
    | some a, some b =>
      let delta := b.position.sub a.position
      let currentLength := delta.length L
      if currentLength < 1 / 1000000 then some ps
      else
        let difference := (currentLength - c.restLength) / currentLength
        let correction := ((delta.scale difference).scale (1 / 2)).scale c.stiffness
        let ps1 := if a.pinned then ps
          else updateAt ps i (fun p => { p with position := p.position.add correction })
        let ps2 := if b.pinned then ps1
          else updateAt ps1 j (fun p => { p with position := p.position.sub correction })
        let relativeVelocity := b.velocity.sub a.velocity
        let dampingForce := relativeVelocity.scale c.damping
        let ps3 := if a.pinned then ps2
          else updateAt ps2 i (fun p =>
            { p with velocity := p.velocity.add (dampingForce.scale p.invMass) })
        let ps4 := if b.pinned then ps3
          else updateAt ps3 j (fun p =>
            { p with velocity := p.velocity.sub (dampingForce.scale p.invMass) })
        some ps4
    | _, _ => none
  | _, _ => none

end ClothConstraint

/-! ## Cylinder collider -/

/-- The physics fields of `class CylinderCollider`. -/
structure CylinderCollider (K : Type) where
  center : Vec3 K
  radius : K
  height : K
deriving DecidableEq

/-- The return value of `checkCollision` together with its two output
parameters. -/
structure CollisionResult (K : Type) where
  hit : Bool
  contactPoint : Vec3 K
  contactNormal : Vec3 K
deriving DecidableEq

namespace CylinderCollider

variable {K : Type} [LinearOrderedField K]

/-- `CylinderCollider::checkCollision`.  `contactPoint` and `contactNormal` are
the incoming values of the output parameters; they come back unchanged when no
collision is reported.  The particle is only read. -/
def checkCollision (L : FloatLib K) (c : CylinderCollider K) (particle : ClothParticle K)
    (contactPoint contactNormal : Vec3 K) : CollisionResult K :=
  let localPos := particle.position.sub c.center
  if localPos.y < -c.height * (1 / 2) ∨ localPos.y > c.height * (1 / 2) then
    ⟨false, contactPoint, contactNormal⟩
  else
    let radialDistance := L.sqrt (localPos.x * localPos.x + localPos.z * localPos.z)
    if radialDistance < c.radius then
      let n : Vec3 K :=
        if radialDistance < 1 / 1000000 then ⟨1, 0, 0⟩
        else ⟨localPos.x / radialDistance, 0, localPos.z / radialDistance⟩
      ⟨true, c.center.add ⟨n.x * c.radius, localPos.y, n.z * c.radius⟩, n⟩
    else
      ⟨false, contactPoint, contactNormal⟩

end CylinderCollider

/-! ## OGC contact model -/

/-- The fields of `OGCContactModel::ContactInfo`. -/
structure ContactInfo (K : Type) where
  particle : Option Nat
  contactPoint : Vec3 K
  contactNormal : Vec3 K
  penetrationDepth : K
  contactRadius : K
deriving DecidableEq

/-- The fields of `class OGCContactModel`. -/
structure OGCContactModel (K : Type) where
  contactRadius : K
  stiffness : K
  damping : K
deriving DecidableEq

namespace OGCContactModel

variable {K : Type} [LinearOrderedField K]

/-- The constructor `OGCContactModel::OGCContactModel(contactRadius)`. -/
def new (contactRadius : K) : OGCContactModel K :=
  { contactRadius := contactRadius, stiffness := 1000, damping := 50 }

/-- `OGCContactModel::setContactRadius`. -/
def setContactRadius (m : OGCContactModel K) (radius : K) : OGCContactModel K :=
  { m with contactRadius := radius }

/-- `OGCContactModel::calculateOffsetGeometry`. -/
def calculateOffsetGeometry (m : OGCContactModel K) (contact : ContactInfo K) : Vec3 K :=
  contact.contactPoint.add (contact.contactNormal.scale m.contactRadius)

/-- `OGCContactModel::calculateContactForce`. -/
def calculateContactForce (m : OGCContactModel K) (contact : ContactInfo K) : Vec3 K :=
  let penetration := max 0 contact.penetrationDepth
  contact.contactNormal.scale (m.stiffness * penetration)

/-- `OGCContactModel::calculateDampingForce`; it reads the velocity of the
particle the contact points to. -/
def calculateDampingForce (m : OGCContactModel K) (contact : ContactInfo K)
    (ps : List (ClothParticle K)) : Option (Vec3 K) :=
  match deref ps contact.particle with
  | none => none
  | some p =>
    let normalVelocity := Vec3.dotProduct p.velocity contact.contactNormal
    if normalVelocity < 0 then some (contact.contactNormal.scale (m.damping * normalVelocity))
    else some ⟨0, 0, 0⟩

/-- `OGCContactModel::applyOGCForce`, acting on the particle store. -/
def applyOGCForce (m : OGCContactModel K) (contact : ContactInfo K) (_deltaTime : K)
    (ps : List (ClothParticle K)) : Option (List (ClothParticle K)) :=
  match contact.particle with
  | none => some ps
  | some i =>
    match ps[i]? with
    | none => none
    | some p =>
      if p.pinned then some ps
      else
        let _offsetPosition := m.calculateOffsetGeometry contact
        let contactForce := m.calculateContactForce contact
        match m.calculateDampingForce contact ps with
        | none => none
        | some dampingForce =>
          let totalForce := contactForce.add dampingForce
          let ps1 := updateAt ps i (fun q => q.addForce totalForce)
          if contact.penetrationDepth > 0 then
            let correction := contact.contactNormal.scale (contact.penetrationDepth * (8 / 10))
            some (updateAt ps1 i (fun q => { q with position := q.position.add correction }))
          else some ps1

/-- `OGCContactModel::processContacts`, acting on the particle store. -/
def processContacts (m : OGCContactModel K) (contacts : List (ContactInfo K)) (deltaTime : K)
    (ps : List (ClothParticle K)) : Option (List (ClothParticle K)) :=
  if contacts.isEmpty then some ps
  else contacts.foldlM (fun acc contact => m.applyOGCForce contact deltaTime acc) ps

end OGCContactModel

/-! ## The simulation -/

/-- The fields of `class ClothSimulation` that the physics code uses. -/
structure ClothSimulation (K : Type) where
  width : Int
  height : Int
  spacing : K
  particles : List (ClothParticle K)
  constraints : List (ClothConstraint K)
  cylinders : List (CylinderCollider K)
  ogcModel : OGCContactModel K
  useOGC : Bool
  gravity : Vec3 K
  wind : Vec3 K
  damping : K
  timeStep : K
  constraintIterations : Int
  paused : Bool
  simulationTime : K
  renderDataDirty : Bool
deriving DecidableEq

/-- The values `0, 1, ..., n - 1` of a loop `for (int i = 0; i < n; ++i)`. -/
def intRange (n : Int) : List Int := (List.range n.toNat).map Int.ofNat

/-- Running a fallible step `n` times, as `for (int i = 0; i < n; ++i) step();`. -/
def repeatM {σ : Type} (step : σ → Option σ) : Nat → σ → Option σ
  | 0, s => some s
  | n + 1, s => (step s).bind (repeatM step n)

namespace ClothSimulation

variable {K : Type} [LinearOrderedField K]

/-- The constructor `ClothSimulation::ClothSimulation(width, height, spacing)`. -/
def new (width height : Int) (spacing : K) : ClothSimulation K :=
  { width := width
    height := height
    spacing := spacing
    particles := []
    constraints := []
    cylinders := []
    ogcModel := OGCContactModel.new (5 / 100)
    useOGC := true
    gravity := ⟨0, -(981 / 100), 0⟩
    wind := ⟨0, 0, 0⟩
    damping := 99 / 100
    timeStep := 1 / 60
    constraintIterations := 3
    paused := false
    simulationTime := 0
    renderDataDirty := true }

/-- `ClothSimulation::pause`. -/
def pause (s : ClothSimulation K) : ClothSimulation K := { s with paused := true }

/-- `ClothSimulation::resume`. -/
def resume (s : ClothSimulation K) : ClothSimulation K := { s with paused := false }

/-- `ClothSimulation::isPaused`. -/
def isPaused (s : ClothSimulation K) : Bool := s.paused

/-- `ClothSimulation::setGravity`. -/
def setGravity (s : ClothSimulation K) (gravity : Vec3 K) : ClothSimulation K :=
  { s with gravity := gravity }

/-- `ClothSimulation::setWind`. -/
def setWind (s : ClothSimulation K) (wind : Vec3 K) : ClothSimulation K :=
  { s with wind := wind }

/-- `ClothSimulation::setDamping`. -/
def setDamping (s : ClothSimulation K) (damping : K) : ClothSimulation K :=
  { s with damping := damping }

/-- `ClothSimulation::setTimeStep`. -/
def setTimeStep (s : ClothSimulation K) (timeStep : K) : ClothSimulation K :=
  { s with timeStep := timeStep }

/-- `ClothSimulation::setUseOGC` (and its alias `enableOGC`). -/
def setUseOGC (s : ClothSimulation K) (enable : Bool) : ClothSimulation K :=
  { s with useOGC := enable }

/-- `ClothSimulation::setOGCContactRadius`; the model pointer is never null
after construction. -/
def setOGCContactRadius (s : ClothSimulation K) (radius : K) : ClothSimulation K :=
  { s with ogcModel := s.ogcModel.setContactRadius radius }

/-- `ClothSimulation::getOGCContactRadius`. -/
def getOGCContactRadius (s : ClothSimulation K) : K := s.ogcModel.contactRadius

/-- `ClothSimulation::getUseOGC`. -/
def getUseOGC (s : ClothSimulation K) : Bool := s.useOGC

/-- `ClothSimulation::getParticleCount`. -/
def getParticleCount (s : ClothSimulation K) : Int := s.particles.length

/-- `ClothSimulation::getConstraintCount`. -/
def getConstraintCount (s : ClothSimulation K) : Int := s.constraints.length

/-- `ClothSimulation::getSimulationTime`. -/
def getSimulationTime (s : ClothSimulation K) : K := s.simulationTime

/-- `ClothSimulation::addCylinder`. -/
def addCylinder (s : ClothSimulation K) (center : Vec3 K) (radius height : K) :
    ClothSimulation K :=
  { s with cylinders := s.cylinders ++ [⟨center, radius, height⟩] }

/-- `ClothSimulation::getParticleIndex`. -/
def getParticleIndex (s : ClothSimulation K) (x y : Int) : Int := y * s.width + x

/-- `ClothSimulation::getParticle`: `nullptr` for a coordinate outside the
grid, otherwise the pointer to element `getParticleIndex x y` of `m_particles`. -/
def getParticle (s : ClothSimulation K) (x y : Int) : Option Nat :=
  if x < 0 ∨ x ≥ s.width ∨ y < 0 ∨ y ≥ s.height then none
  else some (s.getParticleIndex x y).toNat

/-- The particle pushed by the body of the two loops of `createClothMesh` at
grid coordinate `(x, y)`. -/
def meshParticle (s : ClothSimulation K) (x y : Int) : ClothParticle K :=
  { ClothParticle.new
      ⟨((x : K) - (s.width : K) * (1 / 2)) * s.spacing, 2,
       ((y : K) - (s.height : K) * (1 / 2)) * s.spacing⟩ 1 with
    texCoord := ⟨(x : K) / ((s.width - 1 : Int) : K), (y : K) / ((s.height - 1 : Int) : K)⟩ }

/-- `ClothSimulation::createClothMesh`. -/
def createClothMesh (s : ClothSimulation K) : ClothSimulation K :=
  { s with
    particles := s.particles ++
      (intRange s.height).flatMap fun y => (intRange s.width).map fun x => s.meshParticle x y }

/-- The pairs of lookups made by the first loop nest of `createConstraints`
(structural constraints: right and down neighbour), in the order of the loop. -/
def structuralLinks (s : ClothSimulation K) : List (Option Nat × Option Nat) :=
  (intRange s.height).flatMap fun y => (intRange s.width).flatMap fun x =>
    let current := s.getParticle x y
    (if x < s.width - 1 then [(current, s.getParticle (x + 1) y)] else []) ++
    (if y < s.height - 1 then [(current, s.getParticle x (y + 1))] else [])

/-- The pairs of lookups made by the second loop nest of `createConstraints`
(shear constraints: the two diagonals of a quad). -/
def shearLinks (s : ClothSimulation K) : List (Option Nat × Option Nat) :=
  (intRange (s.height - 1)).flatMap fun y => (intRange (s.width - 1)).flatMap fun x =>
    let current := s.getParticle x y
    let diag1 := s.getParticle (x + 1) (y + 1)
    let diag2 := s.getParticle (x + 1) y
    let diag3 := s.getParticle x (y + 1)
    [(current, diag1), (diag2, diag3)]

/-- The pairs of lookups made by the last two loop nests of `createConstraints`
(bend constraints: two cells away, horizontally then vertically). -/
def bendLinks (s : ClothSimulation K) : List (Option Nat × Option Nat) :=
  ((intRange s.height).flatMap fun y => (intRange (s.width - 2)).map fun x =>
    (s.getParticle x y, s.getParticle (x + 2) y)) ++
  ((intRange (s.height - 2)).flatMap fun y => (intRange s.width).map fun x =>
    (s.getParticle x y, s.getParticle x (y + 2)))

/-- `ClothSimulation::createConstraints`: every pair of lookups is handed to the
constraint constructor with the default rest length argument `-1`, and the new
constraints are appended in loop order. -/
def createConstraints (L : FloatLib K) (s : ClothSimulation K) : Option (ClothSimulation K) :=
  match (s.structuralLinks ++ s.shearLinks ++ s.bendLinks).mapM
      (fun l => ClothConstraint.new L s.particles l.1 l.2 (-1)) with
  | none => none
  | some cs => some { s with constraints := s.constraints ++ cs }

/-- The body of the pinning loop of `initialize()` for one value of `x`:
`if (x % 4 == 0) getParticle(x, 0)->pinned = true;`. -/
def pinStep (s : ClothSimulation K) (x : Int) : Option (ClothSimulation K) :=
  if x % 4 = 0 then
    match s.getParticle x 0 with
    | none => none
    | some i =>
      match s.particles[i]? with
      | none => none
      | some _ => some { s with particles := updateAt s.particles i (fun p => { p with pinned := true }) }
  else some s

/-- `ClothSimulation::initialize()`, the overload without arguments. -/
def initialize0 (L : FloatLib K) (s : ClothSimulation K) : Option (ClothSimulation K) :=
  let s1 := { s with particles := [], constraints := [], cylinders := [] }
  let s2 := s1.createClothMesh
  match s2.createConstraints L with
  | none => none
  | some s3 =>
    let s4 := s3.addCylinder ⟨0, -2, 0⟩ (15 / 10) (5 / 10)
    match (intRange s4.width).foldlM pinStep s4 with
    | none => none
    | some s5 => some { s5 with simulationTime := 0, renderDataDirty := true }

/-- `ClothSimulation::initialize(width, height, spacing)`. -/
def initialize3 (L : FloatLib K) (s : ClothSimulation K) (width height : Int) (spacing : K) :
    Option (ClothSimulation K) :=
  initialize0 L { s with width := width, height := height, spacing := spacing }

/-- `ClothSimulation::reset`. -/
def reset (L : FloatLib K) (s : ClothSimulation K) : Option (ClothSimulation K) :=
  initialize0 L s

/-- The body of the loop of `applyForces` for one particle. -/
def applyForcesStep (L : FloatLib K) (s : ClothSimulation K) (particle : ClothParticle K) :
    ClothParticle K :=
  let p1 := particle.addForce (s.gravity.scale particle.mass)
  let p2 := if s.wind.length L > 0 then p1.addForce ((s.wind.scale p1.mass).scale (1 / 10)) else p1
  { p2 with velocity := p2.velocity.scale s.damping }

/-- `ClothSimulation::applyForces`. -/
def applyForces (L : FloatLib K) (s : ClothSimulation K) : ClothSimulation K :=
  { s with particles := s.particles.map (s.applyForcesStep L) }

/-- `ClothSimulation::satisfyConstraints`. -/
def satisfyConstraints (L : FloatLib K) (s : ClothSimulation K) : Option (ClothSimulation K) :=
  match s.constraints.foldlM (fun ps c => c.satisfy L ps) s.particles with
  | none => none
  | some ps => some { s with particles := ps }

/-- The contact that the OGC branch of `handleCollisions` records for particle
number `i` and one cylinder, if `checkCollision` reports one. -/
def contactOf (L : FloatLib K) (s : ClothSimulation K) (i : Nat) (particle : ClothParticle K)
    (cylinder : CylinderCollider K) : Option (ContactInfo K) :=
  let r := cylinder.checkCollision L particle ⟨0, 0, 0⟩ ⟨0, 0, 0⟩
  if r.hit then
    some { particle := some i
           contactPoint := r.contactPoint
           contactNormal := r.contactNormal
           penetrationDepth := (r.contactPoint.sub particle.position).length L
           contactRadius := s.ogcModel.contactRadius }
  else none

/-- The contact list built by the OGC branch of `handleCollisions`: particles in
the outer loop (`i` is the index of the first one), cylinders in the inner loop. -/
def gatherContacts (L : FloatLib K) (s : ClothSimulation K) :
    Nat → List (ClothParticle K) → List (ContactInfo K)
  | _, [] => []
  | i, particle :: rest =>
    s.cylinders.filterMap (s.contactOf L i particle) ++ gatherContacts L s (i + 1) rest

/-- The body of the inner loop of the basic branch of `handleCollisions`: the
response of one particle to one cylinder, computed in the exact field `K`
(`basicCollisionStep32` is the same body with every operation rounded to
`float`). -/
def basicCollisionStep (L : FloatLib K) (particle : ClothParticle K)
    (cylinder : CylinderCollider K) : ClothParticle K :=
  let r := cylinder.checkCollision L particle ⟨0, 0, 0⟩ ⟨0, 0, 0⟩
  if r.hit then
    let toParticle := particle.position.sub cylinder.center
    let radialDist := L.sqrt (toParticle.x * toParticle.x + toParticle.z * toParticle.z)
    let penetration := cylinder.radius - radialDist
    let p1 := { particle with
      position := particle.position.add (r.contactNormal.scale (penetration * (8 / 10))) }
    let normalVelocity := Vec3.dotProduct p1.velocity r.contactNormal
    let p2 := if normalVelocity < 0 then
        { p1 with velocity := p1.velocity.sub (r.contactNormal.scale (normalVelocity * (12 / 10))) }
      else p1
    let tangentVelocity := p2.velocity.sub (r.contactNormal.scale normalVelocity)
    { p2 with velocity := p2.velocity.sub (tangentVelocity.scale (1 / 10)) }
  else particle

/-- `ClothSimulation::handleCollisions`. -/
def handleCollisions (L : FloatLib K) (s : ClothSimulation K) : Option (ClothSimulation K) :=
  if s.cylinders.isEmpty then some s
  else if s.useOGC then
    let contacts := gatherContacts L s 0 s.particles
    if contacts.isEmpty then some s
    else
      match s.ogcModel.processContacts contacts s.timeStep s.particles with
      | none => none
      | some ps => some { s with particles := ps }
  else
    some { s with
      particles := s.particles.map fun particle =>
        if particle.pinned then particle
        else s.cylinders.foldl (basicCollisionStep L) particle }

/-- `ClothSimulation::updateParticles`. -/
def updateParticles (s : ClothSimulation K) (deltaTime : K) : ClothSimulation K :=
  { s with particles := s.particles.map fun particle => particle.update deltaTime }

/-- `p->normal += n` through a valid pointer. -/
def addNormal (ps : List (ClothParticle K)) (i : Nat) (n : Vec3 K) : List (ClothParticle K) :=
  updateAt ps i (fun p => { p with normal := p.normal.add n })

/-- The body of the quad loop of `calculateNormals` at `(x, y)`. -/
def normalsStep (L : FloatLib K) (s : ClothSimulation K) (ps : List (ClothParticle K))
    (xy : Int × Int) : Option (List (ClothParticle K)) :=
  match s.getParticle xy.1 xy.2, s.getParticle (xy.1 + 1) xy.2,
        s.getParticle xy.1 (xy.2 + 1), s.getParticle (xy.1 + 1) (xy.2 + 1) with
  | some i1, some i2, some i3, some i4 =>
    match ps[i1]?, ps[i2]?, ps[i3]?, ps[i4]? with
    | some p1, some p2, some p3, some p4 =>
      let v1 := p2.position.sub p1.position
      let v2 := p3.position.sub p1.position
      let normal1 := L.normalized (Vec3.crossProduct v1 v2)
      let ps1 := addNormal (addNormal (addNormal ps i1 normal1) i2 normal1) i3 normal1
      let v3 := p4.position.sub p2.position
      let v4 := p3.position.sub p2.position
      let normal2 := L.normalized (Vec3.crossProduct v3 v4)
      some (addNormal (addNormal (addNormal ps1 i2 normal2) i3 normal2) i4 normal2)
    | _, _, _, _ => none
  | _, _, _, _ => some ps

/-- `ClothSimulation::calculateNormals`. -/
def calculateNormals (L : FloatLib K) (s : ClothSimulation K) : Option (ClothSimulation K) :=
  let ps0 := s.particles.map fun p => { p with normal := (⟨0, 0, 0⟩ : Vec3 K) }
  let quads := (intRange (s.height - 1)).flatMap fun y =>
    (intRange (s.width - 1)).map fun x => (x, y)
  match quads.foldlM (normalsStep L s) ps0 with
  | none => none
  | some ps1 =>
    some { s with
      particles := ps1.map fun p =>
        if p.normal.length L > 0 then { p with normal := L.normalized p.normal }
        else { p with normal := ⟨0, 1, 0⟩ } }

/-- `ClothSimulation::update`. -/
def update (L : FloatLib K) (s : ClothSimulation K) (deltaTime : K) :
    Option (ClothSimulation K) :=
  if s.paused then some s
  else
    let dt := min deltaTime s.timeStep
    let s1 := s.applyForces L
    match s1.handleCollisions L with
    | none => none
    | some s2 =>
      let s3 := s2.updateParticles dt
      match repeatM (satisfyConstraints L) s3.constraintIterations.toNat s3 with
      | none => none
      | some s4 =>
        match s4.calculateNormals L with
        | none => none
        | some s5 =>
          some { s5 with simulationTime := s5.simulationTime + dt, renderDataDirty := true }

/-- The reads `particle1->position`, `particle2->position` of the line loop of
`render`, made when neither end of the constraint is null: both ends point
into the particle list. -/
def readsEnds (ps : List (ClothParticle K)) (c : ClothConstraint K) : Bool :=
  match c.particle1, c.particle2 with
  | some i, some j => (ps[i]?).isSome && (ps[j]?).isSome
  | _, _ => true

/-- `ClothSimulation::render`, as far as the fields above go: nothing happens
when there is no particle; otherwise the dirty flag is cleared and
`calculateNormals` runs, and the drawing loops read the particles, the ends of
the constraints and the quads that `calculateNormals` has walked. -/
def render (L : FloatLib K) (s : ClothSimulation K) : Option (ClothSimulation K) :=
  if s.particles.isEmpty then some s
  else
    match calculateNormals L { s with renderDataDirty := false } with
    | none => none
    | some s1 => if s1.constraints.all (readsEnds s1.particles) then some s1 else none

end ClothSimulation

/-! ## A concrete numeric library over the rationals -/

/-- A square root on `ℚ` that is exact on squares of rationals (and rounds the
numerator and denominator roots down otherwise). -/
def ratSqrt (q : ℚ) : ℚ := (Nat.sqrt q.num.toNat : ℚ) / (Nat.sqrt q.den : ℚ)

/-- The library instance used to run the engine on rational inputs:
`normalized` returns the null vector for a null vector and divides by the
length otherwise. -/
def ratLib : FloatLib ℚ where
  sqrt := ratSqrt
  normalized := fun v =>
    if v.lengthSquared = 0 then ⟨0, 0, 0⟩
    else ⟨v.x / ratSqrt v.lengthSquared, v.y / ratSqrt v.lengthSquared,
          v.z / ratSqrt v.lengthSquared⟩

/-! ## The collision code in `float` arithmetic

The definitions above compute in an exact field.  The source computes in
`float` (IEEE-754 binary32): below, the collision test and the basic collision
response are written once more with every arithmetic operation and every
literal rounded to binary32, in the order the source evaluates them (each
operation rounded on its own, no fused multiply-add). -/

/-- The power `2 ^ e` as a rational, for any integer exponent. -/
def pow2 (e : Int) : ℚ :=
  if 0 ≤ e then ((2 ^ e.toNat : Nat) : ℚ) else 1 / ((2 ^ (-e).toNat : Nat) : ℚ)

/-- The integer nearest to `q`, a tie going to the even one. -/
def roundHalfEven (q : ℚ) : Int :=
  let f := Rat.floor q
  let r := q - f
  if r < 1 / 2 then f
  else if 1 / 2 < r then f + 1
  else if f % 2 = 0 then f else f + 1

/-- Repeated halving for the binary logarithm. -/
def log2Loop : Nat → Nat → Nat
  | 0, _ => 0
  | fuel + 1, n => if n ≤ 1 then 0 else log2Loop fuel (n / 2) + 1

/-- The binary logarithm rounded down: the `k` with `2 ^ k ≤ n < 2 ^ (k + 1)`,
for `n ≥ 1`. -/
def floorLog2 (n : Nat) : Nat := log2Loop n n

/-- The exponent `e` with `2 ^ e ≤ |q| < 2 ^ (e + 1)`, for `q ≠ 0`. -/
def binaryExponent (q : ℚ) : Int :=
  let e0 : Int := (floorLog2 q.num.natAbs : Int) - (floorLog2 q.den : Int)
  if (if q < 0 then -q else q) < pow2 e0 then e0 - 1 else e0

/-- Rounding to the nearest `float`: 24 significant bits, a tie going to the
even significand.  The exponent range is not bounded: overflow and subnormal
numbers are not modelled. -/
def round32 (q : ℚ) : ℚ :=
  if q = 0 then 0
  else (roundHalfEven (q / pow2 (binaryExponent q - 23)) : ℚ) * pow2 (binaryExponent q - 23)

/-- Bisection for the integer square root; `lo * lo ≤ n < hi * hi` throughout. -/
def isqrtLoop : Nat → Nat → Nat → Nat → Nat
  | 0, lo, _, _ => lo
  | fuel + 1, lo, hi, n =>
    if hi ≤ lo + 1 then lo
    else if (lo + hi) / 2 * ((lo + hi) / 2) ≤ n then isqrtLoop fuel ((lo + hi) / 2) hi n
    else isqrtLoop fuel lo ((lo + hi) / 2) n

/-- The integer square root: the largest `r` with `r * r ≤ n`. -/
def isqrt (n : Nat) : Nat := isqrtLoop (floorLog2 n + 2) 0 (n + 1) n

/-- The function `sqrt` on `float`: the `float` nearest to the real square root
of `q`, a tie going to the even significand (`0` for `q ≤ 0`).  With
`2 ^ e ≤ √q < 2 ^ (e + 1)` and `u = 2 ^ (e - 23)`, the integer part `n` of
`√q / u` is the integer square root of `⌊q / u²⌋`, and `√q / u` is compared with
`n + 1/2` by comparing the squares. -/
def sqrt32 (q : ℚ) : ℚ :=
  if q ≤ 0 then 0
  else
    let u := pow2 (binaryExponent q / 2 - 23)
    let x := q / (u * u)
    let n := isqrt (Rat.floor x).toNat
    let h : ℚ := (n : ℚ) + 1 / 2
    let m : Nat := if x < h * h then n else if h * h < x then n + 1
      else if n % 2 = 0 then n else n + 1
    (m : ℚ) * u

namespace Vec3

/-- `QVector3D::operator-` in `float`. -/
def sub32 (a b : Vec3 ℚ) : Vec3 ℚ :=
  ⟨round32 (a.x - b.x), round32 (a.y - b.y), round32 (a.z - b.z)⟩

/-- `QVector3D::operator+` in `float`. -/
def add32 (a b : Vec3 ℚ) : Vec3 ℚ :=
  ⟨round32 (a.x + b.x), round32 (a.y + b.y), round32 (a.z + b.z)⟩

/-- `QVector3D * float` in `float`. -/
def scale32 (a : Vec3 ℚ) (k : ℚ) : Vec3 ℚ :=
  ⟨round32 (a.x * k), round32 (a.y * k), round32 (a.z * k)⟩

/-- `QVector3D::dotProduct` in `float`. -/
def dotProduct32 (a b : Vec3 ℚ) : ℚ :=
  round32 (round32 (round32 (a.x * b.x) + round32 (a.y * b.y)) + round32 (a.z * b.z))

end Vec3

/-- `CylinderCollider::checkCollision` in `float` arithmetic. -/
def CylinderCollider.checkCollision32 (c : CylinderCollider ℚ) (particle : ClothParticle ℚ)
    (contactPoint contactNormal : Vec3 ℚ) : CollisionResult ℚ :=
  let localPos := particle.position.sub32 c.center
  if localPos.y < round32 (-c.height * round32 (1 / 2)) ∨
      localPos.y > round32 (c.height * round32 (1 / 2)) then
    ⟨false, contactPoint, contactNormal⟩
  else
    let radialDistance :=
      sqrt32 (round32 (round32 (localPos.x * localPos.x) + round32 (localPos.z * localPos.z)))
    if radialDistance < c.radius then
      let n : Vec3 ℚ :=
        if radialDistance < round32 (1 / 1000000) then ⟨1, 0, 0⟩
        else ⟨round32 (localPos.x / radialDistance), 0, round32 (localPos.z / radialDistance)⟩
      ⟨true, c.center.add32 ⟨round32 (n.x * c.radius), localPos.y, round32 (n.z * c.radius)⟩, n⟩
    else
      ⟨false, contactPoint, contactNormal⟩

/-- The body of the inner loop of the basic branch of `handleCollisions` in
`float` arithmetic: the response of one particle to one cylinder. -/
def ClothSimulation.basicCollisionStep32 (particle : ClothParticle ℚ)
    (cylinder : CylinderCollider ℚ) : ClothParticle ℚ :=
  let r := cylinder.checkCollision32 particle ⟨0, 0, 0⟩ ⟨0, 0, 0⟩
  if r.hit then
    let toParticle := particle.position.sub32 cylinder.center
    let radialDist := sqrt32 (round32 (round32 (toParticle.x * toParticle.x) +
      round32 (toParticle.z * toParticle.z)))
    let penetration := round32 (cylinder.radius - radialDist)
    let correction := r.contactNormal.scale32 (round32 (penetration * round32 (8 / 10)))
    let p1 := { particle with position := particle.position.add32 correction }
    let normalVelocity := Vec3.dotProduct32 p1.velocity r.contactNormal
    let bounce := r.contactNormal.scale32 (round32 (normalVelocity * round32 (12 / 10)))
    let p2 := if normalVelocity < 0 then { p1 with velocity := p1.velocity.sub32 bounce } else p1
    let tangentVelocity := p2.velocity.sub32 (r.contactNormal.scale32 normalVelocity)
    { p2 with velocity := p2.velocity.sub32 (tangentVelocity.scale32 (round32 (1 / 10))) }
  else particle

/-- The radial distance `radialDist` that the basic branch of
`handleCollisions` computes, in `float` arithmetic. -/
def radialDistance32 (c : CylinderCollider ℚ) (p : ClothParticle ℚ) : ℚ :=
  sqrt32 (round32 (round32 ((p.position.sub32 c.center).x * (p.position.sub32 c.center).x) +
    round32 ((p.position.sub32 c.center).z * (p.position.sub32 c.center).z)))

/-- The collider that `initialize()` adds, as `float` values: centre
`(0, -2, 0)`, radius `1.5`, height `0.5`. -/
def defaultCylinder32 : CylinderCollider ℚ := ⟨⟨0, -2, 0⟩, 3 / 2, 1 / 2⟩

/-- A free particle at rest at radial distance `1` from the axis of
`defaultCylinder32`, at the height of its centre. -/
def halfwayParticle : ClothParticle ℚ := ClothParticle.new ⟨1, -2, 0⟩ 1

/-- A free particle at rest one unit in the last place inside the surface of
`defaultCylinder32`, at the height of its centre: `x = 1.5 - 2⁻²³`, which is a
`float`. -/
def nearSurfaceParticle : ClothParticle ℚ :=
  ClothParticle.new ⟨3 / 2 - 1 / 8388608, -2, 0⟩ 1

/-! ## Concrete states used as test inputs -/

/-- A 1 × 1 cloth whose only particle is pinned and has velocity `(1, 0, 0)`;
default parameters (damping `0.99`), no constraints, no colliders. -/
def pinnedMovingState : ClothSimulation ℚ :=
  { ClothSimulation.new 1 1 (1 / 5) with
    particles := [{ ClothParticle.new ⟨0, 2, 0⟩ 1 with pinned := true, velocity := ⟨1, 0, 0⟩ }] }

/-- A freshly constructed 5 × 3 cloth with spacing `1/5`, not yet initialised. -/
def cloth53 : ClothSimulation ℚ := ClothSimulation.new 5 3 (1 / 5)

/-- Two colliders added by hand. -/
def extraCylinders : List (CylinderCollider ℚ) :=
  [⟨⟨1, 0, 0⟩, 1, 2⟩, ⟨⟨0, 0, 3⟩, 1 / 2, 1⟩]

/-- A freshly constructed 4 × 3 cloth with spacing `1/5`, not yet initialised. -/
def cloth43 : ClothSimulation ℚ := ClothSimulation.new 4 3 (1 / 5)

/-- A collider of radius `6` and height `2` centred at the origin. -/
def cylinder6 : CylinderCollider ℚ := ⟨⟨0, 0, 0⟩, 6, 2⟩

/-- A particle at `(3, 1/2, 4)`: radial distance `5` from the axis of
`cylinder6`, inside its height band. -/
def particle345 : ClothParticle ℚ := ClothParticle.new ⟨3, 1 / 2, 4⟩ 1

/-- A particle at `(0, 0, 1/2000000)`: radial distance `5e-7` from the axis of
`cylinder6`, offset along `+z`. -/
def particleNearAxis : ClothParticle ℚ := ClothParticle.new ⟨0, 0, 1 / 2000000⟩ 1

/-- A contact with unit normal `(0, 0, 1)` and penetration depth `1/4`. -/
def contactDepthQuarter : ContactInfo ℚ :=
  { particle := some 0, contactPoint := ⟨0, 0, 1⟩, contactNormal := ⟨0, 0, 1⟩,
    penetrationDepth := 1 / 4, contactRadius := 5 / 100 }

/-- A unit-mass particle at rest at `(1, 2, 3)`. -/
def anchorParticle : ClothParticle ℚ := ClothParticle.new ⟨1, 2, 3⟩ 1

/-- A unit-mass particle at `(1, 2, 3)` moving with velocity `(0, 1, 0)`. -/
def driftingParticle : ClothParticle ℚ :=
  { ClothParticle.new ⟨1, 2, 3⟩ 1 with velocity := ⟨0, 1, 0⟩ }

/-- Two particles at the same place; the second one moves. -/
def coincidentPair : List (ClothParticle ℚ) := [anchorParticle, driftingParticle]

/-- A constraint between particles 0 and 1 with rest length `1`, as the
constructor builds it when the rest length is given. -/
def unitConstraint : ClothConstraint ℚ :=
  { particle1 := some 0, particle2 := some 1, restLength := 1, stiffness := 8 / 10,
    damping := 1 / 10 }

/-- A free particle of mass `2` at rest at the origin. -/
def restingParticle : ClothParticle ℚ := ClothParticle.new ⟨0, 0, 0⟩ 2

/-- A free unit-mass particle at `(5, 1/2, 0)`, inside `cylinder6` at radial
distance `5`, moving with velocity `(-1, 0, 1)`: towards the axis at speed `1`
and along the surface at speed `1`. -/
def incomingParticle : ClothParticle ℚ :=
  { ClothParticle.new ⟨5, 1 / 2, 0⟩ 1 with velocity := ⟨-1, 0, 1⟩ }

/-- A 1 × 1 cloth in basic (non-OGC) mode whose only particle is
`incomingParticle`, with `cylinder6` as the only collider. -/
def bounceState : ClothSimulation ℚ :=
  { ClothSimulation.new 1 1 (1 / 5) with
    particles := [incomingParticle], cylinders := [cylinder6], useOGC := false }

/-- A free unit-mass particle at rest at `(-5e-7, 0, 0)`: inside `cylinder6`, at
radial distance `5e-7` from its axis, on the `-x` side. -/
def particleOffAxis : ClothParticle ℚ := ClothParticle.new ⟨-(1 / 2000000), 0, 0⟩ 1

/-- A 1 × 1 cloth whose only particle is `particleOffAxis`, with `cylinder6` as
the only collider. -/
def offAxisState : ClothSimulation ℚ :=
  { ClothSimulation.new 1 1 (1 / 5) with
    particles := [particleOffAxis], cylinders := [cylinder6] }

/-- A free unit-mass particle at rest at the origin (over any field). -/
def nearEnd {K : Type} [LinearOrderedField K] : ClothParticle K := ClothParticle.new ⟨0, 0, 0⟩ 1

/-- A free unit-mass particle at rest at `(2, 0, 0)` (over any field). -/
def farEnd {K : Type} [LinearOrderedField K] : ClothParticle K := ClothParticle.new ⟨2, 0, 0⟩ 1

/-- Two free unit-mass particles at rest, `2` apart on the `x` axis (over any
field, so that it can be run with an exact square root). -/
def stretchedPair {K : Type} [LinearOrderedField K] : List (ClothParticle K) :=
  [nearEnd, farEnd]

/-- A constraint between particles 0 and 1 with rest length `1`, as the
constructor builds it when the rest length is given (over any field). -/
def unitLink {K : Type} [LinearOrderedField K] : ClothConstraint K :=
  { particle1 := some 0, particle2 := some 1, restLength := 1, stiffness := 8 / 10,
    damping := 1 / 10 }

/-- A 1 × 1 cloth whose only particle is `incomingParticle`, with three
colliders: one around `(1, 0, 0)` of radius 1, `cylinder6`, and one around
`(0, 0, 3)` of radius `1/2`; only `cylinder6` contains the particle. -/
def crowdedState : ClothSimulation ℚ :=
  { ClothSimulation.new 1 1 (1 / 5) with
    particles := [incomingParticle]
    cylinders := [⟨⟨1, 0, 0⟩, 1, 2⟩, cylinder6, ⟨⟨0, 0, 3⟩, 1 / 2, 1⟩] }

/-- The contact that the collider `cylinder6` makes with `incomingParticle`
(stored as particle number 0): contact point `(6, 1/2, 0)`, unit normal
`(1, 0, 0)`, depth `1`. -/
def approachContact : ContactInfo ℚ :=
  { particle := some 0, contactPoint := ⟨6, 1 / 2, 0⟩, contactNormal := ⟨1, 0, 0⟩,
    penetrationDepth := 1, contactRadius := 5 / 100 }

/-- A collider of radius `2` and height `2` centred at the origin. -/
def colliderA : CylinderCollider ℚ := ⟨⟨0, 0, 0⟩, 2, 2⟩

/-- A collider of radius `3` and height `2` centred at `(3, 0, 0)`; it overlaps
`colliderA` for `0 < x < 2`. -/
def colliderB : CylinderCollider ℚ := ⟨⟨3, 0, 0⟩, 3, 2⟩

/-- A free unit-mass particle at rest at `(1, 0, 0)`, inside both `colliderA`
and `colliderB`. -/
def particleBetween : ClothParticle ℚ := ClothParticle.new ⟨1, 0, 0⟩ 1

/-- A 1 × 1 cloth in basic (non-OGC) mode whose only particle is
`particleBetween`, with the collider list `[colliderA, colliderB]`. -/
def stateAB : ClothSimulation ℚ :=
  { ClothSimulation.new 1 1 (1 / 5) with
    particles := [particleBetween], cylinders := [colliderA, colliderB], useOGC := false }

/-- The state `stateAB` with the collider list in the other order. -/
def stateBA : ClothSimulation ℚ :=
  { ClothSimulation.new 1 1 (1 / 5) with
    particles := [particleBetween], cylinders := [colliderB, colliderA], useOGC := false }

/-- The state the performance example steps: constructed with a 15 × 15 grid,
one collider added, gravity and the basic mode set, `initialize()` never
called, so there is no particle and no constraint. -/
def constructedState : ClothSimulation ℚ :=
  (((ClothSimulation.new 15 15 (1 / 5)).addCylinder ⟨0, -(1 / 2), 0⟩ 1 2).setGravity
    ⟨0, -(98 / 10), 0⟩).setUseOGC false

/-- A running 1 × 1 cloth whose only particle is free and at rest at height 2. -/
def fallingState : ClothSimulation ℚ :=
  { ClothSimulation.new 1 1 (1 / 5) with particles := [ClothParticle.new ⟨0, 2, 0⟩ 1] }

/-! ## Vocabulary of the properties -/

section Vocabulary

variable {K : Type} [LinearOrderedField K]

/-- What must stay fixed for a pinned particle: its position and velocity
(`none` for a free particle). -/
def pinnedView (p : ClothParticle K) : Option (Vec3 K × Vec3 K) :=
  if p.pinned then some (p.position, p.velocity) else none

/-- The view of a pinned particle after its velocity was multiplied by the
damping factor `d` (the last statement of the loop of `applyForces`). -/
def dampedView (d : K) (p : ClothParticle K) : Option (Vec3 K × Vec3 K) :=
  if p.pinned then some (p.position, p.velocity.scale d) else none

/-- The particle list that `createClothMesh` builds from an empty one: the
grid in row-major order. -/
def freshMesh (s : ClothSimulation K) : List (ClothParticle K) :=
  (intRange s.height).flatMap fun y => (intRange s.width).map fun x => s.meshParticle x y

/-- All pairs of lookups of `createConstraints`, in the order of its loops. -/
def allLinks (s : ClothSimulation K) : List (Option Nat × Option Nat) :=
  s.structuralLinks ++ s.shearLinks ++ s.bendLinks

/-- The two ends of a constraint. -/
def ClothConstraint.ends (c : ClothConstraint K) : Option Nat × Option Nat :=
  (c.particle1, c.particle2)

/-- The collider that `initialize()` adds: centre `(0, -2, 0)`, radius `1.5`,
height `0.5`. -/
def defaultCylinder : CylinderCollider K := ⟨⟨0, -2, 0⟩, 15 / 10, 5 / 10⟩

/-- The effect of the pinning loop of `initialize()` on the particle with
index `i` once the loop variable has passed `k`: it is pinned when `i < k` and
`i` is a multiple of 4. -/
def pinTop (k : Int) (i : Nat) (p : ClothParticle K) : ClothParticle K :=
  if (i : Int) < k ∧ (i : Int) % 4 = 0 then { p with pinned := true } else p

/-- The pair `l` of pointers links the grid node `(x, y)` to the grid node
`(x + dx, y + dy)` for some node `(x, y)` such that both nodes are on the grid. -/
def GridLink (s : ClothSimulation K) (dx dy : Int) (l : Option Nat × Option Nat) : Prop :=
  ∃ x y : Int, 0 ≤ x ∧ x < s.width ∧ 0 ≤ y ∧ y < s.height ∧
    0 ≤ x + dx ∧ x + dx < s.width ∧ 0 ≤ y + dy ∧ y + dy < s.height ∧
    l = (some (y * s.width + x).toNat, some ((y + dy) * s.width + (x + dx)).toNat)

/-- A sequence of `addCylinder` calls, one per element of `added`. -/
def addCylinders (s : ClothSimulation K) (added : List (CylinderCollider K)) :
    ClothSimulation K :=
  added.foldl (fun t c => t.addCylinder c.center c.radius c.height) s

/-- The grid offset `(dx, dy)` from the first to the second end of a link, on a
row-major grid with `w` columns (`none` if an end is null). -/
def linkOffset (w : Nat) (l : Option Nat × Option Nat) : Option (Int × Int) :=
  match l with
  | (some i, some j) =>
    some (((j % w : Nat) : Int) - ((i % w : Nat) : Int), ((j / w : Nat) : Int) - ((i / w : Nat) : Int))
  | _ => none

/-- Structural family of the topology table: a particle and its right or down
neighbour. -/
def isStructural (w : Nat) (c : ClothConstraint K) : Bool :=
  decide (linkOffset w c.ends = some (1, 0) ∨ linkOffset w c.ends = some (0, 1))

/-- Shear family of the topology table: the two ends of a diagonal of a unit
quad. -/
def isShear (w : Nat) (c : ClothConstraint K) : Bool :=
  decide (linkOffset w c.ends = some (1, 1) ∨ linkOffset w c.ends = some (-1, 1))

/-- Bend family of the topology table: a particle and the neighbour two cells
away, horizontally or vertically. -/
def isBend (w : Nat) (c : ClothConstraint K) : Bool :=
  decide (linkOffset w c.ends = some (2, 0) ∨ linkOffset w c.ends = some (0, 2))

/-- The library square root is exact at `x`: its value is the non-negative
number whose square is `x`. -/
def IsSqrtAt (L : FloatLib K) (x : K) : Prop :=
  0 ≤ L.sqrt x ∧ L.sqrt x * L.sqrt x = x

/-- The force accumulator of a pinned particle (`none` for a free particle). -/
def pinnedForce (p : ClothParticle K) : Option (Vec3 K) :=
  if p.pinned then some p.force else none

/-- What `ClothParticle::update` leaves of the pinned flag and the force
accumulator, read off `pinnedForce`: a pinned particle keeps its force, a free
one ends with the zero force. -/
def forceAfterUpdate (o : Option (Vec3 K)) : Bool × Vec3 K :=
  match o with
  | some f => (true, f)
  | none => (false, ⟨0, 0, 0⟩)

/-- The contact normal that `checkCollision` reports for a particle and a
collider (both branches of `handleCollisions` call it with fresh output
vectors). -/
def hitNormal (L : FloatLib K) (c : CylinderCollider K) (p : ClothParticle K) : Vec3 K :=
  (c.checkCollision L p ⟨0, 0, 0⟩ ⟨0, 0, 0⟩).contactNormal

/-- The penetration depth that the OGC branch of `handleCollisions` records:
`(contactPoint - particle->position).length()`. -/
def ogcDepth (L : FloatLib K) (c : CylinderCollider K) (p : ClothParticle K) : K :=
  ((c.checkCollision L p ⟨0, 0, 0⟩ ⟨0, 0, 0⟩).contactPoint.sub p.position).length L

/-- The radial distance `radialDist` that the basic branch of
`handleCollisions` computes. -/
def radialDistance (L : FloatLib K) (c : CylinderCollider K) (p : ClothParticle K) : K :=
  L.sqrt ((p.position.sub c.center).x * (p.position.sub c.center).x +
    (p.position.sub c.center).z * (p.position.sub c.center).z)

/-- The distance between the particles number `i` and `j` of a store, measured
as `satisfy()` measures `currentLength` (`none` if one of them is missing). -/
def separation (L : FloatLib K) (ps : List (ClothParticle K)) (i j : Nat) : Option K :=
  match ps[i]?, ps[j]? with
  | some a, some b => some ((b.position.sub a.position).length L)
  | _, _ => none

/-- A contact with its `contactRadius` tag replaced by `r`. -/
def retag (r : K) (contact : ContactInfo K) : ContactInfo K :=
  { contact with contactRadius := r }

/-- The public operations of `ClothSimulation` that change an initialised
simulation, with their arguments. -/
inductive PublicOp (K : Type) where
  | update (deltaTime : K)
  | addCylinder (center : Vec3 K) (radius height : K)
  | setGravity (gravity : Vec3 K)
  | setWind (wind : Vec3 K)
  | setDamping (damping : K)
  | setTimeStep (timeStep : K)
  | setUseOGC (enable : Bool)
  | setOGCContactRadius (radius : K)
  | pause
  | resume

/-- The call of one public operation on a state. -/
def PublicOp.run (L : FloatLib K) (s : ClothSimulation K) : PublicOp K → Option (ClothSimulation K)
  | PublicOp.update deltaTime => s.update L deltaTime
  | PublicOp.addCylinder center radius height => some (s.addCylinder center radius height)
  | PublicOp.setGravity gravity => some (s.setGravity gravity)
  | PublicOp.setWind wind => some (s.setWind wind)
  | PublicOp.setDamping damping => some (s.setDamping damping)
  | PublicOp.setTimeStep timeStep => some (s.setTimeStep timeStep)
  | PublicOp.setUseOGC enable => some (s.setUseOGC enable)
  | PublicOp.setOGCContactRadius radius => some (s.setOGCContactRadius radius)
  | PublicOp.pause => some s.pause
  | PublicOp.resume => some s.resume

/-- A sequence of calls of public operations, first to last. -/
def runOps (L : FloatLib K) (ops : List (PublicOp K)) (s : ClothSimulation K) :
    Option (ClothSimulation K) :=
  ops.foldlM (fun t op => op.run L t) s

/-- A sequence of public calls: parameter changes, an extra collider, frames in
OGC mode, a paused frame, and a frame in basic mode. -/
def sampleOps : List (PublicOp ℚ) :=
  [PublicOp.setGravity ⟨0, -1, 0⟩, PublicOp.setWind ⟨1, 0, 0⟩,
   PublicOp.addCylinder ⟨0, 2, 0⟩ 1 1, PublicOp.update (1 / 60), PublicOp.setDamping (9 / 10),
   PublicOp.pause, PublicOp.update (1 / 60), PublicOp.resume, PublicOp.setTimeStep (1 / 100),
   PublicOp.setOGCContactRadius (1 / 10), PublicOp.update (1 / 60), PublicOp.setUseOGC false,
   PublicOp.update (1 / 60)]

/-- What `applyOGCForce` does to the particle a contact points to: nothing if
it is pinned; otherwise `contactForce + dampingForce` is added to the force,
and `normal * (depth * 0.8)` to the position when the depth is positive. -/
def contactEffect (m : OGCContactModel K) (contact : ContactInfo K) (p : ClothParticle K) :
    ClothParticle K :=
  if p.pinned then p
  else
    { p with
      force := p.force.add ((m.calculateContactForce contact).add
        (if Vec3.dotProduct p.velocity contact.contactNormal < 0 then
          contact.contactNormal.scale
            (m.damping * Vec3.dotProduct p.velocity contact.contactNormal)
         else ⟨0, 0, 0⟩))
      position :=
        if contact.penetrationDepth > 0 then
          p.position.add (contact.contactNormal.scale (contact.penetrationDepth * (8 / 10)))
        else p.position }

/-- The particle store after `applyOGCForce` for one contact whose particle
reference is null or valid. -/
def ogcStep (m : OGCContactModel K) (ps : List (ClothParticle K)) (contact : ContactInfo K) :
    List (ClothParticle K) :=
  match contact.particle with
  | none => ps
  | some i => updateAt ps i (contactEffect m contact)

/-- The grid node at which the loops of `createConstraints` visit a link, read
back from the link on a row-major grid with `w` columns: the smaller of the two
columns and the row of the first end (`(0, 0)` if an end is null). -/
def linkOrigin (w : Nat) (l : Option Nat × Option Nat) : Int × Int :=
  match l with
  | (some i, some j) => (((min (i % w) (j % w) : Nat) : Int), ((i / w : Nat) : Int))
  | _ => (0, 0)

/-- The states on which a running `update` makes no access outside the
particle list: when at least one constraint pass is made, both ends of every
constraint point into the list; and when the grid has a quad (`width ≥ 2` and
`height ≥ 2`), the list holds the whole grid that `calculateNormals` walks. -/
def UpdateDefined (s : ClothSimulation K) : Prop :=
  (0 < s.constraintIterations →
    ∀ c ∈ s.constraints, ∃ i j, c.particle1 = some i ∧ c.particle2 = some j ∧
      i < s.particles.length ∧ j < s.particles.length) ∧
  (2 ≤ s.width → 2 ≤ s.height → s.width.toNat * s.height.toNat ≤ s.particles.length)

/-- A call of the public interface that changes the state: the two
`initialize` overloads, `reset`, `render`, and the calls of `PublicOp`
(`enableOGC` is `setUseOGC`). -/
inductive ApiCall (K : Type) where
  | initialize0
  | initialize3 (width height : Int) (spacing : K)
  | reset
  | render
  | step (op : PublicOp K)

/-- The effect of one interface call on the state. -/
def ApiCall.run (L : FloatLib K) (s : ClothSimulation K) :
    ApiCall K → Option (ClothSimulation K)
  | ApiCall.initialize0 => s.initialize0 L
  | ApiCall.initialize3 width height spacing => s.initialize3 L width height spacing
  | ApiCall.reset => s.reset L
  | ApiCall.render => s.render L
  | ApiCall.step op => op.run L s

/-- A sequence of interface calls, run from left to right. -/
def runCalls (L : FloatLib K) (calls : List (ApiCall K)) (s : ClothSimulation K) :
    Option (ClothSimulation K) :=
  calls.foldlM (fun t call => call.run L t) s

/-- One step of free fall of a single particle under gravity `g`: the gravity
statement of `applyForces`, `addForce(g * mass)`, followed by
`ClothParticle::update(dt)`. -/
def freeFallStep (g : Vec3 K) (dt : K) (p : ClothParticle K) : ClothParticle K :=
  (p.addForce (g.scale p.mass)).update dt

/-- The state in the middle of `initialize(W, H, spacing)`, right after the
lists were cleared and `createClothMesh` has run. -/
def meshStage (s : ClothSimulation K) (W H : Int) (spacing : K) : ClothSimulation K :=
  ClothSimulation.createClothMesh
    { s with width := W, height := H, spacing := spacing,
             particles := [], constraints := [], cylinders := [] }

/-- Validity of the pointers of a simulation state: both ends of every
constraint point into the particle list, and the particle list holds the whole
`width × height` grid. -/
def WellFormed (s : ClothSimulation K) : Prop :=
  (∀ c ∈ s.constraints, ∃ i j, c.particle1 = some i ∧ c.particle2 = some j ∧
      i < s.particles.length ∧ j < s.particles.length) ∧
  s.width.toNat * s.height.toNat ≤ s.particles.length

/-- The particle at index `i`, if there is one, is free. -/
def FreeAt (ps : List (ClothParticle K)) (i : Nat) : Prop :=
  ∀ p, ps[i]? = some p → p.pinned = false

/-- The list `qs` has the particles of `ps` with every pinned particle left in
place: same length, same pinned flags, and the same position and velocity for
each pinned particle. -/
def KeepsPinned (ps qs : List (ClothParticle K)) : Prop :=
  qs.length = ps.length ∧ qs.map pinnedView = ps.map pinnedView

/-- What the public interface maintains: either the pointers are valid or
nothing has been built yet (no particle, no constraint), and every pinned
particle is at rest. -/
def InterfaceInvariant (s : ClothSimulation K) : Prop :=
  (WellFormed s ∨ (s.particles = [] ∧ s.constraints = [])) ∧
  ∀ p ∈ s.particles, p.pinned = true → p.velocity = ⟨0, 0, 0⟩

end Vocabulary

/-! ## Lemmas on the particle store -/

section StoreLemmas

variable {K : Type} [LinearOrderedField K]

theorem length_updateAt (ps : List (ClothParticle K)) (i : Nat)
    (f : ClothParticle K → ClothParticle K) : (updateAt ps i f).length = ps.length := by
  unfold updateAt
  split <;> simp

theorem getElem?_updateAt (ps : List (ClothParticle K)) (i j : Nat)
    (f : ClothParticle K → ClothParticle K) :
    (updateAt ps i f)[j]? = if i = j then (ps[j]?).map f else ps[j]? := by
  unfold updateAt
  split
  · rename_i p hp
    by_cases hij : i = j
    · subst hij
      have hlt : i < ps.length := by
        rcases List.getElem?_eq_some.mp hp with ⟨h, _⟩
        exact h
      simp [List.getElem?_set, hlt, hp]
    · simp [List.getElem?_set_ne hij, hij]
  · rename_i hp
    by_cases hij : i = j
    · subst hij
      simp [hp]
    · simp [hij]

theorem map_updateAt_of_fixed {β : Type} (view : ClothParticle K → β)
    (ps : List (ClothParticle K)) (i : Nat) (f : ClothParticle K → ClothParticle K)
    (h : ∀ p, ps[i]? = some p → view (f p) = view p) :
    (updateAt ps i f).map view = ps.map view := by
  apply List.ext_getElem?
  intro n
  rw [List.getElem?_map, List.getElem?_map, getElem?_updateAt]
  by_cases hin : i = n
  · subst hin
    cases hp : ps[i]? with
    | none => simp
    | some p => simp [h p hp]
  · simp [hin]

theorem freeAt_of_view_eq {ps qs : List (ClothParticle K)} {i : Nat}
    (h : qs.map pinnedView = ps.map pinnedView) (hi : FreeAt ps i) : FreeAt qs i := by
  intro q hq
  have h1 : (qs.map pinnedView)[i]? = (ps.map pinnedView)[i]? := by rw [h]
  rw [List.getElem?_map, List.getElem?_map, hq] at h1
  cases hp : ps[i]? with
  | none => rw [hp] at h1; simp at h1
  | some p =>
    rw [hp] at h1
    have hpf := hi p hp
    simp only [Option.map_some', Option.some.injEq, pinnedView, hpf] at h1
    by_contra hc
    simp at hc
    simp [hc] at h1

theorem map_pinnedView_updateAt (ps : List (ClothParticle K)) (i : Nat)
    (f : ClothParticle K → ClothParticle K) (hf : ∀ p, (f p).pinned = p.pinned)
    (hi : FreeAt ps i) : (updateAt ps i f).map pinnedView = ps.map pinnedView := by
  apply map_updateAt_of_fixed
  intro p hp
  have h1 := hi p hp
  simp [pinnedView, hf, h1]

theorem foldlM_option_inv {α β : Type} (f : β → α → Option β) (P : β → Prop) :
    ∀ (l : List α) (b : β), P b →
      (∀ b a, a ∈ l → P b → ∃ b1, f b a = some b1 ∧ P b1) →
      ∃ b1, l.foldlM f b = some b1 ∧ P b1 := by
  intro l
  induction l with
  | nil => intro b hb _; exact ⟨b, rfl, hb⟩
  | cons a t ih =>
    intro b hb hstep
    obtain ⟨b1, hb1, hP1⟩ := hstep b a (List.mem_cons_self a t) hb
    obtain ⟨b2, hb2, hP2⟩ := ih b1 hP1 (fun b0 a0 ha0 hP0 =>
      hstep b0 a0 (List.mem_cons_of_mem a ha0) hP0)
    refine ⟨b2, ?_, hP2⟩
    simp [List.foldlM_cons, hb1, hb2]

theorem repeatM_option_inv {σ : Type} (step : σ → Option σ) (P : σ → Prop)
    (hstep : ∀ s, P s → ∃ s1, step s = some s1 ∧ P s1) :
    ∀ (n : Nat) (s : σ), P s → ∃ s1, repeatM step n s = some s1 ∧ P s1 := by
  intro n
  induction n with
  | zero => intro s hs; exact ⟨s, rfl, hs⟩
  | succ n ih =>
    intro s hs
    obtain ⟨s1, h1, hP1⟩ := hstep s hs
    obtain ⟨s2, h2, hP2⟩ := ih s1 hP1
    exact ⟨s2, by simp [repeatM, h1, h2], hP2⟩

end StoreLemmas

/-! ## Pinned particles through the steps of a frame -/

section PinnedLemmas

variable {K : Type} [LinearOrderedField K]

theorem KeepsPinned.refl (ps : List (ClothParticle K)) : KeepsPinned ps ps := ⟨rfl, rfl⟩

theorem KeepsPinned.trans {ps qs rs : List (ClothParticle K)} (h1 : KeepsPinned ps qs)
    (h2 : KeepsPinned qs rs) : KeepsPinned ps rs :=
  ⟨h2.1.trans h1.1, h2.2.trans h1.2⟩

theorem keepsPinned_updateAt (ps : List (ClothParticle K)) (i : Nat)
    (f : ClothParticle K → ClothParticle K) (hf : ∀ p, (f p).pinned = p.pinned)
    (hi : FreeAt ps i) : KeepsPinned ps (updateAt ps i f) :=
  ⟨length_updateAt ps i f, map_pinnedView_updateAt ps i f hf hi⟩

theorem KeepsPinned.freeAt {ps qs : List (ClothParticle K)} {i : Nat} (h : KeepsPinned ps qs)
    (hi : FreeAt ps i) : FreeAt qs i :=
  freeAt_of_view_eq h.2 hi

theorem KeepsPinned.step {ps0 ps : List (ClothParticle K)} (i : Nat)
    (f : ClothParticle K → ClothParticle K) (hf : ∀ p, (f p).pinned = p.pinned)
    (h : KeepsPinned ps0 ps) (hi : FreeAt ps0 i) : KeepsPinned ps0 (updateAt ps i f) :=
  h.trans (keepsPinned_updateAt ps i f hf (h.freeAt hi))

theorem freeAt_of_getElem {ps : List (ClothParticle K)} {i : Nat} (hi : i < ps.length)
    (hp : ¬ ps[i].pinned = true) : FreeAt ps i := by
  intro p hpi
  rw [List.getElem?_eq_getElem hi] at hpi
  cases hpi
  simpa using hp

theorem satisfy_keepsPinned (L : FloatLib K) (c : ClothConstraint K)
    (ps : List (ClothParticle K)) (i j : Nat) (h1 : c.particle1 = some i)
    (h2 : c.particle2 = some j) (hi : i < ps.length) (hj : j < ps.length) :
    ∃ ps1, c.satisfy L ps = some ps1 ∧ KeepsPinned ps ps1 := by
  have ha : ps[i]? = some ps[i] := List.getElem?_eq_getElem hi
  have hb : ps[j]? = some ps[j] := List.getElem?_eq_getElem hj
  simp only [ClothConstraint.satisfy, h1, h2, ha, hb]
  split_ifs
  all_goals refine ⟨_, rfl, ?_⟩
  all_goals
    repeat
      first
      | exact KeepsPinned.refl ps
      | apply KeepsPinned.step _ _ (by intro p; rfl) _ (freeAt_of_getElem hi (by assumption))
      | apply KeepsPinned.step _ _ (by intro p; rfl) _ (freeAt_of_getElem hj (by assumption))

theorem keepsPinned_map (ps : List (ClothParticle K)) (f : ClothParticle K → ClothParticle K)
    (hf : ∀ p, pinnedView (f p) = pinnedView p) : KeepsPinned ps (ps.map f) := by
  refine ⟨by simp, ?_⟩
  rw [List.map_map]
  apply List.map_congr_left
  intro p _
  exact hf p

theorem foldlM_keepsPinned {α : Type} (f : List (ClothParticle K) → α → Option (List (ClothParticle K)))
    (l : List α) (ps : List (ClothParticle K))
    (hstep : ∀ qs a, a ∈ l → qs.length = ps.length →
      ∃ qs1, f qs a = some qs1 ∧ KeepsPinned qs qs1) :
    ∃ ps1, l.foldlM f ps = some ps1 ∧ KeepsPinned ps ps1 := by
  apply foldlM_option_inv f (fun qs => KeepsPinned ps qs) l ps (KeepsPinned.refl ps)
  intro qs a ha hqs
  obtain ⟨qs1, h1, h2⟩ := hstep qs a ha hqs.1
  exact ⟨qs1, h1, hqs.trans h2⟩

theorem applyOGCForce_keepsPinned (m : OGCContactModel K) (contact : ContactInfo K) (dt : K)
    (ps : List (ClothParticle K)) (h : ∀ i, contact.particle = some i → i < ps.length) :
    ∃ ps1, m.applyOGCForce contact dt ps = some ps1 ∧ KeepsPinned ps ps1 := by
  cases hc : contact.particle with
  | none => exact ⟨ps, by simp [OGCContactModel.applyOGCForce, hc], KeepsPinned.refl ps⟩
  | some i =>
    have hi : i < ps.length := h i hc
    have ha : ps[i]? = some ps[i] := List.getElem?_eq_getElem hi
    by_cases hpin : ps[i].pinned = true
    · exact ⟨ps, by simp [OGCContactModel.applyOGCForce, hc, ha, hpin], KeepsPinned.refl ps⟩
    · have fa := freeAt_of_getElem hi hpin
      have hpf : ps[i].pinned = false := by simpa using hpin
      by_cases h3 : Vec3.dotProduct ps[i].velocity contact.contactNormal < 0 <;>
      by_cases h4 : contact.penetrationDepth > 0
      all_goals
        simp only [OGCContactModel.applyOGCForce, hc, ha, hpf, Bool.false_eq_true, if_false,
          OGCContactModel.calculateDampingForce, deref, h3, h4, if_true]
        refine ⟨_, rfl, ?_⟩
        first
          | (apply KeepsPinned.step _ _ (by intro p; rfl) _ fa
             apply KeepsPinned.step _ _ (by intro p; rfl) _ fa
             exact KeepsPinned.refl ps)
          | (apply KeepsPinned.step _ _ (by intro p; rfl) _ fa
             exact KeepsPinned.refl ps)

theorem processContacts_keepsPinned (m : OGCContactModel K) (contacts : List (ContactInfo K))
    (dt : K) (ps : List (ClothParticle K))
    (h : ∀ c ∈ contacts, ∀ i, c.particle = some i → i < ps.length) :
    ∃ ps1, m.processContacts contacts dt ps = some ps1 ∧ KeepsPinned ps ps1 := by
  unfold OGCContactModel.processContacts
  split_ifs with he
  · exact ⟨ps, rfl, KeepsPinned.refl ps⟩
  · apply foldlM_keepsPinned
    intro qs c hc hlen
    apply applyOGCForce_keepsPinned
    intro i hi
    rw [hlen]
    exact h c hc i hi

theorem gatherContacts_valid (L : FloatLib K) (s : ClothSimulation K) :
    ∀ (ps : List (ClothParticle K)) (k : Nat), ∀ c ∈ s.gatherContacts L k ps,
      ∀ i, c.particle = some i → i < k + ps.length := by
  intro ps
  induction ps with
  | nil => intro k c hc; simp [ClothSimulation.gatherContacts] at hc
  | cons p rest ih =>
    intro k c hc i hi
    simp only [ClothSimulation.gatherContacts, List.mem_append, List.mem_filterMap] at hc
    rcases hc with ⟨cyl, _, hcyl⟩ | hc
    · simp only [ClothSimulation.contactOf] at hcyl
      split_ifs at hcyl
      cases hcyl
      simp only [Option.some.injEq] at hi
      subst hi
      simp
    · have := ih (k + 1) c hc i hi
      simp only [List.length_cons]
      omega

theorem handleCollisions_spec (L : FloatLib K) (s : ClothSimulation K) :
    ∃ ps, s.handleCollisions L = some { s with particles := ps } ∧
      KeepsPinned s.particles ps := by
  by_cases h1 : s.cylinders.isEmpty = true
  · exact ⟨s.particles, by simp [ClothSimulation.handleCollisions, h1], KeepsPinned.refl _⟩
  by_cases h2 : s.useOGC = true
  · by_cases h3 : (s.gatherContacts L 0 s.particles).isEmpty = true
    · refine ⟨s.particles, ?_, KeepsPinned.refl _⟩
      rw [ClothSimulation.handleCollisions, if_neg h1, if_pos h2]
      simp only [h3, if_true]
    · obtain ⟨ps1, hp, hk⟩ := processContacts_keepsPinned s.ogcModel
        (s.gatherContacts L 0 s.particles) s.timeStep s.particles (by
          intro c hc i hi
          simpa using gatherContacts_valid L s s.particles 0 c hc i hi)
      refine ⟨ps1, ?_, hk⟩
      rw [ClothSimulation.handleCollisions, if_neg h1, if_pos h2]
      simp only [h3, hp, Bool.false_eq_true, if_false]
  rw [ClothSimulation.handleCollisions, if_neg h1, if_neg h2]
  · refine ⟨_, rfl, ?_⟩
    apply keepsPinned_map
    intro p
    by_cases hp : p.pinned = true
    · simp [hp]
    · simp only [hp]
      simp only [Bool.false_eq_true, if_false]
      have hfold : ∀ (cyls : List (CylinderCollider K)) (q : ClothParticle K),
          q.pinned = false → (cyls.foldl (ClothSimulation.basicCollisionStep L) q).pinned = false := by
        intro cyls
        induction cyls with
        | nil => intro q hq; simpa using hq
        | cons c t ih =>
          intro q hq
          simp only [List.foldl_cons]
          apply ih
          unfold ClothSimulation.basicCollisionStep
          simp only
          split_ifs <;> simp [hq]
      have hpf : p.pinned = false := by simpa using hp
      simp [pinnedView, hfold s.cylinders p hpf, hpf]

theorem mem_intRange {n x : Int} : x ∈ intRange n ↔ 0 ≤ x ∧ x < n := by
  unfold intRange
  simp only [List.mem_map, List.mem_range]
  constructor
  · rintro ⟨k, hk, rfl⟩
    constructor
    · exact Int.ofNat_nonneg k
    · have : (k : Int) < (n.toNat : Int) := by exact_mod_cast hk
      have h2 : (n.toNat : Int) = max n 0 := Int.toNat_eq_max n
      have h3 : (0 : Int) ≤ k := Int.ofNat_nonneg k
      show (k : Int) < n
      omega
  · rintro ⟨h0, hn⟩
    refine ⟨x.toNat, ?_, ?_⟩
    · omega
    · show ((x.toNat : Nat) : Int) = x
      omega

theorem getParticle_valid (s : ClothSimulation K) (x y : Int) (n : Nat)
    (hx : 0 ≤ x) (hxw : x < s.width) (hy : 0 ≤ y) (hyh : y < s.height)
    (hg : s.width.toNat * s.height.toNat ≤ n) :
    s.getParticle x y = some (y * s.width + x).toNat ∧ (y * s.width + x).toNat < n := by
  constructor
  · unfold ClothSimulation.getParticle ClothSimulation.getParticleIndex
    rw [if_neg]
    omega
  · obtain ⟨w, hw⟩ := Int.eq_ofNat_of_zero_le (le_trans hx hxw.le)
    obtain ⟨h, hh⟩ := Int.eq_ofNat_of_zero_le (le_trans hy hyh.le)
    obtain ⟨a, ha⟩ := Int.eq_ofNat_of_zero_le hx
    obtain ⟨b, hb⟩ := Int.eq_ofNat_of_zero_le hy
    rw [hw, hh] at hg
    rw [hw, ha, hb]
    rw [hw, ha] at hxw
    rw [hh, hb] at hyh
    have hxw1 : a < w := by exact_mod_cast hxw
    have hyh1 : b < h := by exact_mod_cast hyh
    have e : ((b : Int) * (w : Int) + (a : Int)).toNat = b * w + a := by
      have : ((b : Int) * (w : Int) + (a : Int)) = ((b * w + a : Nat) : Int) := by push_cast; ring
      rw [this]
      exact Int.toNat_natCast _
    rw [e]
    simp only [Int.toNat_natCast] at hg
    have h1 : (b + 1) * w ≤ h * w := Nat.mul_le_mul_right w hyh1
    have h2 : w * h = h * w := Nat.mul_comm w h
    have h3 : (b + 1) * w = b * w + w := by ring
    omega

theorem keepsPinned_addNormal (ps0 ps : List (ClothParticle K)) (i : Nat) (n : Vec3 K)
    (h : KeepsPinned ps0 ps) : KeepsPinned ps0 (ClothSimulation.addNormal ps i n) := by
  refine h.trans ⟨length_updateAt _ _ _, ?_⟩
  apply map_updateAt_of_fixed
  intro p _
  rfl

theorem normalsStep_keepsPinned (L : FloatLib K) (s : ClothSimulation K)
    (ps : List (ClothParticle K)) (x y : Int)
    (hx : 0 ≤ x) (hxw : x < s.width - 1) (hy : 0 ≤ y) (hyh : y < s.height - 1)
    (hg : s.width.toNat * s.height.toNat ≤ ps.length) :
    ∃ ps1, ClothSimulation.normalsStep L s ps (x, y) = some ps1 ∧ KeepsPinned ps ps1 := by
  obtain ⟨e1, b1⟩ := getParticle_valid s x y ps.length hx (by omega) hy (by omega) hg
  obtain ⟨e2, b2⟩ := getParticle_valid s (x + 1) y ps.length (by omega) (by omega) hy (by omega) hg
  obtain ⟨e3, b3⟩ := getParticle_valid s x (y + 1) ps.length hx (by omega) (by omega) (by omega) hg
  obtain ⟨e4, b4⟩ := getParticle_valid s (x + 1) (y + 1) ps.length (by omega) (by omega)
    (by omega) (by omega) hg
  simp only [ClothSimulation.normalsStep, e1, e2, e3, e4, List.getElem?_eq_getElem b1,
    List.getElem?_eq_getElem b2, List.getElem?_eq_getElem b3, List.getElem?_eq_getElem b4]
  refine ⟨_, rfl, ?_⟩
  repeat apply keepsPinned_addNormal
  exact KeepsPinned.refl ps

theorem calculateNormals_spec (L : FloatLib K) (s : ClothSimulation K)
    (hg : s.width.toNat * s.height.toNat ≤ s.particles.length) :
    ∃ ps, s.calculateNormals L = some { s with particles := ps } ∧
      KeepsPinned s.particles ps := by
  have h0 : KeepsPinned s.particles
      (s.particles.map fun p => { p with normal := (⟨0, 0, 0⟩ : Vec3 K) }) :=
    keepsPinned_map _ _ (fun _ => rfl)
  obtain ⟨ps1, hf, hk⟩ := foldlM_keepsPinned (ClothSimulation.normalsStep L s)
    ((intRange (s.height - 1)).flatMap fun y => (intRange (s.width - 1)).map fun x => (x, y))
    (s.particles.map fun p => { p with normal := (⟨0, 0, 0⟩ : Vec3 K) }) (by
      intro qs xy hxy hlen
      simp only [List.mem_flatMap, List.mem_map, mem_intRange] at hxy
      obtain ⟨y, ⟨hy0, hy1⟩, x, ⟨hx0, hx1⟩, rfl⟩ := hxy
      apply normalsStep_keepsPinned L s qs x y hx0 hx1 hy0 hy1
      rw [hlen]
      simpa using hg)
  refine ⟨ps1.map (fun p => if p.normal.length L > 0 then { p with normal := L.normalized p.normal }
    else { p with normal := ⟨0, 1, 0⟩ }), ?_, (h0.trans hk).trans (keepsPinned_map ps1 _ ?_)⟩
  · simp only [ClothSimulation.calculateNormals, hf]
  · intro p
    simp only [pinnedView]
    split_ifs <;> rfl

theorem satisfyConstraints_spec (L : FloatLib K) (s : ClothSimulation K)
    (hc : ∀ c ∈ s.constraints, ∃ i j, c.particle1 = some i ∧ c.particle2 = some j ∧
      i < s.particles.length ∧ j < s.particles.length) :
    ∃ ps, s.satisfyConstraints L = some { s with particles := ps } ∧
      KeepsPinned s.particles ps := by
  obtain ⟨ps1, hf, hk⟩ := foldlM_keepsPinned (fun ps c => ClothConstraint.satisfy L c ps)
    s.constraints s.particles (by
      intro qs c hcm hlen
      obtain ⟨i, j, h1, h2, hi, hj⟩ := hc c hcm
      exact satisfy_keepsPinned L c qs i j h1 h2 (by omega) (by omega))
  exact ⟨ps1, by simp only [ClothSimulation.satisfyConstraints, hf], hk⟩

theorem repeat_satisfyConstraints_spec (L : FloatLib K) (s : ClothSimulation K)
    (hc : ∀ c ∈ s.constraints, ∃ i j, c.particle1 = some i ∧ c.particle2 = some j ∧
      i < s.particles.length ∧ j < s.particles.length) (n : Nat) :
    ∃ ps, repeatM (ClothSimulation.satisfyConstraints L) n s = some { s with particles := ps } ∧
      KeepsPinned s.particles ps := by
  obtain ⟨t, ht, ps, rfl, hk⟩ := repeatM_option_inv (ClothSimulation.satisfyConstraints L)
    (fun t => ∃ ps, t = { s with particles := ps } ∧ KeepsPinned s.particles ps) (by
      rintro t ⟨ps, rfl, hk⟩
      obtain ⟨ps1, h1, hk1⟩ := satisfyConstraints_spec L { s with particles := ps } (by
        intro c hcm
        obtain ⟨i, j, h1, h2, hi, hj⟩ := hc c hcm
        exact ⟨i, j, h1, h2, by simpa [hk.1] using hi, by simpa [hk.1] using hj⟩)
      exact ⟨_, h1, ps1, rfl, hk.trans hk1⟩) n s ⟨s.particles, rfl, KeepsPinned.refl _⟩
  exact ⟨ps, ht, hk⟩

theorem applyForces_view (L : FloatLib K) (s : ClothSimulation K) :
    (s.applyForces L).particles.length = s.particles.length ∧
    (s.applyForces L).particles.map pinnedView = s.particles.map (dampedView s.damping) := by
  constructor
  · simp [ClothSimulation.applyForces]
  · simp only [ClothSimulation.applyForces, List.map_map]
    apply List.map_congr_left
    intro p _
    simp only [Function.comp, ClothSimulation.applyForcesStep, pinnedView, dampedView,
      ClothParticle.addForce, Vec3.scale]
    split_ifs <;> rfl

/-- The frame pipeline on a state with valid pointers, step by step: the
collision phase, the single integration call with the clamped step, the
constraint iterations and the normal pass all return a state, and `update`
returns the last one with the elapsed time advanced by the clamped step. -/
theorem update_chain (L : FloatLib K) (s : ClothSimulation K) (dt : K) (hwf : WellFormed s)
    (hp : s.paused = false) :
    ∃ ps2 ps4 ps5,
      (s.applyForces L).handleCollisions L = some { s.applyForces L with particles := ps2 } ∧
      repeatM (ClothSimulation.satisfyConstraints L) s.constraintIterations.toNat
        (ClothSimulation.updateParticles { s.applyForces L with particles := ps2 }
          (min dt s.timeStep)) = some { s with particles := ps4 } ∧
      ClothSimulation.calculateNormals L { s with particles := ps4 } =
        some { s with particles := ps5 } ∧
      s.update L dt = some { s with particles := ps5,
                                    simulationTime := s.simulationTime + min dt s.timeStep,
                                    renderDataDirty := true } ∧
      ps5.length = s.particles.length ∧
      ps5.map pinnedView = s.particles.map (dampedView s.damping) := by
  obtain ⟨hlen1, hview1⟩ := applyForces_view L s
  obtain ⟨ps2, h2, k2⟩ := handleCollisions_spec L (s.applyForces L)
  have k3 : KeepsPinned ps2 (ps2.map fun particle => particle.update (min dt s.timeStep)) := by
    apply keepsPinned_map
    intro p
    unfold ClothParticle.update pinnedView
    by_cases hpin : p.pinned = true
    · simp [hpin]
    · simp [hpin, ClothParticle.clearForces]
  obtain ⟨ps4, h4, k4⟩ := repeat_satisfyConstraints_spec L
    { s with particles := ps2.map fun particle => particle.update (min dt s.timeStep) } (by
      intro c hcm
      obtain ⟨i, j, e1, e2, hi, hj⟩ := hwf.1 c hcm
      refine ⟨i, j, e1, e2, ?_, ?_⟩
      · simp only [List.length_map]
        rw [k2.1, hlen1]
        exact hi
      · simp only [List.length_map]
        rw [k2.1, hlen1]
        exact hj) s.constraintIterations.toNat
  obtain ⟨ps5, h5, k5⟩ := calculateNormals_spec L { s with particles := ps4 } (by
    have := hwf.2
    have e : ps4.length = s.particles.length := by
      rw [k4.1]
      simp only [List.length_map]
      rw [k2.1, hlen1]
    simp only [e]
    exact this)
  refine ⟨ps2, ps4, ps5, h2, h4, h5, ?_, ?_, ?_⟩
  · unfold ClothSimulation.update
    rw [if_neg (by simp [hp])]
    simp only [h2, ClothSimulation.updateParticles]
    have h4b := h4
    simp only [ClothSimulation.applyForces] at h4b ⊢
    rw [h4b]
    simp only
    have h5b := h5
    simp only at h5b
    rw [h5b]
  · rw [k5.1, k4.1]
    simp only [List.length_map]
    rw [k2.1, hlen1]
  · rw [k5.2, k4.2, k3.2, k2.2, hview1]

/-- The shape of one frame on a state with valid pointers: `update` returns a
state that differs from the old one in the particle list, the elapsed time and
the dirty flag only; the time grows by `min dt timeStep`; the particle list keeps
its length, and each pinned particle keeps its position while its velocity is
multiplied by the damping factor. -/
theorem update_spec (L : FloatLib K) (s : ClothSimulation K) (dt : K) (hwf : WellFormed s)
    (hp : s.paused = false) :
    ∃ ps, s.update L dt = some { s with particles := ps,
                                        simulationTime := s.simulationTime + min dt s.timeStep,
                                        renderDataDirty := true } ∧
      ps.length = s.particles.length ∧
      ps.map pinnedView = s.particles.map (dampedView s.damping) := by
  obtain ⟨_, _, ps5, _, _, _, h, hl, hv⟩ := update_chain L s dt hwf hp
  exact ⟨ps5, h, hl, hv⟩

end PinnedLemmas




/-! ## Claims about `update` -/

section UpdateClaims

variable {K : Type} [LinearOrderedField K]

theorem pinned_of_view {ps qs : List (ClothParticle K)} {view : ClothParticle K → Option (Vec3 K × Vec3 K)}
    (h : qs.map pinnedView = ps.map view) {i : Nat} {p : ClothParticle K} {v : Vec3 K × Vec3 K}
    (hp : ps[i]? = some p) (hv : view p = some v) :
    ∃ q, qs[i]? = some q ∧ q.pinned = true ∧ q.position = v.1 ∧ q.velocity = v.2 := by
  have h1 : (qs.map pinnedView)[i]? = (ps.map view)[i]? := by rw [h]
  rw [List.getElem?_map, List.getElem?_map, hp] at h1
  cases hq : qs[i]? with
  | none => rw [hq] at h1; simp at h1
  | some q =>
    rw [hq] at h1
    simp only [Option.map_some', Option.some.injEq, hv] at h1
    refine ⟨q, rfl, ?_⟩
    unfold pinnedView at h1
    by_cases hpin : q.pinned = true
    · simp only [hpin, if_true, Option.some.injEq] at h1
      rw [← h1]
      exact ⟨hpin, rfl, rfl⟩
    · simp [hpin] at h1

theorem wellFormed_pinnedMovingState : WellFormed pinnedMovingState :=
  ⟨by intro c hc; simp [pinnedMovingState, ClothSimulation.new] at hc,
   by simp [pinnedMovingState, ClothSimulation.new]⟩

/-- C3: on a state whose paused flag is set, `update(dt)` returns the state it
was given: no particle field, no constraint, no collider, no parameter and not
the elapsed time is changed. -/
theorem C3_paused_update_is_noop (L : FloatLib K) (s : ClothSimulation K) (dt : K)
    (hp : s.paused = true) : s.update L dt = some s := by
  simp [ClothSimulation.update, hp]

/-- C3 (witness): the paused 1 × 1 cloth. -/
theorem C3_paused_update_is_noop_witness :
    (pinnedMovingState.pause).paused = true ∧
    (pinnedMovingState.pause).update ratLib (1 / 60) = some pinnedMovingState.pause :=
  ⟨rfl, C3_paused_update_is_noop ratLib pinnedMovingState.pause (1 / 60) rfl⟩

end UpdateClaims


/-! ## The mesh built by `initialize` -/

section MeshLemmas

variable {K : Type} [LinearOrderedField K]

theorem length_intRange (n : Int) : (intRange n).length = n.toNat := by
  simp [intRange]

theorem intRange_flatMap {β : Type} (n : Int) (g : Int → List β) :
    (intRange n).flatMap g = (List.range n.toNat).flatMap fun (k : Nat) => g (k : Int) := by
  unfold intRange
  rw [List.flatMap_map]
  rfl

theorem intRange_map {β : Type} (n : Int) (g : Int → β) :
    (intRange n).map g = (List.range n.toNat).map fun (k : Nat) => g (k : Int) := by
  unfold intRange
  rw [List.map_map]
  rfl

theorem natGrid_length {β : Type} (w : Nat) (f : Nat → Nat → β) (h : Nat) :
    ((List.range h).flatMap fun b => (List.range w).map fun a => f a b).length = h * w := by
  induction h with
  | zero => simp
  | succ h ih =>
    rw [List.range_succ, List.flatMap_append, List.length_append, ih]
    simp only [List.flatMap_singleton, List.length_map, List.length_range]
    ring

theorem natGrid_getElem {β : Type} (w : Nat) (f : Nat → Nat → β) (h : Nat) (a b : Nat)
    (ha : a < w) (hb : b < h) :
    ((List.range h).flatMap fun b => (List.range w).map fun a => f a b)[b * w + a]? =
      some (f a b) := by
  induction h with
  | zero => omega
  | succ h ih =>
    rw [List.range_succ, List.flatMap_append]
    by_cases hbh : b < h
    · have hlt : b * w + a < ((List.range h).flatMap fun b => (List.range w).map fun a => f a b).length := by
        rw [natGrid_length]
        have : (b + 1) * w ≤ h * w := Nat.mul_le_mul_right w hbh
        have e : (b + 1) * w = b * w + w := by ring
        omega
      rw [List.getElem?_append_left hlt]
      exact ih hbh
    · have hbe : b = h := by omega
      subst hbe
      have hge : ((List.range b).flatMap fun b => (List.range w).map fun a => f a b).length ≤ b * w + a := by
        rw [natGrid_length]
        omega
      rw [List.getElem?_append_right hge, natGrid_length]
      simp only [List.flatMap_singleton, Nat.add_sub_cancel_left]
      rw [List.getElem?_map, List.getElem?_range ha]
      rfl

theorem freshMesh_length (s : ClothSimulation K) :
    (freshMesh s).length = s.width.toNat * s.height.toNat := by
  unfold freshMesh
  rw [intRange_flatMap]
  simp only [intRange_map]
  rw [natGrid_length s.width.toNat (fun a b => s.meshParticle (a : Int) (b : Int))]
  ring

theorem freshMesh_getElem (s : ClothSimulation K) (x y : Int) (hx : 0 ≤ x) (hxw : x < s.width)
    (hy : 0 ≤ y) (hyh : y < s.height) :
    (freshMesh s)[(y * s.width + x).toNat]? = some (s.meshParticle x y) := by
  unfold freshMesh
  rw [intRange_flatMap]
  simp only [intRange_map]
  have hw : s.width = (s.width.toNat : Int) := by omega
  have e : (y * s.width + x).toNat = y.toNat * s.width.toNat + x.toNat := by
    have hprod : 0 ≤ y * s.width := mul_nonneg hy (by omega)
    have e1 : (y.toNat : Int) = y := Int.toNat_of_nonneg hy
    have e2 : (x.toNat : Int) = x := Int.toNat_of_nonneg hx
    have e3 : ((y.toNat * s.width.toNat + x.toNat : Nat) : Int) = y * s.width + x := by
      push_cast
      rw [e1, e2, ← hw]
    rw [← e3]
    exact Int.toNat_natCast _
  rw [e, natGrid_getElem s.width.toNat (fun a b => s.meshParticle (a : Int) (b : Int))
    s.height.toNat x.toNat y.toNat (by omega) (by omega)]
  simp only [Int.toNat_of_nonneg hx, Int.toNat_of_nonneg hy]

theorem getParticle_eq (s : ClothSimulation K) (x y : Int)
    (hx : 0 ≤ x) (hxw : x < s.width) (hy : 0 ≤ y) (hyh : y < s.height) :
    s.getParticle x y = some (y * s.width + x).toNat := by
  unfold ClothSimulation.getParticle ClothSimulation.getParticleIndex
  rw [if_neg]
  omega

theorem structuralLinks_gridLink (s : ClothSimulation K) :
    ∀ l ∈ s.structuralLinks, GridLink s 1 0 l ∨ GridLink s 0 1 l := by
  intro l hl
  simp only [ClothSimulation.structuralLinks, List.mem_flatMap, mem_intRange, List.mem_append] at hl
  obtain ⟨y, ⟨hy0, hy1⟩, x, ⟨hx0, hx1⟩, hl⟩ := hl
  rcases hl with hl | hl
  · split_ifs at hl with hc
    · simp only [List.mem_singleton] at hl
      left
      refine ⟨x, y, hx0, hx1, hy0, hy1, by omega, by omega, by omega, by omega, ?_⟩
      rw [hl, getParticle_eq s x y hx0 hx1 hy0 hy1,
        getParticle_eq s (x + 1) y (by omega) (by omega) hy0 hy1]
      simp
    · simp at hl
  · split_ifs at hl with hc
    · simp only [List.mem_singleton] at hl
      right
      refine ⟨x, y, hx0, hx1, hy0, hy1, by omega, by omega, by omega, by omega, ?_⟩
      rw [hl, getParticle_eq s x y hx0 hx1 hy0 hy1,
        getParticle_eq s x (y + 1) hx0 hx1 (by omega) (by omega)]
      simp
    · simp at hl

theorem shearLinks_gridLink (s : ClothSimulation K) :
    ∀ l ∈ s.shearLinks, GridLink s 1 1 l ∨ GridLink s (-1) 1 l := by
  intro l hl
  simp only [ClothSimulation.shearLinks, List.mem_flatMap, mem_intRange, List.mem_cons,
    List.mem_singleton, List.not_mem_nil, or_false] at hl
  obtain ⟨y, ⟨hy0, hy1⟩, x, ⟨hx0, hx1⟩, hl⟩ := hl
  rcases hl with hl | hl
  · left
    refine ⟨x, y, hx0, by omega, hy0, by omega, by omega, by omega, by omega, by omega, ?_⟩
    rw [hl, getParticle_eq s x y hx0 (by omega) hy0 (by omega),
      getParticle_eq s (x + 1) (y + 1) (by omega) (by omega) (by omega) (by omega)]
  · right
    refine ⟨x + 1, y, by omega, by omega, hy0, by omega, by omega, by omega, by omega, by omega, ?_⟩
    rw [hl, getParticle_eq s (x + 1) y (by omega) (by omega) hy0 (by omega),
      getParticle_eq s x (y + 1) hx0 (by omega) (by omega) (by omega)]
    simp

theorem bendLinks_gridLink (s : ClothSimulation K) :
    ∀ l ∈ s.bendLinks, GridLink s 2 0 l ∨ GridLink s 0 2 l := by
  intro l hl
  simp only [ClothSimulation.bendLinks, List.mem_append, List.mem_flatMap, mem_intRange,
    List.mem_map] at hl
  rcases hl with ⟨y, ⟨hy0, hy1⟩, x, ⟨hx0, hx1⟩, hl⟩ | ⟨y, ⟨hy0, hy1⟩, x, ⟨hx0, hx1⟩, hl⟩
  · left
    refine ⟨x, y, hx0, by omega, hy0, hy1, by omega, by omega, by omega, by omega, ?_⟩
    rw [← hl, getParticle_eq s x y hx0 (by omega) hy0 hy1,
      getParticle_eq s (x + 2) y (by omega) (by omega) hy0 hy1]
    simp
  · right
    refine ⟨x, y, hx0, hx1, hy0, by omega, by omega, by omega, by omega, by omega, ?_⟩
    rw [← hl, getParticle_eq s x y hx0 hx1 hy0 (by omega),
      getParticle_eq s x (y + 2) hx0 hx1 (by omega) (by omega)]
    simp

theorem GridLink.valid {s : ClothSimulation K} {dx dy : Int} {l : Option Nat × Option Nat}
    (h : GridLink s dx dy l) :
    ∃ i j, l = (some i, some j) ∧ i < s.width.toNat * s.height.toNat ∧
      j < s.width.toNat * s.height.toNat := by
  obtain ⟨x, y, hx0, hx1, hy0, hy1, hx2, hx3, hy2, hy3, rfl⟩ := h
  exact ⟨_, _, rfl, (getParticle_valid s x y _ hx0 hx1 hy0 hy1 le_rfl).2,
    (getParticle_valid s (x + dx) (y + dy) _ hx2 hx3 hy2 hy3 le_rfl).2⟩

theorem allLinks_valid (s : ClothSimulation K) :
    ∀ l ∈ allLinks s, ∃ i j, l = (some i, some j) ∧ i < s.width.toNat * s.height.toNat ∧
      j < s.width.toNat * s.height.toNat := by
  intro l hl
  simp only [allLinks, List.mem_append] at hl
  rcases hl with (hl | hl) | hl
  · rcases structuralLinks_gridLink s l hl with h | h <;> exact h.valid
  · rcases shearLinks_gridLink s l hl with h | h <;> exact h.valid
  · rcases bendLinks_gridLink s l hl with h | h <;> exact h.valid

theorem mapM_new_spec (L : FloatLib K) (ps : List (ClothParticle K)) :
    ∀ links : List (Option Nat × Option Nat),
      (∀ l ∈ links, ∃ i j, l = (some i, some j) ∧ i < ps.length ∧ j < ps.length) →
      ∃ cs, links.mapM (fun l => ClothConstraint.new L ps l.1 l.2 (-1)) = some cs ∧
        cs.map ClothConstraint.ends = links := by
  intro links
  induction links with
  | nil => intro _; exact ⟨[], by rw [List.mapM_nil]; rfl, rfl⟩
  | cons l rest ih =>
    intro h
    obtain ⟨i, j, rfl, hi, hj⟩ := h l (List.mem_cons_self _ _)
    obtain ⟨cs, hcs, hends⟩ := ih (fun l0 hl0 => h l0 (List.mem_cons_of_mem _ hl0))
    have hnew : ClothConstraint.new L ps (some i) (some j) (-1) =
        some { particle1 := some i, particle2 := some j, stiffness := 8 / 10, damping := 1 / 10,
               restLength := (ps[i].position.sub ps[j].position).length L } := by
      simp [ClothConstraint.new, deref, List.getElem?_eq_getElem hi, List.getElem?_eq_getElem hj]
    refine ⟨{ particle1 := some i, particle2 := some j, stiffness := 8 / 10, damping := 1 / 10,
              restLength := (ps[i].position.sub ps[j].position).length L } :: cs, ?_, ?_⟩
    · rw [List.mapM_cons, hnew, hcs]
      rfl
    · simp [ClothConstraint.ends, hends]

theorem intRange_succ (k : Nat) : intRange ((k : Int) + 1) = intRange (k : Int) ++ [(k : Int)] := by
  unfold intRange
  have e : ((k : Int) + 1).toNat = k + 1 := by omega
  rw [e, Int.toNat_natCast, List.range_succ, List.map_append]
  rfl

theorem pinTop_succ (k i : Nat) (p : ClothParticle K) :
    pinTop ((k : Int) + 1) i p =
      if i = k ∧ (k : Int) % 4 = 0 then { p with pinned := true } else pinTop (k : Int) i p := by
  unfold pinTop
  by_cases hik : i = k
  · subst hik
    by_cases h4 : (i : Int) % 4 = 0
    · simp [h4]
    · simp [h4]
  · by_cases hlt : (i : Int) < k
    · have : (i : Int) < (k : Int) + 1 := by omega
      simp [hik, hlt, this]
    · have : ¬ (i : Int) < (k : Int) + 1 := by omega
      simp [hik, hlt, this]

theorem pin_fold (s : ClothSimulation K)
    (hg : s.width.toNat * s.height.toNat ≤ s.particles.length) (k : Nat)
    (hk : (k : Int) ≤ s.width) (hH : 1 ≤ s.height ∨ k = 0) :
    ∃ ps, (intRange (k : Int)).foldlM ClothSimulation.pinStep s = some { s with particles := ps } ∧
      ps.length = s.particles.length ∧
      ∀ i : Nat, ps[i]? = (s.particles[i]?).map (pinTop (k : Int) i) := by
  induction k with
  | zero =>
    refine ⟨s.particles, by simp [intRange], rfl, ?_⟩
    intro i
    have : pinTop (K := K) ((0 : Nat) : Int) i = id := by
      funext p
      unfold pinTop
      have : ¬ (i : Int) < ((0 : Nat) : Int) := by omega
      simp [this]
    rw [this]
    simp
  | succ k ih =>
    have hH1 : 1 ≤ s.height := by
      rcases hH with h | h
      · exact h
      · omega
    obtain ⟨ps, hfold, hlen, hget⟩ := ih (by omega) (Or.inl hH1)
    have hcast : ((k + 1 : Nat) : Int) = (k : Int) + 1 := by push_cast; rfl
    rw [hcast, intRange_succ, List.foldlM_append, hfold]
    simp only [Option.some_bind, List.foldlM_cons, List.foldlM_nil, bind_pure, Option.bind_eq_bind]
    have hkw : (k : Int) < s.width := by omega
    have hklen : k < ps.length := by
      rw [hlen]
      have hw : s.width.toNat ≥ k + 1 := by omega
      have hh : s.height.toNat ≥ 1 := by omega
      have : (k + 1) * 1 ≤ s.width.toNat * s.height.toNat := Nat.mul_le_mul hw hh
      omega
    by_cases h4 : (k : Int) % 4 = 0
    · have hgp : ClothSimulation.getParticle { s with particles := ps } (k : Int) 0 = some k := by
        have := getParticle_eq { s with particles := ps } (k : Int) 0 (by omega) hkw (le_refl 0)
          (by show (0 : Int) < s.height; omega)
        rw [this]
        simp
      refine ⟨updateAt ps k (fun p => { p with pinned := true }), ?_, ?_, ?_⟩
      · simp only [ClothSimulation.pinStep, h4, if_true, hgp, List.getElem?_eq_getElem hklen]
      · rw [length_updateAt, hlen]
      · intro i
        rw [getElem?_updateAt, hget]
        have hfun : (fun p : ClothParticle K => pinTop ((k : Int) + 1) i p) =
            fun p => if i = k ∧ (k : Int) % 4 = 0 then { p with pinned := true }
              else pinTop (k : Int) i p := by
          funext p
          exact pinTop_succ k i p
        show _ = Option.map (fun p => pinTop ((k : Int) + 1) i p) _
        rw [hfun]
        by_cases hik : k = i
        · subst hik
          have hid : ∀ p : ClothParticle K, pinTop (k : Int) k p = p := by
            intro p
            unfold pinTop
            simp
          cases hp : s.particles[k]? with
          | none => simp
          | some p => simp [h4, hid]
        · have hik2 : ¬ i = k := fun h => hik h.symm
          simp [hik, hik2]
    · refine ⟨ps, ?_, hlen, ?_⟩
      · simp only [ClothSimulation.pinStep, h4, if_false]
      · intro i
        rw [hget]
        have hfun : (fun p : ClothParticle K => pinTop ((k : Int) + 1) i p) =
            fun p => pinTop (k : Int) i p := by
          funext p
          rw [pinTop_succ]
          simp [h4]
        show _ = Option.map (fun p => pinTop ((k : Int) + 1) i p) _
        rw [hfun]

theorem intRange_of_nonpos {n : Int} (h : n ≤ 0) : intRange n = [] := by
  unfold intRange
  have : n.toNat = 0 := by omega
  rw [this]
  rfl

/-- The shape of the state built by `initialize()`: it differs from the old
state in the particle list, the constraint list, the collider list, the elapsed
time and the dirty flag; the constraints are those the constructor builds on the
fresh mesh for the lookups of `createConstraints`; the particles are the fresh
mesh with the pinning pattern applied. -/
theorem initialize0_spec (L : FloatLib K) (s : ClothSimulation K)
    (h : 1 ≤ s.height ∨ s.width ≤ 0) :
    ∃ ps cs, s.initialize0 L =
        some { s with particles := ps, constraints := cs, cylinders := [defaultCylinder],
                      simulationTime := 0, renderDataDirty := true } ∧
      (allLinks s).mapM (fun l => ClothConstraint.new L (freshMesh s) l.1 l.2 (-1)) = some cs ∧
      cs.map ClothConstraint.ends = allLinks s ∧
      ps.length = s.width.toNat * s.height.toNat ∧
      ∀ i : Nat, ps[i]? = ((freshMesh s)[i]?).map (pinTop s.width i) := by
  obtain ⟨cs, hcs, hends⟩ := mapM_new_spec L (freshMesh s) (allLinks s) (by
    intro l hl
    rw [freshMesh_length]
    exact allLinks_valid s l hl)
  have hcc : ClothSimulation.createConstraints L
      (ClothSimulation.createClothMesh { s with particles := [], constraints := [], cylinders := [] }) =
      some { s with particles := freshMesh s, constraints := cs, cylinders := [] } := by
    unfold ClothSimulation.createConstraints
    have hm : (((ClothSimulation.createClothMesh
        { s with particles := [], constraints := [], cylinders := [] }).structuralLinks ++
        (ClothSimulation.createClothMesh
        { s with particles := [], constraints := [], cylinders := [] }).shearLinks ++
        (ClothSimulation.createClothMesh
        { s with particles := [], constraints := [], cylinders := [] }).bendLinks).mapM
        (fun l => ClothConstraint.new L (ClothSimulation.createClothMesh
        { s with particles := [], constraints := [], cylinders := [] }).particles l.1 l.2 (-1))) =
        some cs := hcs
    rw [hm]
    rfl
  have hinit : ∀ t, (intRange s.width).foldlM ClothSimulation.pinStep
      { s with particles := freshMesh s, constraints := cs, cylinders := [defaultCylinder] } = some t →
      s.initialize0 L = some { t with simulationTime := 0, renderDataDirty := true } := by
    intro t ht
    unfold ClothSimulation.initialize0
    simp only [hcc]
    have ht2 : (intRange s.width).foldlM ClothSimulation.pinStep
        (ClothSimulation.addCylinder
          { s with particles := freshMesh s, constraints := cs, cylinders := [] }
          ⟨0, -2, 0⟩ (15 / 10) (5 / 10)) = some t := ht
    simp only [ClothSimulation.addCylinder] at ht2 ⊢
    rw [ht2]
  by_cases hw : s.width ≤ 0
  · refine ⟨freshMesh s, cs, ?_, hcs, hends, freshMesh_length s, ?_⟩
    · rw [hinit _ (by rw [intRange_of_nonpos hw]; rfl)]
    · intro i
      have : pinTop (K := K) s.width i = id := by
        funext p
        unfold pinTop
        have : ¬ (i : Int) < s.width := by omega
        simp [this]
      rw [this]
      simp
  · have hH : 1 ≤ s.height := by
      rcases h with h | h
      · exact h
      · omega
    have hwk : ((s.width.toNat : Nat) : Int) = s.width := by omega
    obtain ⟨ps, hfold, hlen, hget⟩ := pin_fold
      { s with particles := freshMesh s, constraints := cs, cylinders := [defaultCylinder] }
      (by show s.width.toNat * s.height.toNat ≤ (freshMesh s).length
          rw [freshMesh_length]) s.width.toNat (by show ((s.width.toNat : Nat) : Int) ≤ s.width; omega)
      (Or.inl hH)
    rw [hwk] at hfold hget
    refine ⟨ps, cs, ?_, hcs, hends, ?_, hget⟩
    · rw [hinit _ hfold]
    · rw [hlen]
      exact freshMesh_length s

end MeshLemmas




/-! ## Claims about `initialize` and `reset` -/

section InitClaims

variable {K : Type} [LinearOrderedField K]

theorem freshMesh_congr {s t : ClothSimulation K} (hw : t.width = s.width)
    (hh : t.height = s.height) (hs : t.spacing = s.spacing) : freshMesh t = freshMesh s := by
  unfold freshMesh ClothSimulation.meshParticle
  rw [hw, hh, hs]

theorem allLinks_congr {s t : ClothSimulation K} (hw : t.width = s.width)
    (hh : t.height = s.height) : allLinks t = allLinks s := by
  unfold allLinks ClothSimulation.structuralLinks ClothSimulation.shearLinks
    ClothSimulation.bendLinks ClothSimulation.getParticle ClothSimulation.getParticleIndex
  rw [hw, hh]

theorem addCylinders_fields (s : ClothSimulation K) (added : List (CylinderCollider K)) :
    (addCylinders s added).width = s.width ∧ (addCylinders s added).height = s.height ∧
    (addCylinders s added).spacing = s.spacing ∧
    (addCylinders s added).cylinders = s.cylinders ++ added := by
  unfold addCylinders
  induction added generalizing s with
  | nil => simp
  | cons c rest ih =>
    simp only [List.foldl_cons]
    obtain ⟨h1, h2, h3, h4⟩ := ih (s.addCylinder c.center c.radius c.height)
    refine ⟨h1, h2, h3, ?_⟩
    rw [h4]
    simp [ClothSimulation.addCylinder]

/-- C5: on every state whose grid can be built (`height ≥ 1`, or no column at
all) `reset()` returns a state `s1`, and `reset()` on `s1` returns `s1` again:
the same particles (count, positions, velocities, pinned flags), the same
constraints, the same single collider, elapsed time zero.  The rebuilt parts of
`s1` (particles, constraints, colliders, elapsed time) are the same for every
state with the same width, height and spacing; the remaining parameters are
carried over from the state `reset()` was called on. -/
theorem C5_reset_idempotent (L : FloatLib K) (s : ClothSimulation K)
    (h : 1 ≤ s.height ∨ s.width ≤ 0) :
    ∃ s1, s.reset L = some s1 ∧ s1.reset L = some s1 ∧ s1.getSimulationTime = 0 ∧
      ∀ t : ClothSimulation K, t.width = s.width → t.height = s.height →
        t.spacing = s.spacing →
        ∃ t1, t.reset L = some t1 ∧ t1.particles = s1.particles ∧
          t1.constraints = s1.constraints ∧ t1.cylinders = s1.cylinders ∧
          t1.getSimulationTime = s1.getSimulationTime ∧
          t1.getParticleCount = s1.getParticleCount ∧
          t1.getConstraintCount = s1.getConstraintCount := by
  obtain ⟨ps, cs, hinit, hcs, _, hlen, hget⟩ := initialize0_spec L s h
  have key : ∀ t : ClothSimulation K, t.width = s.width → t.height = s.height →
      t.spacing = s.spacing →
      t.initialize0 L = some { t with particles := ps, constraints := cs,
                                      cylinders := [defaultCylinder],
                                      simulationTime := 0, renderDataDirty := true } := by
    intro t hw hh hs
    obtain ⟨ps1, cs1, hinit1, hcs1, _, hlen1, hget1⟩ := initialize0_spec L t (by rw [hw, hh]; exact h)
    rw [freshMesh_congr hw hh hs, allLinks_congr hw hh, hcs] at hcs1
    have ecs : cs1 = cs := (Option.some.inj hcs1).symm
    have eps : ps1 = ps := by
      apply List.ext_getElem?
      intro i
      rw [hget1, hget, freshMesh_congr hw hh hs, hw]
    rw [hinit1, ecs, eps]
  refine ⟨_, hinit, ?_, rfl, ?_⟩
  · exact key _ rfl rfl rfl
  · intro t hw hh hs
    exact ⟨_, key t hw hh hs, rfl, rfl, rfl, rfl, rfl, rfl⟩

/-- C5 (witness): the 5 × 3 cloth. -/
theorem C5_reset_idempotent_witness :
    (1 ≤ cloth53.height ∨ cloth53.width ≤ 0) ∧
    ∃ s1, cloth53.reset ratLib = some s1 ∧ s1.reset ratLib = some s1 ∧
      s1.getSimulationTime = 0 ∧
      ∀ t : ClothSimulation ℚ, t.width = cloth53.width → t.height = cloth53.height →
        t.spacing = cloth53.spacing →
        ∃ t1, t.reset ratLib = some t1 ∧ t1.particles = s1.particles ∧
          t1.constraints = s1.constraints ∧ t1.cylinders = s1.cylinders ∧
          t1.getSimulationTime = s1.getSimulationTime ∧
          t1.getParticleCount = s1.getParticleCount ∧
          t1.getConstraintCount = s1.getConstraintCount :=
  ⟨Or.inl (by decide), C5_reset_idempotent ratLib cloth53 (Or.inl (by decide))⟩

/-- C9: whatever colliders were added before, `initialize()` and `reset()`
return a state whose collider list is exactly the default collider, centre
`(0, -2, 0)`, radius `1.5`, height `0.5`. -/
theorem C9_initialize_resets_colliders (L : FloatLib K) (s : ClothSimulation K)
    (added : List (CylinderCollider K)) (h : 1 ≤ s.height ∨ s.width ≤ 0) :
    (addCylinders s added).cylinders = s.cylinders ++ added ∧
    ∃ s1, (addCylinders s added).initialize0 L = some s1 ∧
      (addCylinders s added).reset L = some s1 ∧
      s1.cylinders = [⟨⟨0, -2, 0⟩, 15 / 10, 5 / 10⟩] := by
  obtain ⟨hw, hh, _, hc⟩ := addCylinders_fields s added
  obtain ⟨ps, cs, hinit, _⟩ := initialize0_spec L (addCylinders s added) (by rw [hw, hh]; exact h)
  exact ⟨hc, _, hinit, hinit, rfl⟩

/-- C9 (witness): the 5 × 3 cloth after two `addCylinder` calls. -/
theorem C9_initialize_resets_colliders_witness :
    (1 ≤ cloth53.height ∨ cloth53.width ≤ 0) ∧
    (addCylinders cloth53 extraCylinders).cylinders = cloth53.cylinders ++ extraCylinders ∧
    ∃ s1, (addCylinders cloth53 extraCylinders).initialize0 ratLib = some s1 ∧
      (addCylinders cloth53 extraCylinders).reset ratLib = some s1 ∧
      s1.cylinders = [⟨⟨0, -2, 0⟩, 15 / 10, 5 / 10⟩] :=
  ⟨Or.inl (by decide), C9_initialize_resets_colliders ratLib cloth53 extraCylinders
    (Or.inl (by decide))⟩

theorem freshMesh_pinned (s : ClothSimulation K) : ∀ p ∈ freshMesh s, p.pinned = false := by
  intro p hp
  simp only [freshMesh, List.mem_flatMap, List.mem_map] at hp
  obtain ⟨y, _, x, _, rfl⟩ := hp
  rfl

theorem countP_by_index {α : Type} (p : α → Bool) (q : Nat → Bool) :
    ∀ (l : List α) (k : Nat), (∀ (i : Nat) (a : α), l[i]? = some a → p a = q (k + i)) →
      l.countP p = ((List.range l.length).map (fun i => k + i)).countP q := by
  intro l
  induction l with
  | nil => intro k _; simp
  | cons a t ih =>
    intro k h
    have h0 : p a = q k := by simpa using h 0 a (by simp)
    have ht := ih (k + 1) (by
      intro i b hb
      have := h (i + 1) b (by simpa using hb)
      rw [this]
      congr 1
      omega)
    rw [List.countP_cons, ht, List.length_cons, List.range_succ_eq_map, List.map_cons,
      List.countP_cons, List.map_map, h0]
    simp only [Nat.add_zero]
    congr 2
    apply List.map_congr_left
    intro i _
    simp only [Function.comp]
    omega

theorem count_multiples_of_four (n : Nat) :
    (List.range n).countP (fun i => decide (i % 4 = 0)) = (n + 3) / 4 := by
  induction n with
  | zero => simp
  | succ n ih =>
    rw [List.range_succ, List.countP_append, ih, List.countP_singleton]
    by_cases h : n % 4 = 0
    · simp only [h, decide_True, if_true]
      omega
    · simp only [h, decide_False, Bool.false_eq_true, if_false]
      omega

theorem count_pinned_indices (w n : Nat) (h : w ≤ n) :
    (List.range n).countP (fun i => decide (i < w ∧ i % 4 = 0)) = (w + 3) / 4 := by
  obtain ⟨m, rfl⟩ : ∃ m, n = w + m := ⟨n - w, by omega⟩
  rw [List.range_add, List.countP_append, ← count_multiples_of_four w]
  have h1 : (List.range w).countP (fun i => decide (i < w ∧ i % 4 = 0)) =
      (List.range w).countP (fun i => decide (i % 4 = 0)) := by
    apply List.countP_congr
    intro i hi
    have : i < w := List.mem_range.mp hi
    simp [this]
  have h2 : ((List.range m).map (fun x => w + x)).countP (fun i => decide (i < w ∧ i % 4 = 0)) = 0 := by
    rw [List.countP_eq_zero]
    intro i hi
    simp only [List.mem_map, List.mem_range] at hi
    obtain ⟨j, _, rfl⟩ := hi
    simp
  rw [h1, h2]
  simp

theorem ceil_quarter (W : Int) : ⌈(W : ℚ) / 4⌉ = (W + 3) / 4 := by
  rw [Int.ceil_eq_iff]
  have h1 : 4 * ((W + 3) / 4) ≤ W + 3 := by omega
  have h3 : W ≤ 4 * ((W + 3) / 4) := by omega
  have h1q : (4 : ℚ) * (((W + 3) / 4 : Int) : ℚ) ≤ (W : ℚ) + 3 := by exact_mod_cast h1
  have h3q : (W : ℚ) ≤ 4 * (((W + 3) / 4 : Int) : ℚ) := by exact_mod_cast h3
  constructor <;> linarith

/-- C10: for `W ≥ 1` and `H ≥ 1`, `initialize(W, H, spacing)` returns a state in
which the particle at grid coordinate `(x, y)` exists and is pinned if and only
if `y = 0` and `x mod 4 = 0`; so every particle outside the top row is free, and
the number of pinned particles is `⌈W / 4⌉`. -/
theorem C10_pinning_pattern (L : FloatLib K) (s : ClothSimulation K) (W H : Int) (spacing : K)
    (hW : 1 ≤ W) (hH : 1 ≤ H) :
    ∃ s1, s.initialize3 L W H spacing = some s1 ∧
      (∀ x y : Int, 0 ≤ x → x < W → 0 ≤ y → y < H →
        ∃ (i : Nat) (p : ClothParticle K), s1.getParticle x y = some i ∧
          s1.particles[i]? = some p ∧ (p.pinned = true ↔ (y = 0 ∧ x % 4 = 0))) ∧
      (∀ x y : Int, 0 ≤ x → x < W → 1 ≤ y → y < H →
        ∃ (i : Nat) (p : ClothParticle K), s1.getParticle x y = some i ∧
          s1.particles[i]? = some p ∧ p.pinned = false) ∧
      ((s1.particles.countP (fun p => p.pinned) : Nat) : Int) = ⌈(W : ℚ) / 4⌉ := by
  obtain ⟨ps, cs, hinit, _, _, hlen, hget⟩ := initialize0_spec L
    { s with width := W, height := H, spacing := spacing } (Or.inl hH)
  have hcell : ∀ x y : Int, 0 ≤ x → x < W → 0 ≤ y → y < H →
      ∃ (p : ClothParticle K), ps[(y * W + x).toNat]? = some p ∧
        (p.pinned = true ↔ (y = 0 ∧ x % 4 = 0)) := by
    intro x y hx0 hx1 hy0 hy1
    have hm := freshMesh_getElem { s with width := W, height := H, spacing := spacing } x y
      hx0 hx1 hy0 hy1
    have hg := hget (y * W + x).toNat
    rw [hm] at hg
    refine ⟨_, hg, ?_⟩
    have hidx : (((y * W + x).toNat : Nat) : Int) = y * W + x := by
      have : 0 ≤ y * W := mul_nonneg hy0 (by omega)
      omega
    unfold pinTop
    rw [hidx]
    constructor
    · intro hp
      by_cases hc : y * W + x < W ∧ (y * W + x) % 4 = 0
      · obtain ⟨hc1, hc2⟩ := hc
        have hy : y = 0 := by
          by_contra hne
          have : 1 ≤ y := by omega
          have : W ≤ y * W := by nlinarith
          omega
        subst hy
        simp only [zero_mul, zero_add] at hc2
        exact ⟨rfl, hc2⟩
      · rw [if_neg hc] at hp
        simp [ClothSimulation.meshParticle, ClothParticle.new] at hp
    · rintro ⟨rfl, h4⟩
      simp only [zero_mul, zero_add]
      rw [if_pos ⟨hx1, h4⟩]
  refine ⟨_, hinit, ?_, ?_, ?_⟩
  · intro x y hx0 hx1 hy0 hy1
    obtain ⟨p, hp, hiff⟩ := hcell x y hx0 hx1 hy0 hy1
    refine ⟨(y * W + x).toNat, p, ?_, hp, hiff⟩
    exact getParticle_eq _ x y hx0 hx1 hy0 hy1
  · intro x y hx0 hx1 hy0 hy1
    obtain ⟨p, hp, hiff⟩ := hcell x y hx0 hx1 (by omega) hy1
    refine ⟨(y * W + x).toNat, p, ?_, hp, ?_⟩
    · exact getParticle_eq _ x y hx0 hx1 (by omega) hy1
    · cases hpp : p.pinned with
      | false => rfl
      | true =>
        have := (hiff.mp hpp).1
        omega
  · rw [ceil_quarter]
    have hcount := countP_by_index (fun p : ClothParticle K => p.pinned)
      (fun i => decide (i < W.toNat ∧ i % 4 = 0)) ps 0 (by
        intro i a ha
        rw [hget i] at ha
        cases hf : (freshMesh { s with width := W, height := H, spacing := spacing })[i]? with
        | none => rw [hf] at ha; simp at ha
        | some q =>
          rw [hf] at ha
          simp only [Option.map_some', Option.some.injEq] at ha
          have hq : q.pinned = false :=
            freshMesh_pinned _ q (List.getElem?_mem hf)
          rw [← ha]
          unfold pinTop
          simp only [Nat.zero_add]
          by_cases hc : (i : Int) < W ∧ (i : Int) % 4 = 0
          · have hc2 : i < W.toNat ∧ i % 4 = 0 := by omega
            rw [if_pos hc, decide_eq_true hc2]
          · have hc2 : ¬ (i < W.toNat ∧ i % 4 = 0) := by omega
            rw [if_neg hc, decide_eq_false hc2]
            exact hq)
    show ((ps.countP (fun p => p.pinned) : Nat) : Int) = (W + 3) / 4
    rw [hcount]
    simp only [Nat.zero_add, List.map_id]
    have hmap : (List.range ps.length).map (fun i => i) = List.range ps.length := List.map_id _
    rw [hmap, count_pinned_indices W.toNat ps.length (by
      rw [hlen]
      show W.toNat ≤ W.toNat * H.toNat
      have : 1 ≤ H.toNat := by omega
      exact Nat.le_mul_of_pos_right _ (by omega))]
    omega

/-- C10 (witness): a 5 × 3 grid; its pinned particles are the two at `x = 0` and
`x = 4` of the top row. -/
theorem C10_pinning_pattern_witness :
    (1 : Int) ≤ 5 ∧ (1 : Int) ≤ 3 ∧
    ∃ s1, cloth53.initialize3 ratLib 5 3 (1 / 5) = some s1 ∧
      (∀ x y : Int, 0 ≤ x → x < 5 → 0 ≤ y → y < 3 →
        ∃ (i : Nat) (p : ClothParticle ℚ), s1.getParticle x y = some i ∧
          s1.particles[i]? = some p ∧ (p.pinned = true ↔ (y = 0 ∧ x % 4 = 0))) ∧
      (∀ x y : Int, 0 ≤ x → x < 5 → 1 ≤ y → y < 3 →
        ∃ (i : Nat) (p : ClothParticle ℚ), s1.getParticle x y = some i ∧
          s1.particles[i]? = some p ∧ p.pinned = false) ∧
      ((s1.particles.countP (fun p => p.pinned) : Nat) : Int) = ⌈((5 : Int) : ℚ) / 4⌉ :=
  ⟨by decide, by decide, C10_pinning_pattern ratLib cloth53 5 3 (1 / 5) (by decide) (by decide)⟩

theorem GridLink.offset {s : ClothSimulation K} {dx dy : Int} {l : Option Nat × Option Nat}
    (h : GridLink s dx dy l) : linkOffset s.width.toNat l = some (dx, dy) := by
  obtain ⟨x, y, hx0, hx1, hy0, hy1, hx2, hx3, hy2, hy3, rfl⟩ := h
  have cell : ∀ a b : Int, 0 ≤ a → a < s.width → 0 ≤ b →
      ((b * s.width + a).toNat % s.width.toNat : Nat) = a.toNat ∧
      ((b * s.width + a).toNat / s.width.toNat : Nat) = b.toNat := by
    intro a b ha0 ha1 hb0
    have hw : s.width = (s.width.toNat : Int) := by omega
    have e : (b * s.width + a).toNat = a.toNat + s.width.toNat * b.toNat := by
      have e1 : (b.toNat : Int) = b := Int.toNat_of_nonneg hb0
      have e2 : (a.toNat : Int) = a := Int.toNat_of_nonneg ha0
      have e3 : ((a.toNat + s.width.toNat * b.toNat : Nat) : Int) = b * s.width + a := by
        push_cast
        rw [e1, e2, ← hw]
        ring
      rw [← e3]
      exact Int.toNat_natCast _
    have hlt : a.toNat < s.width.toNat := by omega
    rw [e]
    constructor
    · rw [Nat.add_mul_mod_self_left]
      exact Nat.mod_eq_of_lt hlt
    · rw [Nat.add_mul_div_left _ _ (by omega), Nat.div_eq_of_lt hlt]
      simp
  obtain ⟨m1, d1⟩ := cell x y hx0 hx1 hy0
  obtain ⟨m2, d2⟩ := cell (x + dx) (y + dy) hx2 hx3 hy2
  simp only [linkOffset, m1, d1, m2, d2, Option.some.injEq, Prod.mk.injEq]
  constructor <;> omega

theorem length_flatMap_const {α β : Type} (f : α → List β) (c : Nat) :
    ∀ l : List α, (∀ a ∈ l, (f a).length = c) → (l.flatMap f).length = l.length * c := by
  intro l
  induction l with
  | nil => intro _; simp
  | cons a t ih =>
    intro h
    rw [List.flatMap_cons, List.length_append, h a (List.mem_cons_self _ _),
      ih (fun b hb => h b (List.mem_cons_of_mem _ hb)), List.length_cons]
    ring

theorem intRange_split {n : Int} (h : 1 ≤ n) : intRange n = intRange (n - 1) ++ [n - 1] := by
  have e : n = (((n - 1).toNat : Nat) : Int) + 1 := by omega
  have e2 : (((n - 1).toNat : Nat) : Int) = n - 1 := by omega
  conv_lhs => rw [e]
  rw [intRange_succ, e2]

theorem structuralLinks_length (s : ClothSimulation K) (hW : 1 ≤ s.width) (hH : 1 ≤ s.height) :
    ((s.structuralLinks.length : Nat) : Int) =
      (s.width - 1) * s.height + s.width * (s.height - 1) := by
  have inner : ∀ y : Int, ((intRange s.width).flatMap fun x =>
      (if x < s.width - 1 then [(s.getParticle x y, s.getParticle (x + 1) y)] else []) ++
      (if y < s.height - 1 then [(s.getParticle x y, s.getParticle x (y + 1))] else [])).length =
      (s.width - 1).toNat * (1 + if y < s.height - 1 then 1 else 0) +
        (if y < s.height - 1 then 1 else 0) := by
    intro y
    rw [intRange_split hW, List.flatMap_append, List.length_append, List.flatMap_singleton,
      length_flatMap_const _ (1 + if y < s.height - 1 then 1 else 0), length_intRange]
    · congr 1
      rw [if_neg (lt_irrefl _)]
      split_ifs <;> simp
    · intro x hx
      rw [mem_intRange] at hx
      rw [if_pos hx.2]
      split_ifs <;> simp
  unfold ClothSimulation.structuralLinks
  rw [intRange_split hH, List.flatMap_append, List.length_append, List.flatMap_singleton,
    length_flatMap_const _ ((s.width - 1).toNat * 2 + 1), length_intRange]
  · rw [inner, if_neg (lt_irrefl _)]
    have e1 : (((s.width - 1).toNat : Nat) : Int) = s.width - 1 := by omega
    have e2 : (((s.height - 1).toNat : Nat) : Int) = s.height - 1 := by omega
    push_cast
    rw [e1, e2]
    ring
  · intro y hy
    rw [mem_intRange] at hy
    rw [inner, if_pos hy.2]

theorem shearLinks_length (s : ClothSimulation K) :
    s.shearLinks.length = (s.height - 1).toNat * ((s.width - 1).toNat * 2) := by
  unfold ClothSimulation.shearLinks
  rw [length_flatMap_const _ ((s.width - 1).toNat * 2), length_intRange]
  intro y _
  rw [length_flatMap_const _ 2, length_intRange]
  intro x _
  rfl

theorem bendLinks_length (s : ClothSimulation K) :
    s.bendLinks.length =
      s.height.toNat * (s.width - 2).toNat + (s.height - 2).toNat * s.width.toNat := by
  unfold ClothSimulation.bendLinks
  rw [List.length_append, length_flatMap_const _ (s.width - 2).toNat,
    length_flatMap_const _ s.width.toNat, length_intRange, length_intRange]
  · intro y _
    rw [List.length_map, length_intRange]
  · intro y _
    rw [List.length_map, length_intRange]

theorem countP_offsets_all (w : Nat) (a b : Int × Int) (links : List (Option Nat × Option Nat))
    (h : ∀ l ∈ links, linkOffset w l = some a ∨ linkOffset w l = some b) :
    links.countP (fun l => decide (linkOffset w l = some a ∨ linkOffset w l = some b)) =
      links.length := by
  rw [List.countP_eq_length]
  intro l hl
  exact decide_eq_true (h l hl)

theorem countP_offsets_none (w : Nat) (a b c d : Int × Int)
    (links : List (Option Nat × Option Nat))
    (h : ∀ l ∈ links, linkOffset w l = some c ∨ linkOffset w l = some d)
    (hac : a ≠ c) (had : a ≠ d) (hbc : b ≠ c) (hbd : b ≠ d) :
    links.countP (fun l => decide (linkOffset w l = some a ∨ linkOffset w l = some b)) = 0 := by
  rw [List.countP_eq_zero]
  intro l hl
  have hne : ¬ (linkOffset w l = some a ∨ linkOffset w l = some b) := by
    rcases h l hl with e | e <;> rw [e] <;> rintro (e2 | e2) <;>
      simp only [Option.some.injEq] at e2
    · exact hac e2.symm
    · exact hbc e2.symm
    · exact had e2.symm
    · exact hbd e2.symm
  simp [hne]

theorem structuralLinks_offsets (s : ClothSimulation K) :
    ∀ l ∈ s.structuralLinks,
      linkOffset s.width.toNat l = some (1, 0) ∨ linkOffset s.width.toNat l = some (0, 1) :=
  fun l hl => (structuralLinks_gridLink s l hl).imp GridLink.offset GridLink.offset

theorem shearLinks_offsets (s : ClothSimulation K) :
    ∀ l ∈ s.shearLinks,
      linkOffset s.width.toNat l = some (1, 1) ∨ linkOffset s.width.toNat l = some (-1, 1) :=
  fun l hl => (shearLinks_gridLink s l hl).imp GridLink.offset GridLink.offset

theorem bendLinks_offsets (s : ClothSimulation K) :
    ∀ l ∈ s.bendLinks,
      linkOffset s.width.toNat l = some (2, 0) ∨ linkOffset s.width.toNat l = some (0, 2) :=
  fun l hl => (bendLinks_gridLink s l hl).imp GridLink.offset GridLink.offset

/-- The number of links of each family among all lookups of `createConstraints`. -/
theorem allLinks_family_counts (s : ClothSimulation K) :
    (allLinks s).countP (fun l => decide (linkOffset s.width.toNat l = some (1, 0) ∨
        linkOffset s.width.toNat l = some (0, 1))) = s.structuralLinks.length ∧
    (allLinks s).countP (fun l => decide (linkOffset s.width.toNat l = some (1, 1) ∨
        linkOffset s.width.toNat l = some (-1, 1))) = s.shearLinks.length ∧
    (allLinks s).countP (fun l => decide (linkOffset s.width.toNat l = some (2, 0) ∨
        linkOffset s.width.toNat l = some (0, 2))) = s.bendLinks.length := by
  unfold allLinks
  simp only [List.countP_append]
  refine ⟨?_, ?_, ?_⟩
  · rw [countP_offsets_all _ _ _ _ (structuralLinks_offsets s),
      countP_offsets_none _ _ _ _ _ _ (shearLinks_offsets s) (by decide) (by decide)
        (by decide) (by decide),
      countP_offsets_none _ _ _ _ _ _ (bendLinks_offsets s) (by decide) (by decide)
        (by decide) (by decide)]
    simp
  · rw [countP_offsets_all _ _ _ _ (shearLinks_offsets s),
      countP_offsets_none _ _ _ _ _ _ (structuralLinks_offsets s) (by decide) (by decide)
        (by decide) (by decide),
      countP_offsets_none _ _ _ _ _ _ (bendLinks_offsets s) (by decide) (by decide)
        (by decide) (by decide)]
    simp
  · rw [countP_offsets_all _ _ _ _ (bendLinks_offsets s),
      countP_offsets_none _ _ _ _ _ _ (structuralLinks_offsets s) (by decide) (by decide)
        (by decide) (by decide),
      countP_offsets_none _ _ _ _ _ _ (shearLinks_offsets s) (by decide) (by decide)
        (by decide) (by decide)]
    simp

/-- C2: for `W ≥ 3` and `H ≥ 3`, `initialize(W, H, spacing)` returns a state
whose constraint list holds exactly `(W-1)*H + W*(H-1)` structural constraints
(right or down neighbour), `2*(W-1)*(H-1)` shear constraints (quad diagonals)
and `H*(W-2) + W*(H-2)` bend constraints (two cells away), and
`getConstraintCount()` is the sum of the three numbers. -/
theorem C2_topology_counts (L : FloatLib K) (s : ClothSimulation K) (W H : Int) (spacing : K)
    (hW : 3 ≤ W) (hH : 3 ≤ H) :
    ∃ s1, s.initialize3 L W H spacing = some s1 ∧
      ((s1.constraints.countP (isStructural W.toNat) : Nat) : Int) =
        (W - 1) * H + W * (H - 1) ∧
      ((s1.constraints.countP (isShear W.toNat) : Nat) : Int) = 2 * (W - 1) * (H - 1) ∧
      ((s1.constraints.countP (isBend W.toNat) : Nat) : Int) = H * (W - 2) + W * (H - 2) ∧
      s1.getConstraintCount =
        ((W - 1) * H + W * (H - 1)) + 2 * (W - 1) * (H - 1) + (H * (W - 2) + W * (H - 2)) := by
  obtain ⟨ps, cs, hinit, _, hends, _, _⟩ := initialize0_spec L
    { s with width := W, height := H, spacing := spacing } (Or.inl (by show (1 : Int) ≤ H; omega))
  obtain ⟨c1, c2, c3⟩ := allLinks_family_counts
    { s with width := W, height := H, spacing := spacing }
  have l1 := structuralLinks_length { s with width := W, height := H, spacing := spacing }
    (by show (1 : Int) ≤ W; omega) (by show (1 : Int) ≤ H; omega)
  have l2 := shearLinks_length { s with width := W, height := H, spacing := spacing }
  have l3 := bendLinks_length { s with width := W, height := H, spacing := spacing }
  rw [← hends] at c1 c2 c3
  rw [List.countP_map] at c1 c2 c3
  have hlen : cs.length = (allLinks { s with width := W, height := H, spacing := spacing }).length := by
    rw [← hends, List.length_map]
  simp only [allLinks, List.length_append] at hlen
  have eW1 : (((W - 1).toNat : Nat) : Int) = W - 1 := by omega
  have eW2 : (((W - 2).toNat : Nat) : Int) = W - 2 := by omega
  have eH1 : (((H - 1).toNat : Nat) : Int) = H - 1 := by omega
  have eH2 : (((H - 2).toNat : Nat) : Int) = H - 2 := by omega
  have eW : ((W.toNat : Nat) : Int) = W := by omega
  have eH : ((H.toNat : Nat) : Int) = H := by omega
  have l2i : ((ClothSimulation.shearLinks
      { s with width := W, height := H, spacing := spacing }).length : Int) =
      2 * (W - 1) * (H - 1) := by
    rw [l2]
    push_cast
    rw [eW1, eH1]
    ring
  have l3i : ((ClothSimulation.bendLinks
      { s with width := W, height := H, spacing := spacing }).length : Int) =
      H * (W - 2) + W * (H - 2) := by
    rw [l3]
    push_cast
    rw [eW2, eH2, eW, eH]
    ring
  refine ⟨_, hinit, ?_, ?_, ?_, ?_⟩
  · show ((cs.countP (isStructural W.toNat) : Nat) : Int) = _
    have : cs.countP (isStructural W.toNat) = _ := c1
    rw [this]
    exact l1
  · show ((cs.countP (isShear W.toNat) : Nat) : Int) = _
    have : cs.countP (isShear W.toNat) = _ := c2
    rw [this]
    exact l2i
  · show ((cs.countP (isBend W.toNat) : Nat) : Int) = _
    have : cs.countP (isBend W.toNat) = _ := c3
    rw [this]
    exact l3i
  · show ((cs.length : Nat) : Int) = _
    rw [hlen]
    push_cast
    rw [l1, l2i, l3i]

/-- C2 (witness): a 4 × 3 grid, with 17 structural, 12 shear and 10 bend
constraints, 39 in all. -/
theorem C2_topology_counts_witness :
    (3 : Int) ≤ 4 ∧ (3 : Int) ≤ 3 ∧
    ∃ s1, cloth43.initialize3 ratLib 4 3 (1 / 5) = some s1 ∧
      ((s1.constraints.countP (isStructural (4 : Int).toNat) : Nat) : Int) =
        (4 - 1) * 3 + 4 * (3 - 1) ∧
      ((s1.constraints.countP (isShear (4 : Int).toNat) : Nat) : Int) = 2 * (4 - 1) * (3 - 1) ∧
      ((s1.constraints.countP (isBend (4 : Int).toNat) : Nat) : Int) =
        3 * (4 - 2) + 4 * (3 - 2) ∧
      s1.getConstraintCount =
        ((4 - 1) * 3 + 4 * (3 - 1)) + 2 * (4 - 1) * (3 - 1) + (3 * (4 - 2) + 4 * (3 - 2)) :=
  ⟨by decide, by decide, C2_topology_counts ratLib cloth43 4 3 (1 / 5) (by decide) (by decide)⟩

end InitClaims




/-! ## Claims about the cylinder collider -/

section ColliderClaims

variable {K : Type} [LinearOrderedField K]

theorem ratSqrt_mul_self (q : ℚ) (hq : 0 ≤ q) : ratSqrt (q * q) = q := by
  unfold ratSqrt
  rw [Rat.mul_self_num, Rat.mul_self_den]
  have hn : 0 ≤ q.num := Rat.num_nonneg.mpr hq
  obtain ⟨n, hn2⟩ := Int.eq_ofNat_of_zero_le hn
  have e : (q.num * q.num).toNat = n * n := by
    rw [hn2]
    have : ((n : Int) * (n : Int)) = ((n * n : Nat) : Int) := by push_cast; ring
    rw [this]
    exact Int.toNat_natCast _
  rw [e, Nat.sqrt_eq, Nat.sqrt_eq]
  have h := Rat.num_div_den q
  rw [hn2] at h
  rw [Int.cast_natCast] at h
  exact h

theorem isSqrtAt_ratLib_sq (q : ℚ) (hq : 0 ≤ q) : IsSqrtAt ratLib (q * q) := by
  unfold IsSqrtAt
  show 0 ≤ ratSqrt (q * q) ∧ ratSqrt (q * q) * ratSqrt (q * q) = q * q
  rw [ratSqrt_mul_self q hq]
  exact ⟨hq, rfl⟩

theorem IsSqrtAt.eq_of_sq {L : FloatLib K} {x r : K} (h : IsSqrtAt L x) (hr : 0 ≤ r)
    (hx : x = r * r) : L.sqrt x = r := by
  obtain ⟨h0, h1⟩ := h
  rw [hx] at h1 h0 ⊢
  have h2 : (L.sqrt (r * r) - r) * (L.sqrt (r * r) + r) = 0 := by
    have : (L.sqrt (r * r) - r) * (L.sqrt (r * r) + r) =
        L.sqrt (r * r) * L.sqrt (r * r) - r * r := by ring
    rw [this, h1]
    ring
  rcases mul_eq_zero.mp h2 with h3 | h3
  · exact sub_eq_zero.mp h3
  · have h4 : L.sqrt (r * r) = 0 := by linarith
    have h5 : r = 0 := by linarith
    rw [h4, h5]

/-- C6: `checkCollision` reports a collision exactly when the particle's height
relative to the centre lies in `[-height/2, height/2]` (both ends included) and
the radial distance `sqrt((p.x-c.x)² + (p.z-c.z)²)` is strictly below the radius.
The particle is an input of the function only; it has no output through which a
particle could change. -/
theorem C6_checkCollision_iff (L : FloatLib K) (c : CylinderCollider K) (p : ClothParticle K)
    (contactPoint contactNormal : Vec3 K) :
    (c.checkCollision L p contactPoint contactNormal).hit = true ↔
      (-c.height / 2 ≤ p.position.y - c.center.y ∧ p.position.y - c.center.y ≤ c.height / 2 ∧
        L.sqrt ((p.position.x - c.center.x) ^ 2 + (p.position.z - c.center.z) ^ 2) < c.radius) := by
  have e1 : -c.height * (1 / 2) = -c.height / 2 := by ring
  have e2 : c.height * (1 / 2) = c.height / 2 := by ring
  unfold CylinderCollider.checkCollision
  simp only [Vec3.sub, e1, e2, ← sq]
  by_cases hb : p.position.y - c.center.y < -c.height / 2 ∨ p.position.y - c.center.y > c.height / 2
  · rw [if_pos hb]
    constructor
    · intro h
      simp at h
    · rintro ⟨h1, h2, _⟩
      rcases hb with hb | hb
      · exact absurd h1 (not_le.mpr hb)
      · exact absurd h2 (not_le.mpr hb)
  · rw [if_neg hb]
    have hb2 : -c.height / 2 ≤ p.position.y - c.center.y ∧
        p.position.y - c.center.y ≤ c.height / 2 := by
      constructor
      · exact not_lt.mp (fun h => hb (Or.inl h))
      · exact not_lt.mp (fun h => hb (Or.inr h))
    by_cases hr : L.sqrt ((p.position.x - c.center.x) ^ 2 + (p.position.z - c.center.z) ^ 2) <
        c.radius
    · rw [if_pos hr]
      exact ⟨fun _ => ⟨hb2.1, hb2.2, hr⟩, fun _ => rfl⟩
    · rw [if_neg hr]
      constructor
      · intro h
        simp at h
      · rintro ⟨_, _, h3⟩
        exact absurd h3 hr

/-- The value of `checkCollision` when it reports a collision, in terms of the
radial distance `d` returned by the library square root. -/
theorem checkCollision_hit (L : FloatLib K) (c : CylinderCollider K) (p : ClothParticle K)
    (cp0 cn0 : Vec3 K) (d : K)
    (hlo : -c.height * (1 / 2) ≤ p.position.y - c.center.y)
    (hhi : p.position.y - c.center.y ≤ c.height * (1 / 2))
    (hd : L.sqrt ((p.position.x - c.center.x) * (p.position.x - c.center.x) +
      (p.position.z - c.center.z) * (p.position.z - c.center.z)) = d)
    (hlt : d < c.radius) :
    c.checkCollision L p cp0 cn0 =
      { hit := true
        contactPoint :=
          if d < 1 / 1000000 then
            ⟨c.center.x + 1 * c.radius, c.center.y + (p.position.y - c.center.y),
             c.center.z + 0 * c.radius⟩
          else
            ⟨c.center.x + (p.position.x - c.center.x) / d * c.radius,
             c.center.y + (p.position.y - c.center.y),
             c.center.z + (p.position.z - c.center.z) / d * c.radius⟩
        contactNormal :=
          if d < 1 / 1000000 then ⟨1, 0, 0⟩
          else ⟨(p.position.x - c.center.x) / d, 0, (p.position.z - c.center.z) / d⟩ } := by
  unfold CylinderCollider.checkCollision
  simp only [Vec3.sub, Vec3.add, hd]
  rw [if_neg (by
    rintro (h | h)
    · exact absurd hlo (not_le.mpr h)
    · exact absurd hhi (not_le.mpr h)), if_pos hlt]
  by_cases hdeg : d < 1 / 1000000
  · simp only [hdeg, if_true]
  · simp only [hdeg, if_false]

/-- C7 (counterexample): the particle at `(0, 0, 5e-7)` is inside the collider
of radius 6 centred at the origin, at radial distance `5e-7 > 0`; its radially
outward direction is `(0, 0, 1)`, but `checkCollision` reports the contact
normal `(1, 0, 0)`. -/
theorem C7_normal_not_radial_near_axis :
    ratLib.sqrt ((particleNearAxis.position.x - cylinder6.center.x) ^ 2 +
      (particleNearAxis.position.z - cylinder6.center.z) ^ 2) = 1 / 2000000 ∧
    (1 / 2000000 : ℚ) < cylinder6.radius ∧
    -cylinder6.height / 2 ≤ particleNearAxis.position.y - cylinder6.center.y ∧
    particleNearAxis.position.y - cylinder6.center.y ≤ cylinder6.height / 2 ∧
    (cylinder6.checkCollision ratLib particleNearAxis ⟨0, 0, 0⟩ ⟨0, 0, 0⟩).hit = true ∧
    (cylinder6.checkCollision ratLib particleNearAxis ⟨0, 0, 0⟩ ⟨0, 0, 0⟩).contactNormal =
      ⟨1, 0, 0⟩ ∧
    (⟨(particleNearAxis.position.x - cylinder6.center.x) / (1 / 2000000), 0,
      (particleNearAxis.position.z - cylinder6.center.z) / (1 / 2000000)⟩ : Vec3 ℚ) =
      ⟨0, 0, 1⟩ ∧
    (cylinder6.checkCollision ratLib particleNearAxis ⟨0, 0, 0⟩ ⟨0, 0, 0⟩).contactNormal ≠
      ⟨(particleNearAxis.position.x - cylinder6.center.x) / (1 / 2000000), 0,
       (particleNearAxis.position.z - cylinder6.center.z) / (1 / 2000000)⟩ := by
  have hsq : ratLib.sqrt ((particleNearAxis.position.x - cylinder6.center.x) *
      (particleNearAxis.position.x - cylinder6.center.x) +
      (particleNearAxis.position.z - cylinder6.center.z) *
      (particleNearAxis.position.z - cylinder6.center.z)) = 1 / 2000000 := by
    have e : (particleNearAxis.position.x - cylinder6.center.x) *
      (particleNearAxis.position.x - cylinder6.center.x) +
      (particleNearAxis.position.z - cylinder6.center.z) *
      (particleNearAxis.position.z - cylinder6.center.z) =
      (1 / 2000000 : ℚ) * (1 / 2000000) := by
      norm_num [particleNearAxis, cylinder6, ClothParticle.new]
    rw [e]
    exact ratSqrt_mul_self _ (by norm_num)
  have hck := checkCollision_hit ratLib cylinder6 particleNearAxis ⟨0, 0, 0⟩ ⟨0, 0, 0⟩
    (1 / 2000000) (by norm_num [particleNearAxis, cylinder6, ClothParticle.new])
    (by norm_num [particleNearAxis, cylinder6, ClothParticle.new]) hsq
    (by norm_num [cylinder6])
  refine ⟨?_, ?_, ?_, ?_, ?_, ?_, ?_, ?_⟩
  · rw [sq, sq]
    exact hsq
  · norm_num [cylinder6]
  · norm_num [particleNearAxis, cylinder6, ClothParticle.new]
  · norm_num [particleNearAxis, cylinder6, ClothParticle.new]
  · rw [hck]
  · rw [hck]
    norm_num
  · norm_num [particleNearAxis, cylinder6, ClothParticle.new]
  · rw [hck]
    norm_num [particleNearAxis, cylinder6, ClothParticle.new]

/-- C7 (amended): for a collider of radius `r > 0` and a particle inside the
height band at radial distance `d < r` (the library square root being exact at
the squared radial distance, at 1 and at `r²`), `checkCollision` reports a
collision; the contact normal has zero Y component and length exactly 1; it is
the radially outward direction (XZ offset divided by `d`) when `d ≥ 1e-6` and the
fixed vector `(1, 0, 0)` when `d < 1e-6`; the contact point has the particle's Y
coordinate and radial distance exactly `r` from the axis. -/
theorem C7_contact_geometry (L : FloatLib K) (c : CylinderCollider K) (p : ClothParticle K)
    (cp0 cn0 : Vec3 K) (hr : 0 < c.radius)
    (hlo : -c.height / 2 ≤ p.position.y - c.center.y)
    (hhi : p.position.y - c.center.y ≤ c.height / 2)
    (hd : IsSqrtAt L ((p.position.x - c.center.x) ^ 2 + (p.position.z - c.center.z) ^ 2))
    (hlt : L.sqrt ((p.position.x - c.center.x) ^ 2 + (p.position.z - c.center.z) ^ 2) < c.radius)
    (h1 : IsSqrtAt L 1) (hrr : IsSqrtAt L (c.radius * c.radius)) :
    (c.checkCollision L p cp0 cn0).hit = true ∧
    (c.checkCollision L p cp0 cn0).contactNormal =
      (if L.sqrt ((p.position.x - c.center.x) ^ 2 + (p.position.z - c.center.z) ^ 2) <
          1 / 1000000 then ⟨1, 0, 0⟩
       else ⟨(p.position.x - c.center.x) /
              L.sqrt ((p.position.x - c.center.x) ^ 2 + (p.position.z - c.center.z) ^ 2), 0,
             (p.position.z - c.center.z) /
              L.sqrt ((p.position.x - c.center.x) ^ 2 + (p.position.z - c.center.z) ^ 2)⟩) ∧
    (c.checkCollision L p cp0 cn0).contactNormal.y = 0 ∧
    (c.checkCollision L p cp0 cn0).contactNormal.length L = 1 ∧
    (c.checkCollision L p cp0 cn0).contactPoint.y = p.position.y ∧
    L.sqrt (((c.checkCollision L p cp0 cn0).contactPoint.x - c.center.x) ^ 2 +
      ((c.checkCollision L p cp0 cn0).contactPoint.z - c.center.z) ^ 2) = c.radius := by
  have e1 : -c.height * (1 / 2) = -c.height / 2 := by ring
  have e2 : c.height * (1 / 2) = c.height / 2 := by ring
  have hsq : (p.position.x - c.center.x) * (p.position.x - c.center.x) +
      (p.position.z - c.center.z) * (p.position.z - c.center.z) =
      (p.position.x - c.center.x) ^ 2 + (p.position.z - c.center.z) ^ 2 := by ring
  have hck := checkCollision_hit L c p cp0 cn0 _ (by rw [e1]; exact hlo) (by rw [e2]; exact hhi)
    (by rw [hsq]) hlt
  rw [hck]
  obtain ⟨hd0, hdd⟩ := hd
  by_cases hdeg : L.sqrt ((p.position.x - c.center.x) ^ 2 + (p.position.z - c.center.z) ^ 2) <
      1 / 1000000
  · simp only [hdeg, if_true]
    refine ⟨trivial, trivial, trivial, ?_, by ring, ?_⟩
    · unfold Vec3.length
      have : Vec3.lengthSquared (⟨1, 0, 0⟩ : Vec3 K) = 1 := by simp [Vec3.lengthSquared]
      rw [this]
      exact h1.eq_of_sq zero_le_one (by ring)
    · have : (c.center.x + 1 * c.radius - c.center.x) ^ 2 +
          (c.center.z + 0 * c.radius - c.center.z) ^ 2 = c.radius * c.radius := by ring
      rw [this]
      exact hrr.eq_of_sq hr.le rfl
  · simp only [hdeg, if_false]
    have hdpos : 0 < L.sqrt ((p.position.x - c.center.x) ^ 2 + (p.position.z - c.center.z) ^ 2) := by
      have : (0 : K) < 1 / 1000000 := by norm_num
      exact lt_of_lt_of_le this (not_lt.mp hdeg)
    have hne := hdpos.ne'
    have hunit : ((p.position.x - c.center.x) /
        L.sqrt ((p.position.x - c.center.x) ^ 2 + (p.position.z - c.center.z) ^ 2)) ^ 2 +
        ((p.position.z - c.center.z) /
        L.sqrt ((p.position.x - c.center.x) ^ 2 + (p.position.z - c.center.z) ^ 2)) ^ 2 = 1 := by
      rw [div_pow, div_pow, ← add_div, sq (L.sqrt _), hdd]
      have hpos : (0 : K) < (p.position.x - c.center.x) ^ 2 + (p.position.z - c.center.z) ^ 2 := by
        rw [← hdd]
        exact mul_pos hdpos hdpos
      exact div_self hpos.ne'
    refine ⟨trivial, trivial, trivial, ?_, by ring, ?_⟩
    · unfold Vec3.length
      have : Vec3.lengthSquared (⟨(p.position.x - c.center.x) /
          L.sqrt ((p.position.x - c.center.x) ^ 2 + (p.position.z - c.center.z) ^ 2), 0,
          (p.position.z - c.center.z) /
          L.sqrt ((p.position.x - c.center.x) ^ 2 + (p.position.z - c.center.z) ^ 2)⟩ : Vec3 K) =
          1 := by
        simp only [Vec3.lengthSquared]
        linear_combination hunit
      rw [this]
      exact h1.eq_of_sq zero_le_one (by ring)
    · have : (c.center.x + (p.position.x - c.center.x) /
          L.sqrt ((p.position.x - c.center.x) ^ 2 + (p.position.z - c.center.z) ^ 2) * c.radius -
          c.center.x) ^ 2 +
          (c.center.z + (p.position.z - c.center.z) /
          L.sqrt ((p.position.x - c.center.x) ^ 2 + (p.position.z - c.center.z) ^ 2) * c.radius -
          c.center.z) ^ 2 = c.radius * c.radius := by
        linear_combination (c.radius * c.radius) * hunit
      rw [this]
      exact hrr.eq_of_sq hr.le rfl

theorem sqDist345 :
    (particle345.position.x - cylinder6.center.x) ^ 2 +
      (particle345.position.z - cylinder6.center.z) ^ 2 = (5 : ℚ) * 5 := by
  norm_num [particle345, cylinder6, ClothParticle.new]

/-- C7 (witness): the particle at `(3, 1/2, 4)` and the collider of radius 6
centred at the origin; the radial distance is 5. -/
theorem C7_contact_geometry_witness :
    (0 : ℚ) < cylinder6.radius ∧
    -cylinder6.height / 2 ≤ particle345.position.y - cylinder6.center.y ∧
    particle345.position.y - cylinder6.center.y ≤ cylinder6.height / 2 ∧
    IsSqrtAt ratLib ((particle345.position.x - cylinder6.center.x) ^ 2 +
      (particle345.position.z - cylinder6.center.z) ^ 2) ∧
    ratLib.sqrt ((particle345.position.x - cylinder6.center.x) ^ 2 +
      (particle345.position.z - cylinder6.center.z) ^ 2) < cylinder6.radius ∧
    IsSqrtAt ratLib 1 ∧ IsSqrtAt ratLib (cylinder6.radius * cylinder6.radius) ∧
    (cylinder6.checkCollision ratLib particle345 ⟨0, 0, 0⟩ ⟨0, 0, 0⟩).hit = true ∧
    (cylinder6.checkCollision ratLib particle345 ⟨0, 0, 0⟩ ⟨0, 0, 0⟩).contactNormal =
      (if ratLib.sqrt ((particle345.position.x - cylinder6.center.x) ^ 2 +
          (particle345.position.z - cylinder6.center.z) ^ 2) < 1 / 1000000 then ⟨1, 0, 0⟩
       else ⟨(particle345.position.x - cylinder6.center.x) /
              ratLib.sqrt ((particle345.position.x - cylinder6.center.x) ^ 2 +
                (particle345.position.z - cylinder6.center.z) ^ 2), 0,
             (particle345.position.z - cylinder6.center.z) /
              ratLib.sqrt ((particle345.position.x - cylinder6.center.x) ^ 2 +
                (particle345.position.z - cylinder6.center.z) ^ 2)⟩) ∧
    (cylinder6.checkCollision ratLib particle345 ⟨0, 0, 0⟩ ⟨0, 0, 0⟩).contactNormal.y = 0 ∧
    (cylinder6.checkCollision ratLib particle345 ⟨0, 0, 0⟩ ⟨0, 0, 0⟩).contactNormal.length
      ratLib = 1 ∧
    (cylinder6.checkCollision ratLib particle345 ⟨0, 0, 0⟩ ⟨0, 0, 0⟩).contactPoint.y =
      particle345.position.y ∧
    ratLib.sqrt (((cylinder6.checkCollision ratLib particle345 ⟨0, 0, 0⟩ ⟨0, 0, 0⟩).contactPoint.x -
        cylinder6.center.x) ^ 2 +
      ((cylinder6.checkCollision ratLib particle345 ⟨0, 0, 0⟩ ⟨0, 0, 0⟩).contactPoint.z -
        cylinder6.center.z) ^ 2) = cylinder6.radius :=
  have hr : (0 : ℚ) < cylinder6.radius := by norm_num [cylinder6]
  have hlo : -cylinder6.height / 2 ≤ particle345.position.y - cylinder6.center.y := by
    norm_num [particle345, cylinder6, ClothParticle.new]
  have hhi : particle345.position.y - cylinder6.center.y ≤ cylinder6.height / 2 := by
    norm_num [particle345, cylinder6, ClothParticle.new]
  have hd : IsSqrtAt ratLib ((particle345.position.x - cylinder6.center.x) ^ 2 +
      (particle345.position.z - cylinder6.center.z) ^ 2) := by
    rw [sqDist345]
    exact isSqrtAt_ratLib_sq 5 (by norm_num)
  have hlt : ratLib.sqrt ((particle345.position.x - cylinder6.center.x) ^ 2 +
      (particle345.position.z - cylinder6.center.z) ^ 2) < cylinder6.radius := by
    rw [sqDist345]
    show ratSqrt (5 * 5) < cylinder6.radius
    rw [ratSqrt_mul_self 5 (by norm_num)]
    norm_num [cylinder6]
  have h1 : IsSqrtAt ratLib 1 := by
    have := isSqrtAt_ratLib_sq 1 (by norm_num)
    rwa [mul_one] at this
  have hrr : IsSqrtAt ratLib (cylinder6.radius * cylinder6.radius) :=
    isSqrtAt_ratLib_sq _ hr.le
  ⟨hr, hlo, hhi, hd, hlt, h1, hrr,
    C7_contact_geometry ratLib cylinder6 particle345 ⟨0, 0, 0⟩ ⟨0, 0, 0⟩ hr hlo hhi hd hlt h1 hrr⟩

end ColliderClaims

/-! ## Claims about the OGC contact model -/

section OGCClaims

variable {K : Type} [LinearOrderedField K]

theorem Vec3.scale_eq_zero_iff (n : Vec3 K) (k : K) (hn : Vec3.lengthSquared n = 1) :
    n.scale k = ⟨0, 0, 0⟩ ↔ k = 0 := by
  constructor
  · intro h
    simp only [Vec3.scale, Vec3.mk.injEq] at h
    obtain ⟨hx, hy, hz⟩ := h
    unfold Vec3.lengthSquared at hn
    have : k = k * (n.x * n.x + n.y * n.y + n.z * n.z) := by rw [hn, mul_one]
    rw [this]
    linear_combination n.x * hx + n.y * hy + n.z * hz
  · intro h
    simp [Vec3.scale, h]

/-- C8: for a contact model with the constructor's stiffness (1000) and a
contact whose normal `n` has unit length (`n·n = 1`), `calculateContactForce`
returns `n * (stiffness * max(0, depth))`, which is `(n * stiffness) * max(0,
depth)`; the result is a non-zero, positive multiple of `n` if and only if the
penetration depth is positive, and it is the zero vector whenever the depth is
zero or negative. -/
theorem C8_contact_force_sign (contactRadius : K) (contact : ContactInfo K)
    (hn : Vec3.lengthSquared contact.contactNormal = 1) :
    (OGCContactModel.new contactRadius).stiffness = 1000 ∧
    (OGCContactModel.new contactRadius).calculateContactForce contact =
      contact.contactNormal.scale (1000 * max 0 contact.penetrationDepth) ∧
    (OGCContactModel.new contactRadius).calculateContactForce contact =
      (contact.contactNormal.scale (OGCContactModel.new contactRadius).stiffness).scale
        (max 0 contact.penetrationDepth) ∧
    (0 < contact.penetrationDepth ↔
      ((OGCContactModel.new contactRadius).calculateContactForce contact ≠ ⟨0, 0, 0⟩ ∧
        ∃ k : K, 0 < k ∧
          (OGCContactModel.new contactRadius).calculateContactForce contact =
            contact.contactNormal.scale k)) ∧
    (contact.penetrationDepth ≤ 0 →
      (OGCContactModel.new contactRadius).calculateContactForce contact = ⟨0, 0, 0⟩) := by
  have hforce : (OGCContactModel.new contactRadius).calculateContactForce contact =
      contact.contactNormal.scale (1000 * max 0 contact.penetrationDepth) := rfl
  refine ⟨rfl, hforce, ?_, ?_, ?_⟩
  · rw [hforce]
    simp only [Vec3.scale, OGCContactModel.new, Vec3.mk.injEq]
    refine ⟨by ring, by ring, by ring⟩
  · rw [hforce]
    constructor
    · intro hpos
      have hk : (0 : K) < 1000 * max 0 contact.penetrationDepth := by
        rw [max_eq_right hpos.le]
        positivity
      refine ⟨?_, _, hk, rfl⟩
      intro h0
      exact hk.ne' ((Vec3.scale_eq_zero_iff _ _ hn).mp h0)
    · rintro ⟨hne, _⟩
      by_contra hle
      apply hne
      rw [max_eq_left (not_lt.mp hle)]
      simp [Vec3.scale]
  · intro hle
    rw [hforce, max_eq_left hle]
    simp [Vec3.scale]

/-- C8 (witness): the contact with normal `(0, 0, 1)` and depth `1/4`. -/
theorem C8_contact_force_sign_witness :
    Vec3.lengthSquared contactDepthQuarter.contactNormal = 1 ∧
    (OGCContactModel.new (5 / 100 : ℚ)).stiffness = 1000 ∧
    (OGCContactModel.new (5 / 100 : ℚ)).calculateContactForce contactDepthQuarter =
      contactDepthQuarter.contactNormal.scale (1000 * max 0 contactDepthQuarter.penetrationDepth) ∧
    (OGCContactModel.new (5 / 100 : ℚ)).calculateContactForce contactDepthQuarter =
      (contactDepthQuarter.contactNormal.scale (OGCContactModel.new (5 / 100 : ℚ)).stiffness).scale
        (max 0 contactDepthQuarter.penetrationDepth) ∧
    (0 < contactDepthQuarter.penetrationDepth ↔
      ((OGCContactModel.new (5 / 100 : ℚ)).calculateContactForce contactDepthQuarter ≠ ⟨0, 0, 0⟩ ∧
        ∃ k : ℚ, 0 < k ∧
          (OGCContactModel.new (5 / 100 : ℚ)).calculateContactForce contactDepthQuarter =
            contactDepthQuarter.contactNormal.scale k)) ∧
    (contactDepthQuarter.penetrationDepth ≤ 0 →
      (OGCContactModel.new (5 / 100 : ℚ)).calculateContactForce contactDepthQuarter = ⟨0, 0, 0⟩) :=
  have hn : Vec3.lengthSquared contactDepthQuarter.contactNormal = 1 := by
    norm_num [contactDepthQuarter, Vec3.lengthSquared]
  ⟨hn, C8_contact_force_sign (5 / 100) contactDepthQuarter hn⟩

end OGCClaims



/-! ## Claims about single particles, constraints and lookups -/

section ParticleClaims

variable {K : Type} [LinearOrderedField K]

/-- C18: `ClothParticle::update(dt)` on a free particle sets the acceleration to
`force * invMass`, adds `acceleration * dt` to the velocity, adds the new
velocity times `dt` to the position and zeroes the force, leaving every other
field as it was; on a pinned particle it returns the particle unchanged. -/
theorem C18_particle_update (p : ClothParticle K) (dt : K) :
    (p.pinned = false →
      p.update dt =
        { p with
          acceleration := p.force.scale p.invMass
          velocity := p.velocity.add ((p.force.scale p.invMass).scale dt)
          position :=
            p.position.add ((p.velocity.add ((p.force.scale p.invMass).scale dt)).scale dt)
          force := ⟨0, 0, 0⟩ }) ∧
    (p.pinned = true → p.update dt = p) := by
  constructor
  · intro h
    simp [ClothParticle.update, ClothParticle.clearForces, h]
  · intro h
    simp [ClothParticle.update, h]

/-- C19: when the two particles of a constraint are closer than `1e-6`,
`satisfy()` returns the particle store unchanged, so no position and no velocity
changes; when they are not, the current length that `satisfy()` divides by is
positive, so the division is never a division by zero. -/
theorem C19_degenerate_constraint_skipped (L : FloatLib K) (c : ClothConstraint K)
    (ps : List (ClothParticle K)) (i j : Nat) (a b : ClothParticle K)
    (h1 : c.particle1 = some i) (h2 : c.particle2 = some j)
    (ha : ps[i]? = some a) (hb : ps[j]? = some b) :
    ((b.position.sub a.position).length L < 1 / 1000000 → c.satisfy L ps = some ps) ∧
    (¬ (b.position.sub a.position).length L < 1 / 1000000 →
      0 < (b.position.sub a.position).length L ∧
      (b.position.sub a.position).length L ≠ 0) := by
  constructor
  · intro hlen
    simp only [ClothConstraint.satisfy, h1, h2, ha, hb, hlen, if_true]
  · intro hlen
    have h0 : (0 : K) < 1 / 1000000 := by norm_num
    have hpos := lt_of_lt_of_le h0 (not_lt.mp hlen)
    exact ⟨hpos, hpos.ne'⟩

/-- C19 (witness): two particles at the same place, the second one moving; the
pass changes nothing. -/
theorem C19_degenerate_constraint_skipped_witness :
    unitConstraint.particle1 = some 0 ∧ unitConstraint.particle2 = some 1 ∧
    coincidentPair[0]? = some anchorParticle ∧ coincidentPair[1]? = some driftingParticle ∧
    ((driftingParticle.position.sub anchorParticle.position).length ratLib < 1 / 1000000 →
      unitConstraint.satisfy ratLib coincidentPair = some coincidentPair) ∧
    (¬ (driftingParticle.position.sub anchorParticle.position).length ratLib < 1 / 1000000 →
      0 < (driftingParticle.position.sub anchorParticle.position).length ratLib ∧
      (driftingParticle.position.sub anchorParticle.position).length ratLib ≠ 0) :=
  ⟨rfl, rfl, rfl, rfl,
    C19_degenerate_constraint_skipped ratLib unitConstraint coincidentPair 0 1 anchorParticle
      driftingParticle rfl rfl rfl rfl⟩

theorem pinTop_fields (k : Int) (i : Nat) (p : ClothParticle K) :
    (pinTop k i p).position = p.position ∧ (pinTop k i p).velocity = p.velocity ∧
    (pinTop k i p).force = p.force ∧ (pinTop k i p).mass = p.mass := by
  unfold pinTop
  split_ifs <;> exact ⟨rfl, rfl, rfl, rfl⟩

theorem meshStage_particles (s : ClothSimulation K) (W H : Int) (spacing : K) :
    (meshStage s W H spacing).particles =
      freshMesh { s with width := W, height := H, spacing := spacing } := by
  simp [meshStage, ClothSimulation.createClothMesh, freshMesh, ClothSimulation.meshParticle]

/-- C11: for `W ≥ 0` and `H ≥ 0`, after `createClothMesh` as run by
`initialize(W, H, s)` the particle count is `W * H`, and for `0 ≤ x < W`,
`0 ≤ y < H` the particle at index `getParticleIndex(x, y) = y * W + x` has
position `((x - W/2) * s, 2, (y - H/2) * s)`, zero velocity, zero force and mass
1.  The same holds for the state that `initialize(W, H, s)` returns, which it
does whenever `H ≥ 1` or `W = 0`. -/
theorem C11_mesh_layout (L : FloatLib K) (s : ClothSimulation K) (W H : Int) (spacing : K)
    (hW : 0 ≤ W) (hH : 0 ≤ H) :
    (meshStage s W H spacing).getParticleCount = W * H ∧
    (∀ x y : Int, 0 ≤ x → x < W → 0 ≤ y → y < H →
      (meshStage s W H spacing).getParticleIndex x y = y * W + x ∧
      ∃ p : ClothParticle K,
        (meshStage s W H spacing).particles[(y * W + x).toNat]? = some p ∧
        p.position = ⟨((x : K) - (W : K) / 2) * spacing, 2, ((y : K) - (H : K) / 2) * spacing⟩ ∧
        p.velocity = ⟨0, 0, 0⟩ ∧ p.force = ⟨0, 0, 0⟩ ∧ p.mass = 1) ∧
    ((1 ≤ H ∨ W = 0) →
      ∃ s1, s.initialize3 L W H spacing = some s1 ∧ s1.getParticleCount = W * H ∧
        ∀ x y : Int, 0 ≤ x → x < W → 0 ≤ y → y < H →
          s1.getParticleIndex x y = y * W + x ∧
          ∃ p : ClothParticle K, s1.particles[(y * W + x).toNat]? = some p ∧
            p.position =
              ⟨((x : K) - (W : K) / 2) * spacing, 2, ((y : K) - (H : K) / 2) * spacing⟩ ∧
            p.velocity = ⟨0, 0, 0⟩ ∧ p.force = ⟨0, 0, 0⟩ ∧ p.mass = 1) := by
  have hcount : ((W.toNat * H.toNat : Nat) : Int) = W * H := by
    push_cast
    rw [Int.toNat_of_nonneg hW, Int.toNat_of_nonneg hH]
  have hpos : ∀ x y : Int,
      (ClothSimulation.meshParticle { s with width := W, height := H, spacing := spacing } x y).position =
        ⟨((x : K) - (W : K) / 2) * spacing, 2, ((y : K) - (H : K) / 2) * spacing⟩ := by
    intro x y
    simp only [ClothSimulation.meshParticle, ClothParticle.new, Vec3.mk.injEq]
    refine ⟨by ring, trivial, by ring⟩
  refine ⟨?_, ?_, ?_⟩
  · unfold ClothSimulation.getParticleCount
    rw [meshStage_particles, freshMesh_length]
    exact hcount
  · intro x y hx0 hx1 hy0 hy1
    refine ⟨rfl, _, ?_, hpos x y, rfl, rfl, rfl⟩
    rw [meshStage_particles]
    exact freshMesh_getElem { s with width := W, height := H, spacing := spacing } x y
      hx0 hx1 hy0 hy1
  · intro hgrid
    obtain ⟨ps, cs, hinit, _, _, hlen, hget⟩ := initialize0_spec L
      { s with width := W, height := H, spacing := spacing } (by
        rcases hgrid with h | h
        · exact Or.inl h
        · exact Or.inr (le_of_eq h))
    refine ⟨_, hinit, ?_, ?_⟩
    · show ((ps.length : Nat) : Int) = W * H
      rw [hlen]
      exact hcount
    · intro x y hx0 hx1 hy0 hy1
      have hm := freshMesh_getElem { s with width := W, height := H, spacing := spacing } x y
        hx0 hx1 hy0 hy1
      have hg := hget (y * W + x).toNat
      rw [hm] at hg
      obtain ⟨f1, f2, f3, f4⟩ := pinTop_fields (K := K) W (y * W + x).toNat
        (ClothSimulation.meshParticle { s with width := W, height := H, spacing := spacing } x y)
      refine ⟨rfl, _, hg, ?_, ?_, ?_, ?_⟩
      · rw [f1]; exact hpos x y
      · rw [f2]; rfl
      · rw [f3]; rfl
      · rw [f4]; rfl

/-- C11 (witness): a 5 × 3 grid with spacing `1/5`. -/
theorem C11_mesh_layout_witness :
    (0 : Int) ≤ 5 ∧ (0 : Int) ≤ 3 ∧
    (meshStage cloth53 5 3 (1 / 5)).getParticleCount = 5 * 3 ∧
    (∀ x y : Int, 0 ≤ x → x < 5 → 0 ≤ y → y < 3 →
      (meshStage cloth53 5 3 (1 / 5)).getParticleIndex x y = y * 5 + x ∧
      ∃ p : ClothParticle ℚ,
        (meshStage cloth53 5 3 (1 / 5)).particles[(y * 5 + x).toNat]? = some p ∧
        p.position =
          ⟨((x : ℚ) - ((5 : Int) : ℚ) / 2) * (1 / 5), 2, ((y : ℚ) - ((3 : Int) : ℚ) / 2) * (1 / 5)⟩ ∧
        p.velocity = ⟨0, 0, 0⟩ ∧ p.force = ⟨0, 0, 0⟩ ∧ p.mass = 1) ∧
    (((1 : Int) ≤ 3 ∨ (5 : Int) = 0) →
      ∃ s1, cloth53.initialize3 ratLib 5 3 (1 / 5) = some s1 ∧ s1.getParticleCount = 5 * 3 ∧
        ∀ x y : Int, 0 ≤ x → x < 5 → 0 ≤ y → y < 3 →
          s1.getParticleIndex x y = y * 5 + x ∧
          ∃ p : ClothParticle ℚ, s1.particles[(y * 5 + x).toNat]? = some p ∧
            p.position =
              ⟨((x : ℚ) - ((5 : Int) : ℚ) / 2) * (1 / 5), 2,
               ((y : ℚ) - ((3 : Int) : ℚ) / 2) * (1 / 5)⟩ ∧
            p.velocity = ⟨0, 0, 0⟩ ∧ p.force = ⟨0, 0, 0⟩ ∧ p.mass = 1) :=
  ⟨by decide, by decide, C11_mesh_layout ratLib cloth53 5 3 (1 / 5) (by decide) (by decide)⟩

theorem freeFallStep_spec (g : Vec3 K) (dt : K) (p : ClothParticle K) (hp : p.pinned = false)
    (hm : 0 < p.mass) (hinv : p.invMass = 1 / p.mass) (hf : p.force = ⟨0, 0, 0⟩) :
    (freeFallStep g dt p).pinned = false ∧ (freeFallStep g dt p).mass = p.mass ∧
    (freeFallStep g dt p).invMass = p.invMass ∧ (freeFallStep g dt p).force = ⟨0, 0, 0⟩ ∧
    (freeFallStep g dt p).velocity = p.velocity.add (g.scale dt) := by
  have hne : p.mass ≠ 0 := hm.ne'
  simp only [freeFallStep, ClothParticle.update, ClothParticle.addForce, ClothParticle.clearForces,
    hp, hf, hinv, Vec3.add, Vec3.scale]
  refine ⟨rfl, rfl, rfl, rfl, ?_⟩
  simp only [Bool.false_eq_true, if_false, Vec3.mk.injEq]
  refine ⟨?_, ?_, ?_⟩ <;> field_simp

/-- C12: for a non-pinned particle of mass `m > 0` (with `invMass = 1/m`, as the
constructor sets it for a positive mass) that starts with zero velocity and
zero force, and for every gravity vector `g`, every `dt` and every `n`, the
velocity after `n` repetitions of `addForce(g * m)` followed by
`ClothParticle::update(dt)` is `g * (n * dt)`; in particular its `y` component
is `g.y * (n * dt)`. -/
theorem C12_free_fall_velocity (g : Vec3 K) (dt : K) (p : ClothParticle K) (n : Nat)
    (hp : p.pinned = false) (hm : 0 < p.mass) (hinv : p.invMass = 1 / p.mass)
    (hv : p.velocity = ⟨0, 0, 0⟩) (hf : p.force = ⟨0, 0, 0⟩) :
    ((freeFallStep g dt)^[n] p).velocity = g.scale ((n : K) * dt) ∧
    ((freeFallStep g dt)^[n] p).velocity.y = g.y * ((n : K) * dt) := by
  have key : ∀ k : Nat,
      ((freeFallStep g dt)^[k] p).pinned = false ∧ ((freeFallStep g dt)^[k] p).mass = p.mass ∧
      ((freeFallStep g dt)^[k] p).invMass = p.invMass ∧
      ((freeFallStep g dt)^[k] p).force = ⟨0, 0, 0⟩ ∧
      ((freeFallStep g dt)^[k] p).velocity = g.scale ((k : K) * dt) := by
    intro k
    induction k with
    | zero =>
      refine ⟨hp, rfl, rfl, hf, ?_⟩
      simp [hv, Vec3.scale]
    | succ k ih =>
      obtain ⟨i1, i2, i3, i4, i5⟩ := ih
      rw [Function.iterate_succ_apply']
      obtain ⟨j1, j2, j3, j4, j5⟩ := freeFallStep_spec g dt ((freeFallStep g dt)^[k] p) i1
        (by rw [i2]; exact hm) (by rw [i3, i2]; exact hinv) i4
      refine ⟨j1, j2.trans i2, j3.trans i3, j4, ?_⟩
      rw [j5, i5]
      simp only [Vec3.add, Vec3.scale, Vec3.mk.injEq]
      push_cast
      refine ⟨by ring, by ring, by ring⟩
  have h := (key n).2.2.2.2
  refine ⟨h, ?_⟩
  rw [h]
  rfl

/-- C12 (witness): a particle of mass 2 built by the constructor, gravity
`(0, -981/100, 0)`, step `1/60`, three repetitions. -/
theorem C12_free_fall_velocity_witness :
    restingParticle.pinned = false ∧ 0 < restingParticle.mass ∧
    restingParticle.invMass = 1 / restingParticle.mass ∧
    restingParticle.velocity = ⟨0, 0, 0⟩ ∧ restingParticle.force = ⟨0, 0, 0⟩ ∧
    ((freeFallStep ⟨0, -981 / 100, 0⟩ (1 / 60))^[3] restingParticle).velocity =
      Vec3.scale ⟨0, -981 / 100, 0⟩ (((3 : Nat) : ℚ) * (1 / 60)) ∧
    ((freeFallStep ⟨0, -981 / 100, 0⟩ (1 / 60))^[3] restingParticle).velocity.y =
      -981 / 100 * (((3 : Nat) : ℚ) * (1 / 60)) :=
  have hm : (0 : ℚ) < restingParticle.mass := by decide
  have hinv : restingParticle.invMass = 1 / restingParticle.mass := by decide!
  ⟨rfl, hm, hinv, rfl, rfl,
    C12_free_fall_velocity ⟨0, -981 / 100, 0⟩ (1 / 60) restingParticle 3 rfl hm hinv rfl rfl⟩

end ParticleClaims

/-! ## Claims about contact processing -/

section ContactClaims

variable {K : Type} [LinearOrderedField K]

theorem updateAt_eq_set (ps : List (ClothParticle K)) (i : Nat)
    (f : ClothParticle K → ClothParticle K) (p : ClothParticle K) (hp : ps[i]? = some p) :
    updateAt ps i f = ps.set i (f p) := by
  simp [updateAt, hp]

theorem getElem?_set_self_of_some (ps : List (ClothParticle K)) (i : Nat)
    (p q : ClothParticle K) (hp : ps[i]? = some p) : (ps.set i q)[i]? = some q := by
  have hlt : i < ps.length := (List.getElem?_eq_some.mp hp).1
  simp [List.getElem?_set, hlt]

theorem map_set_of_fixed {β : Type} (view : ClothParticle K → β) (ps : List (ClothParticle K))
    (i : Nat) (p q : ClothParticle K) (hp : ps[i]? = some p) (h : view q = view p) :
    (ps.set i q).map view = ps.map view := by
  have e : ps.set i q = updateAt ps i (fun _ => q) :=
    (updateAt_eq_set ps i (fun _ => q) p hp).symm
  rw [e]
  apply map_updateAt_of_fixed
  intro p1 hp1
  rw [hp] at hp1
  cases hp1
  exact h

/-- The effect of one contact on a free particle, in closed form. -/
theorem applyOGCForce_free (m : OGCContactModel K) (contact : ContactInfo K) (dt : K)
    (ps : List (ClothParticle K)) (i : Nat) (p : ClothParticle K)
    (hc : contact.particle = some i) (hp : ps[i]? = some p) (hfree : p.pinned = false) :
    ∃ d, m.calculateDampingForce contact ps = some d ∧
      m.applyOGCForce contact dt ps = some (ps.set i
        { p with
          force := p.force.add ((m.calculateContactForce contact).add d)
          position :=
            if contact.penetrationDepth > 0 then
              p.position.add (contact.contactNormal.scale (contact.penetrationDepth * (8 / 10)))
            else p.position }) := by
  have hd : ∃ d, m.calculateDampingForce contact ps = some d := by
    simp only [OGCContactModel.calculateDampingForce, deref, hc, hp]
    split_ifs
    · exact ⟨_, rfl⟩
    · exact ⟨_, rfl⟩
  obtain ⟨d, hd⟩ := hd
  refine ⟨d, hd, ?_⟩
  simp only [OGCContactModel.applyOGCForce, hc, hp, hfree, hd, Bool.false_eq_true, if_false]
  rw [updateAt_eq_set ps i _ p hp]
  split_ifs with hdepth
  · rw [updateAt_eq_set _ i _ _ (getElem?_set_self_of_some ps i p _ hp), List.set_set]
    simp only [ClothParticle.addForce, hfree]
  · simp only [ClothParticle.addForce, hfree]

theorem applyOGCForce_preserves {β : Type} (view : ClothParticle K → β)
    (hview : ∀ (p : ClothParticle K) (f pos : Vec3 K), p.pinned = false →
      view { p with force := f, position := pos } = view p)
    (m : OGCContactModel K) (contact : ContactInfo K) (dt : K)
    (ps qs : List (ClothParticle K)) (h : m.applyOGCForce contact dt ps = some qs) :
    qs.map view = ps.map view := by
  cases hc : contact.particle with
  | none =>
    simp only [OGCContactModel.applyOGCForce, hc, Option.some.injEq] at h
    rw [← h]
  | some i =>
    cases hp : ps[i]? with
    | none => simp [OGCContactModel.applyOGCForce, hc, hp] at h
    | some p =>
      by_cases hpin : p.pinned = true
      · simp only [OGCContactModel.applyOGCForce, hc, hp, hpin, if_true, Option.some.injEq] at h
        rw [← h]
      · have hfree : p.pinned = false := by simpa using hpin
        obtain ⟨d, _, hq⟩ := applyOGCForce_free m contact dt ps i p hc hp hfree
        rw [hq] at h
        cases h
        exact map_set_of_fixed _ ps i p _ hp (hview p _ _ hfree)

theorem foldlM_option_preserves {α β : Type} (f : β → α → Option β) (P : β → β → Prop)
    (hrefl : ∀ b, P b b) (htrans : ∀ a b c, P a b → P b c → P a c)
    (hstep : ∀ b a b1, f b a = some b1 → P b b1) :
    ∀ (l : List α) (b b1 : β), l.foldlM f b = some b1 → P b b1 := by
  intro l
  induction l with
  | nil =>
    intro b b1 h
    simp only [List.foldlM_nil] at h
    cases h
    exact hrefl b
  | cons a t ih =>
    intro b b1 h
    rw [List.foldlM_cons] at h
    cases hfa : f b a with
    | none => simp [hfa] at h
    | some b2 =>
      simp only [hfa, Option.bind_eq_bind, Option.some_bind] at h
      exact htrans _ _ _ (hstep b a b2 hfa) (ih b2 b1 h)

/-- C17: `processContacts` is the left-to-right run of `applyOGCForce` over the
batch.  Any store it returns has the velocities of the store it started from,
and it does return one when every contact's particle reference is null or
valid.  An empty batch returns the store as it is.  One contact on a null
reference or on a pinned particle returns the store as it is; on a free
particle `p` it replaces `p` by `p` with `contactForce + dampingForce` added to
the force and with `normal * (penetrationDepth * 0.8)` added to the position if
`penetrationDepth > 0`, every other field kept. -/
theorem C17_processContacts_frame (m : OGCContactModel K) (contacts : List (ContactInfo K))
    (dt : K) (ps : List (ClothParticle K)) :
    (∀ qs, m.processContacts contacts dt ps = some qs →
      qs.map (fun p => p.velocity) = ps.map (fun p => p.velocity)) ∧
    ((∀ c ∈ contacts, ∀ i, c.particle = some i → i < ps.length) →
      ∃ qs, m.processContacts contacts dt ps = some qs) ∧
    m.processContacts contacts dt ps =
      contacts.foldlM (fun acc contact => m.applyOGCForce contact dt acc) ps ∧
    m.processContacts [] dt ps = some ps ∧
    (∀ contact : ContactInfo K, contact.particle = none →
      m.applyOGCForce contact dt ps = some ps) ∧
    (∀ (contact : ContactInfo K) (i : Nat) (p : ClothParticle K),
      contact.particle = some i → ps[i]? = some p → p.pinned = true →
      m.applyOGCForce contact dt ps = some ps) ∧
    (∀ (contact : ContactInfo K) (i : Nat) (p : ClothParticle K),
      contact.particle = some i → ps[i]? = some p → p.pinned = false →
      ∃ d, m.calculateDampingForce contact ps = some d ∧
        m.applyOGCForce contact dt ps = some (ps.set i
          { p with
            force := p.force.add ((m.calculateContactForce contact).add d)
            position :=
              if contact.penetrationDepth > 0 then
                p.position.add (contact.contactNormal.scale (contact.penetrationDepth * (8 / 10)))
              else p.position })) := by
  have hfold : m.processContacts contacts dt ps =
      contacts.foldlM (fun acc contact => m.applyOGCForce contact dt acc) ps := by
    unfold OGCContactModel.processContacts
    split_ifs with he
    · rw [List.isEmpty_iff.mp he]
      rfl
    · rfl
  refine ⟨?_, ?_, hfold, rfl, ?_, ?_, ?_⟩
  · intro qs hqs
    rw [hfold] at hqs
    exact foldlM_option_preserves (fun acc contact => m.applyOGCForce contact dt acc)
      (fun a b => b.map (fun p => p.velocity) = a.map (fun p => p.velocity))
      (fun _ => rfl) (fun _ _ _ h1 h2 => h2.trans h1)
      (fun b a b1 h => applyOGCForce_preserves _ (by intro p f pos _; rfl) m a dt b b1 h)
      contacts ps qs hqs
  · intro hvalid
    obtain ⟨qs, hqs, _⟩ := processContacts_keepsPinned m contacts dt ps hvalid
    exact ⟨qs, hqs⟩
  · intro contact hc
    simp [OGCContactModel.applyOGCForce, hc]
  · intro contact i p hc hp hpin
    simp [OGCContactModel.applyOGCForce, hc, hp, hpin]
  · intro contact i p hc hp hfree
    exact applyOGCForce_free m contact dt ps i p hc hp hfree

theorem basicCollisionStep_pinned (L : FloatLib K) (q : ClothParticle K)
    (c : CylinderCollider K) : (ClothSimulation.basicCollisionStep L q c).pinned = q.pinned := by
  unfold ClothSimulation.basicCollisionStep
  simp only
  split_ifs <;> rfl

/-- The velocity that the basic collision response leaves after a hit with
contact normal `n`, in terms of the incoming normal speed `vn = v · n` and the
incoming tangential velocity `vt = v - n * vn`: the friction statement works
with `v - n * vn` for the `vn` measured before the bounce, so on an approaching
particle it also acts on the normal direction. -/
theorem basicCollisionStep_velocity (L : FloatLib K) (p : ClothParticle K)
    (c : CylinderCollider K) (hhit : (c.checkCollision L p ⟨0, 0, 0⟩ ⟨0, 0, 0⟩).hit = true) :
    (Vec3.dotProduct p.velocity (c.checkCollision L p ⟨0, 0, 0⟩ ⟨0, 0, 0⟩).contactNormal < 0 →
      (ClothSimulation.basicCollisionStep L p c).velocity =
        ((p.velocity.sub ((c.checkCollision L p ⟨0, 0, 0⟩ ⟨0, 0, 0⟩).contactNormal.scale
            (Vec3.dotProduct p.velocity
              (c.checkCollision L p ⟨0, 0, 0⟩ ⟨0, 0, 0⟩).contactNormal))).scale (9 / 10)).add
          ((c.checkCollision L p ⟨0, 0, 0⟩ ⟨0, 0, 0⟩).contactNormal.scale
            (-(8 / 100) * Vec3.dotProduct p.velocity
              (c.checkCollision L p ⟨0, 0, 0⟩ ⟨0, 0, 0⟩).contactNormal))) ∧
    (¬ Vec3.dotProduct p.velocity (c.checkCollision L p ⟨0, 0, 0⟩ ⟨0, 0, 0⟩).contactNormal < 0 →
      (ClothSimulation.basicCollisionStep L p c).velocity =
        ((p.velocity.sub ((c.checkCollision L p ⟨0, 0, 0⟩ ⟨0, 0, 0⟩).contactNormal.scale
            (Vec3.dotProduct p.velocity
              (c.checkCollision L p ⟨0, 0, 0⟩ ⟨0, 0, 0⟩).contactNormal))).scale (9 / 10)).add
          ((c.checkCollision L p ⟨0, 0, 0⟩ ⟨0, 0, 0⟩).contactNormal.scale
            (Vec3.dotProduct p.velocity
              (c.checkCollision L p ⟨0, 0, 0⟩ ⟨0, 0, 0⟩).contactNormal))) := by
  constructor
  · intro hneg
    simp only [ClothSimulation.basicCollisionStep, hhit, if_true, hneg]
    simp only [Vec3.sub, Vec3.add, Vec3.scale, Vec3.mk.injEq]
    refine ⟨by ring, by ring, by ring⟩
  · intro hpos
    simp only [ClothSimulation.basicCollisionStep, hhit, if_true, hpos, if_false]
    simp only [Vec3.sub, Vec3.add, Vec3.scale, Vec3.mk.injEq]
    refine ⟨by ring, by ring, by ring⟩

/-- C15 (failing input): basic mode, one collider of radius 6 and height 2 at
the origin, one free particle at `(5, 1/2, 0)` with velocity `(-1, 0, 1)`.  The
collider reports a hit with unit normal `n = (1, 0, 0)`, so `vn = -1` and
`vt = (0, 0, 1)`.  `handleCollisions` returns the particle at `(29/5, 1/2, 0)`
with velocity `(2/25, 0, 9/10)`: the tangential part is `0.9 * vt`, but the
normal component is `0.08 = -0.08 * vn` and not `0.2 = -0.2 * vn`. -/
theorem C15_friction_changes_normal_velocity :
    (cylinder6.checkCollision ratLib incomingParticle ⟨0, 0, 0⟩ ⟨0, 0, 0⟩).hit = true ∧
    (cylinder6.checkCollision ratLib incomingParticle ⟨0, 0, 0⟩ ⟨0, 0, 0⟩).contactNormal =
      ⟨1, 0, 0⟩ ∧
    incomingParticle.pinned = false ∧
    Vec3.dotProduct incomingParticle.velocity ⟨1, 0, 0⟩ = -1 ∧
    bounceState.handleCollisions ratLib =
      some { bounceState with
        particles := [{ incomingParticle with
          position := ⟨29 / 5, 1 / 2, 0⟩, velocity := ⟨2 / 25, 0, 9 / 10⟩ }] } ∧
    Vec3.dotProduct (⟨2 / 25, 0, 9 / 10⟩ : Vec3 ℚ) ⟨1, 0, 0⟩ = -(8 / 100) * (-1) ∧
    Vec3.dotProduct (⟨2 / 25, 0, 9 / 10⟩ : Vec3 ℚ) ⟨1, 0, 0⟩ ≠ -(2 / 10) * (-1) := by
  decide!

end ContactClaims

/-! ## What a frame leaves in the force accumulators -/

section FrameClaims

variable {K : Type} [LinearOrderedField K]

theorem repeatM_option_preserves {σ : Type} (step : σ → Option σ) (P : σ → σ → Prop)
    (hrefl : ∀ b, P b b) (htrans : ∀ a b c, P a b → P b c → P a c)
    (hstep : ∀ b b1, step b = some b1 → P b b1) :
    ∀ (n : Nat) (b b1 : σ), repeatM step n b = some b1 → P b b1 := by
  intro n
  induction n with
  | zero =>
    intro b b1 h
    simp only [repeatM, Option.some.injEq] at h
    rw [← h]
    exact hrefl b
  | succ n ih =>
    intro b b1 h
    simp only [repeatM] at h
    cases hs : step b with
    | none => simp [hs] at h
    | some b2 =>
      simp only [hs, Option.some_bind] at h
      exact htrans _ _ _ (hstep b b2 hs) (ih b2 b1 h)

theorem processContacts_preserves {β : Type} (view : ClothParticle K → β)
    (hview : ∀ (p : ClothParticle K) (f pos : Vec3 K), p.pinned = false →
      view { p with force := f, position := pos } = view p)
    (m : OGCContactModel K) (contacts : List (ContactInfo K)) (dt : K)
    (ps qs : List (ClothParticle K)) (h : m.processContacts contacts dt ps = some qs) :
    qs.map view = ps.map view := by
  unfold OGCContactModel.processContacts at h
  split_ifs at h with he
  · cases h
    rfl
  · exact foldlM_option_preserves (fun acc contact => m.applyOGCForce contact dt acc)
      (fun (a b : List (ClothParticle K)) => b.map view = a.map view)
      (fun _ => rfl) (fun _ _ _ h1 h2 => h2.trans h1)
      (fun b a b1 h => applyOGCForce_preserves view hview m a dt b b1 h) contacts ps qs h

theorem basicFold_pinned (L : FloatLib K) (cyls : List (CylinderCollider K)) :
    ∀ q : ClothParticle K,
      (cyls.foldl (ClothSimulation.basicCollisionStep L) q).pinned = q.pinned := by
  induction cyls with
  | nil => intro q; rfl
  | cons c t ih =>
    intro q
    simp only [List.foldl_cons]
    rw [ih, basicCollisionStep_pinned]

/-- The collision phase leaves the force accumulator of every pinned particle
as it is, and no particle changes its pinned flag. -/
theorem handleCollisions_pinnedForce (L : FloatLib K) (t t2 : ClothSimulation K)
    (h : t.handleCollisions L = some t2) :
    t2.particles.map pinnedForce = t.particles.map pinnedForce := by
  by_cases h1 : t.cylinders.isEmpty = true
  · simp only [ClothSimulation.handleCollisions, h1, if_true, Option.some.injEq] at h
    rw [← h]
  by_cases h2 : t.useOGC = true
  · rw [ClothSimulation.handleCollisions, if_neg h1, if_pos h2] at h
    by_cases h3 : (t.gatherContacts L 0 t.particles).isEmpty = true
    · simp only [h3, if_true, Option.some.injEq] at h
      rw [← h]
    · simp only [h3, Bool.false_eq_true, if_false] at h
      cases hpc : t.ogcModel.processContacts (t.gatherContacts L 0 t.particles) t.timeStep
          t.particles with
      | none => simp [hpc] at h
      | some qs =>
        simp only [hpc, Option.some.injEq] at h
        rw [← h]
        exact processContacts_preserves pinnedForce
          (by intro p f pos hfree; simp [pinnedForce, hfree]) _ _ _ _ _ hpc
  · rw [ClothSimulation.handleCollisions, if_neg h1, if_neg h2] at h
    simp only [Option.some.injEq] at h
    rw [← h]
    simp only [List.map_map]
    apply List.map_congr_left
    intro p _
    simp only [Function.comp]
    by_cases hp : p.pinned = true
    · simp [hp]
    · have hpf : p.pinned = false := by simpa using hp
      simp only [hpf, Bool.false_eq_true, if_false]
      simp [pinnedForce, basicFold_pinned, hpf]

theorem satisfy_preserves {β : Type} (view : ClothParticle K → β)
    (hpos : ∀ (p : ClothParticle K) (x : Vec3 K), view { p with position := x } = view p)
    (hvel : ∀ (p : ClothParticle K) (x : Vec3 K), view { p with velocity := x } = view p)
    (L : FloatLib K) (c : ClothConstraint K) (ps qs : List (ClothParticle K))
    (h : c.satisfy L ps = some qs) : qs.map view = ps.map view := by
  cases h1 : c.particle1 with
  | none => simp [ClothConstraint.satisfy, h1] at h
  | some i =>
    cases h2 : c.particle2 with
    | none => simp [ClothConstraint.satisfy, h1, h2] at h
    | some j =>
      cases ha : ps[i]? with
      | none => simp [ClothConstraint.satisfy, h1, h2, ha] at h
      | some a =>
        cases hb : ps[j]? with
        | none => simp [ClothConstraint.satisfy, h1, h2, ha, hb] at h
        | some b =>
          simp only [ClothConstraint.satisfy, h1, h2, ha, hb] at h
          split_ifs at h
          all_goals cases h
          all_goals
            repeat
              first
              | rfl
              | refine (map_updateAt_of_fixed view _ _ _
                  (by intro p _; first | exact hpos p _ | exact hvel p _)).trans ?_

theorem satisfyConstraints_preserves {β : Type} (view : ClothParticle K → β)
    (hpos : ∀ (p : ClothParticle K) (x : Vec3 K), view { p with position := x } = view p)
    (hvel : ∀ (p : ClothParticle K) (x : Vec3 K), view { p with velocity := x } = view p)
    (L : FloatLib K) (t t1 : ClothSimulation K) (h : t.satisfyConstraints L = some t1) :
    t1.particles.map view = t.particles.map view := by
  unfold ClothSimulation.satisfyConstraints at h
  cases hf : t.constraints.foldlM (fun ps c => c.satisfy L ps) t.particles with
  | none => simp [hf] at h
  | some qs =>
    simp only [hf, Option.some.injEq] at h
    rw [← h]
    exact foldlM_option_preserves
      (fun (ps : List (ClothParticle K)) (c : ClothConstraint K) => c.satisfy L ps)
      (fun (a b : List (ClothParticle K)) => b.map view = a.map view)
      (fun _ => rfl) (fun _ _ _ h1 h2 => h2.trans h1)
      (fun b a b1 h => satisfy_preserves view hpos hvel L a b b1 h) _ _ _ hf

theorem normalsStep_preserves {β : Type} (view : ClothParticle K → β)
    (hn : ∀ (p : ClothParticle K) (x : Vec3 K), view { p with normal := x } = view p)
    (L : FloatLib K) (t : ClothSimulation K) (ps qs : List (ClothParticle K)) (xy : Int × Int)
    (h : t.normalsStep L ps xy = some qs) : qs.map view = ps.map view := by
  unfold ClothSimulation.normalsStep at h
  split at h
  · split at h
    · cases h
      simp only [ClothSimulation.addNormal]
      repeat
        first
        | rfl
        | refine (map_updateAt_of_fixed view _ _ _ (by intro p _; exact hn p _)).trans ?_
    · cases h
  · cases h
    rfl

theorem calculateNormals_preserves {β : Type} (view : ClothParticle K → β)
    (hn : ∀ (p : ClothParticle K) (x : Vec3 K), view { p with normal := x } = view p)
    (L : FloatLib K) (t t1 : ClothSimulation K) (h : t.calculateNormals L = some t1) :
    t1.particles.map view = t.particles.map view := by
  unfold ClothSimulation.calculateNormals at h
  simp only at h
  split at h
  · cases h
  · rename_i ps1 hf
    cases h
    have h0 := foldlM_option_preserves (t.normalsStep L)
      (fun (a b : List (ClothParticle K)) => b.map view = a.map view)
      (fun _ => rfl) (fun _ _ _ h1 h2 => h2.trans h1)
      (fun b a b1 h => normalsStep_preserves view hn L t b b1 a h) _ _ _ hf
    simp only [List.map_map] at h0 ⊢
    rw [← show (view ∘ fun p : ClothParticle K => { p with normal := (⟨0, 0, 0⟩ : Vec3 K) }) = view
      from funext fun p => hn p _] 
    rw [← h0]
    apply List.map_congr_left
    intro p _
    simp only [Function.comp]
    split_ifs
    · exact hn p _
    · exact hn p _

theorem applyForcesStep_pinned (L : FloatLib K) (s : ClothSimulation K) (p : ClothParticle K) :
    (s.applyForcesStep L p).pinned = p.pinned := by
  unfold ClothSimulation.applyForcesStep
  simp only
  split_ifs <;> rfl

theorem update_force_view (p : ClothParticle K) (dt : K) :
    ((p.update dt).pinned, (p.update dt).force) = forceAfterUpdate (pinnedForce p) := by
  unfold ClothParticle.update pinnedForce forceAfterUpdate
  by_cases hp : p.pinned = true
  · simp [hp]
  · simp [hp, ClothParticle.clearForces]

/-- C14 (counterexample): on the running 1 × 1 cloth whose only particle is
pinned and starts with a zero force accumulator, `update(1/60)` returns a state
in which that particle's force is `(0, -9.81, 0)`, the gravity force that
`applyForces` added, and a second `update(1/60)` returns one in which it is
`(0, -19.62, 0)`: the force of a pinned particle is not cleared and persists
into the next step. -/
theorem C14_pinned_force_persists :
    pinnedMovingState.paused = false ∧
    (pinnedMovingState.particles.map fun p => (p.pinned, p.force)) = [(true, ⟨0, 0, 0⟩)] ∧
    (pinnedMovingState.update ratLib (1 / 60)).map
        (fun s1 => s1.particles.map fun p => (p.pinned, p.force)) =
      some [(true, ⟨0, -(981 / 100), 0⟩)] ∧
    ((pinnedMovingState.update ratLib (1 / 60)).bind fun s1 => s1.update ratLib (1 / 60)).map
        (fun s2 => s2.particles.map fun p => (p.pinned, p.force)) =
      some [(true, ⟨0, -(981 / 50), 0⟩)] := by
  decide!

/-- C14 (amended): on every running state with valid pointers `update(dt)`
returns a state with the same number of particles in which no particle has
changed its pinned flag, the force accumulator of every non-pinned particle is
the zero vector, and the force accumulator of every pinned particle is the one
`applyForces` left: the old force plus `gravity * mass`, plus
`wind * mass * 0.1` when the wind is not zero. -/
theorem C14_free_force_cleared (L : FloatLib K) (s : ClothSimulation K) (dt : K)
    (hwf : WellFormed s) (hp : s.paused = false) :
    ∃ s1, s.update L dt = some s1 ∧ s1.particles.length = s.particles.length ∧
      ∀ (i : Nat) (p : ClothParticle K), s.particles[i]? = some p →
        ∃ q, s1.particles[i]? = some q ∧ q.pinned = p.pinned ∧
          (p.pinned = false → q.force = ⟨0, 0, 0⟩) ∧
          (p.pinned = true → q.force = (s.applyForcesStep L p).force ∧
            (¬ s.wind.length L > 0 → q.force = p.force.add (s.gravity.scale p.mass)) ∧
            (s.wind.length L > 0 → q.force =
              (p.force.add (s.gravity.scale p.mass)).add ((s.wind.scale p.mass).scale (1 / 10)))) := by
  obtain ⟨ps2, ps4, ps5, h2, h4, h5, hu, hlen, _⟩ := update_chain L s dt hwf hp
  have hA := handleCollisions_pinnedForce L _ _ h2
  have hC1 := repeatM_option_preserves (ClothSimulation.satisfyConstraints L)
    (fun (a b : ClothSimulation K) =>
      b.particles.map (fun p => (p.pinned, p.force)) =
        a.particles.map (fun p => (p.pinned, p.force)))
    (fun _ => rfl) (fun _ _ _ h1 h2 => h2.trans h1)
    (fun b b1 h => satisfyConstraints_preserves (fun p => (p.pinned, p.force))
      (by intro p x; rfl) (by intro p x; rfl) L b b1 h) _ _ _ h4
  have hC2 := calculateNormals_preserves (fun p => (p.pinned, p.force))
    (by intro p x; rfl) L _ _ h5
  simp only [ClothSimulation.updateParticles, ClothSimulation.applyForces, List.map_map] at hA hC1 hC2
  have hview : ps5.map (fun p => (p.pinned, p.force)) =
      s.particles.map (fun p => forceAfterUpdate (pinnedForce (s.applyForcesStep L p))) := by
    rw [hC2, hC1]
    have e : ((fun p : ClothParticle K => (p.pinned, p.force)) ∘
        fun particle => particle.update (min dt s.timeStep)) = forceAfterUpdate ∘ pinnedForce :=
      funext fun p => update_force_view p _
    rw [e, ← List.map_map, hA, List.map_map]
    rfl
  refine ⟨_, hu, hlen, ?_⟩
  intro i p hpi
  have h1 : (ps5.map (fun p => (p.pinned, p.force)))[i]? =
      (s.particles.map
        (fun p => forceAfterUpdate (pinnedForce (s.applyForcesStep L p))))[i]? := by
    rw [hview]
  rw [List.getElem?_map, List.getElem?_map, hpi] at h1
  cases hq : ps5[i]? with
  | none => rw [hq] at h1; simp at h1
  | some q =>
    rw [hq] at h1
    simp only [Option.map_some', Option.some.injEq] at h1
    refine ⟨q, rfl, ?_⟩
    have hpin := applyForcesStep_pinned L s p
    by_cases hp1 : p.pinned = true
    · have hv : forceAfterUpdate (pinnedForce (s.applyForcesStep L p)) =
          (true, (s.applyForcesStep L p).force) := by
        simp [pinnedForce, forceAfterUpdate, hpin, hp1]
      rw [hv] at h1
      have hq1 : q.pinned = true := congrArg Prod.fst h1
      have hq2 : q.force = (s.applyForcesStep L p).force := congrArg Prod.snd h1
      refine ⟨hq1.trans hp1.symm, fun hc => ?_, fun _ => ⟨hq2, ?_, ?_⟩⟩
      · rw [hp1] at hc
        cases hc
      · intro hw
        rw [hq2]
        simp [ClothSimulation.applyForcesStep, hw, ClothParticle.addForce]
      · intro hw
        rw [hq2]
        simp [ClothSimulation.applyForcesStep, hw, ClothParticle.addForce]
    · have hpf : p.pinned = false := by simpa using hp1
      have hv : forceAfterUpdate (pinnedForce (s.applyForcesStep L p)) = (false, ⟨0, 0, 0⟩) := by
        simp [pinnedForce, forceAfterUpdate, hpin, hpf]
      rw [hv] at h1
      have hq1 : q.pinned = false := congrArg Prod.fst h1
      have hq2 : q.force = ⟨0, 0, 0⟩ := congrArg Prod.snd h1
      refine ⟨hq1.trans hpf.symm, fun _ => hq2, fun hc => ?_⟩
      rw [hpf] at hc
      cases hc

/-- C14 (witness): the amended statement on the running 1 × 1 cloth with a
pinned particle. -/
theorem C14_free_force_cleared_witness :
    WellFormed pinnedMovingState ∧ pinnedMovingState.paused = false ∧
    ∃ s1, pinnedMovingState.update ratLib (1 / 60) = some s1 ∧
      s1.particles.length = pinnedMovingState.particles.length ∧
      ∀ (i : Nat) (p : ClothParticle ℚ), pinnedMovingState.particles[i]? = some p →
        ∃ q, s1.particles[i]? = some q ∧ q.pinned = p.pinned ∧
          (p.pinned = false → q.force = ⟨0, 0, 0⟩) ∧
          (p.pinned = true → q.force = (pinnedMovingState.applyForcesStep ratLib p).force ∧
            (¬ pinnedMovingState.wind.length ratLib > 0 →
              q.force = p.force.add (pinnedMovingState.gravity.scale p.mass)) ∧
            (pinnedMovingState.wind.length ratLib > 0 → q.force =
              (p.force.add (pinnedMovingState.gravity.scale p.mass)).add
                ((pinnedMovingState.wind.scale p.mass).scale (1 / 10)))) :=
  ⟨wellFormed_pinnedMovingState, rfl,
    C14_free_force_cleared ratLib pinnedMovingState (1 / 60) wellFormed_pinnedMovingState rfl⟩

end FrameClaims

/-! ## The two collision modes on one colliding particle -/

section ModeClaims

variable {K : Type} [LinearOrderedField K]

theorem foldlM_append_some {α β : Type} (f : β → α → Option β) (l1 l2 : List α) (b r : β)
    (h : (l1 ++ l2).foldlM f b = some r) :
    ∃ b1, l1.foldlM f b = some b1 ∧ l2.foldlM f b1 = some r := by
  rw [List.foldlM_append] at h
  cases h1 : l1.foldlM f b with
  | none => simp [h1] at h
  | some b1 =>
    rw [h1] at h
    exact ⟨b1, rfl, h⟩

theorem processContacts_eq_foldlM (m : OGCContactModel K) (contacts : List (ContactInfo K))
    (dt : K) (ps : List (ClothParticle K)) :
    m.processContacts contacts dt ps =
      contacts.foldlM (fun acc contact => m.applyOGCForce contact dt acc) ps := by
  unfold OGCContactModel.processContacts
  split_ifs with he
  · rw [List.isEmpty_iff.mp he]
    rfl
  · rfl

theorem applyOGCForce_other (m : OGCContactModel K) (contact : ContactInfo K) (dt : K)
    (ps qs : List (ClothParticle K)) (i : Nat) (hne : contact.particle ≠ some i)
    (h : m.applyOGCForce contact dt ps = some qs) : qs[i]? = ps[i]? := by
  cases hc : contact.particle with
  | none =>
    simp only [OGCContactModel.applyOGCForce, hc, Option.some.injEq] at h
    rw [← h]
  | some j =>
    have hji : j ≠ i := by
      intro e
      apply hne
      rw [hc, e]
    cases hp : ps[j]? with
    | none => simp [OGCContactModel.applyOGCForce, hc, hp] at h
    | some p =>
      by_cases hpin : p.pinned = true
      · simp only [OGCContactModel.applyOGCForce, hc, hp, hpin, if_true, Option.some.injEq] at h
        rw [← h]
      · have hfree : p.pinned = false := by simpa using hpin
        obtain ⟨d, _, hq⟩ := applyOGCForce_free m contact dt ps j p hc hp hfree
        rw [hq] at h
        cases h
        exact List.getElem?_set_ne hji

theorem foldlM_applyOGCForce_other (m : OGCContactModel K) (dt : K) (i : Nat) :
    ∀ (cs : List (ContactInfo K)) (ps qs : List (ClothParticle K)),
      (∀ c ∈ cs, c.particle ≠ some i) →
      cs.foldlM (fun acc contact => m.applyOGCForce contact dt acc) ps = some qs →
      qs[i]? = ps[i]? := by
  intro cs
  induction cs with
  | nil =>
    intro ps qs _ h
    simp only [List.foldlM_nil] at h
    cases h
    rfl
  | cons c t ih =>
    intro ps qs hne h
    rw [List.foldlM_cons] at h
    cases hfa : m.applyOGCForce c dt ps with
    | none => simp [hfa] at h
    | some ps1 =>
      simp only [hfa, Option.bind_eq_bind, Option.some_bind] at h
      rw [ih ps1 qs (fun c1 hc1 => hne c1 (List.mem_cons_of_mem c hc1)) h]
      exact applyOGCForce_other m c dt ps ps1 i (hne c (List.mem_cons_self c t)) hfa

theorem gatherContacts_append (L : FloatLib K) (s : ClothSimulation K) :
    ∀ (l1 l2 : List (ClothParticle K)) (k : Nat),
      s.gatherContacts L k (l1 ++ l2) =
        s.gatherContacts L k l1 ++ s.gatherContacts L (k + l1.length) l2 := by
  intro l1
  induction l1 with
  | nil => intro l2 k; simp [ClothSimulation.gatherContacts]
  | cons p rest ih =>
    intro l2 k
    have e : k + 1 + rest.length = k + (rest.length + 1) := by omega
    show List.filterMap (s.contactOf L k p) s.cylinders ++ s.gatherContacts L (k + 1) (rest ++ l2) =
      (List.filterMap (s.contactOf L k p) s.cylinders ++ s.gatherContacts L (k + 1) rest) ++
        s.gatherContacts L (k + (rest.length + 1)) l2
    rw [ih, e, List.append_assoc]

theorem gatherContacts_particle (L : FloatLib K) (s : ClothSimulation K) :
    ∀ (ps : List (ClothParticle K)) (k : Nat), ∀ c ∈ s.gatherContacts L k ps,
      ∃ j, c.particle = some j ∧ k ≤ j ∧ j < k + ps.length := by
  intro ps
  induction ps with
  | nil => intro k c hc; simp [ClothSimulation.gatherContacts] at hc
  | cons p rest ih =>
    intro k c hc
    simp only [ClothSimulation.gatherContacts, List.mem_append, List.mem_filterMap] at hc
    rcases hc with ⟨cyl, _, hcyl⟩ | hc
    · simp only [ClothSimulation.contactOf] at hcyl
      split_ifs at hcyl
      cases hcyl
      exact ⟨k, rfl, le_refl k, by simp⟩
    · obtain ⟨j, hj, h1, h2⟩ := ih (k + 1) c hc
      refine ⟨j, hj, by omega, ?_⟩
      simp only [List.length_cons]
      omega

theorem basicFold_noHit (L : FloatLib K) (q : ClothParticle K) :
    ∀ cyls : List (CylinderCollider K),
      (∀ c ∈ cyls, (c.checkCollision L q ⟨0, 0, 0⟩ ⟨0, 0, 0⟩).hit = false) →
      cyls.foldl (ClothSimulation.basicCollisionStep L) q = q := by
  intro cyls
  induction cyls with
  | nil => intro _; rfl
  | cons c t ih =>
    intro h
    have hc := h c (List.mem_cons_self c t)
    have e : ClothSimulation.basicCollisionStep L q c = q := by
      simp [ClothSimulation.basicCollisionStep, hc]
    rw [List.foldl_cons, e]
    exact ih (fun c1 hc1 => h c1 (List.mem_cons_of_mem c hc1))

theorem contactOf_noHit (L : FloatLib K) (s : ClothSimulation K) (i : Nat) (p : ClothParticle K)
    (cyls : List (CylinderCollider K))
    (h : ∀ c ∈ cyls, (c.checkCollision L p ⟨0, 0, 0⟩ ⟨0, 0, 0⟩).hit = false) :
    cyls.filterMap (s.contactOf L i p) = [] := by
  rw [List.filterMap_eq_nil_iff]
  intro c hc
  simp [ClothSimulation.contactOf, h c hc]

theorem checkCollision_of_hit (L : FloatLib K) (c : CylinderCollider K) (p : ClothParticle K)
    (cp0 cn0 : Vec3 K) (h : (c.checkCollision L p cp0 cn0).hit = true) :
    -c.height * (1 / 2) ≤ p.position.y - c.center.y ∧
    p.position.y - c.center.y ≤ c.height * (1 / 2) ∧
    L.sqrt ((p.position.x - c.center.x) * (p.position.x - c.center.x) +
      (p.position.z - c.center.z) * (p.position.z - c.center.z)) < c.radius := by
  unfold CylinderCollider.checkCollision at h
  simp only [Vec3.sub] at h
  by_cases hb : p.position.y - c.center.y < -c.height * (1 / 2) ∨
      p.position.y - c.center.y > c.height * (1 / 2)
  · rw [if_pos hb] at h
    simp at h
  · rw [if_neg hb] at h
    by_cases hr : L.sqrt ((p.position.x - c.center.x) * (p.position.x - c.center.x) +
        (p.position.z - c.center.z) * (p.position.z - c.center.z)) < c.radius
    · exact ⟨not_lt.mp (fun h1 => hb (Or.inl h1)), not_lt.mp (fun h1 => hb (Or.inr h1)), hr⟩
    · rw [if_neg hr] at h
      simp at h

theorem basicCollisionStep_position (L : FloatLib K) (p : ClothParticle K)
    (c : CylinderCollider K) (hhit : (c.checkCollision L p ⟨0, 0, 0⟩ ⟨0, 0, 0⟩).hit = true) :
    (ClothSimulation.basicCollisionStep L p c).position =
      p.position.add ((hitNormal L c p).scale ((c.radius - radialDistance L c p) * (8 / 10))) := by
  simp only [ClothSimulation.basicCollisionStep, hhit, if_true, hitNormal, radialDistance]
  split_ifs <;> rfl

theorem split_at_index (ps : List (ClothParticle K)) (i : Nat) (p : ClothParticle K)
    (hp : ps[i]? = some p) :
    ps = ps.take i ++ p :: ps.drop (i + 1) ∧ (ps.take i).length = i := by
  obtain ⟨hlt, hget⟩ := List.getElem?_eq_some.mp hp
  constructor
  · rw [← hget, ← List.drop_eq_getElem_cons hlt, List.take_append_drop]
  · rw [List.length_take]
    exact min_eq_left hlt.le

/-- The collision phase in both modes on a state in which the free particle
number `i` is hit by the collider `c` and by no other collider of the list:
both modes return a state; in OGC mode the particle moves by
`normal * (depth * 0.8)` if the recorded depth is positive, in basic mode it
moves by `normal * ((radius - radialDist) * 0.8)`. -/
theorem handleCollisions_single_hit (L : FloatLib K) (s : ClothSimulation K) (i : Nat)
    (p : ClothParticle K) (c : CylinderCollider K) (pre post : List (CylinderCollider K))
    (hcyl : s.cylinders = pre ++ c :: post) (hp : s.particles[i]? = some p)
    (hfree : p.pinned = false)
    (hhit : (c.checkCollision L p ⟨0, 0, 0⟩ ⟨0, 0, 0⟩).hit = true)
    (hpre : ∀ c1 ∈ pre, (c1.checkCollision L p ⟨0, 0, 0⟩ ⟨0, 0, 0⟩).hit = false)
    (hpost : ∀ c1 ∈ post, (c1.checkCollision L p ⟨0, 0, 0⟩ ⟨0, 0, 0⟩).hit = false)
    (hpost2 : ∀ c1 ∈ post, (c1.checkCollision L (ClothSimulation.basicCollisionStep L p c)
      ⟨0, 0, 0⟩ ⟨0, 0, 0⟩).hit = false) :
    ∃ sO sB qO qB,
      (s.setUseOGC true).handleCollisions L = some sO ∧
      (s.setUseOGC false).handleCollisions L = some sB ∧
      sO.particles[i]? = some qO ∧ sB.particles[i]? = some qB ∧
      qO.position =
        (if ogcDepth L c p > 0 then
          p.position.add ((hitNormal L c p).scale (ogcDepth L c p * (8 / 10)))
         else p.position) ∧
      qB.position =
        p.position.add ((hitNormal L c p).scale ((c.radius - radialDistance L c p) * (8 / 10))) := by
  have hne : s.cylinders.isEmpty = false := by simp [hcyl]
  obtain ⟨hsplit, hlen⟩ := split_at_index s.particles i p hp
  -- the contact list of the OGC branch
  have hct : ∃ contact : ContactInfo K, contact.particle = some i ∧
      contact.contactNormal = hitNormal L c p ∧ contact.penetrationDepth = ogcDepth L c p ∧
      ClothSimulation.gatherContacts L (s.setUseOGC true) 0 s.particles =
        ClothSimulation.gatherContacts L (s.setUseOGC true) 0 (s.particles.take i) ++
          (contact :: ClothSimulation.gatherContacts L (s.setUseOGC true) (i + 1)
            (s.particles.drop (i + 1))) := by
    refine ⟨{ particle := some i
              contactPoint := (c.checkCollision L p ⟨0, 0, 0⟩ ⟨0, 0, 0⟩).contactPoint
              contactNormal := (c.checkCollision L p ⟨0, 0, 0⟩ ⟨0, 0, 0⟩).contactNormal
              penetrationDepth :=
                ((c.checkCollision L p ⟨0, 0, 0⟩ ⟨0, 0, 0⟩).contactPoint.sub p.position).length L
              contactRadius := s.ogcModel.contactRadius }, rfl, rfl, rfl, ?_⟩
    conv_lhs => rw [hsplit]
    rw [gatherContacts_append, hlen, Nat.zero_add]
    congr 1
    show List.filterMap (ClothSimulation.contactOf L (s.setUseOGC true) i p) s.cylinders ++ _ = _
    rw [hcyl, List.filterMap_append, contactOf_noHit L _ i p pre hpre, List.filterMap_cons]
    have hc : ClothSimulation.contactOf L (s.setUseOGC true) i p c =
        some { particle := some i
               contactPoint := (c.checkCollision L p ⟨0, 0, 0⟩ ⟨0, 0, 0⟩).contactPoint
               contactNormal := (c.checkCollision L p ⟨0, 0, 0⟩ ⟨0, 0, 0⟩).contactNormal
               penetrationDepth :=
                 ((c.checkCollision L p ⟨0, 0, 0⟩ ⟨0, 0, 0⟩).contactPoint.sub p.position).length L
               contactRadius := s.ogcModel.contactRadius } := by
      simp only [ClothSimulation.contactOf, hhit, if_true]
      rfl
    rw [hc, contactOf_noHit L _ i p post hpost]
    rfl
  obtain ⟨contact, hcp, hcn, hcd, hcontacts⟩ := hct
  obtain ⟨psO, hpc, _⟩ := processContacts_keepsPinned s.ogcModel
    (ClothSimulation.gatherContacts L (s.setUseOGC true) 0 s.particles) s.timeStep s.particles (by
      intro c1 hc1 j hj
      simpa using gatherContacts_valid L (s.setUseOGC true) s.particles 0 c1 hc1 j hj)
  have hO : (s.setUseOGC true).handleCollisions L =
      some { s.setUseOGC true with particles := psO } := by
    rw [ClothSimulation.handleCollisions, if_neg (by
      show ¬ s.cylinders.isEmpty = true
      rw [hne]
      simp), if_pos (show (s.setUseOGC true).useOGC = true from rfl)]
    have hne2 : (ClothSimulation.gatherContacts L (s.setUseOGC true) 0
        (s.setUseOGC true).particles).isEmpty = false := by
      show (ClothSimulation.gatherContacts L (s.setUseOGC true) 0 s.particles).isEmpty = false
      rw [hcontacts]
      simp
    simp only [hne2, Bool.false_eq_true, if_false]
    show (match s.ogcModel.processContacts
      (ClothSimulation.gatherContacts L (s.setUseOGC true) 0 s.particles) s.timeStep s.particles with
      | none => none
      | some ps => some { s.setUseOGC true with particles := ps }) = _
    rw [hpc]
  rw [processContacts_eq_foldlM, hcontacts] at hpc
  obtain ⟨psA, hA, hrest⟩ := foldlM_append_some _ _ _ _ _ hpc
  rw [List.foldlM_cons] at hrest
  obtain ⟨psB, hB, hC⟩ := Option.bind_eq_some.mp hrest
  have hAi : psA[i]? = some p := by
    rw [foldlM_applyOGCForce_other s.ogcModel s.timeStep i _ _ _ (by
      intro c1 hc1
      obtain ⟨j, hj, _, hj2⟩ := gatherContacts_particle L _ _ 0 c1 hc1
      rw [hlen] at hj2
      rw [hj]
      intro e
      cases e
      omega) hA]
    exact hp
  obtain ⟨d, _, hfreeStep⟩ := applyOGCForce_free s.ogcModel contact s.timeStep psA i p hcp hAi
    hfree
  rw [hfreeStep] at hB
  simp only [Option.some.injEq] at hB
  have hBi : psB[i]? = some
      { p with
        force := p.force.add ((s.ogcModel.calculateContactForce contact).add d)
        position :=
          if contact.penetrationDepth > 0 then
            p.position.add (contact.contactNormal.scale (contact.penetrationDepth * (8 / 10)))
          else p.position } := by
    rw [← hB]
    exact getElem?_set_self_of_some psA i p _ hAi
  have hOi : psO[i]? = psB[i]? :=
    foldlM_applyOGCForce_other s.ogcModel s.timeStep i _ _ _ (by
      intro c1 hc1
      obtain ⟨j, hj, hj1, _⟩ := gatherContacts_particle L _ _ (i + 1) c1 hc1
      rw [hj]
      intro e
      cases e
      omega) hC
  -- the basic branch
  have hBasic : (s.setUseOGC false).handleCollisions L =
      some { s.setUseOGC false with
        particles := s.particles.map fun particle =>
          if particle.pinned then particle
          else s.cylinders.foldl (ClothSimulation.basicCollisionStep L) particle } := by
    rw [ClothSimulation.handleCollisions, if_neg (by
      show ¬ s.cylinders.isEmpty = true
      rw [hne]
      simp), if_neg (by
      show ¬ false = true
      simp)]
    rfl
  have hfold : s.cylinders.foldl (ClothSimulation.basicCollisionStep L) p =
      ClothSimulation.basicCollisionStep L p c := by
    rw [hcyl, List.foldl_append, basicFold_noHit L p pre hpre, List.foldl_cons,
      basicFold_noHit L _ post hpost2]
  refine ⟨_, _,
    { p with
      force := p.force.add ((s.ogcModel.calculateContactForce contact).add d)
      position :=
        if contact.penetrationDepth > 0 then
          p.position.add (contact.contactNormal.scale (contact.penetrationDepth * (8 / 10)))
        else p.position },
    ClothSimulation.basicCollisionStep L p c, hO, hBasic, ?_, ?_, ?_,
    basicCollisionStep_position L p c hhit⟩
  · show psO[i]? = _
    rw [hOi]
    exact hBi
  · show (s.particles.map _)[i]? = _
    rw [List.getElem?_map, hp]
    simp only [Option.map_some', hfree, Bool.false_eq_true, if_false, hfold]
  · show (if contact.penetrationDepth > 0 then
        p.position.add (contact.contactNormal.scale (contact.penetrationDepth * (8 / 10)))
      else p.position) = _
    rw [hcn, hcd]

theorem hitNormal_eq (L : FloatLib K) (c : CylinderCollider K) (p : ClothParticle K) :
    hitNormal L c p = (c.checkCollision L p ⟨0, 0, 0⟩ ⟨0, 0, 0⟩).contactNormal := rfl

/-- Away from the axis (radial distance at least `1e-6`) and with an exact
square root at the two arguments, the depth recorded by the OGC branch is the
penetration `radius - radialDist` of the basic branch, and it is positive. -/
theorem ogcDepth_eq (L : FloatLib K) (c : CylinderCollider K) (p : ClothParticle K)
    (hhit : (c.checkCollision L p ⟨0, 0, 0⟩ ⟨0, 0, 0⟩).hit = true)
    (hd : IsSqrtAt L ((p.position.sub c.center).x * (p.position.sub c.center).x +
      (p.position.sub c.center).z * (p.position.sub c.center).z))
    (hnd : 1 / 1000000 ≤ radialDistance L c p)
    (hdepth : IsSqrtAt L (Vec3.lengthSquared
      ((c.checkCollision L p ⟨0, 0, 0⟩ ⟨0, 0, 0⟩).contactPoint.sub p.position))) :
    ogcDepth L c p = c.radius - radialDistance L c p ∧ 0 < ogcDepth L c p := by
  obtain ⟨hlo, hhi, hlt⟩ := checkCollision_of_hit L c p _ _ hhit
  have hck := checkCollision_hit L c p ⟨0, 0, 0⟩ ⟨0, 0, 0⟩ _ hlo hhi rfl hlt
  have hrd : radialDistance L c p =
      L.sqrt ((p.position.x - c.center.x) * (p.position.x - c.center.x) +
        (p.position.z - c.center.z) * (p.position.z - c.center.z)) := rfl
  have hdd : radialDistance L c p * radialDistance L c p =
      (p.position.x - c.center.x) * (p.position.x - c.center.x) +
        (p.position.z - c.center.z) * (p.position.z - c.center.z) := hd.2
  have hpos : 0 < radialDistance L c p :=
    lt_of_lt_of_le (by norm_num) hnd
  have hne : radialDistance L c p ≠ 0 := hpos.ne'
  have hlt2 : radialDistance L c p < c.radius := hlt
  have hk : (c.radius - radialDistance L c p) / radialDistance L c p * radialDistance L c p =
      c.radius - radialDistance L c p := div_mul_cancel₀ _ hne
  have hval : ogcDepth L c p = c.radius - radialDistance L c p := by
    unfold ogcDepth Vec3.length
    apply hdepth.eq_of_sq (sub_nonneg.mpr hlt2.le)
    rw [hck, ← hrd, if_neg (not_lt.mpr hnd)]
    simp only [Vec3.sub, Vec3.lengthSquared]
    have e1 : c.center.x + (p.position.x - c.center.x) / radialDistance L c p * c.radius -
        p.position.x =
        (p.position.x - c.center.x) *
          ((c.radius - radialDistance L c p) / radialDistance L c p) := by
      field_simp
      ring
    have e2 : c.center.y + (p.position.y - c.center.y) - p.position.y = 0 := by ring
    have e3 : c.center.z + (p.position.z - c.center.z) / radialDistance L c p * c.radius -
        p.position.z =
        (p.position.z - c.center.z) *
          ((c.radius - radialDistance L c p) / radialDistance L c p) := by
      field_simp
      ring
    rw [e1, e2, e3]
    linear_combination
      (-(((c.radius - radialDistance L c p) / radialDistance L c p) *
        ((c.radius - radialDistance L c p) / radialDistance L c p))) * hdd +
      ((c.radius - radialDistance L c p) / radialDistance L c p * radialDistance L c p +
        (c.radius - radialDistance L c p)) * hk
  refine ⟨hval, ?_⟩
  rw [hval]
  exact sub_pos.mpr hlt2

/-- C16 (counterexample): one free particle at `(-5e-7, 0, 0)` and the collider
of radius 6 centred at the origin.  The particle is `5e-7` away from the axis,
so `checkCollision` reports the default normal `(1, 0, 0)` and the contact point
`(6, 0, 0)`.  The OGC branch records the depth `|contactPoint - position| =
6 + 5e-7`, the basic branch uses `radius - radialDist = 6 - 5e-7`, and the two
modes leave the particle at different positions: `x = 4.7999999` in OGC mode,
`x = 4.7999991` in basic mode. -/
theorem C16_depths_differ_near_axis :
    offAxisState.particles = [particleOffAxis] ∧ offAxisState.cylinders = [cylinder6] ∧
    particleOffAxis.pinned = false ∧
    (cylinder6.checkCollision ratLib particleOffAxis ⟨0, 0, 0⟩ ⟨0, 0, 0⟩).hit = true ∧
    radialDistance ratLib cylinder6 particleOffAxis = 1 / 2000000 ∧
    ogcDepth ratLib cylinder6 particleOffAxis = 6 + 1 / 2000000 ∧
    cylinder6.radius - radialDistance ratLib cylinder6 particleOffAxis = 6 - 1 / 2000000 ∧
    ∃ sO sB qO qB,
      (offAxisState.setUseOGC true).handleCollisions ratLib = some sO ∧
      (offAxisState.setUseOGC false).handleCollisions ratLib = some sB ∧
      sO.particles[0]? = some qO ∧ sB.particles[0]? = some qB ∧
      qO.position = ⟨47999999 / 10000000, 0, 0⟩ ∧
      qB.position = ⟨47999991 / 10000000, 0, 0⟩ ∧
      qO.position ≠ qB.position := by
  have hsq : ratLib.sqrt ((particleOffAxis.position.x - cylinder6.center.x) *
      (particleOffAxis.position.x - cylinder6.center.x) +
      (particleOffAxis.position.z - cylinder6.center.z) *
      (particleOffAxis.position.z - cylinder6.center.z)) = 1 / 2000000 := by
    have e : (particleOffAxis.position.x - cylinder6.center.x) *
      (particleOffAxis.position.x - cylinder6.center.x) +
      (particleOffAxis.position.z - cylinder6.center.z) *
      (particleOffAxis.position.z - cylinder6.center.z) =
      (1 / 2000000 : ℚ) * (1 / 2000000) := by
      norm_num [particleOffAxis, cylinder6, ClothParticle.new]
    rw [e]
    exact ratSqrt_mul_self _ (by norm_num)
  have hck := checkCollision_hit ratLib cylinder6 particleOffAxis ⟨0, 0, 0⟩ ⟨0, 0, 0⟩
    (1 / 2000000) (by norm_num [particleOffAxis, cylinder6, ClothParticle.new])
    (by norm_num [particleOffAxis, cylinder6, ClothParticle.new]) hsq
    (by norm_num [cylinder6])
  have hhit : (cylinder6.checkCollision ratLib particleOffAxis ⟨0, 0, 0⟩ ⟨0, 0, 0⟩).hit = true := by
    rw [hck]
  have hrad : radialDistance ratLib cylinder6 particleOffAxis = 1 / 2000000 := by
    unfold radialDistance
    simp only [Vec3.sub]
    exact hsq
  have hn : hitNormal ratLib cylinder6 particleOffAxis = ⟨1, 0, 0⟩ := by
    rw [hitNormal_eq, hck]
    norm_num
  have hdep : ogcDepth ratLib cylinder6 particleOffAxis = 6 + 1 / 2000000 := by
    unfold ogcDepth Vec3.length
    rw [hck]
    have e : Vec3.lengthSquared
        ((if (1 / 2000000 : ℚ) < 1 / 1000000 then
            (⟨cylinder6.center.x + 1 * cylinder6.radius,
              cylinder6.center.y + (particleOffAxis.position.y - cylinder6.center.y),
              cylinder6.center.z + 0 * cylinder6.radius⟩ : Vec3 ℚ)
          else
            ⟨cylinder6.center.x +
                (particleOffAxis.position.x - cylinder6.center.x) / (1 / 2000000) *
                  cylinder6.radius,
              cylinder6.center.y + (particleOffAxis.position.y - cylinder6.center.y),
              cylinder6.center.z +
                (particleOffAxis.position.z - cylinder6.center.z) / (1 / 2000000) *
                  cylinder6.radius⟩).sub particleOffAxis.position) =
        (6 + 1 / 2000000 : ℚ) * (6 + 1 / 2000000) := by
      norm_num [particleOffAxis, cylinder6, ClothParticle.new, Vec3.sub, Vec3.lengthSquared]
    show ratSqrt _ = _
    rw [e]
    exact ratSqrt_mul_self _ (by norm_num)
  obtain ⟨sO, sB, qO, qB, h1, h2, h3, h4, h5, h6⟩ :=
    handleCollisions_single_hit ratLib offAxisState 0 particleOffAxis cylinder6 [] [] rfl rfl rfl
      hhit (by simp) (by simp) (by simp)
  rw [hdep, hn] at h5
  rw [hrad, hn] at h6
  have h5b : qO.position = ⟨47999999 / 10000000, 0, 0⟩ := by
    rw [h5]
    norm_num [particleOffAxis, ClothParticle.new, Vec3.add, Vec3.scale]
  have h6b : qB.position = ⟨47999991 / 10000000, 0, 0⟩ := by
    rw [h6]
    norm_num [particleOffAxis, cylinder6, ClothParticle.new, Vec3.add, Vec3.scale]
  refine ⟨rfl, rfl, rfl, hhit, hrad, hdep, ?_, sO, sB, qO, qB, h1, h2, h3, h4, h5b, h6b, ?_⟩
  · rw [hrad]
    norm_num [cylinder6]
  · rw [h5b, h6b]
    norm_num

/-- C16 (amended): let the free particle number `i` be hit by the collider `c`
of the state and by no other collider of the list (neither where it is nor,
for the colliders after `c`, where the basic response puts it), at a radial
distance of at least `1e-6` from the axis of `c`, the library square root being
exact at the squared radial distance and at the squared distance to the contact
point.  Then `handleCollisions` returns a state in OGC mode and in basic mode,
the particle has the same position in both, namely the old position plus
`normal * ((radius - radialDist) * 0.8)`, and the depth recorded by the OGC
branch is `radius - radialDist`. -/
theorem C16_position_correction_agrees (L : FloatLib K) (s : ClothSimulation K) (i : Nat)
    (p : ClothParticle K) (c : CylinderCollider K) (pre post : List (CylinderCollider K))
    (hcyl : s.cylinders = pre ++ c :: post) (hp : s.particles[i]? = some p)
    (hfree : p.pinned = false)
    (hhit : (c.checkCollision L p ⟨0, 0, 0⟩ ⟨0, 0, 0⟩).hit = true)
    (hpre : ∀ c1 ∈ pre, (c1.checkCollision L p ⟨0, 0, 0⟩ ⟨0, 0, 0⟩).hit = false)
    (hpost : ∀ c1 ∈ post, (c1.checkCollision L p ⟨0, 0, 0⟩ ⟨0, 0, 0⟩).hit = false)
    (hpost2 : ∀ c1 ∈ post, (c1.checkCollision L (ClothSimulation.basicCollisionStep L p c)
      ⟨0, 0, 0⟩ ⟨0, 0, 0⟩).hit = false)
    (hd : IsSqrtAt L ((p.position.sub c.center).x * (p.position.sub c.center).x +
      (p.position.sub c.center).z * (p.position.sub c.center).z))
    (hnd : 1 / 1000000 ≤ radialDistance L c p)
    (hdepth : IsSqrtAt L (Vec3.lengthSquared
      ((c.checkCollision L p ⟨0, 0, 0⟩ ⟨0, 0, 0⟩).contactPoint.sub p.position))) :
    ∃ sO sB qO qB,
      (s.setUseOGC true).handleCollisions L = some sO ∧
      (s.setUseOGC false).handleCollisions L = some sB ∧
      sO.particles[i]? = some qO ∧ sB.particles[i]? = some qB ∧
      qO.position = qB.position ∧
      qB.position =
        p.position.add ((hitNormal L c p).scale ((c.radius - radialDistance L c p) * (8 / 10))) ∧
      ogcDepth L c p = c.radius - radialDistance L c p := by
  obtain ⟨sO, sB, qO, qB, h1, h2, h3, h4, h5, h6⟩ :=
    handleCollisions_single_hit L s i p c pre post hcyl hp hfree hhit hpre hpost hpost2
  obtain ⟨hval, hpos⟩ := ogcDepth_eq L c p hhit hd hnd hdepth
  refine ⟨sO, sB, qO, qB, h1, h2, h3, h4, ?_, h6, hval⟩
  rw [h5, h6, if_pos hpos, hval]

/-- C16 (witness): the particle at `(5, 1/2, 0)` among three colliders, of
which only the one of radius 6 centred at the origin contains it; the radial
distance is 5 and the depth is 1. -/
theorem C16_position_correction_agrees_witness :
    crowdedState.cylinders = [⟨⟨1, 0, 0⟩, 1, 2⟩] ++ cylinder6 :: [⟨⟨0, 0, 3⟩, 1 / 2, 1⟩] ∧
    crowdedState.particles[0]? = some incomingParticle ∧
    incomingParticle.pinned = false ∧
    (cylinder6.checkCollision ratLib incomingParticle ⟨0, 0, 0⟩ ⟨0, 0, 0⟩).hit = true ∧
    (1 / 1000000 : ℚ) ≤ radialDistance ratLib cylinder6 incomingParticle ∧
    ∃ sO sB qO qB,
      (crowdedState.setUseOGC true).handleCollisions ratLib = some sO ∧
      (crowdedState.setUseOGC false).handleCollisions ratLib = some sB ∧
      sO.particles[0]? = some qO ∧ sB.particles[0]? = some qB ∧
      qO.position = qB.position ∧
      qB.position =
        incomingParticle.position.add ((hitNormal ratLib cylinder6 incomingParticle).scale
          ((cylinder6.radius - radialDistance ratLib cylinder6 incomingParticle) * (8 / 10))) ∧
      ogcDepth ratLib cylinder6 incomingParticle =
        cylinder6.radius - radialDistance ratLib cylinder6 incomingParticle :=
  have hhit : (cylinder6.checkCollision ratLib incomingParticle ⟨0, 0, 0⟩ ⟨0, 0, 0⟩).hit = true := by
    decide!
  have hnd : (1 / 1000000 : ℚ) ≤ radialDistance ratLib cylinder6 incomingParticle := by
    decide!
  have hd : IsSqrtAt ratLib
      ((incomingParticle.position.sub cylinder6.center).x *
          (incomingParticle.position.sub cylinder6.center).x +
        (incomingParticle.position.sub cylinder6.center).z *
          (incomingParticle.position.sub cylinder6.center).z) := by
    have e : (incomingParticle.position.sub cylinder6.center).x *
          (incomingParticle.position.sub cylinder6.center).x +
        (incomingParticle.position.sub cylinder6.center).z *
          (incomingParticle.position.sub cylinder6.center).z = (5 : ℚ) * 5 := by
      decide!
    rw [e]
    exact isSqrtAt_ratLib_sq 5 (by norm_num)
  have hdepth : IsSqrtAt ratLib (Vec3.lengthSquared
      ((cylinder6.checkCollision ratLib incomingParticle ⟨0, 0, 0⟩ ⟨0, 0, 0⟩).contactPoint.sub
        incomingParticle.position)) := by
    have e : Vec3.lengthSquared
        ((cylinder6.checkCollision ratLib incomingParticle ⟨0, 0, 0⟩ ⟨0, 0, 0⟩).contactPoint.sub
          incomingParticle.position) = (1 : ℚ) * 1 := by
      decide!
    rw [e]
    exact isSqrtAt_ratLib_sq 1 (by norm_num)
  have hpre : ∀ c1 ∈ [(⟨⟨1, 0, 0⟩, 1, 2⟩ : CylinderCollider ℚ)],
      (c1.checkCollision ratLib incomingParticle ⟨0, 0, 0⟩ ⟨0, 0, 0⟩).hit = false := by
    decide!
  have hpost : ∀ c1 ∈ [(⟨⟨0, 0, 3⟩, 1 / 2, 1⟩ : CylinderCollider ℚ)],
      (c1.checkCollision ratLib incomingParticle ⟨0, 0, 0⟩ ⟨0, 0, 0⟩).hit = false := by
    decide!
  have hpost2 : ∀ c1 ∈ [(⟨⟨0, 0, 3⟩, 1 / 2, 1⟩ : CylinderCollider ℚ)],
      (c1.checkCollision ratLib
        (ClothSimulation.basicCollisionStep ratLib incomingParticle cylinder6)
        ⟨0, 0, 0⟩ ⟨0, 0, 0⟩).hit = false := by
    decide!
  ⟨rfl, rfl, rfl, hhit, hnd,
    C16_position_correction_agrees ratLib crowdedState 0 incomingParticle cylinder6
      [⟨⟨1, 0, 0⟩, 1, 2⟩] [⟨⟨0, 0, 3⟩, 1 / 2, 1⟩] rfl rfl rfl hhit hpre hpost hpost2 hd hnd
      hdepth⟩

end ModeClaims

/-! ## Convergence of one constraint -/

section ConstraintClaims

variable {K : Type} [LinearOrderedField K]

theorem Vec3.lengthSquared_nonneg (v : Vec3 K) : 0 ≤ Vec3.lengthSquared v := by
  unfold Vec3.lengthSquared
  have h1 := mul_self_nonneg v.x
  have h2 := mul_self_nonneg v.y
  have h3 := mul_self_nonneg v.z
  linarith

theorem getElem?_updateAt_self (ps : List (ClothParticle K)) (i : Nat)
    (f : ClothParticle K → ClothParticle K) (p : ClothParticle K) (hp : ps[i]? = some p) :
    (updateAt ps i f)[i]? = some (f p) := by
  rw [getElem?_updateAt, if_pos rfl, hp]
  rfl

theorem getElem?_updateAt_ne (ps : List (ClothParticle K)) (i j : Nat)
    (f : ClothParticle K → ClothParticle K) (hij : i ≠ j) :
    (updateAt ps i f)[j]? = ps[j]? := by
  rw [getElem?_updateAt, if_neg hij]

theorem repeatM_succ_last {σ : Type} (step : σ → Option σ) :
    ∀ (n : Nat) (s : σ), repeatM step (n + 1) s = (repeatM step n s).bind step := by
  intro n
  induction n with
  | zero =>
    intro s
    simp only [repeatM, Option.some_bind]
    cases step s <;> rfl
  | succ n ih =>
    intro s
    show (step s).bind (repeatM step (n + 1)) = ((step s).bind (repeatM step n)).bind step
    cases hs : step s with
    | none => rfl
    | some s1 =>
      simp only [Option.some_bind]
      exact ih s1

/-- With an exact square root: if the new offset between two points is the old
offset scaled by `T / len`, where `len > 0` is the old distance and `T ≥ 0`,
then the new distance is `T`. -/
theorem length_of_scaled (L : FloatLib K) (hs : ∀ x : K, 0 ≤ x → IsSqrtAt L x)
    (delta delta1 : Vec3 K) (len T : K) (hlen : delta.length L = len) (hpos : 0 < len)
    (hT : 0 ≤ T) (h : delta1 = delta.scale (T / len)) : delta1.length L = T := by
  have hl : len * len = Vec3.lengthSquared delta := by
    rw [← hlen]
    exact (hs _ (Vec3.lengthSquared_nonneg delta)).2
  have hk : T / len * len = T := div_mul_cancel₀ _ hpos.ne'
  show L.sqrt (Vec3.lengthSquared delta1) = T
  apply (hs _ (Vec3.lengthSquared_nonneg delta1)).eq_of_sq hT
  rw [h]
  simp only [Vec3.scale, Vec3.lengthSquared] at hl ⊢
  linear_combination (-(T / len) * (T / len)) * hl + (T / len * len + T) * hk

/-- The two ends of a constraint after a pass of `satisfy()` that is not
skipped: the pass returns a store in which each free end has moved by the
correction vector (towards the other end when the link is too long) and each
pinned end is where it was. -/
theorem satisfy_ends (L : FloatLib K) (c : ClothConstraint K) (ps : List (ClothParticle K))
    (i j : Nat) (a b : ClothParticle K) (h1 : c.particle1 = some i) (h2 : c.particle2 = some j)
    (ha : ps[i]? = some a) (hb : ps[j]? = some b) (hij : i ≠ j)
    (hlen : ¬ (b.position.sub a.position).length L < 1 / 1000000) :
    ∃ ps1, c.satisfy L ps = some ps1 ∧ ∃ a1 b1, ps1[i]? = some a1 ∧ ps1[j]? = some b1 ∧
      a1.pinned = a.pinned ∧ b1.pinned = b.pinned ∧
      a1.position = (if a.pinned then a.position else a.position.add
        ((((b.position.sub a.position).scale
          (((b.position.sub a.position).length L - c.restLength) /
            (b.position.sub a.position).length L)).scale (1 / 2)).scale c.stiffness)) ∧
      b1.position = (if b.pinned then b.position else b.position.sub
        ((((b.position.sub a.position).scale
          (((b.position.sub a.position).length L - c.restLength) /
            (b.position.sub a.position).length L)).scale (1 / 2)).scale c.stiffness)) := by
  have hji : j ≠ i := fun e => hij e.symm
  simp only [ClothConstraint.satisfy, h1, h2, ha, hb, hlen, if_false]
  cases hap : a.pinned <;> cases hbp : b.pinned <;>
    simp only [Bool.false_eq_true, if_false, if_true] <;>
    refine ⟨_, rfl, ?_⟩ <;>
    simp only [getElem?_updateAt, hij, hji, if_true, if_false, eq_self_iff_true, ha, hb,
      Option.map_some'] <;>
    exact ⟨_, _, rfl, rfl, hap, hbp, rfl, rfl⟩

/-- One pass of `satisfy()` on a constraint with rest length `r ≥ 0` and
stiffness `0.8`, with an exact square root: the pass returns a store, both ends
are still there with their pinned flags, and the new distance `len1` between
them compares with the old one `len` as stated. -/
theorem satisfy_pass (L : FloatLib K) (hs : ∀ x : K, 0 ≤ x → IsSqrtAt L x)
    (c : ClothConstraint K) (ps : List (ClothParticle K)) (i j : Nat) (a b : ClothParticle K)
    (h1 : c.particle1 = some i) (h2 : c.particle2 = some j)
    (ha : ps[i]? = some a) (hb : ps[j]? = some b)
    (hr : 0 ≤ c.restLength) (hst : c.stiffness = 8 / 10) :
    ∃ ps1 a1 b1, c.satisfy L ps = some ps1 ∧ ps1[i]? = some a1 ∧ ps1[j]? = some b1 ∧
      a1.pinned = a.pinned ∧ b1.pinned = b.pinned ∧
      ((b.position.sub a.position).length L < 1 / 1000000 →
        (b1.position.sub a1.position).length L = (b.position.sub a.position).length L) ∧
      (a.pinned = true → b.pinned = true →
        (b1.position.sub a1.position).length L = (b.position.sub a.position).length L) ∧
      (¬ (b.position.sub a.position).length L < 1 / 1000000 →
        a.pinned = false → b.pinned = false →
        (b1.position.sub a1.position).length L - c.restLength =
          2 / 10 * ((b.position.sub a.position).length L - c.restLength)) ∧
      (¬ (b.position.sub a.position).length L < 1 / 1000000 →
        (a.pinned = true ∧ b.pinned = false ∨ a.pinned = false ∧ b.pinned = true) →
        (b1.position.sub a1.position).length L - c.restLength =
          6 / 10 * ((b.position.sub a.position).length L - c.restLength)) ∧
      |(b1.position.sub a1.position).length L - c.restLength| ≤
        |(b.position.sub a.position).length L - c.restLength| := by
  by_cases hskip : (b.position.sub a.position).length L < 1 / 1000000
  · refine ⟨ps, a, b, ?_, ha, hb, rfl, rfl, fun _ => rfl, fun _ _ => rfl,
      fun h => absurd hskip h, fun h => absurd hskip h, le_refl _⟩
    simp only [ClothConstraint.satisfy, h1, h2, ha, hb, hskip, if_true]
  · have hij : i ≠ j := by
      intro e
      subst e
      rw [ha] at hb
      cases hb
      apply hskip
      have h0 : (a.position.sub a.position).length L = 0 := by
        show L.sqrt (Vec3.lengthSquared (a.position.sub a.position)) = 0
        have e0 : Vec3.lengthSquared (a.position.sub a.position) = 0 * 0 := by
          simp [Vec3.lengthSquared, Vec3.sub]
        exact (hs _ (Vec3.lengthSquared_nonneg _)).eq_of_sq le_rfl e0
      rw [h0]
      norm_num
    obtain ⟨ps1, hsat, a1, b1, hi1, hj1, hpa, hpb, hposa, hposb⟩ :=
      satisfy_ends L c ps i j a b h1 h2 ha hb hij hskip
    have hpos : 0 < (b.position.sub a.position).length L :=
      lt_of_lt_of_le (by norm_num) (not_lt.mp hskip)
    rw [hst] at hposa hposb
    obtain ⟨κ, hκ⟩ : ∃ κ : K,
        κ = (if a.pinned then 0 else 4 / 10) + (if b.pinned then 0 else 4 / 10) := ⟨_, rfl⟩
    have hκ0 : 0 ≤ κ := by
      rw [hκ]
      split_ifs <;> norm_num
    have hκ1 : κ ≤ 1 := by
      rw [hκ]
      split_ifs <;> norm_num
    have hvec : b1.position.sub a1.position =
        (b.position.sub a.position).scale
          (((b.position.sub a.position).length L -
            κ * ((b.position.sub a.position).length L - c.restLength)) /
            (b.position.sub a.position).length L) := by
      rw [hposa, hposb, hκ]
      generalize (b.position.sub a.position).length L = len at hpos
      have hne : len ≠ 0 := hpos.ne'
      have hfrac : ∀ k : K, (len - k * (len - c.restLength)) / len =
          1 - k * ((len - c.restLength) / len) := by
        intro k
        field_simp
      rw [hfrac]
      generalize (len - c.restLength) / len = q
      cases a.pinned <;> cases b.pinned <;>
        simp only [Bool.false_eq_true, if_false, if_true, Vec3.sub, Vec3.add, Vec3.scale,
          Vec3.mk.injEq] <;>
        refine ⟨?_, ?_, ?_⟩ <;> ring
    have hT : 0 ≤ (b.position.sub a.position).length L -
        κ * ((b.position.sub a.position).length L - c.restLength) := by
      have e : (b.position.sub a.position).length L -
          κ * ((b.position.sub a.position).length L - c.restLength) =
          (1 - κ) * (b.position.sub a.position).length L + κ * c.restLength := by ring
      rw [e]
      exact add_nonneg (mul_nonneg (sub_nonneg.mpr hκ1) hpos.le) (mul_nonneg hκ0 hr)
    have hlen1 : (b1.position.sub a1.position).length L =
        (b.position.sub a.position).length L -
          κ * ((b.position.sub a.position).length L - c.restLength) :=
      length_of_scaled L hs _ _ _ _ rfl hpos hT hvec
    refine ⟨ps1, a1, b1, hsat, hi1, hj1, hpa, hpb, fun h => absurd h hskip, ?_, ?_, ?_, ?_⟩
    · intro hap hbp
      rw [hlen1, hκ, hap, hbp]
      simp
    · intro _ hap hbp
      rw [hlen1, hκ, hap, hbp]
      simp only [Bool.false_eq_true, if_false]
      ring
    · intro _ hone
      rw [hlen1, hκ]
      rcases hone with ⟨hap, hbp⟩ | ⟨hap, hbp⟩
      · rw [hap, hbp]
        simp only [Bool.false_eq_true, if_false, if_true]
        ring
      · rw [hap, hbp]
        simp only [Bool.false_eq_true, if_false, if_true]
        ring
    · have e : (b1.position.sub a1.position).length L - c.restLength =
          (1 - κ) * ((b.position.sub a.position).length L - c.restLength) := by
        rw [hlen1]
        ring
      rw [e, abs_mul, abs_of_nonneg (sub_nonneg.mpr hκ1)]
      have h3 := mul_nonneg hκ0 (abs_nonneg ((b.position.sub a.position).length L - c.restLength))
      have e2 : (1 - κ) * |(b.position.sub a.position).length L - c.restLength| =
          |(b.position.sub a.position).length L - c.restLength| -
            κ * |(b.position.sub a.position).length L - c.restLength| := by ring
      rw [e2]
      linarith

theorem separation_of_ends (L : FloatLib K) (ps : List (ClothParticle K)) (i j : Nat)
    (a b : ClothParticle K) (ha : ps[i]? = some a) (hb : ps[j]? = some b) :
    separation L ps i j = some ((b.position.sub a.position).length L) := by
  simp only [separation, ha, hb]

/-- Repeating `satisfy()` on a constraint whose two ends are in the store
always returns a store in which the two ends are still there. -/
theorem repeat_satisfy_ends (L : FloatLib K) (hs : ∀ x : K, 0 ≤ x → IsSqrtAt L x)
    (c : ClothConstraint K) (ps : List (ClothParticle K)) (i j : Nat) (a b : ClothParticle K)
    (h1 : c.particle1 = some i) (h2 : c.particle2 = some j)
    (ha : ps[i]? = some a) (hb : ps[j]? = some b)
    (hr : 0 ≤ c.restLength) (hst : c.stiffness = 8 / 10) :
    ∀ n : Nat, ∃ qs an bn, repeatM (c.satisfy L) n ps = some qs ∧
      qs[i]? = some an ∧ qs[j]? = some bn := by
  intro n
  induction n with
  | zero => exact ⟨ps, a, b, rfl, ha, hb⟩
  | succ n ih =>
    obtain ⟨qs, an, bn, hq, hi, hj⟩ := ih
    obtain ⟨qs1, a1, b1, hsat, hi1, hj1, _⟩ := satisfy_pass L hs c qs i j an bn h1 h2 hi hj hr hst
    refine ⟨qs1, a1, b1, ?_, hi1, hj1⟩
    rw [repeatM_succ_last, hq]
    exact hsat

/-- C13 (counterexample): two free particles at the same place joined by a
constraint of rest length 1.  Their separation is 0, so the pass is skipped
(`currentLength < 1e-6`): `satisfy()` returns the store unchanged, the
separation stays 0 and the error stays `0 - 1 = -1`, which is not
`0.2 * (0 - 1)`. -/
theorem C13_no_shrink_when_coincident :
    unitConstraint.particle1 = some 0 ∧ unitConstraint.particle2 = some 1 ∧
    unitConstraint.restLength = 1 ∧ unitConstraint.stiffness = 8 / 10 ∧
    coincidentPair.map (fun p => p.pinned) = [false, false] ∧
    separation ratLib coincidentPair 0 1 = some 0 ∧
    unitConstraint.satisfy ratLib coincidentPair = some coincidentPair ∧
    (unitConstraint.satisfy ratLib coincidentPair).bind (fun qs => separation ratLib qs 0 1) =
      some 0 ∧
    (0 : ℚ) - unitConstraint.restLength ≠ 2 / 10 * (0 - unitConstraint.restLength) := by
  decide!

/-- C13 (amended): for a constraint with rest length `r ≥ 0` and the
constructor's stiffness `0.8` whose two ends are particles of the store, at
separation `len` (exact arithmetic, exact square root), one `satisfy()` pass
returns a store with both ends in place at a separation `len1` with
`|len1 - r| ≤ |len - r|`.  If `len < 1e-6` the pass is skipped and
`len1 = len`; if both ends are pinned `len1 = len`; otherwise
`len1 - r = 0.2 * (len - r)` when both ends are free and
`len1 - r = 0.6 * (len - r)` when exactly one end is pinned.  Repeating
`satisfy()` any number of times returns a store, and `|separation - r|` after
`n + 1` passes is at most what it is after `n` passes. -/
theorem C13_constraint_error_shrinks (L : FloatLib K) (hs : ∀ x : K, 0 ≤ x → IsSqrtAt L x)
    (c : ClothConstraint K) (ps : List (ClothParticle K)) (i j : Nat) (a b : ClothParticle K)
    (h1 : c.particle1 = some i) (h2 : c.particle2 = some j)
    (ha : ps[i]? = some a) (hb : ps[j]? = some b)
    (hr : 0 ≤ c.restLength) (hst : c.stiffness = 8 / 10) :
    (∃ ps1 a1 b1, c.satisfy L ps = some ps1 ∧ ps1[i]? = some a1 ∧ ps1[j]? = some b1 ∧
      a1.pinned = a.pinned ∧ b1.pinned = b.pinned ∧
      ((b.position.sub a.position).length L < 1 / 1000000 →
        (b1.position.sub a1.position).length L = (b.position.sub a.position).length L) ∧
      (a.pinned = true → b.pinned = true →
        (b1.position.sub a1.position).length L = (b.position.sub a.position).length L) ∧
      (¬ (b.position.sub a.position).length L < 1 / 1000000 →
        a.pinned = false → b.pinned = false →
        (b1.position.sub a1.position).length L - c.restLength =
          2 / 10 * ((b.position.sub a.position).length L - c.restLength)) ∧
      (¬ (b.position.sub a.position).length L < 1 / 1000000 →
        (a.pinned = true ∧ b.pinned = false ∨ a.pinned = false ∧ b.pinned = true) →
        (b1.position.sub a1.position).length L - c.restLength =
          6 / 10 * ((b.position.sub a.position).length L - c.restLength)) ∧
      |(b1.position.sub a1.position).length L - c.restLength| ≤
        |(b.position.sub a.position).length L - c.restLength|) ∧
    (∀ n : Nat, ∃ qs qs1 sep sep1,
      repeatM (c.satisfy L) n ps = some qs ∧ repeatM (c.satisfy L) (n + 1) ps = some qs1 ∧
      separation L qs i j = some sep ∧ separation L qs1 i j = some sep1 ∧
      |sep1 - c.restLength| ≤ |sep - c.restLength|) := by
  refine ⟨satisfy_pass L hs c ps i j a b h1 h2 ha hb hr hst, ?_⟩
  intro n
  obtain ⟨qs, an, bn, hq, hi, hj⟩ := repeat_satisfy_ends L hs c ps i j a b h1 h2 ha hb hr hst n
  obtain ⟨qs1, a1, b1, hsat, hi1, hj1, _, _, _, _, _, _, habs⟩ :=
    satisfy_pass L hs c qs i j an bn h1 h2 hi hj hr hst
  refine ⟨qs, qs1, _, _, hq, ?_, separation_of_ends L qs i j an bn hi hj,
    separation_of_ends L qs1 i j a1 b1 hi1 hj1, habs⟩
  rw [repeatM_succ_last, hq]
  exact hsat

/-- C13 (witness): two free particles `2` apart joined by a constraint of rest
length `1`, run with the real square root. -/
theorem C13_constraint_error_shrinks_witness :
    (∀ x : ℝ, 0 ≤ x → IsSqrtAt (⟨Real.sqrt, fun v => v⟩ : FloatLib ℝ) x) ∧
    (unitLink : ClothConstraint ℝ).particle1 = some 0 ∧
    (unitLink : ClothConstraint ℝ).particle2 = some 1 ∧
    (stretchedPair : List (ClothParticle ℝ))[0]? = some nearEnd ∧
    (stretchedPair : List (ClothParticle ℝ))[1]? = some farEnd ∧
    (0 : ℝ) ≤ (unitLink : ClothConstraint ℝ).restLength ∧
    (unitLink : ClothConstraint ℝ).stiffness = 8 / 10 ∧
    ((∃ ps1 a1 b1, (unitLink : ClothConstraint ℝ).satisfy (⟨Real.sqrt, fun v => v⟩ : FloatLib ℝ) stretchedPair = some ps1 ∧ ps1[0]? = some a1 ∧ ps1[1]? = some b1 ∧
      a1.pinned = (nearEnd : ClothParticle ℝ).pinned ∧ b1.pinned = (farEnd : ClothParticle ℝ).pinned ∧
      (((farEnd : ClothParticle ℝ).position.sub (nearEnd : ClothParticle ℝ).position).length (⟨Real.sqrt, fun v => v⟩ : FloatLib ℝ) < 1 / 1000000 →
        (b1.position.sub a1.position).length (⟨Real.sqrt, fun v => v⟩ : FloatLib ℝ) = ((farEnd : ClothParticle ℝ).position.sub (nearEnd : ClothParticle ℝ).position).length (⟨Real.sqrt, fun v => v⟩ : FloatLib ℝ)) ∧
      ((nearEnd : ClothParticle ℝ).pinned = true → (farEnd : ClothParticle ℝ).pinned = true →
        (b1.position.sub a1.position).length (⟨Real.sqrt, fun v => v⟩ : FloatLib ℝ) = ((farEnd : ClothParticle ℝ).position.sub (nearEnd : ClothParticle ℝ).position).length (⟨Real.sqrt, fun v => v⟩ : FloatLib ℝ)) ∧
      (¬ ((farEnd : ClothParticle ℝ).position.sub (nearEnd : ClothParticle ℝ).position).length (⟨Real.sqrt, fun v => v⟩ : FloatLib ℝ) < 1 / 1000000 →
        (nearEnd : ClothParticle ℝ).pinned = false → (farEnd : ClothParticle ℝ).pinned = false →
        (b1.position.sub a1.position).length (⟨Real.sqrt, fun v => v⟩ : FloatLib ℝ) - (unitLink : ClothConstraint ℝ).restLength =
          2 / 10 * (((farEnd : ClothParticle ℝ).position.sub (nearEnd : ClothParticle ℝ).position).length (⟨Real.sqrt, fun v => v⟩ : FloatLib ℝ) - (unitLink : ClothConstraint ℝ).restLength)) ∧
      (¬ ((farEnd : ClothParticle ℝ).position.sub (nearEnd : ClothParticle ℝ).position).length (⟨Real.sqrt, fun v => v⟩ : FloatLib ℝ) < 1 / 1000000 →
        ((nearEnd : ClothParticle ℝ).pinned = true ∧ (farEnd : ClothParticle ℝ).pinned = false ∨ (nearEnd : ClothParticle ℝ).pinned = false ∧ (farEnd : ClothParticle ℝ).pinned = true) →
        (b1.position.sub a1.position).length (⟨Real.sqrt, fun v => v⟩ : FloatLib ℝ) - (unitLink : ClothConstraint ℝ).restLength =
          6 / 10 * (((farEnd : ClothParticle ℝ).position.sub (nearEnd : ClothParticle ℝ).position).length (⟨Real.sqrt, fun v => v⟩ : FloatLib ℝ) - (unitLink : ClothConstraint ℝ).restLength)) ∧
      |(b1.position.sub a1.position).length (⟨Real.sqrt, fun v => v⟩ : FloatLib ℝ) - (unitLink : ClothConstraint ℝ).restLength| ≤
        |((farEnd : ClothParticle ℝ).position.sub (nearEnd : ClothParticle ℝ).position).length (⟨Real.sqrt, fun v => v⟩ : FloatLib ℝ) - (unitLink : ClothConstraint ℝ).restLength|) ∧
    (∀ n : Nat, ∃ qs qs1 sep sep1,
      repeatM ((unitLink : ClothConstraint ℝ).satisfy (⟨Real.sqrt, fun v => v⟩ : FloatLib ℝ)) n stretchedPair = some qs ∧ repeatM ((unitLink : ClothConstraint ℝ).satisfy (⟨Real.sqrt, fun v => v⟩ : FloatLib ℝ)) (n + 1) stretchedPair = some qs1 ∧
      separation (⟨Real.sqrt, fun v => v⟩ : FloatLib ℝ) qs 0 1 = some sep ∧ separation (⟨Real.sqrt, fun v => v⟩ : FloatLib ℝ) qs1 0 1 = some sep1 ∧
      |sep1 - (unitLink : ClothConstraint ℝ).restLength| ≤ |sep - (unitLink : ClothConstraint ℝ).restLength|)) :=
  have hs : ∀ x : ℝ, 0 ≤ x → IsSqrtAt (⟨Real.sqrt, fun v => v⟩ : FloatLib ℝ) x :=
    fun x hx => ⟨Real.sqrt_nonneg x, Real.mul_self_sqrt hx⟩
  have hr : (0 : ℝ) ≤ (unitLink : ClothConstraint ℝ).restLength := by
    show (0 : ℝ) ≤ 1
    exact zero_le_one
  ⟨hs, rfl, rfl, rfl, rfl, hr, rfl,
    C13_constraint_error_shrinks ⟨Real.sqrt, fun v => v⟩ hs unitLink stretchedPair 0 1
      nearEnd farEnd rfl rfl rfl rfl hr rfl⟩

end ConstraintClaims

/-! ## Damping force, order of colliders, midpoint of a constraint -/

section ResponseClaims

variable {K : Type} [LinearOrderedField K]

theorem Vec3.lengthSquared_pos (n : Vec3 K) (hn : n ≠ ⟨0, 0, 0⟩) : 0 < Vec3.lengthSquared n := by
  rcases lt_or_eq_of_le (Vec3.lengthSquared_nonneg n) with h | h
  · exact h
  · exfalso
    apply hn
    unfold Vec3.lengthSquared at h
    have h1 := mul_self_nonneg n.x
    have h2 := mul_self_nonneg n.y
    have h3 := mul_self_nonneg n.z
    have hx : n.x * n.x = 0 := by linarith
    have hy : n.y * n.y = 0 := by linarith
    have hz : n.z * n.z = 0 := by linarith
    have ex := mul_self_eq_zero.mp hx
    have ey := mul_self_eq_zero.mp hy
    have ez := mul_self_eq_zero.mp hz
    cases n
    simp only at ex ey ez
    rw [ex, ey, ez]

/-- C24: for a contact on particle `p` with non-zero normal `n` and a model with
damping coefficient `> 0`: when `vn = v · n < 0`, `calculateDampingForce`
returns `n * (damping * vn)`, a negative multiple of `n` whose component along
`n` is strictly negative, so the component along `n` of
`contactForce + dampingForce` is strictly smaller than that of `contactForce`;
when `vn ≥ 0` it returns the zero vector. -/
theorem C24_damping_force_direction (m : OGCContactModel K) (contact : ContactInfo K)
    (ps : List (ClothParticle K)) (i : Nat) (p : ClothParticle K)
    (hc : contact.particle = some i) (hp : ps[i]? = some p)
    (hn : contact.contactNormal ≠ ⟨0, 0, 0⟩) (hd : 0 < m.damping) :
    (Vec3.dotProduct p.velocity contact.contactNormal < 0 →
      m.calculateDampingForce contact ps =
        some (contact.contactNormal.scale
          (m.damping * Vec3.dotProduct p.velocity contact.contactNormal)) ∧
      m.damping * Vec3.dotProduct p.velocity contact.contactNormal < 0 ∧
      Vec3.dotProduct (contact.contactNormal.scale
          (m.damping * Vec3.dotProduct p.velocity contact.contactNormal))
        contact.contactNormal < 0 ∧
      Vec3.dotProduct ((m.calculateContactForce contact).add (contact.contactNormal.scale
          (m.damping * Vec3.dotProduct p.velocity contact.contactNormal)))
        contact.contactNormal <
        Vec3.dotProduct (m.calculateContactForce contact) contact.contactNormal) ∧
    (¬ Vec3.dotProduct p.velocity contact.contactNormal < 0 →
      m.calculateDampingForce contact ps = some ⟨0, 0, 0⟩) := by
  constructor
  · intro hv
    have hk : m.damping * Vec3.dotProduct p.velocity contact.contactNormal < 0 :=
      mul_neg_of_pos_of_neg hd hv
    have hl := Vec3.lengthSquared_pos contact.contactNormal hn
    have hdot : Vec3.dotProduct (contact.contactNormal.scale
        (m.damping * Vec3.dotProduct p.velocity contact.contactNormal))
        contact.contactNormal =
        m.damping * Vec3.dotProduct p.velocity contact.contactNormal *
          Vec3.lengthSquared contact.contactNormal := by
      simp only [Vec3.dotProduct, Vec3.scale, Vec3.lengthSquared]
      ring
    have hneg : Vec3.dotProduct (contact.contactNormal.scale
        (m.damping * Vec3.dotProduct p.velocity contact.contactNormal))
        contact.contactNormal < 0 := by
      rw [hdot]
      exact mul_neg_of_neg_of_pos hk hl
    refine ⟨?_, hk, hneg, ?_⟩
    · simp only [OGCContactModel.calculateDampingForce, deref, hc, hp, hv, if_true]
    · have hadd : ∀ a b c : Vec3 K, Vec3.dotProduct (a.add b) c =
          Vec3.dotProduct a c + Vec3.dotProduct b c := by
        intro a b c
        simp only [Vec3.dotProduct, Vec3.add]
        ring
      rw [hadd]
      linarith
  · intro hv
    simp only [OGCContactModel.calculateDampingForce, deref, hc, hp, hv, if_false]

/-- C24 (witness): the contact of `cylinder6` with the particle at `(5, 1/2, 0)`
moving with velocity `(-1, 0, 1)`, so `vn = -1`; damping coefficient 50. -/
theorem C24_damping_force_direction_witness :
    approachContact.particle = some 0 ∧ [incomingParticle][0]? = some incomingParticle ∧
    approachContact.contactNormal ≠ ⟨0, 0, 0⟩ ∧ (0 : ℚ) < (OGCContactModel.new (5 / 100)).damping ∧
    Vec3.dotProduct incomingParticle.velocity approachContact.contactNormal < 0 ∧
    (Vec3.dotProduct incomingParticle.velocity approachContact.contactNormal < 0 →
      (OGCContactModel.new (5 / 100)).calculateDampingForce approachContact [incomingParticle] =
        some (approachContact.contactNormal.scale
          ((OGCContactModel.new (5 / 100)).damping *
            Vec3.dotProduct incomingParticle.velocity approachContact.contactNormal)) ∧
      (OGCContactModel.new (5 / 100)).damping *
        Vec3.dotProduct incomingParticle.velocity approachContact.contactNormal < 0 ∧
      Vec3.dotProduct (approachContact.contactNormal.scale
          ((OGCContactModel.new (5 / 100)).damping *
            Vec3.dotProduct incomingParticle.velocity approachContact.contactNormal))
        approachContact.contactNormal < 0 ∧
      Vec3.dotProduct
        (((OGCContactModel.new (5 / 100)).calculateContactForce approachContact).add
          (approachContact.contactNormal.scale
            ((OGCContactModel.new (5 / 100)).damping *
              Vec3.dotProduct incomingParticle.velocity approachContact.contactNormal)))
        approachContact.contactNormal <
        Vec3.dotProduct ((OGCContactModel.new (5 / 100)).calculateContactForce approachContact)
          approachContact.contactNormal) ∧
    (¬ Vec3.dotProduct incomingParticle.velocity approachContact.contactNormal < 0 →
      (OGCContactModel.new (5 / 100)).calculateDampingForce approachContact [incomingParticle] =
        some ⟨0, 0, 0⟩) :=
  have hn : approachContact.contactNormal ≠ ⟨0, 0, 0⟩ := by decide
  have hd : (0 : ℚ) < (OGCContactModel.new (5 / 100)).damping := by decide
  have hv : Vec3.dotProduct incomingParticle.velocity approachContact.contactNormal < 0 := by
    decide!
  ⟨rfl, rfl, hn, hd, hv,
    C24_damping_force_direction (OGCContactModel.new (5 / 100)) approachContact
      [incomingParticle] 0 incomingParticle rfl rfl hn hd⟩

/-- C22: the particle at `(1, 0, 0)` is inside the overlapping colliders `A`
(radius 2 around the origin) and `B` (radius 3 around `(3, 0, 0)`).  In basic
mode `handleCollisions` with the collider list `[A, B]` leaves it at
`x = 9/25` (`A` pushes it to `1.8`, then `B` pushes it back by `1.44`), and
with the list `[B, A]` at `x = 41/25` (`B` pushes it to `0.2`, then `A` pushes
it out by `1.44`): the result depends on the order of the list. -/
theorem C22_basic_order_dependent :
    particleBetween.pinned = false ∧
    (colliderA.checkCollision ratLib particleBetween ⟨0, 0, 0⟩ ⟨0, 0, 0⟩).hit = true ∧
    (colliderB.checkCollision ratLib particleBetween ⟨0, 0, 0⟩ ⟨0, 0, 0⟩).hit = true ∧
    stateAB.useOGC = false ∧ stateAB.particles = [particleBetween] ∧
    stateAB.cylinders = [colliderA, colliderB] ∧
    stateBA = { stateAB with cylinders := [colliderB, colliderA] } ∧
    (stateAB.handleCollisions ratLib).map (fun t => t.particles.map fun q => q.position) =
      some [⟨9 / 25, 0, 0⟩] ∧
    (stateBA.handleCollisions ratLib).map (fun t => t.particles.map fun q => q.position) =
      some [⟨41 / 25, 0, 0⟩] ∧
    (stateAB.handleCollisions ratLib).map (fun t => t.particles.map fun q => q.position) ≠
      (stateBA.handleCollisions ratLib).map (fun t => t.particles.map fun q => q.position) := by
  decide!

/-- C29: on a constraint whose two ends are non-pinned particles of the store,
`satisfy()` returns a store in which both ends are still there and the sum of
their positions is what it was; when the pass is not skipped (and the ends are
two different particles) the first end has moved by `+correction` and the
second by `-correction`, for the same vector
`correction = delta * difference * 0.5 * stiffness`. -/
theorem C29_satisfy_keeps_midpoint (L : FloatLib K) (c : ClothConstraint K)
    (ps : List (ClothParticle K)) (i j : Nat) (a b : ClothParticle K)
    (h1 : c.particle1 = some i) (h2 : c.particle2 = some j)
    (ha : ps[i]? = some a) (hb : ps[j]? = some b)
    (hfa : a.pinned = false) (hfb : b.pinned = false) :
    ∃ ps1 a1 b1, c.satisfy L ps = some ps1 ∧ ps1[i]? = some a1 ∧ ps1[j]? = some b1 ∧
      a1.position.add b1.position = a.position.add b.position ∧
      (i ≠ j → ¬ (b.position.sub a.position).length L < 1 / 1000000 →
        a1.position = a.position.add
          ((((b.position.sub a.position).scale
            (((b.position.sub a.position).length L - c.restLength) /
              (b.position.sub a.position).length L)).scale (1 / 2)).scale c.stiffness) ∧
        b1.position = b.position.sub
          ((((b.position.sub a.position).scale
            (((b.position.sub a.position).length L - c.restLength) /
              (b.position.sub a.position).length L)).scale (1 / 2)).scale c.stiffness)) := by
  by_cases hskip : (b.position.sub a.position).length L < 1 / 1000000
  · refine ⟨ps, a, b, ?_, ha, hb, rfl, fun _ h => absurd hskip h⟩
    simp only [ClothConstraint.satisfy, h1, h2, ha, hb, hskip, if_true]
  · by_cases hij : i = j
    · subst hij
      rw [ha] at hb
      cases hb
      have hsat : ∃ ps1, c.satisfy L ps = some ps1 ∧ ∃ a1, ps1[i]? = some a1 ∧
          ∃ corr : Vec3 K, a1.position = (a.position.add corr).sub corr := by
        simp only [ClothConstraint.satisfy, h1, h2, ha, hskip, if_false, hfa,
          Bool.false_eq_true]
        refine ⟨_, rfl, ?_⟩
        simp only [getElem?_updateAt, if_true, eq_self_iff_true, ha, Option.map_some']
        exact ⟨_, rfl, _, rfl⟩
      obtain ⟨ps1, hs1, a1, hi1, corr, hpos⟩ := hsat
      refine ⟨ps1, a1, a1, hs1, hi1, hi1, ?_, fun h => absurd rfl h⟩
      rw [hpos]
      simp only [Vec3.add, Vec3.sub, Vec3.mk.injEq]
      refine ⟨by ring, by ring, by ring⟩
    · obtain ⟨ps1, hsat, a1, b1, hi1, hj1, _, _, hposa, hposb⟩ :=
        satisfy_ends L c ps i j a b h1 h2 ha hb hij hskip
      rw [hfa] at hposa
      rw [hfb] at hposb
      simp only [Bool.false_eq_true, if_false] at hposa hposb
      refine ⟨ps1, a1, b1, hsat, hi1, hj1, ?_, fun _ _ => ⟨hposa, hposb⟩⟩
      rw [hposa, hposb]
      simp only [Vec3.add, Vec3.sub, Vec3.scale, Vec3.mk.injEq]
      refine ⟨by ring, by ring, by ring⟩

/-- C29 (witness): the two free particles `2` apart joined by a constraint of
rest length `1`. -/
theorem C29_satisfy_keeps_midpoint_witness :
    (unitLink : ClothConstraint ℚ).particle1 = some 0 ∧
    (unitLink : ClothConstraint ℚ).particle2 = some 1 ∧
    (stretchedPair : List (ClothParticle ℚ))[0]? = some nearEnd ∧
    (stretchedPair : List (ClothParticle ℚ))[1]? = some farEnd ∧
    (nearEnd : ClothParticle ℚ).pinned = false ∧ (farEnd : ClothParticle ℚ).pinned = false ∧
    ∃ ps1 a1 b1, (unitLink : ClothConstraint ℚ).satisfy ratLib stretchedPair = some ps1 ∧
      ps1[0]? = some a1 ∧ ps1[1]? = some b1 ∧
      a1.position.add b1.position =
        (nearEnd : ClothParticle ℚ).position.add (farEnd : ClothParticle ℚ).position ∧
      (0 ≠ 1 →
        ¬ ((farEnd : ClothParticle ℚ).position.sub
            (nearEnd : ClothParticle ℚ).position).length ratLib < 1 / 1000000 →
        a1.position = (nearEnd : ClothParticle ℚ).position.add
          (((((farEnd : ClothParticle ℚ).position.sub (nearEnd : ClothParticle ℚ).position).scale
            ((((farEnd : ClothParticle ℚ).position.sub
                (nearEnd : ClothParticle ℚ).position).length ratLib -
              (unitLink : ClothConstraint ℚ).restLength) /
              ((farEnd : ClothParticle ℚ).position.sub
                (nearEnd : ClothParticle ℚ).position).length ratLib)).scale (1 / 2)).scale
            (unitLink : ClothConstraint ℚ).stiffness) ∧
        b1.position = (farEnd : ClothParticle ℚ).position.sub
          (((((farEnd : ClothParticle ℚ).position.sub (nearEnd : ClothParticle ℚ).position).scale
            ((((farEnd : ClothParticle ℚ).position.sub
                (nearEnd : ClothParticle ℚ).position).length ratLib -
              (unitLink : ClothConstraint ℚ).restLength) /
              ((farEnd : ClothParticle ℚ).position.sub
                (nearEnd : ClothParticle ℚ).position).length ratLib)).scale (1 / 2)).scale
            (unitLink : ClothConstraint ℚ).stiffness)) :=
  ⟨rfl, rfl, rfl, rfl, rfl, rfl,
    C29_satisfy_keeps_midpoint ratLib unitLink stretchedPair 0 1 nearEnd farEnd rfl rfl rfl rfl
      rfl rfl⟩

theorem handleCollisions_basic_one (L : FloatLib K) (s : ClothSimulation K) (i : Nat)
    (p : ClothParticle K) (c : CylinderCollider K) (hcyl : s.cylinders = [c])
    (hmode : s.useOGC = false) (hp : s.particles[i]? = some p) (hfree : p.pinned = false) :
    ∃ sB, s.handleCollisions L = some sB ∧
      sB.particles[i]? = some (ClothSimulation.basicCollisionStep L p c) ∧
      sB.particles.length = s.particles.length := by
  refine ⟨{ s with
      particles := s.particles.map fun particle =>
        if particle.pinned then particle
        else s.cylinders.foldl (ClothSimulation.basicCollisionStep L) particle }, ?_, ?_, ?_⟩
  · rw [ClothSimulation.handleCollisions, if_neg (by rw [hcyl]; simp),
      if_neg (by rw [hmode]; simp)]
  · show (s.particles.map _)[i]? = _
    rw [List.getElem?_map, hp]
    simp only [Option.map_some', hfree, Bool.false_eq_true, if_false, hcyl, List.foldl_cons,
      List.foldl_nil]
  · simp

/-- C25 (amended): computed in exact arithmetic, in basic mode with a single
collider of radius `r`, a non-pinned
particle inside the height band at radial distance `d` with `1e-6 ≤ d < r` (the
library square root being exact at the squared radial distance before and
after) is hit, and `handleCollisions` moves it to radial distance exactly
`0.2 * d + 0.8 * r` at the same height; this is still strictly less than `r`,
the remaining penetration is `0.2 * (r - d)`, and `checkCollision` reports a
collision for the corrected particle. -/
theorem C25_correction_leaves_overlap (L : FloatLib K) (s : ClothSimulation K) (i : Nat)
    (p : ClothParticle K) (c : CylinderCollider K) (hcyl : s.cylinders = [c])
    (hmode : s.useOGC = false) (hp : s.particles[i]? = some p) (hfree : p.pinned = false)
    (hlo : -c.height / 2 ≤ p.position.y - c.center.y)
    (hhi : p.position.y - c.center.y ≤ c.height / 2)
    (hnd : 1 / 1000000 ≤ radialDistance L c p) (hlt : radialDistance L c p < c.radius)
    (hd : IsSqrtAt L ((p.position.sub c.center).x * (p.position.sub c.center).x +
      (p.position.sub c.center).z * (p.position.sub c.center).z))
    (hd1 : IsSqrtAt L
      (((ClothSimulation.basicCollisionStep L p c).position.sub c.center).x *
          ((ClothSimulation.basicCollisionStep L p c).position.sub c.center).x +
        ((ClothSimulation.basicCollisionStep L p c).position.sub c.center).z *
          ((ClothSimulation.basicCollisionStep L p c).position.sub c.center).z)) :
    ∃ sB q, s.handleCollisions L = some sB ∧ sB.particles[i]? = some q ∧
      (c.checkCollision L p ⟨0, 0, 0⟩ ⟨0, 0, 0⟩).hit = true ∧
      radialDistance L c q = 2 / 10 * radialDistance L c p + 8 / 10 * c.radius ∧
      q.position.y = p.position.y ∧
      radialDistance L c q < c.radius ∧
      c.radius - radialDistance L c q = 2 / 10 * (c.radius - radialDistance L c p) ∧
      (c.checkCollision L q ⟨0, 0, 0⟩ ⟨0, 0, 0⟩).hit = true := by
  obtain ⟨sB, hB, hBi, _⟩ := handleCollisions_basic_one L s i p c hcyl hmode hp hfree
  have e1 : -c.height * (1 / 2) = -c.height / 2 := by ring
  have e2 : c.height * (1 / 2) = c.height / 2 := by ring
  have hck := checkCollision_hit L c p ⟨0, 0, 0⟩ ⟨0, 0, 0⟩ (radialDistance L c p)
    (by rw [e1]; exact hlo) (by rw [e2]; exact hhi) rfl hlt
  have hhit : (c.checkCollision L p ⟨0, 0, 0⟩ ⟨0, 0, 0⟩).hit = true := by rw [hck]
  have hn : hitNormal L c p =
      ⟨(p.position.x - c.center.x) / radialDistance L c p, 0,
       (p.position.z - c.center.z) / radialDistance L c p⟩ := by
    rw [hitNormal_eq, hck]
    simp only [if_neg (not_lt.mpr hnd)]
  have hpos := basicCollisionStep_position L p c hhit
  rw [hn] at hpos
  have hdd : radialDistance L c p * radialDistance L c p =
      (p.position.x - c.center.x) * (p.position.x - c.center.x) +
        (p.position.z - c.center.z) * (p.position.z - c.center.z) := hd.2
  have hdpos : 0 < radialDistance L c p := lt_of_lt_of_le (by norm_num) hnd
  have hrad : radialDistance L c (ClothSimulation.basicCollisionStep L p c) =
      2 / 10 * radialDistance L c p + 8 / 10 * c.radius := by
    have hT : 0 ≤ 2 / 10 * radialDistance L c p + 8 / 10 * c.radius := by
      have := hdpos.le
      have := (lt_trans hdpos hlt).le
      positivity
    apply hd1.eq_of_sq hT
    rw [hpos]
    generalize radialDistance L c p = d at hdd hdpos
    have hne : d ≠ 0 := hdpos.ne'
    have hk : (2 / 10 * d + 8 / 10 * c.radius) / d * d = 2 / 10 * d + 8 / 10 * c.radius :=
      div_mul_cancel₀ _ hne
    have ex : ∀ u : K, u + u / d * ((c.radius - d) * (8 / 10)) =
        u * ((2 / 10 * d + 8 / 10 * c.radius) / d) := by
      intro u
      field_simp
      ring
    simp only [Vec3.sub, Vec3.add, Vec3.scale]
    have e3 : p.position.x + (p.position.x - c.center.x) / d * ((c.radius - d) * (8 / 10)) -
        c.center.x = (p.position.x - c.center.x) * ((2 / 10 * d + 8 / 10 * c.radius) / d) := by
      rw [← ex]
      ring
    have e4 : p.position.z + (p.position.z - c.center.z) / d * ((c.radius - d) * (8 / 10)) -
        c.center.z = (p.position.z - c.center.z) * ((2 / 10 * d + 8 / 10 * c.radius) / d) := by
      rw [← ex]
      ring
    rw [e3, e4]
    linear_combination
      (-((2 / 10 * d + 8 / 10 * c.radius) / d) * ((2 / 10 * d + 8 / 10 * c.radius) / d)) * hdd +
      ((2 / 10 * d + 8 / 10 * c.radius) / d * d + (2 / 10 * d + 8 / 10 * c.radius)) * hk
  have hy : (ClothSimulation.basicCollisionStep L p c).position.y = p.position.y := by
    rw [hpos]
    simp [Vec3.add, Vec3.scale]
  have hlt1 : radialDistance L c (ClothSimulation.basicCollisionStep L p c) < c.radius := by
    rw [hrad]
    linarith
  refine ⟨sB, _, hB, hBi, hhit, hrad, hy, hlt1, ?_, ?_⟩
  · rw [hrad]
    ring
  · have hck1 := checkCollision_hit L c (ClothSimulation.basicCollisionStep L p c)
      ⟨0, 0, 0⟩ ⟨0, 0, 0⟩ (radialDistance L c (ClothSimulation.basicCollisionStep L p c))
      (by rw [e1, hy]; exact hlo) (by rw [e2, hy]; exact hhi) rfl hlt1
    rw [hck1]

/-- C25 (witness): the particle at `(5, 1/2, 0)` in the collider of radius 6
around the origin; it moves to radial distance `0.2 * 5 + 0.8 * 6 = 5.8`. -/
theorem C25_correction_leaves_overlap_witness :
    bounceState.cylinders = [cylinder6] ∧ bounceState.useOGC = false ∧
    bounceState.particles[0]? = some incomingParticle ∧ incomingParticle.pinned = false ∧
    -cylinder6.height / 2 ≤ incomingParticle.position.y - cylinder6.center.y ∧
    incomingParticle.position.y - cylinder6.center.y ≤ cylinder6.height / 2 ∧
    (1 / 1000000 : ℚ) ≤ radialDistance ratLib cylinder6 incomingParticle ∧
    radialDistance ratLib cylinder6 incomingParticle < cylinder6.radius ∧
    ∃ sB q, bounceState.handleCollisions ratLib = some sB ∧ sB.particles[0]? = some q ∧
      (cylinder6.checkCollision ratLib incomingParticle ⟨0, 0, 0⟩ ⟨0, 0, 0⟩).hit = true ∧
      radialDistance ratLib cylinder6 q =
        2 / 10 * radialDistance ratLib cylinder6 incomingParticle + 8 / 10 * cylinder6.radius ∧
      q.position.y = incomingParticle.position.y ∧
      radialDistance ratLib cylinder6 q < cylinder6.radius ∧
      cylinder6.radius - radialDistance ratLib cylinder6 q =
        2 / 10 * (cylinder6.radius - radialDistance ratLib cylinder6 incomingParticle) ∧
      (cylinder6.checkCollision ratLib q ⟨0, 0, 0⟩ ⟨0, 0, 0⟩).hit = true :=
  have hlo : -cylinder6.height / 2 ≤ incomingParticle.position.y - cylinder6.center.y := by
    decide!
  have hhi : incomingParticle.position.y - cylinder6.center.y ≤ cylinder6.height / 2 := by
    decide!
  have hnd : (1 / 1000000 : ℚ) ≤ radialDistance ratLib cylinder6 incomingParticle := by
    decide!
  have hlt : radialDistance ratLib cylinder6 incomingParticle < cylinder6.radius := by
    decide!
  have hd : IsSqrtAt ratLib
      ((incomingParticle.position.sub cylinder6.center).x *
          (incomingParticle.position.sub cylinder6.center).x +
        (incomingParticle.position.sub cylinder6.center).z *
          (incomingParticle.position.sub cylinder6.center).z) := by
    have e : (incomingParticle.position.sub cylinder6.center).x *
          (incomingParticle.position.sub cylinder6.center).x +
        (incomingParticle.position.sub cylinder6.center).z *
          (incomingParticle.position.sub cylinder6.center).z = (5 : ℚ) * 5 := by
      decide!
    rw [e]
    exact isSqrtAt_ratLib_sq 5 (by norm_num)
  have hd1 : IsSqrtAt ratLib
      (((ClothSimulation.basicCollisionStep ratLib incomingParticle cylinder6).position.sub
            cylinder6.center).x *
          ((ClothSimulation.basicCollisionStep ratLib incomingParticle cylinder6).position.sub
            cylinder6.center).x +
        ((ClothSimulation.basicCollisionStep ratLib incomingParticle cylinder6).position.sub
            cylinder6.center).z *
          ((ClothSimulation.basicCollisionStep ratLib incomingParticle cylinder6).position.sub
            cylinder6.center).z) := by
    have e : ((ClothSimulation.basicCollisionStep ratLib incomingParticle cylinder6).position.sub
            cylinder6.center).x *
          ((ClothSimulation.basicCollisionStep ratLib incomingParticle cylinder6).position.sub
            cylinder6.center).x +
        ((ClothSimulation.basicCollisionStep ratLib incomingParticle cylinder6).position.sub
            cylinder6.center).z *
          ((ClothSimulation.basicCollisionStep ratLib incomingParticle cylinder6).position.sub
            cylinder6.center).z = (29 / 5 : ℚ) * (29 / 5) := by
      decide!
    rw [e]
    exact isSqrtAt_ratLib_sq (29 / 5) (by norm_num)
  ⟨rfl, rfl, rfl, rfl, hlo, hhi, hnd, hlt,
    C25_correction_leaves_overlap ratLib bounceState 0 incomingParticle cylinder6 rfl rfl rfl rfl
      hlo hhi hnd hlt hd hd1⟩

end ResponseClaims

/-! ## The contact radius has no influence on a frame -/

section RadiusClaims

variable {K : Type} [LinearOrderedField K]

theorem applyOGCForce_retag (m : OGCContactModel K) (r : K) (contact : ContactInfo K) (dt : K)
    (ps : List (ClothParticle K)) :
    (m.setContactRadius r).applyOGCForce (retag r contact) dt ps =
      m.applyOGCForce contact dt ps := rfl

theorem foldlM_applyOGCForce_retag (m : OGCContactModel K) (r : K) (dt : K) :
    ∀ (contacts : List (ContactInfo K)) (ps : List (ClothParticle K)),
      (contacts.map (retag r)).foldlM
          (fun acc contact => (m.setContactRadius r).applyOGCForce contact dt acc) ps =
        contacts.foldlM (fun acc contact => m.applyOGCForce contact dt acc) ps := by
  intro contacts
  induction contacts with
  | nil => intro ps; rfl
  | cons c t ih =>
    intro ps
    rw [List.map_cons, List.foldlM_cons, List.foldlM_cons, applyOGCForce_retag]
    cases m.applyOGCForce c dt ps with
    | none => rfl
    | some qs => exact ih qs

theorem gatherContacts_retag (L : FloatLib K) (s : ClothSimulation K) (r : K) :
    ∀ (ps : List (ClothParticle K)) (k : Nat),
      ClothSimulation.gatherContacts L (s.setOGCContactRadius r) k ps =
        (s.gatherContacts L k ps).map (retag r) := by
  intro ps
  induction ps with
  | nil => intro k; rfl
  | cons p rest ih =>
    intro k
    show List.filterMap (ClothSimulation.contactOf L (s.setOGCContactRadius r) k p) s.cylinders ++
        ClothSimulation.gatherContacts L (s.setOGCContactRadius r) (k + 1) rest =
      (List.filterMap (s.contactOf L k p) s.cylinders ++ s.gatherContacts L (k + 1) rest).map
        (retag r)
    rw [ih, List.map_append, List.map_filterMap]
    congr 1
    apply List.filterMap_congr
    intro c _
    simp only [ClothSimulation.contactOf]
    split_ifs <;> rfl

theorem handleCollisions_setRadius (L : FloatLib K) (s : ClothSimulation K) (r : K) :
    (s.setOGCContactRadius r).handleCollisions L =
      (s.handleCollisions L).map fun t => t.setOGCContactRadius r := by
  by_cases h1 : s.cylinders.isEmpty = true
  · have h1b : (s.setOGCContactRadius r).cylinders.isEmpty = true := h1
    rw [ClothSimulation.handleCollisions, if_pos h1b, ClothSimulation.handleCollisions, if_pos h1]
    rfl
  have h1b : ¬ (s.setOGCContactRadius r).cylinders.isEmpty = true := h1
  by_cases h2 : s.useOGC = true
  · have h2b : (s.setOGCContactRadius r).useOGC = true := h2
    rw [ClothSimulation.handleCollisions, if_neg h1b, if_pos h2b, ClothSimulation.handleCollisions,
      if_neg h1, if_pos h2]
    simp only
    have hg : ClothSimulation.gatherContacts L (s.setOGCContactRadius r) 0
        (s.setOGCContactRadius r).particles = (s.gatherContacts L 0 s.particles).map (retag r) :=
      gatherContacts_retag L s r s.particles 0
    rw [hg]
    by_cases h3 : (s.gatherContacts L 0 s.particles).isEmpty = true
    · have h3b : ((s.gatherContacts L 0 s.particles).map (retag r)).isEmpty = true := by
        rw [List.isEmpty_iff] at h3 ⊢
        rw [h3]
        rfl
      rw [if_pos h3b, if_pos h3]
      rfl
    · have h3b : ¬ ((s.gatherContacts L 0 s.particles).map (retag r)).isEmpty = true := by
        intro h
        apply h3
        rw [List.isEmpty_iff] at h ⊢
        exact List.map_eq_nil_iff.mp h
      rw [if_neg h3b, if_neg h3]
      have hp : (s.setOGCContactRadius r).ogcModel.processContacts
          ((s.gatherContacts L 0 s.particles).map (retag r)) (s.setOGCContactRadius r).timeStep
          (s.setOGCContactRadius r).particles =
          s.ogcModel.processContacts (s.gatherContacts L 0 s.particles) s.timeStep s.particles := by
        rw [processContacts_eq_foldlM, processContacts_eq_foldlM]
        exact foldlM_applyOGCForce_retag s.ogcModel r s.timeStep _ s.particles
      rw [hp]
      cases s.ogcModel.processContacts (s.gatherContacts L 0 s.particles) s.timeStep
          s.particles with
      | none => rfl
      | some qs => rfl
  · have h2b : ¬ (s.setOGCContactRadius r).useOGC = true := h2
    rw [ClothSimulation.handleCollisions, if_neg h1b, if_neg h2b, ClothSimulation.handleCollisions,
      if_neg h1, if_neg h2]
    rfl

theorem satisfyConstraints_setRadius (L : FloatLib K) (s : ClothSimulation K) (r : K) :
    (s.setOGCContactRadius r).satisfyConstraints L =
      (s.satisfyConstraints L).map fun t => t.setOGCContactRadius r := by
  unfold ClothSimulation.satisfyConstraints
  show (match s.constraints.foldlM (fun ps c => c.satisfy L ps) s.particles with
    | none => none
    | some ps => some { s.setOGCContactRadius r with particles := ps }) = _
  cases s.constraints.foldlM (fun ps c => c.satisfy L ps) s.particles with
  | none => rfl
  | some ps => rfl

theorem repeatM_commute {σ : Type} (step : σ → Option σ) (g : σ → σ)
    (h : ∀ s, step (g s) = (step s).map g) :
    ∀ (n : Nat) (s : σ), repeatM step n (g s) = (repeatM step n s).map g := by
  intro n
  induction n with
  | zero => intro s; rfl
  | succ n ih =>
    intro s
    simp only [repeatM]
    rw [h]
    cases step s with
    | none => rfl
    | some s1 => exact ih s1

theorem calculateNormals_setRadius (L : FloatLib K) (s : ClothSimulation K) (r : K) :
    (s.setOGCContactRadius r).calculateNormals L =
      (s.calculateNormals L).map fun t => t.setOGCContactRadius r := by
  unfold ClothSimulation.calculateNormals
  simp only
  have hstep : ClothSimulation.normalsStep L (s.setOGCContactRadius r) = s.normalsStep L := rfl
  rw [hstep]
  show (match ((intRange (s.height - 1)).flatMap fun y =>
      (intRange (s.width - 1)).map fun x => (x, y)).foldlM (s.normalsStep L)
        (s.particles.map fun p => { p with normal := (⟨0, 0, 0⟩ : Vec3 K) }) with
    | none => none
    | some ps1 => some { s.setOGCContactRadius r with
        particles := ps1.map fun (p : ClothParticle K) =>
          if p.normal.length L > 0 then { p with normal := L.normalized p.normal }
          else { p with normal := ⟨0, 1, 0⟩ } }) = _
  cases ((intRange (s.height - 1)).flatMap fun y =>
      (intRange (s.width - 1)).map fun x => (x, y)).foldlM (s.normalsStep L)
        (s.particles.map fun p => { p with normal := (⟨0, 0, 0⟩ : Vec3 K) }) with
  | none => rfl
  | some ps1 => rfl

theorem update_setRadius (L : FloatLib K) (s : ClothSimulation K) (r dt : K) :
    (s.setOGCContactRadius r).update L dt =
      (s.update L dt).map fun t => t.setOGCContactRadius r := by
  unfold ClothSimulation.update
  by_cases hp : s.paused = true
  · have hpb : (s.setOGCContactRadius r).paused = true := hp
    rw [if_pos hpb, if_pos hp]
    rfl
  · have hpb : ¬ (s.setOGCContactRadius r).paused = true := hp
    rw [if_neg hpb, if_neg hp]
    simp only
    have ha : ClothSimulation.applyForces L (s.setOGCContactRadius r) =
        (s.applyForces L).setOGCContactRadius r := rfl
    rw [ha, handleCollisions_setRadius]
    cases (s.applyForces L).handleCollisions L with
    | none => rfl
    | some s2 =>
      simp only [Option.map_some']
      have hu : ClothSimulation.updateParticles (s2.setOGCContactRadius r)
          (min dt (s.setOGCContactRadius r).timeStep) =
          (s2.updateParticles (min dt s.timeStep)).setOGCContactRadius r := rfl
      rw [hu]
      have hn : ((s2.updateParticles (min dt s.timeStep)).setOGCContactRadius
          r).constraintIterations = (s2.updateParticles (min dt s.timeStep)).constraintIterations :=
        rfl
      rw [hn, repeatM_commute (ClothSimulation.satisfyConstraints L)
        (fun t => t.setOGCContactRadius r) (fun t => satisfyConstraints_setRadius L t r)]
      cases repeatM (ClothSimulation.satisfyConstraints L)
          (s2.updateParticles (min dt s.timeStep)).constraintIterations.toNat
          (s2.updateParticles (min dt s.timeStep)) with
      | none => rfl
      | some s4 =>
        simp only [Option.map_some']
        rw [calculateNormals_setRadius]
        cases s4.calculateNormals L with
        | none => rfl
        | some s5 => rfl

/-- C21: for every state, every `dt` and any two contact radii `r1`, `r2`,
`update(dt)` after `setOGCContactRadius(r1)` and after `setOGCContactRadius(r2)`
either both fail to return or both return, and then with the same particle list
(positions, velocities, forces and all other particle fields); the two results
differ in the stored contact radius only.  This holds in OGC mode and in basic
mode. -/
theorem C21_contact_radius_irrelevant (L : FloatLib K) (s : ClothSimulation K) (dt r1 r2 : K) :
    ((s.setOGCContactRadius r1).update L dt).map (fun t => t.particles) =
      ((s.setOGCContactRadius r2).update L dt).map (fun t => t.particles) ∧
    ((s.setOGCContactRadius r1).update L dt).map (fun t => t.setOGCContactRadius r2) =
      (s.setOGCContactRadius r2).update L dt ∧
    (WellFormed s → ∃ t1 t2, (s.setOGCContactRadius r1).update L dt = some t1 ∧
      (s.setOGCContactRadius r2).update L dt = some t2 ∧ t1.particles = t2.particles) := by
  have h1 := update_setRadius L s r1 dt
  have h2 := update_setRadius L s r2 dt
  refine ⟨?_, ?_, ?_⟩
  · rw [h1, h2]
    cases s.update L dt <;> rfl
  · rw [h1, h2]
    cases s.update L dt <;> rfl
  · intro hwf
    have hex : ∃ t, s.update L dt = some t := by
      by_cases hp : s.paused = true
      · exact ⟨s, by simp [ClothSimulation.update, hp]⟩
      · obtain ⟨ps, hu, _⟩ := update_spec L s dt hwf (by simpa using hp)
        exact ⟨_, hu⟩
    obtain ⟨t, ht⟩ := hex
    refine ⟨t.setOGCContactRadius r1, t.setOGCContactRadius r2, ?_, ?_, rfl⟩
    · rw [h1, ht]
      rfl
    · rw [h2, ht]
      rfl

end RadiusClaims

/-! ## The lookups of `initialize` and the rest state it builds -/

section RestClaims

variable {K : Type} [LinearOrderedField K]

theorem allLinks_of_flat (t : ClothSimulation K) (ht : t.height ≤ 0) :
    t.structuralLinks ++ t.shearLinks ++ t.bendLinks = [] := by
  have h0 := intRange_of_nonpos ht
  have h1 := intRange_of_nonpos (show t.height - 1 ≤ 0 by omega)
  have h2 := intRange_of_nonpos (show t.height - 2 ≤ 0 by omega)
  simp [ClothSimulation.structuralLinks, ClothSimulation.shearLinks, ClothSimulation.bendLinks,
    h0, h1, h2]

theorem intRange_head {n : Int} (h : 1 ≤ n) : ∃ rest, intRange n = 0 :: rest := by
  obtain ⟨k, hk⟩ : ∃ k : Nat, n.toNat = k + 1 := ⟨n.toNat - 1, by omega⟩
  unfold intRange
  rw [hk, List.range_succ_eq_map, List.map_cons]
  exact ⟨_, rfl⟩

/-- On a grid with at least one column and no row, `initialize()` does not
return: the first pinning lookup `getParticle(0, 0)` is null and is
dereferenced. -/
theorem initialize0_fails (L : FloatLib K) (s : ClothSimulation K) (hW : 1 ≤ s.width)
    (hH : s.height ≤ 0) : s.initialize0 L = none := by
  have hcc : ClothSimulation.createConstraints L
      (ClothSimulation.createClothMesh { s with particles := [], constraints := [], cylinders := [] }) =
      some { ClothSimulation.createClothMesh
        { s with particles := [], constraints := [], cylinders := [] } with constraints := [] } := by
    unfold ClothSimulation.createConstraints
    rw [allLinks_of_flat _ (by exact hH), List.mapM_nil]
    rfl
  obtain ⟨rest, hrange⟩ := intRange_head hW
  unfold ClothSimulation.initialize0
  simp only [hcc]
  have hw : (ClothSimulation.addCylinder
      { ClothSimulation.createClothMesh
          { s with particles := [], constraints := [], cylinders := [] } with constraints := [] }
      ⟨0, -2, 0⟩ (15 / 10) (5 / 10)).width = s.width := rfl
  rw [hw, hrange, List.foldlM_cons]
  have hpin : ClothSimulation.pinStep (ClothSimulation.addCylinder
      { ClothSimulation.createClothMesh
          { s with particles := [], constraints := [], cylinders := [] } with constraints := [] }
      ⟨0, -2, 0⟩ (15 / 10) (5 / 10)) 0 = none := by
    have hg : ClothSimulation.getParticle (ClothSimulation.addCylinder
        { ClothSimulation.createClothMesh
            { s with particles := [], constraints := [], cylinders := [] } with constraints := [] }
        ⟨0, -2, 0⟩ (15 / 10) (5 / 10)) 0 0 = none := by
      unfold ClothSimulation.getParticle
      rw [if_pos]
      right; right; right
      exact hH
    simp only [ClothSimulation.pinStep, hg]
    rfl
  rw [hpin]
  rfl

/-- C30: for `W ≥ 1`.  If `H ≥ 1`, every pair of lookups of `createConstraints`
on the mesh built by `initialize(W, H, spacing)` returns two non-null pointers
to particles of the mesh, the pinning lookup `getParticle(x, 0)` returns a
non-null pointer to a particle for every `0 ≤ x < W`, and
`initialize(W, H, spacing)` returns (no null pointer is dereferenced).  If
`H ≤ 0`, the lookup `getParticle(0, 0)` is null and `initialize(W, H, spacing)`
does not return. -/
theorem C30_initialize_lookups_in_range (L : FloatLib K) (s : ClothSimulation K) (W H : Int)
    (spacing : K) (hW : 1 ≤ W) :
    (1 ≤ H →
      (∀ l ∈ allLinks (meshStage s W H spacing), ∃ i j p q, l = (some i, some j) ∧
        (meshStage s W H spacing).particles[i]? = some p ∧
        (meshStage s W H spacing).particles[j]? = some q) ∧
      (∀ x : Int, 0 ≤ x → x < W → ∃ i p, (meshStage s W H spacing).getParticle x 0 = some i ∧
        (meshStage s W H spacing).particles[i]? = some p) ∧
      ∃ s1, s.initialize3 L W H spacing = some s1 ∧
        ∀ x y : Int, s1.getParticle x y = (meshStage s W H spacing).getParticle x y) ∧
    (H ≤ 0 → (meshStage s W H spacing).getParticle 0 0 = none ∧
      s.initialize3 L W H spacing = none) := by
  have hlen : (meshStage s W H spacing).particles.length = W.toNat * H.toNat := by
    rw [meshStage_particles, freshMesh_length]
  constructor
  · intro hH
    refine ⟨?_, ?_, ?_⟩
    · intro l hl
      obtain ⟨i, j, rfl, hi, hj⟩ := allLinks_valid (meshStage s W H spacing) l hl
      have hi2 : i < (meshStage s W H spacing).particles.length := by rw [hlen]; exact hi
      have hj2 : j < (meshStage s W H spacing).particles.length := by rw [hlen]; exact hj
      exact ⟨i, j, _, _, rfl, List.getElem?_eq_getElem hi2, List.getElem?_eq_getElem hj2⟩
    · intro x hx0 hx1
      obtain ⟨hg, hlt⟩ := getParticle_valid (meshStage s W H spacing) x 0
        (meshStage s W H spacing).particles.length hx0 hx1 le_rfl (by show (0 : Int) < H; omega)
        (by rw [hlen]; exact le_rfl)
      exact ⟨_, _, hg, List.getElem?_eq_getElem hlt⟩
    · obtain ⟨ps, cs, hinit, _⟩ := initialize0_spec L
        { s with width := W, height := H, spacing := spacing } (Or.inl hH)
      exact ⟨_, hinit, fun x y => rfl⟩
  · intro hH
    refine ⟨?_, initialize0_fails L { s with width := W, height := H, spacing := spacing } hW hH⟩
    unfold ClothSimulation.getParticle
    rw [if_pos]
    right; right; right
    exact hH

/-- C30 (witness): five columns; with three rows `initialize` returns, with no
row it does not. -/
theorem C30_initialize_lookups_in_range_witness :
    (1 : Int) ≤ 5 ∧
    ((1 : Int) ≤ 3 →
      (∀ l ∈ allLinks (meshStage cloth53 5 3 (1 / 5)), ∃ i j p q, l = (some i, some j) ∧
        (meshStage cloth53 5 3 (1 / 5)).particles[i]? = some p ∧
        (meshStage cloth53 5 3 (1 / 5)).particles[j]? = some q) ∧
      (∀ x : Int, 0 ≤ x → x < 5 →
        ∃ i p, (meshStage cloth53 5 3 (1 / 5)).getParticle x 0 = some i ∧
          (meshStage cloth53 5 3 (1 / 5)).particles[i]? = some p) ∧
      ∃ s1, cloth53.initialize3 ratLib 5 3 (1 / 5) = some s1 ∧
        ∀ x y : Int, s1.getParticle x y = (meshStage cloth53 5 3 (1 / 5)).getParticle x y) ∧
    ((3 : Int) ≤ 0 → (meshStage cloth53 5 3 (1 / 5)).getParticle 0 0 = none ∧
      cloth53.initialize3 ratLib 5 3 (1 / 5) = none) ∧
    ((0 : Int) ≤ 0 → (meshStage cloth53 5 0 (1 / 5)).getParticle 0 0 = none ∧
      cloth53.initialize3 ratLib 5 0 (1 / 5) = none) :=
  ⟨by decide, (C30_initialize_lookups_in_range ratLib cloth53 5 3 (1 / 5) (by decide)).1,
    (C30_initialize_lookups_in_range ratLib cloth53 5 3 (1 / 5) (by decide)).2,
    (C30_initialize_lookups_in_range ratLib cloth53 5 0 (1 / 5) (by decide)).2⟩

theorem new_default_spec (L : FloatLib K) (ps : List (ClothParticle K)) (p1 p2 : Option Nat)
    (c : ClothConstraint K) (h : ClothConstraint.new L ps p1 p2 (-1) = some c) :
    ∃ i j a b, c.particle1 = some i ∧ c.particle2 = some j ∧ ps[i]? = some a ∧
      ps[j]? = some b ∧ c.restLength = (a.position.sub b.position).length L := by
  unfold ClothConstraint.new at h
  rw [if_pos (by norm_num)] at h
  cases p1 with
  | none => simp [deref] at h
  | some i =>
    cases p2 with
    | none =>
      cases hi : ps[i]? <;> simp [deref, hi] at h
    | some j =>
      cases hi : ps[i]? with
      | none => simp [deref, hi] at h
      | some a =>
        cases hj : ps[j]? with
        | none => simp [deref, hi, hj] at h
        | some b =>
          simp only [deref, hi, hj, Option.some.injEq] at h
          rw [← h]
          exact ⟨i, j, a, b, rfl, rfl, hi, hj, rfl⟩

theorem mapM_new_mem (L : FloatLib K) (ps : List (ClothParticle K)) :
    ∀ (links : List (Option Nat × Option Nat)) (cs : List (ClothConstraint K)),
      links.mapM (fun l => ClothConstraint.new L ps l.1 l.2 (-1)) = some cs →
      ∀ c ∈ cs, ∃ i j a b, c.particle1 = some i ∧ c.particle2 = some j ∧ ps[i]? = some a ∧
        ps[j]? = some b ∧ c.restLength = (a.position.sub b.position).length L := by
  intro links
  induction links with
  | nil =>
    intro cs h c hc
    rw [List.mapM_nil] at h
    cases h
    simp at hc
  | cons l rest ih =>
    intro cs h c hc
    rw [List.mapM_cons] at h
    cases hn : ClothConstraint.new L ps l.1 l.2 (-1) with
    | none => simp [hn] at h
    | some c0 =>
      cases hr : rest.mapM (fun l => ClothConstraint.new L ps l.1 l.2 (-1)) with
      | none =>
        simp only [hn, hr] at h
        have h2 : (none : Option (List (ClothConstraint K))) = some cs := h
        cases h2
      | some cs0 =>
        simp only [hn, hr] at h
        have h2 : some (c0 :: cs0) = some cs := h
        rw [← Option.some.inj h2] at hc
        rcases List.mem_cons.mp hc with e | e
        · rw [e]
          exact new_default_spec L ps _ _ c0 hn
        · exact ih cs0 hr c e

theorem updateAt_of_fixed (ps : List (ClothParticle K)) (i : Nat)
    (f : ClothParticle K → ClothParticle K) (h : ∀ p, ps[i]? = some p → f p = p) :
    updateAt ps i f = ps := by
  have := map_updateAt_of_fixed (fun p => p) ps i f h
  simpa using this

theorem Vec3.add_zero_vec (v : Vec3 K) : v.add ⟨0, 0, 0⟩ = v := by
  cases v
  simp [Vec3.add]

theorem Vec3.sub_zero_vec (v : Vec3 K) : v.sub ⟨0, 0, 0⟩ = v := by
  cases v
  simp [Vec3.sub]

/-- A constraint whose rest length is the distance of its two ends, measured as
the constructor measures it, between two particles with the same velocity:
`satisfy()` returns the store as it is. -/
theorem satisfy_at_rest (L : FloatLib K) (c : ClothConstraint K) (ps : List (ClothParticle K))
    (i j : Nat) (a b : ClothParticle K) (h1 : c.particle1 = some i) (h2 : c.particle2 = some j)
    (ha : ps[i]? = some a) (hb : ps[j]? = some b)
    (hrest : c.restLength = (a.position.sub b.position).length L)
    (hvel : a.velocity = b.velocity) : c.satisfy L ps = some ps := by
  have hsym : (b.position.sub a.position).length L = (a.position.sub b.position).length L := by
    unfold Vec3.length
    congr 1
    simp only [Vec3.lengthSquared, Vec3.sub]
    ring
  have hcorr : (((b.position.sub a.position).scale
      (((b.position.sub a.position).length L - c.restLength) /
        (b.position.sub a.position).length L)).scale (1 / 2)).scale c.stiffness =
      ⟨0, 0, 0⟩ := by
    rw [hrest, hsym, sub_self, zero_div]
    simp [Vec3.scale]
  have hdamp : ∀ k : K, ((b.velocity.sub a.velocity).scale c.damping).scale k = ⟨0, 0, 0⟩ := by
    intro k
    rw [hvel]
    simp [Vec3.scale, Vec3.sub]
  simp only [ClothConstraint.satisfy, h1, h2, ha, hb, hcorr, hdamp, Vec3.add_zero_vec,
    Vec3.sub_zero_vec]
  have hid : ∀ qs : List (ClothParticle K), ∀ k : Nat,
      updateAt qs k (fun p => { p with position := p.position }) = qs :=
    fun qs k => updateAt_of_fixed qs k _ (fun p _ => rfl)
  have hid2 : ∀ qs : List (ClothParticle K), ∀ k : Nat,
      updateAt qs k (fun p => { p with velocity := p.velocity }) = qs :=
    fun qs k => updateAt_of_fixed qs k _ (fun p _ => rfl)
  split_ifs <;> simp only [hid, hid2]

theorem foldlM_fixed {α β : Type} (f : β → α → Option β) (b : β) :
    ∀ l : List α, (∀ a ∈ l, f b a = some b) → l.foldlM f b = some b := by
  intro l
  induction l with
  | nil => intro _; rfl
  | cons a t ih =>
    intro h
    rw [List.foldlM_cons, h a (List.mem_cons_self a t)]
    exact ih (fun a1 h1 => h a1 (List.mem_cons_of_mem a h1))

theorem repeatM_fixed {σ : Type} (step : σ → Option σ) (s : σ) (h : step s = some s) :
    ∀ n : Nat, repeatM step n s = some s := by
  intro n
  induction n with
  | zero => rfl
  | succ n ih =>
    simp only [repeatM, h, Option.some_bind]
    exact ih

theorem satisfyConstraints_fixed (L : FloatLib K) (t : ClothSimulation K)
    (h : ∀ c ∈ t.constraints, c.satisfy L t.particles = some t.particles) :
    t.satisfyConstraints L = some t := by
  unfold ClothSimulation.satisfyConstraints
  rw [foldlM_fixed _ _ _ h]

theorem meshParticle_velocity (s : ClothSimulation K) (x y : Int) :
    (s.meshParticle x y).velocity = ⟨0, 0, 0⟩ := rfl

theorem freshMesh_velocity (s : ClothSimulation K) :
    ∀ p ∈ freshMesh s, p.velocity = ⟨0, 0, 0⟩ := by
  intro p hp
  simp only [freshMesh, List.mem_flatMap, List.mem_map] at hp
  obtain ⟨y, _, x, _, rfl⟩ := hp
  rfl

/-- C26: for `W ≥ 1` and `H ≥ 1`, `initialize(W, H, s)` returns a state in
which every constraint links two particles of the list whose separation, as
`satisfy()` measures it, equals the constraint's rest length; one
`satisfyConstraints` pass returns the same state, and so does any number of
passes: no particle field changes. -/
theorem C26_initial_state_at_rest (L : FloatLib K) (s : ClothSimulation K) (W H : Int)
    (spacing : K) (hW : 1 ≤ W) (hH : 1 ≤ H) :
    ∃ s1, s.initialize3 L W H spacing = some s1 ∧
      (∀ c ∈ s1.constraints, ∃ i j, c.particle1 = some i ∧ c.particle2 = some j ∧
        separation L s1.particles i j = some c.restLength) ∧
      s1.satisfyConstraints L = some s1 ∧
      ∀ n : Nat, repeatM (ClothSimulation.satisfyConstraints L) n s1 = some s1 := by
  obtain ⟨ps, cs, hinit, hcs, _, hlen, hget⟩ := initialize0_spec L
    { s with width := W, height := H, spacing := spacing } (Or.inl hH)
  have hmem := mapM_new_mem L _ _ cs hcs
  -- the ends of every constraint in the returned particle list
  have hends : ∀ c ∈ cs, ∃ i j a b, c.particle1 = some i ∧ c.particle2 = some j ∧
      ps[i]? = some a ∧ ps[j]? = some b ∧
      c.restLength = (a.position.sub b.position).length L ∧ a.velocity = b.velocity := by
    intro c hc
    obtain ⟨i, j, a0, b0, e1, e2, ha0, hb0, hrest⟩ := hmem c hc
    have hai := hget i
    have hbj := hget j
    rw [ha0] at hai
    rw [hb0] at hbj
    obtain ⟨fa1, fa2, _, _⟩ := pinTop_fields (K := K) W i a0
    obtain ⟨fb1, fb2, _, _⟩ := pinTop_fields (K := K) W j b0
    refine ⟨i, j, _, _, e1, e2, hai, hbj, ?_, ?_⟩
    · rw [fa1, fb1]
      exact hrest
    · rw [fa2, fb2, freshMesh_velocity _ a0 (List.getElem?_mem ha0),
        freshMesh_velocity _ b0 (List.getElem?_mem hb0)]
  have hsat : ClothSimulation.satisfyConstraints L
      { s with width := W, height := H, spacing := spacing, particles := ps, constraints := cs,
               cylinders := [defaultCylinder], simulationTime := 0, renderDataDirty := true } =
      some { s with width := W, height := H, spacing := spacing, particles := ps,
                    constraints := cs, cylinders := [defaultCylinder], simulationTime := 0,
                    renderDataDirty := true } := by
    apply satisfyConstraints_fixed
    intro c hc
    obtain ⟨i, j, a, b, e1, e2, ha, hb, hrest, hvel⟩ := hends c hc
    exact satisfy_at_rest L c ps i j a b e1 e2 ha hb hrest hvel
  refine ⟨_, hinit, ?_, hsat, repeatM_fixed _ _ hsat⟩
  intro c hc
  obtain ⟨i, j, a, b, e1, e2, ha, hb, hrest, _⟩ := hends c hc
  refine ⟨i, j, e1, e2, ?_⟩
  rw [separation_of_ends L ps i j a b ha hb, hrest]
  congr 1
  unfold Vec3.length
  congr 1
  simp only [Vec3.lengthSquared, Vec3.sub]
  ring

/-- C26 (witness): the 5 × 3 cloth with spacing `1/5`. -/
theorem C26_initial_state_at_rest_witness :
    (1 : Int) ≤ 5 ∧ (1 : Int) ≤ 3 ∧
    ∃ s1, cloth53.initialize3 ratLib 5 3 (1 / 5) = some s1 ∧
      (∀ c ∈ s1.constraints, ∃ i j, c.particle1 = some i ∧ c.particle2 = some j ∧
        separation ratLib s1.particles i j = some c.restLength) ∧
      s1.satisfyConstraints ratLib = some s1 ∧
      ∀ n : Nat, repeatM (ClothSimulation.satisfyConstraints ratLib) n s1 = some s1 :=
  ⟨by decide, by decide,
    C26_initial_state_at_rest ratLib cloth53 5 3 (1 / 5) (by decide) (by decide)⟩

end RestClaims

/-! ## Pinned particles in the reachable states -/

section ReachClaims

variable {K : Type} [LinearOrderedField K]

theorem wellFormed_initialize0 (L : FloatLib K) (s : ClothSimulation K)
    (ps : List (ClothParticle K)) (cs : List (ClothConstraint K))
    (hends : cs.map ClothConstraint.ends = allLinks s)
    (hlen : ps.length = s.width.toNat * s.height.toNat) :
    WellFormed { s with particles := ps, constraints := cs, cylinders := [defaultCylinder],
                        simulationTime := 0, renderDataDirty := true } := by
  constructor
  · intro c hc
    have hmem : c.ends ∈ allLinks s := by
      rw [← hends]
      exact List.mem_map_of_mem _ hc
    obtain ⟨i, j, e, hi, hj⟩ := allLinks_valid s _ hmem
    simp only [ClothConstraint.ends, Prod.mk.injEq] at e
    refine ⟨i, j, e.1, e.2, ?_, ?_⟩
    · show i < ps.length
      rw [hlen]
      exact hi
    · show j < ps.length
      rw [hlen]
      exact hj
  · show s.width.toNat * s.height.toNat ≤ ps.length
    rw [hlen]

theorem pinned_at_rest_of_keeps {ps qs : List (ClothParticle K)} (hk : KeepsPinned ps qs)
    (hz : ∀ p ∈ ps, p.pinned = true → p.velocity = ⟨0, 0, 0⟩) :
    ∀ q ∈ qs, q.pinned = true → q.velocity = ⟨0, 0, 0⟩ := by
  intro q hq hpin
  obtain ⟨i, hi⟩ := List.getElem?_of_mem hq
  obtain ⟨p, hp, hppin, _, hpvel⟩ := @pinned_of_view K _ qs ps pinnedView
    hk.2.symm i q (q.position, q.velocity) hi (show pinnedView q = some (q.position, q.velocity) by simp [pinnedView, hpin])
  have hv : p.velocity = q.velocity := hpvel
  rw [← hv]
  exact hz p (List.getElem?_mem hp) hppin

/-- One public call on a state that has kept the pinned particles of `ps0`
(all of them at rest) returns a state that has kept them as well. -/
theorem run_keepsPinned (L : FloatLib K) (ps0 : List (ClothParticle K))
    (hz : ∀ p ∈ ps0, p.pinned = true → p.velocity = ⟨0, 0, 0⟩) (op : PublicOp K)
    (t : ClothSimulation K) (hwf : WellFormed t) (hk : KeepsPinned ps0 t.particles) :
    ∃ t1, op.run L t = some t1 ∧ WellFormed t1 ∧ KeepsPinned ps0 t1.particles := by
  cases op with
  | update dt =>
    by_cases hp : t.paused = true
    · exact ⟨t, by simp [PublicOp.run, ClothSimulation.update, hp], hwf, hk⟩
    · obtain ⟨ps, hu, hlen, hview⟩ := update_spec L t dt hwf (by simpa using hp)
      refine ⟨_, hu, ?_, ?_⟩
      · constructor
        · intro c hc
          obtain ⟨i, j, e1, e2, hi, hj⟩ := hwf.1 c hc
          refine ⟨i, j, e1, e2, ?_, ?_⟩
          · show i < ps.length
            rw [hlen]
            exact hi
          · show j < ps.length
            rw [hlen]
            exact hj
        · show t.width.toNat * t.height.toNat ≤ ps.length
          rw [hlen]
          exact hwf.2
      · have hrest := pinned_at_rest_of_keeps hk hz
        have hsame : t.particles.map (dampedView t.damping) = t.particles.map pinnedView := by
          apply List.map_congr_left
          intro p hp1
          unfold dampedView pinnedView
          by_cases hpin : p.pinned = true
          · rw [if_pos hpin, if_pos hpin, hrest p hp1 hpin]
            simp [Vec3.scale]
          · rw [if_neg hpin, if_neg hpin]
        refine ⟨?_, ?_⟩
        · show ps.length = ps0.length
          rw [hlen]
          exact hk.1
        · show ps.map pinnedView = ps0.map pinnedView
          rw [hview, hsame]
          exact hk.2
  | addCylinder c r h => exact ⟨_, rfl, hwf, hk⟩
  | setGravity g => exact ⟨_, rfl, hwf, hk⟩
  | setWind w => exact ⟨_, rfl, hwf, hk⟩
  | setDamping d => exact ⟨_, rfl, hwf, hk⟩
  | setTimeStep d => exact ⟨_, rfl, hwf, hk⟩
  | setUseOGC b => exact ⟨_, rfl, hwf, hk⟩
  | setOGCContactRadius r => exact ⟨_, rfl, hwf, hk⟩
  | pause => exact ⟨_, rfl, hwf, hk⟩
  | resume => exact ⟨_, rfl, hwf, hk⟩

/-- C23: let `initialize()` be run on a grid it can build (`height ≥ 1`, or no
column).  It returns a state `s0`, and every sequence of the public calls
`update`, `addCylinder`, `setGravity`, `setWind`, `setDamping`, `setTimeStep`,
`setUseOGC`, `setOGCContactRadius`, `pause`, `resume` from `s0` returns a state
with the same number of particles in which every pinned particle has zero
velocity, is a particle of the top row with `x mod 4 = 0`, and has the position
that `createClothMesh` gave it. -/
theorem C23_pinned_stay_at_rest (L : FloatLib K) (s : ClothSimulation K)
    (h : 1 ≤ s.height ∨ s.width ≤ 0) (ops : List (PublicOp K)) :
    ∃ s0 t, s.initialize0 L = some s0 ∧ runOps L ops s0 = some t ∧
      t.particles.length = s0.particles.length ∧
      ∀ (i : Nat) (q : ClothParticle K), t.particles[i]? = some q → q.pinned = true →
        q.velocity = ⟨0, 0, 0⟩ ∧ (i : Int) < s.width ∧ (i : Int) % 4 = 0 ∧
        (freshMesh s)[i]? = some (s.meshParticle (i : Int) 0) ∧
        q.position = (s.meshParticle (i : Int) 0).position := by
  obtain ⟨ps, cs, hinit, _, hends, hlen, hget⟩ := initialize0_spec L s h
  have hwf0 := wellFormed_initialize0 L s ps cs hends hlen
  -- the pinned particles of the initial state
  have hpin0 : ∀ (i : Nat) (p : ClothParticle K), ps[i]? = some p → p.pinned = true →
      p.velocity = ⟨0, 0, 0⟩ ∧ (i : Int) < s.width ∧ (i : Int) % 4 = 0 ∧
      (freshMesh s)[i]? = some (s.meshParticle (i : Int) 0) ∧
      p.position = (s.meshParticle (i : Int) 0).position := by
    intro i p hp hpin
    have hg := hget i
    rw [hp] at hg
    cases hf : (freshMesh s)[i]? with
    | none => rw [hf] at hg; simp at hg
    | some q =>
      rw [hf] at hg
      simp only [Option.map_some', Option.some.injEq] at hg
      have hq := freshMesh_pinned s q (List.getElem?_mem hf)
      have hqv := freshMesh_velocity s q (List.getElem?_mem hf)
      obtain ⟨f1, f2, _, _⟩ := pinTop_fields (K := K) s.width i q
      have hcond : (i : Int) < s.width ∧ (i : Int) % 4 = 0 := by
        by_contra hc
        have e : pinTop s.width i q = q := by
          unfold pinTop
          rw [if_neg hc]
        rw [hg, e, hq] at hpin
        cases hpin
      have hH : 0 < s.height := by
        rcases h with h | h
        · omega
        · omega
      have hm := freshMesh_getElem s (i : Int) 0 (by omega) hcond.1 le_rfl hH
      have hidx : (0 * s.width + (i : Int)).toNat = i := by simp
      rw [hidx, hf] at hm
      have hqm : q = s.meshParticle (i : Int) 0 := Option.some.inj hm
      refine ⟨?_, hcond.1, hcond.2, ?_, ?_⟩
      · rw [hg, f2, hqv]
      · rw [hqm]
      · rw [hg, f1, hqm]
  have hz : ∀ p ∈ ps, p.pinned = true → p.velocity = ⟨0, 0, 0⟩ := by
    intro p hp hpin
    obtain ⟨i, hi⟩ := List.getElem?_of_mem hp
    exact (hpin0 i p hi hpin).1
  obtain ⟨t, hrun, hwf, hk⟩ := foldlM_option_inv (fun t op => PublicOp.run L t op)
    (fun t => WellFormed t ∧ KeepsPinned ps t.particles) ops
    { s with particles := ps, constraints := cs, cylinders := [defaultCylinder],
             simulationTime := 0, renderDataDirty := true }
    ⟨hwf0, KeepsPinned.refl ps⟩ (by
      intro t op _ ht
      exact run_keepsPinned L ps hz op t ht.1 ht.2)
  refine ⟨_, t, hinit, hrun, hk.1, ?_⟩
  intro i q hq hpin
  obtain ⟨p, hp, hppin, hppos, hpvel⟩ := @pinned_of_view K _ t.particles ps pinnedView
    hk.2.symm i q (q.position, q.velocity) hq
    (show pinnedView q = some (q.position, q.velocity) by simp [pinnedView, hpin])
  obtain ⟨g1, g2, g3, g4, g5⟩ := hpin0 i p hp hppin
  refine ⟨?_, g2, g3, g4, ?_⟩
  · have hv : p.velocity = q.velocity := hpvel
    rw [← hv]
    exact g1
  · have hx : p.position = q.position := hppos
    rw [← hx]
    exact g5

/-- C23 (witness): the 5 × 3 cloth and a sequence of thirteen public calls. -/
theorem C23_pinned_stay_at_rest_witness :
    (1 ≤ cloth53.height ∨ cloth53.width ≤ 0) ∧
    ∃ s0 t, cloth53.initialize0 ratLib = some s0 ∧ runOps ratLib sampleOps s0 = some t ∧
      t.particles.length = s0.particles.length ∧
      ∀ (i : Nat) (q : ClothParticle ℚ), t.particles[i]? = some q → q.pinned = true →
        q.velocity = ⟨0, 0, 0⟩ ∧ (i : Int) < cloth53.width ∧ (i : Int) % 4 = 0 ∧
        (freshMesh cloth53)[i]? = some (cloth53.meshParticle (i : Int) 0) ∧
        q.position = (cloth53.meshParticle (i : Int) 0).position :=
  ⟨Or.inl (by decide), C23_pinned_stay_at_rest ratLib cloth53 (Or.inl (by decide)) sampleOps⟩

end ReachClaims

/-! ## OGC mode does not depend on the order of the colliders -/

section OrderClaims

variable {K : Type} [LinearOrderedField K]

theorem applyOGCForce_eq_step (m : OGCContactModel K) (contact : ContactInfo K) (dt : K)
    (ps : List (ClothParticle K)) (h : ∀ i, contact.particle = some i → i < ps.length) :
    m.applyOGCForce contact dt ps = some (ogcStep m ps contact) := by
  cases hc : contact.particle with
  | none => simp [OGCContactModel.applyOGCForce, ogcStep, hc]
  | some i =>
    have hi := h i hc
    have hp : ps[i]? = some ps[i] := List.getElem?_eq_getElem hi
    by_cases hpin : ps[i].pinned = true
    · have e : ogcStep m ps contact = ps := by
        simp only [ogcStep, hc]
        apply updateAt_of_fixed
        intro p hp1
        rw [hp] at hp1
        cases hp1
        simp [contactEffect, hpin]
      rw [e]
      simp [OGCContactModel.applyOGCForce, hc, hp, hpin]
    · have hfree : ps[i].pinned = false := by simpa using hpin
      obtain ⟨d, hd, hq⟩ := applyOGCForce_free m contact dt ps i ps[i] hc hp hfree
      rw [hq]
      simp only [ogcStep, hc]
      rw [updateAt_eq_set ps i _ ps[i] hp]
      have hd2 : d = (if Vec3.dotProduct ps[i].velocity contact.contactNormal < 0 then
          contact.contactNormal.scale
            (m.damping * Vec3.dotProduct ps[i].velocity contact.contactNormal)
          else ⟨0, 0, 0⟩) := by
        simp only [OGCContactModel.calculateDampingForce, deref, hc, hp] at hd
        split_ifs at hd ⊢ <;> exact (Option.some.inj hd).symm
      rw [hd2]
      simp only [contactEffect, hfree, Bool.false_eq_true, if_false]

theorem length_ogcStep (m : OGCContactModel K) (ps : List (ClothParticle K))
    (contact : ContactInfo K) : (ogcStep m ps contact).length = ps.length := by
  unfold ogcStep
  split
  · rfl
  · exact length_updateAt _ _ _

theorem foldlM_applyOGCForce_eq_foldl (m : OGCContactModel K) (dt : K) :
    ∀ (contacts : List (ContactInfo K)) (ps : List (ClothParticle K)),
      (∀ c ∈ contacts, ∀ i, c.particle = some i → i < ps.length) →
      contacts.foldlM (fun acc contact => m.applyOGCForce contact dt acc) ps =
        some (contacts.foldl (ogcStep m) ps) := by
  intro contacts
  induction contacts with
  | nil => intro ps _; rfl
  | cons c t ih =>
    intro ps h
    rw [List.foldlM_cons, applyOGCForce_eq_step m c dt ps (h c (List.mem_cons_self c t))]
    simp only [Option.bind_eq_bind, Option.some_bind, List.foldl_cons]
    apply ih
    intro c1 hc1 i hi
    rw [length_ogcStep]
    exact h c1 (List.mem_cons_of_mem c hc1) i hi

theorem contactEffect_comm (m : OGCContactModel K) (c1 c2 : ContactInfo K)
    (p : ClothParticle K) :
    contactEffect m c2 (contactEffect m c1 p) = contactEffect m c1 (contactEffect m c2 p) := by
  by_cases hpin : p.pinned = true
  · simp [contactEffect, hpin]
  · have hfree : p.pinned = false := by simpa using hpin
    simp only [contactEffect, hfree, Bool.false_eq_true, if_false]
    have hadd : ∀ a b c : Vec3 K, (a.add b).add c = (a.add c).add b := by
      intro a b c
      simp only [Vec3.add, Vec3.mk.injEq]
      refine ⟨by ring, by ring, by ring⟩
    congr 1
    · split_ifs <;> first | rfl | exact hadd _ _ _
    · exact hadd _ _ _

theorem ogcStep_comm (m : OGCContactModel K) (ps : List (ClothParticle K))
    (c1 c2 : ContactInfo K) :
    ogcStep m (ogcStep m ps c1) c2 = ogcStep m (ogcStep m ps c2) c1 := by
  cases h1 : c1.particle with
  | none => simp [ogcStep, h1]
  | some i =>
    cases h2 : c2.particle with
    | none => simp [ogcStep, h1, h2]
    | some j =>
      simp only [ogcStep, h1, h2]
      apply List.ext_getElem?
      intro n
      rw [getElem?_updateAt, getElem?_updateAt, getElem?_updateAt, getElem?_updateAt]
      by_cases hi : i = n <;> by_cases hj : j = n
      · simp only [hi, hj, if_true]
        cases ps[n]? with
        | none => rfl
        | some p =>
          simp only [Option.map_some']
          rw [contactEffect_comm]
      · simp only [hi, hj, if_true, if_false]
      · simp only [hi, hj, if_true, if_false]
      · simp only [hi, hj, if_false]

theorem gatherContacts_perm (L : FloatLib K) (s : ClothSimulation K)
    (cyls : List (CylinderCollider K)) (hperm : s.cylinders.Perm cyls) :
    ∀ (ps : List (ClothParticle K)) (k : Nat),
      (s.gatherContacts L k ps).Perm
        (ClothSimulation.gatherContacts L { s with cylinders := cyls } k ps) := by
  intro ps
  induction ps with
  | nil => intro k; exact List.Perm.refl _
  | cons p rest ih =>
    intro k
    show (List.filterMap (s.contactOf L k p) s.cylinders ++ s.gatherContacts L (k + 1) rest).Perm
      (List.filterMap (ClothSimulation.contactOf L { s with cylinders := cyls } k p) cyls ++
        ClothSimulation.gatherContacts L { s with cylinders := cyls } (k + 1) rest)
    exact List.Perm.append (List.Perm.filterMap _ hperm) (ih (k + 1))

/-- C28: in OGC mode, for every state and every permutation of its collider
list, `handleCollisions` returns a state for both orders, with the same
particle list (positions, forces and all other particle fields). -/
theorem C28_ogc_order_independent (L : FloatLib K) (s : ClothSimulation K)
    (cyls : List (CylinderCollider K)) (hmode : s.useOGC = true)
    (hperm : s.cylinders.Perm cyls) :
    ∃ ps, s.handleCollisions L = some { s with particles := ps } ∧
      ClothSimulation.handleCollisions L { s with cylinders := cyls } =
        some { s with cylinders := cyls, particles := ps } := by
  by_cases h1 : s.cylinders.isEmpty = true
  · have h1b : cyls.isEmpty = true := by rw [← hperm.isEmpty_eq]; exact h1
    refine ⟨s.particles, ?_, ?_⟩
    · rw [ClothSimulation.handleCollisions, if_pos h1]
    · rw [ClothSimulation.handleCollisions, if_pos (show
        (ClothSimulation.cylinders { s with cylinders := cyls }).isEmpty = true from h1b)]
  have h1b : ¬ (ClothSimulation.cylinders { s with cylinders := cyls }).isEmpty = true := by
    show ¬ cyls.isEmpty = true
    rw [← hperm.isEmpty_eq]
    exact h1
  have hg := gatherContacts_perm L s cyls hperm s.particles 0
  by_cases h3 : (s.gatherContacts L 0 s.particles).isEmpty = true
  · have h3b : (ClothSimulation.gatherContacts L { s with cylinders := cyls } 0
        s.particles).isEmpty = true := by rw [← hg.isEmpty_eq]; exact h3
    refine ⟨s.particles, ?_, ?_⟩
    · rw [ClothSimulation.handleCollisions, if_neg h1, if_pos hmode]
      simp only [h3, if_true]
    · rw [ClothSimulation.handleCollisions, if_neg h1b,
        if_pos (show (ClothSimulation.useOGC { s with cylinders := cyls }) = true from hmode)]
      have h3c : (ClothSimulation.gatherContacts L { s with cylinders := cyls } 0
          (ClothSimulation.particles { s with cylinders := cyls })).isEmpty = true := h3b
      simp only [h3c, if_true]
  · have h3b : ¬ (ClothSimulation.gatherContacts L { s with cylinders := cyls } 0
        (ClothSimulation.particles { s with cylinders := cyls })).isEmpty = true := by
      show ¬ (ClothSimulation.gatherContacts L { s with cylinders := cyls } 0
        s.particles).isEmpty = true
      rw [← hg.isEmpty_eq]
      exact h3
    have hv1 : ∀ c ∈ s.gatherContacts L 0 s.particles, ∀ i, c.particle = some i →
        i < s.particles.length := by
      intro c hc i hi
      simpa using gatherContacts_valid L s s.particles 0 c hc i hi
    have hv2 : ∀ c ∈ ClothSimulation.gatherContacts L { s with cylinders := cyls } 0 s.particles,
        ∀ i, c.particle = some i → i < s.particles.length := by
      intro c hc i hi
      simpa using gatherContacts_valid L { s with cylinders := cyls } s.particles 0 c hc i hi
    have hp1 : s.ogcModel.processContacts (s.gatherContacts L 0 s.particles) s.timeStep
        s.particles = some ((s.gatherContacts L 0 s.particles).foldl (ogcStep s.ogcModel)
          s.particles) := by
      rw [processContacts_eq_foldlM]
      exact foldlM_applyOGCForce_eq_foldl s.ogcModel s.timeStep _ _ hv1
    have hp2 : s.ogcModel.processContacts
        (ClothSimulation.gatherContacts L { s with cylinders := cyls } 0 s.particles) s.timeStep
        s.particles = some ((s.gatherContacts L 0 s.particles).foldl (ogcStep s.ogcModel)
          s.particles) := by
      rw [processContacts_eq_foldlM, foldlM_applyOGCForce_eq_foldl s.ogcModel s.timeStep _ _ hv2]
      congr 1
      exact (@List.Perm.foldl_eq _ _ (ogcStep s.ogcModel) _ _
        ⟨fun b a1 a2 => ogcStep_comm s.ogcModel b a1 a2⟩ hg s.particles).symm
    refine ⟨(s.gatherContacts L 0 s.particles).foldl (ogcStep s.ogcModel) s.particles, ?_, ?_⟩
    · rw [ClothSimulation.handleCollisions, if_neg h1, if_pos hmode]
      simp only [h3, hp1, Bool.false_eq_true, if_false]
    · rw [ClothSimulation.handleCollisions, if_neg h1b,
        if_pos (show (ClothSimulation.useOGC { s with cylinders := cyls }) = true from hmode)]
      simp only [h3b, if_false]
      have hp3 : (ClothSimulation.ogcModel { s with cylinders := cyls }).processContacts
          (ClothSimulation.gatherContacts L { s with cylinders := cyls } 0
            (ClothSimulation.particles { s with cylinders := cyls }))
          (ClothSimulation.timeStep { s with cylinders := cyls })
          (ClothSimulation.particles { s with cylinders := cyls }) =
          some ((s.gatherContacts L 0 s.particles).foldl (ogcStep s.ogcModel) s.particles) := hp2
      rw [hp3]
      simp only [Bool.false_eq_true, if_false]

/-- C28 (witness): the state with three colliders and its collider list
reversed. -/
theorem C28_ogc_order_independent_witness :
    crowdedState.useOGC = true ∧ crowdedState.cylinders.Perm crowdedState.cylinders.reverse ∧
    ∃ ps, crowdedState.handleCollisions ratLib = some { crowdedState with particles := ps } ∧
      ClothSimulation.handleCollisions ratLib
          { crowdedState with cylinders := crowdedState.cylinders.reverse } =
        some { crowdedState with cylinders := crowdedState.cylinders.reverse, particles := ps } :=
  ⟨rfl, (List.reverse_perm _).symm,
    C28_ogc_order_independent ratLib crowdedState crowdedState.cylinders.reverse rfl
      (List.reverse_perm _).symm⟩

end OrderClaims

/-! ## No particle pair is linked twice -/

section TopologyClaims

variable {K : Type} [LinearOrderedField K]

theorem nodup_flatMap_of_key {α β : Type} (f : α → List β) (key : β → α) :
    ∀ l : List α, l.Nodup → (∀ a ∈ l, ∀ b ∈ f a, key b = a) → (∀ a ∈ l, (f a).Nodup) →
      (l.flatMap f).Nodup := by
  intro l
  induction l with
  | nil => intro _ _ _; simp
  | cons a t ih =>
    intro hnd hkey hin
    rw [List.flatMap_cons, List.nodup_append]
    rw [List.nodup_cons] at hnd
    refine ⟨hin a (List.mem_cons_self a t),
      ih hnd.2 (fun a1 h1 => hkey a1 (List.mem_cons_of_mem a h1))
        (fun a1 h1 => hin a1 (List.mem_cons_of_mem a h1)), ?_⟩
    intro b hb1 hb2
    rw [List.mem_flatMap] at hb2
    obtain ⟨a1, ha1, hb3⟩ := hb2
    have e1 := hkey a (List.mem_cons_self a t) b hb1
    have e2 := hkey a1 (List.mem_cons_of_mem a ha1) b hb3
    rw [e1] at e2
    rw [e2] at hnd
    exact hnd.1 ha1

theorem nodup_intRange (n : Int) : (intRange n).Nodup := by
  unfold intRange
  exact List.Nodup.map (fun a b h => Int.ofNat.inj h) (List.nodup_range _)

theorem nodup_getElem?_inj {α : Type} {l : List α} (h : l.Nodup) {m n : Nat} {a : α}
    (hm : l[m]? = some a) (hn : l[n]? = some a) : m = n := by
  have bound : ∀ k : Nat, l[k]? = some a → k < l.length := by
    intro k hk
    by_contra hc
    rw [List.getElem?_eq_none (by omega)] at hk
    cases hk
  rcases lt_trichotomy m n with hlt | heq | hgt
  · exact absurd (hm.trans hn.symm)
      (List.nodup_iff_getElem?_ne_getElem?.1 h m n hlt (bound n hn))
  · exact heq
  · exact absurd (hn.trans hm.symm)
      (List.nodup_iff_getElem?_ne_getElem?.1 h n m hgt (bound m hm))

theorem cell_index (W a b : Int) (ha0 : 0 ≤ a) (ha1 : a < W) (hb0 : 0 ≤ b) :
    ((b * W + a).toNat % W.toNat : Nat) = a.toNat ∧
    ((b * W + a).toNat / W.toNat : Nat) = b.toNat := by
  have hw : W = (W.toNat : Int) := by omega
  have e : (b * W + a).toNat = a.toNat + W.toNat * b.toNat := by
    have e1 : (b.toNat : Int) = b := Int.toNat_of_nonneg hb0
    have e2 : (a.toNat : Int) = a := Int.toNat_of_nonneg ha0
    have e3 : ((a.toNat + W.toNat * b.toNat : Nat) : Int) = b * W + a := by
      push_cast
      rw [e1, e2, ← hw]
      ring
    rw [← e3]
    exact Int.toNat_natCast _
  have hlt : a.toNat < W.toNat := by omega
  rw [e]
  constructor
  · rw [Nat.add_mul_mod_self_left]
    exact Nat.mod_eq_of_lt hlt
  · rw [Nat.add_mul_div_left _ _ (by omega), Nat.div_eq_of_lt hlt]
    simp

theorem linkOrigin_cells (s : ClothSimulation K) (a b c d : Int)
    (ha0 : 0 ≤ a) (ha1 : a < s.width) (hb0 : 0 ≤ b) (hb1 : b < s.height)
    (hc0 : 0 ≤ c) (hc1 : c < s.width) (hd0 : 0 ≤ d) (hd1 : d < s.height) :
    linkOrigin s.width.toNat (s.getParticle a b, s.getParticle c d) = (min a c, b) ∧
    s.getParticle a b = some (b * s.width + a).toNat ∧
    s.getParticle c d = some (d * s.width + c).toNat ∧
    ((s.getParticle a b = s.getParticle c d) → a = c ∧ b = d) := by
  obtain ⟨m1, d1⟩ := cell_index s.width a b ha0 ha1 hb0
  obtain ⟨m2, d2⟩ := cell_index s.width c d hc0 hc1 hd0
  rw [getParticle_eq s a b ha0 ha1 hb0 hb1, getParticle_eq s c d hc0 hc1 hd0 hd1]
  refine ⟨?_, rfl, rfl, ?_⟩
  · simp only [linkOrigin, m1, d1, m2, Prod.mk.injEq]
    constructor <;> omega
  · intro h
    have h2 := Option.some.inj h
    rw [h2] at m1 d1
    rw [m1] at m2
    rw [d1] at d2
    constructor <;> omega

theorem structuralLinks_nodup (s : ClothSimulation K) : s.structuralLinks.Nodup := by
  have horigin : ∀ y ∈ intRange s.height, ∀ x ∈ intRange s.width, ∀ b ∈
      (if x < s.width - 1 then [(s.getParticle x y, s.getParticle (x + 1) y)] else []) ++
      (if y < s.height - 1 then [(s.getParticle x y, s.getParticle x (y + 1))] else []),
      linkOrigin s.width.toNat b = (x, y) := by
    intro y hy x hx b hb
    rw [mem_intRange] at hy hx
    rw [List.mem_append] at hb
    rcases hb with hb | hb
    · split_ifs at hb with hc
      · rw [List.mem_singleton] at hb
        rw [hb, (linkOrigin_cells s x y (x + 1) y hx.1 hx.2 hy.1 hy.2 (by omega) (by omega)
          hy.1 hy.2).1]
        simp
      · simp at hb
    · split_ifs at hb with hc
      · rw [List.mem_singleton] at hb
        rw [hb, (linkOrigin_cells s x y x (y + 1) hx.1 hx.2 hy.1 hy.2 hx.1 hx.2
          (by omega) (by omega)).1]
        simp
      · simp at hb
  unfold ClothSimulation.structuralLinks
  apply nodup_flatMap_of_key _ (fun l => (linkOrigin s.width.toNat l).2) _ (nodup_intRange _)
  · intro y hy b hb
    rw [List.mem_flatMap] at hb
    obtain ⟨x, hx, hb⟩ := hb
    have e := horigin y hy x hx b hb
    show (linkOrigin s.width.toNat b).2 = y
    rw [e]
  · intro y hy
    apply nodup_flatMap_of_key _ (fun l => (linkOrigin s.width.toNat l).1) _ (nodup_intRange _)
    · intro x hx b hb
      have e := horigin y hy x hx b hb
      show (linkOrigin s.width.toNat b).1 = x
      rw [e]
    · intro x hx
      rw [mem_intRange] at hy hx
      show ((if x < s.width - 1 then [(s.getParticle x y, s.getParticle (x + 1) y)] else []) ++
        (if y < s.height - 1 then [(s.getParticle x y, s.getParticle x (y + 1))] else [])).Nodup
      split_ifs with h1 h2
      · have hne : s.getParticle (x + 1) y ≠ s.getParticle x (y + 1) := by
          intro h
          have := (linkOrigin_cells s (x + 1) y x (y + 1) (by omega) (by omega) hy.1 hy.2
            hx.1 hx.2 (by omega) (by omega)).2.2.2 h
          omega
        simp [hne]
      · simp
      · simp
      · simp

theorem shearLinks_nodup (s : ClothSimulation K) : s.shearLinks.Nodup := by
  have horigin : ∀ y ∈ intRange (s.height - 1), ∀ x ∈ intRange (s.width - 1), ∀ b ∈
      [(s.getParticle x y, s.getParticle (x + 1) (y + 1)),
       (s.getParticle (x + 1) y, s.getParticle x (y + 1))],
      linkOrigin s.width.toNat b = (x, y) := by
    intro y hy x hx b hb
    rw [mem_intRange] at hy hx
    simp only [List.mem_cons, List.mem_singleton, List.not_mem_nil, or_false] at hb
    rcases hb with hb | hb
    · rw [hb, (linkOrigin_cells s x y (x + 1) (y + 1) hx.1 (by omega) hy.1 (by omega)
        (by omega) (by omega) (by omega) (by omega)).1]
      simp
    · rw [hb, (linkOrigin_cells s (x + 1) y x (y + 1) (by omega) (by omega) hy.1 (by omega)
        hx.1 (by omega) (by omega) (by omega)).1]
      simp
  unfold ClothSimulation.shearLinks
  apply nodup_flatMap_of_key _ (fun l => (linkOrigin s.width.toNat l).2) _ (nodup_intRange _)
  · intro y hy b hb
    rw [List.mem_flatMap] at hb
    obtain ⟨x, hx, hb⟩ := hb
    have e := horigin y hy x hx b hb
    show (linkOrigin s.width.toNat b).2 = y
    rw [e]
  · intro y hy
    apply nodup_flatMap_of_key _ (fun l => (linkOrigin s.width.toNat l).1) _ (nodup_intRange _)
    · intro x hx b hb
      have e := horigin y hy x hx b hb
      show (linkOrigin s.width.toNat b).1 = x
      rw [e]
    · intro x hx
      rw [mem_intRange] at hy hx
      show [(s.getParticle x y, s.getParticle (x + 1) (y + 1)),
        (s.getParticle (x + 1) y, s.getParticle x (y + 1))].Nodup
      have hne : s.getParticle x y ≠ s.getParticle (x + 1) y := by
        intro h
        have := (linkOrigin_cells s x y (x + 1) y hx.1 (by omega) hy.1 (by omega)
          (by omega) (by omega) hy.1 (by omega)).2.2.2 h
        omega
      simp [hne]

theorem bendRow_gridLink (s : ClothSimulation K) :
    ∀ l ∈ ((intRange s.height).flatMap fun y => (intRange (s.width - 2)).map fun x =>
      (s.getParticle x y, s.getParticle (x + 2) y)),
      GridLink s 2 0 l ∧ ∃ x y : Int, l = (s.getParticle x y, s.getParticle (x + 2) y) ∧
        linkOrigin s.width.toNat l = (x, y) := by
  intro l hl
  simp only [List.mem_flatMap, mem_intRange, List.mem_map] at hl
  obtain ⟨y, ⟨hy0, hy1⟩, x, ⟨hx0, hx1⟩, hl⟩ := hl
  obtain ⟨ho, e1, e2, _⟩ := linkOrigin_cells s x y (x + 2) y hx0 (by omega) hy0 hy1
    (by omega) (by omega) hy0 hy1
  refine ⟨⟨x, y, hx0, by omega, hy0, hy1, by omega, by omega, by omega, by omega, ?_⟩,
    x, y, hl.symm, ?_⟩
  · rw [← hl, e1, e2]
    simp
  · rw [← hl, ho]
    simp

theorem bendCol_gridLink (s : ClothSimulation K) :
    ∀ l ∈ ((intRange (s.height - 2)).flatMap fun y => (intRange s.width).map fun x =>
      (s.getParticle x y, s.getParticle x (y + 2))),
      GridLink s 0 2 l ∧ ∃ x y : Int, l = (s.getParticle x y, s.getParticle x (y + 2)) ∧
        linkOrigin s.width.toNat l = (x, y) := by
  intro l hl
  simp only [List.mem_flatMap, mem_intRange, List.mem_map] at hl
  obtain ⟨y, ⟨hy0, hy1⟩, x, ⟨hx0, hx1⟩, hl⟩ := hl
  obtain ⟨ho, e1, e2, _⟩ := linkOrigin_cells s x y x (y + 2) hx0 hx1 hy0 (by omega)
    hx0 hx1 (by omega) (by omega)
  refine ⟨⟨x, y, hx0, hx1, hy0, by omega, by omega, by omega, by omega, by omega, ?_⟩,
    x, y, hl.symm, ?_⟩
  · rw [← hl, e1, e2]
    simp
  · rw [← hl, ho]
    simp

theorem bendLinks_nodup (s : ClothSimulation K) : s.bendLinks.Nodup := by
  unfold ClothSimulation.bendLinks
  rw [List.nodup_append]
  refine ⟨?_, ?_, ?_⟩
  · apply nodup_flatMap_of_key _ (fun l => (linkOrigin s.width.toNat l).2) _ (nodup_intRange _)
    · intro y hy b hb
      rw [List.mem_map] at hb
      obtain ⟨x, hx, hb⟩ := hb
      rw [mem_intRange] at hy hx
      show (linkOrigin s.width.toNat b).2 = y
      rw [← hb, (linkOrigin_cells s x y (x + 2) y hx.1 (by omega) hy.1 hy.2
        (by omega) (by omega) hy.1 hy.2).1]
    · intro y hy
      apply List.Nodup.map_on _ (nodup_intRange _)
      intro x1 hx1 x2 hx2 h
      rw [mem_intRange] at hy hx1 hx2
      have h1 := (linkOrigin_cells s x1 y (x1 + 2) y hx1.1 (by omega) hy.1 hy.2
        (by omega) (by omega) hy.1 hy.2).1
      have h2 := (linkOrigin_cells s x2 y (x2 + 2) y hx2.1 (by omega) hy.1 hy.2
        (by omega) (by omega) hy.1 hy.2).1
      rw [h, h2] at h1
      have h3 := (Prod.mk.inj h1).1
      omega
  · apply nodup_flatMap_of_key _ (fun l => (linkOrigin s.width.toNat l).2) _ (nodup_intRange _)
    · intro y hy b hb
      rw [List.mem_map] at hb
      obtain ⟨x, hx, hb⟩ := hb
      rw [mem_intRange] at hy hx
      show (linkOrigin s.width.toNat b).2 = y
      rw [← hb, (linkOrigin_cells s x y x (y + 2) hx.1 hx.2 hy.1 (by omega)
        hx.1 hx.2 (by omega) (by omega)).1]
    · intro y hy
      apply List.Nodup.map_on _ (nodup_intRange _)
      intro x1 hx1 x2 hx2 h
      rw [mem_intRange] at hy hx1 hx2
      have h1 := (linkOrigin_cells s x1 y x1 (y + 2) hx1.1 hx1.2 hy.1 (by omega)
        hx1.1 hx1.2 (by omega) (by omega)).1
      have h2 := (linkOrigin_cells s x2 y x2 (y + 2) hx2.1 hx2.2 hy.1 (by omega)
        hx2.1 hx2.2 (by omega) (by omega)).1
      rw [h, h2] at h1
      have h3 := (Prod.mk.inj h1).1
      omega
  · intro l h1 h2
    have o1 := (bendRow_gridLink s l h1).1.offset
    have o2 := (bendCol_gridLink s l h2).1.offset
    rw [o1] at o2
    simp at o2

theorem allLinks_nodup (s : ClothSimulation K) : (allLinks s).Nodup := by
  unfold allLinks
  rw [List.nodup_append, List.nodup_append]
  refine ⟨⟨structuralLinks_nodup s, shearLinks_nodup s, ?_⟩, bendLinks_nodup s, ?_⟩
  · intro l h1 h2
    have o1 := structuralLinks_offsets s l h1
    have o2 := shearLinks_offsets s l h2
    rcases o1 with o1 | o1 <;> rcases o2 with o2 | o2 <;> rw [o1] at o2 <;>
        simp only [Option.some.injEq, Prod.mk.injEq] at o2 <;> omega
  · intro l h1 h2
    rw [List.mem_append] at h1
    have o2 := bendLinks_offsets s l h2
    rcases h1 with h1 | h1
    · have o1 := structuralLinks_offsets s l h1
      rcases o1 with o1 | o1 <;> rcases o2 with o2 | o2 <;> rw [o1] at o2 <;>
        simp only [Option.some.injEq, Prod.mk.injEq] at o2 <;> omega
    · have o1 := shearLinks_offsets s l h1
      rcases o1 with o1 | o1 <;> rcases o2 with o2 | o2 <;> rw [o1] at o2 <;>
        simp only [Option.some.injEq, Prod.mk.injEq] at o2 <;> omega

theorem allLinks_offsets (s : ClothSimulation K) :
    ∀ l ∈ allLinks s, ∃ dx dy : Int, linkOffset s.width.toNat l = some (dx, dy) ∧
      (0 < dy ∨ (dy = 0 ∧ 0 < dx)) := by
  intro l hl
  simp only [allLinks, List.mem_append] at hl
  rcases hl with (hl | hl) | hl
  · rcases structuralLinks_offsets s l hl with o | o
    · exact ⟨1, 0, o, Or.inr ⟨rfl, by decide⟩⟩
    · exact ⟨0, 1, o, Or.inl (by decide)⟩
  · rcases shearLinks_offsets s l hl with o | o
    · exact ⟨1, 1, o, Or.inl (by decide)⟩
    · exact ⟨-1, 1, o, Or.inl (by decide)⟩
  · rcases bendLinks_offsets s l hl with o | o
    · exact ⟨2, 0, o, Or.inr ⟨rfl, by decide⟩⟩
    · exact ⟨0, 2, o, Or.inl (by decide)⟩

theorem linkOffset_swap (w : Nat) (l : Option Nat × Option Nat) (dx dy : Int)
    (h : linkOffset w l = some (dx, dy)) : linkOffset w (l.2, l.1) = some (-dx, -dy) := by
  obtain ⟨a, b⟩ := l
  cases a with
  | none => simp [linkOffset] at h
  | some i =>
    cases b with
    | none => simp [linkOffset] at h
    | some j =>
      simp only [linkOffset, Option.some.injEq, Prod.mk.injEq] at h ⊢
      constructor <;> omega

/-- C27: for `W ≥ 1` and `H ≥ 1`, `initialize(W, H, spacing)` returns a state
whose constraints are the structural, shear and bend links in that order; each
constraint links two different particles that are both in the particle list;
no ordered pair of ends occurs twice in the constraint list (so the three
families are pairwise disjoint and each is free of duplicates); and two
constraints that link the same two particles, in either order, are the same
element of the constraint list. -/
theorem C27_no_pair_linked_twice (L : FloatLib K) (s : ClothSimulation K) (W H : Int)
    (spacing : K) (hW : 1 ≤ W) (hH : 1 ≤ H) :
    ∃ s1, s.initialize3 L W H spacing = some s1 ∧
      s1.constraints.map ClothConstraint.ends =
        s1.structuralLinks ++ s1.shearLinks ++ s1.bendLinks ∧
      (∀ c ∈ s1.constraints, ∃ i j p q, c.particle1 = some i ∧ c.particle2 = some j ∧ i ≠ j ∧
        s1.particles[i]? = some p ∧ s1.particles[j]? = some q) ∧
      (s1.constraints.map ClothConstraint.ends).Nodup ∧
      ∀ (m n : Nat) (c d : ClothConstraint K),
        s1.constraints[m]? = some c → s1.constraints[n]? = some d →
        (c.ends = d.ends ∨ c.ends = (d.ends.2, d.ends.1)) → m = n := by
  obtain ⟨ps, cs, hinit, _, hends, hlen, _⟩ := initialize0_spec L
    { s with width := W, height := H, spacing := spacing } (Or.inl hH)
  have hnd : (cs.map ClothConstraint.ends).Nodup := by
    rw [hends]
    exact allLinks_nodup _
  have hmem : ∀ c ∈ cs, c.ends ∈
      allLinks { s with width := W, height := H, spacing := spacing } := by
    intro c hc
    rw [← hends]
    exact List.mem_map_of_mem _ hc
  refine ⟨_, hinit, hends, ?_, hnd, ?_⟩
  · intro c hc
    obtain ⟨i, j, e, hi, hj⟩ := allLinks_valid _ _ (hmem c hc)
    obtain ⟨dx, dy, ho, hpos⟩ := allLinks_offsets _ _ (hmem c hc)
    have e1 : c.particle1 = some i := congrArg Prod.fst e
    have e2 : c.particle2 = some j := congrArg Prod.snd e
    have hi2 : i < ps.length := by rw [hlen]; exact hi
    have hj2 : j < ps.length := by rw [hlen]; exact hj
    refine ⟨i, j, ps[i], ps[j], e1, e2, ?_, List.getElem?_eq_getElem hi2,
      List.getElem?_eq_getElem hj2⟩
    intro hij
    rw [e, hij] at ho
    simp only [linkOffset, Option.some.injEq, Prod.mk.injEq] at ho
    omega
  · intro m n c d hm hn h
    have hc : c ∈ cs := List.getElem?_mem hm
    have hd : d ∈ cs := List.getElem?_mem hn
    rcases h with h | h
    · have h1 : (cs.map ClothConstraint.ends)[m]? = some c.ends := by
        rw [List.getElem?_map]
        exact congrArg (Option.map ClothConstraint.ends) hm
      have h2 : (cs.map ClothConstraint.ends)[n]? = some c.ends := by
        rw [List.getElem?_map, h]
        exact congrArg (Option.map ClothConstraint.ends) hn
      exact nodup_getElem?_inj hnd h1 h2
    · exfalso
      obtain ⟨dx, dy, ho, hpos⟩ := allLinks_offsets _ _ (hmem d hd)
      obtain ⟨dx2, dy2, ho2, hpos2⟩ := allLinks_offsets _ _ (hmem c hc)
      have hs := linkOffset_swap _ _ dx dy ho
      rw [← h, ho2] at hs
      simp only [Option.some.injEq, Prod.mk.injEq] at hs
      omega

/-- C27 (witness): the 5 × 3 cloth with spacing `1/5`. -/
theorem C27_no_pair_linked_twice_witness :
    (1 : Int) ≤ 5 ∧ (1 : Int) ≤ 3 ∧
    ∃ s1, cloth53.initialize3 ratLib 5 3 (1 / 5) = some s1 ∧
      s1.constraints.map ClothConstraint.ends =
        s1.structuralLinks ++ s1.shearLinks ++ s1.bendLinks ∧
      (∀ c ∈ s1.constraints, ∃ i j p q, c.particle1 = some i ∧ c.particle2 = some j ∧ i ≠ j ∧
        s1.particles[i]? = some p ∧ s1.particles[j]? = some q) ∧
      (s1.constraints.map ClothConstraint.ends).Nodup ∧
      ∀ (m n : Nat) (c d : ClothConstraint ℚ),
        s1.constraints[m]? = some c → s1.constraints[n]? = some d →
        (c.ends = d.ends ∨ c.ends = (d.ends.2, d.ends.1)) → m = n :=
  ⟨by decide, by decide,
    C27_no_pair_linked_twice ratLib cloth53 5 3 (1 / 5) (by decide) (by decide)⟩

end TopologyClaims

/-! ## Where `update` is defined, and the step it integrates with -/

section DomainClaims

variable {K : Type} [LinearOrderedField K]

theorem WellFormed.updateDefined {s : ClothSimulation K} (h : WellFormed s) : UpdateDefined s :=
  ⟨fun _ => h.1, fun _ _ => h.2⟩

theorem satisfy_valid_of_some (L : FloatLib K) (c : ClothConstraint K)
    (ps qs : List (ClothParticle K)) (h : c.satisfy L ps = some qs) :
    (∃ i j, c.particle1 = some i ∧ c.particle2 = some j ∧ i < ps.length ∧ j < ps.length) ∧
    qs.length = ps.length := by
  have hlen : qs.length = ps.length := by
    have h0 := satisfy_preserves (fun _ : ClothParticle K => ()) (fun _ _ => rfl)
      (fun _ _ => rfl) L c ps qs h
    simpa using congrArg List.length h0
  refine ⟨?_, hlen⟩
  cases h1 : c.particle1 with
  | none => simp [ClothConstraint.satisfy, h1] at h
  | some i =>
    cases h2 : c.particle2 with
    | none => simp [ClothConstraint.satisfy, h1, h2] at h
    | some j =>
      cases ha : ps[i]? with
      | none => simp [ClothConstraint.satisfy, h1, h2, ha] at h
      | some a =>
        cases hb : ps[j]? with
        | none => simp [ClothConstraint.satisfy, h1, h2, ha, hb] at h
        | some b =>
          refine ⟨i, j, rfl, rfl, ?_, ?_⟩
          · by_contra hc
            rw [List.getElem?_eq_none (by omega)] at ha
            cases ha
          · by_contra hc
            rw [List.getElem?_eq_none (by omega)] at hb
            cases hb

theorem foldlM_satisfy_valid (L : FloatLib K) :
    ∀ (cs : List (ClothConstraint K)) (ps qs : List (ClothParticle K)),
      cs.foldlM (fun ps c => c.satisfy L ps) ps = some qs →
      ∀ c ∈ cs, ∃ i j, c.particle1 = some i ∧ c.particle2 = some j ∧
        i < ps.length ∧ j < ps.length := by
  intro cs
  induction cs with
  | nil =>
    intro ps qs _ c hc
    cases hc
  | cons c0 t ih =>
    intro ps qs h c hc
    rw [List.foldlM_cons] at h
    cases h0 : c0.satisfy L ps with
    | none => simp [h0] at h
    | some ps1 =>
      simp only [h0, Option.bind_eq_bind, Option.some_bind] at h
      obtain ⟨hv, hl⟩ := satisfy_valid_of_some L c0 ps ps1 h0
      rcases List.mem_cons.1 hc with hc | hc
      · rw [hc]
        exact hv
      · obtain ⟨i, j, e1, e2, hi, hj⟩ := ih ps1 qs h c hc
        exact ⟨i, j, e1, e2, by omega, by omega⟩

theorem repeatM_succ_first {σ : Type} (step : σ → Option σ) (n : Nat) (s t : σ)
    (h : repeatM step (n + 1) s = some t) : ∃ s1, step s = some s1 := by
  simp only [repeatM] at h
  cases hs : step s with
  | none => simp [hs] at h
  | some s1 => exact ⟨s1, rfl⟩

theorem normalsStep_length (L : FloatLib K) (s : ClothSimulation K)
    (ps qs : List (ClothParticle K)) (xy : Int × Int)
    (h : s.normalsStep L ps xy = some qs) : qs.length = ps.length := by
  have h0 := normalsStep_preserves (fun _ : ClothParticle K => ()) (fun _ _ => rfl)
    L s ps qs xy h
  simpa using congrArg List.length h0

theorem normalsStep_valid_of_some (L : FloatLib K) (s : ClothSimulation K)
    (ps qs : List (ClothParticle K)) (x y : Int)
    (hx : 0 ≤ x) (hxw : x < s.width - 1) (hy : 0 ≤ y) (hyh : y < s.height - 1)
    (h : s.normalsStep L ps (x, y) = some qs) :
    ((y + 1) * s.width + (x + 1)).toNat < ps.length := by
  have e1 := getParticle_eq s x y hx (by omega) hy (by omega)
  have e2 := getParticle_eq s (x + 1) y (by omega) (by omega) hy (by omega)
  have e3 := getParticle_eq s x (y + 1) hx (by omega) (by omega) (by omega)
  have e4 := getParticle_eq s (x + 1) (y + 1) (by omega) (by omega) (by omega) (by omega)
  by_contra hc
  have h4 : ps[((y + 1) * s.width + (x + 1)).toNat]? = none :=
    List.getElem?_eq_none (by omega)
  simp only [ClothSimulation.normalsStep, e1, e2, e3, e4] at h
  split at h
  · rename_i p1 p2 p3 p4 g1 g2 g3 g4
    rw [h4] at g4
    cases g4
  · cases h

theorem foldlM_steps_defined {α β : Type} (f : β → α → Option β) (P : β → Prop)
    (hP : ∀ b a b1, P b → f b a = some b1 → P b1) :
    ∀ (l : List α) (b r : β), P b → l.foldlM f b = some r →
      ∀ a ∈ l, ∃ b0 b1, P b0 ∧ f b0 a = some b1 := by
  intro l
  induction l with
  | nil =>
    intro b r _ _ a ha
    cases ha
  | cons a0 t ih =>
    intro b r hb h a ha
    rw [List.foldlM_cons] at h
    cases h0 : f b a0 with
    | none => simp [h0] at h
    | some b2 =>
      simp only [h0, Option.bind_eq_bind, Option.some_bind] at h
      rcases List.mem_cons.1 ha with ha | ha
      · rw [ha]
        exact ⟨b, b2, hb, h0⟩
      · exact ih b2 r (hP b a0 b2 hb h0) h a ha

theorem calculateNormals_valid_of_some (L : FloatLib K) (s t : ClothSimulation K)
    (h : s.calculateNormals L = some t) (hW : 2 ≤ s.width) (hH : 2 ≤ s.height) :
    s.width.toNat * s.height.toNat ≤ s.particles.length := by
  unfold ClothSimulation.calculateNormals at h
  simp only at h
  split at h
  · cases h
  · rename_i ps1 hf
    have hmem : (s.width - 2, s.height - 2) ∈ ((intRange (s.height - 1)).flatMap fun y =>
        (intRange (s.width - 1)).map fun x => (x, y)) := by
      simp only [List.mem_flatMap, List.mem_map, mem_intRange]
      exact ⟨s.height - 2, ⟨by omega, by omega⟩, s.width - 2, ⟨by omega, by omega⟩, rfl⟩
    obtain ⟨b0, b1, hb0, hstep⟩ := foldlM_steps_defined (s.normalsStep L)
      (fun (b : List (ClothParticle K)) => b.length = s.particles.length)
      (by
        intro b a b1 hb hs
        rw [normalsStep_length L s b b1 a hs]
        exact hb) _ _ _ (by simp) hf _ hmem
    have hidx := normalsStep_valid_of_some L s b0 b1 (s.width - 2) (s.height - 2)
      (by omega) (by omega) (by omega) (by omega) hstep
    have hb0 : b0.length = s.particles.length := hb0
    rw [hb0] at hidx
    have e : ((s.width.toNat * s.height.toNat : Nat) : Int) = s.width * s.height := by
      push_cast
      rw [Int.toNat_of_nonneg (by omega), Int.toNat_of_nonneg (by omega)]
    have e2 : (s.height - 2 + 1) * s.width + (s.width - 2 + 1) = s.width * s.height - 1 := by
      ring
    rw [e2] at hidx
    omega

theorem repeat_satisfyConstraints_defined (L : FloatLib K) (s : ClothSimulation K) (n : Nat)
    (hc : 0 < n → ∀ c ∈ s.constraints, ∃ i j, c.particle1 = some i ∧ c.particle2 = some j ∧
      i < s.particles.length ∧ j < s.particles.length) :
    ∃ ps, repeatM (ClothSimulation.satisfyConstraints L) n s = some { s with particles := ps } ∧
      KeepsPinned s.particles ps := by
  cases n with
  | zero => exact ⟨s.particles, rfl, KeepsPinned.refl _⟩
  | succ k => exact repeat_satisfyConstraints_spec L s (hc (Nat.succ_pos k)) (k + 1)

theorem calculateNormals_defined (L : FloatLib K) (s : ClothSimulation K)
    (hg : 2 ≤ s.width → 2 ≤ s.height → s.width.toNat * s.height.toNat ≤ s.particles.length) :
    ∃ ps, s.calculateNormals L = some { s with particles := ps } ∧
      KeepsPinned s.particles ps := by
  have h0 : KeepsPinned s.particles
      (s.particles.map fun p => { p with normal := (⟨0, 0, 0⟩ : Vec3 K) }) :=
    keepsPinned_map _ _ (fun _ => rfl)
  obtain ⟨ps1, hf, hk⟩ := foldlM_keepsPinned (ClothSimulation.normalsStep L s)
    ((intRange (s.height - 1)).flatMap fun y => (intRange (s.width - 1)).map fun x => (x, y))
    (s.particles.map fun p => { p with normal := (⟨0, 0, 0⟩ : Vec3 K) }) (by
      intro qs xy hxy hlen
      simp only [List.mem_flatMap, List.mem_map, mem_intRange] at hxy
      obtain ⟨y, ⟨hy0, hy1⟩, x, ⟨hx0, hx1⟩, rfl⟩ := hxy
      apply normalsStep_keepsPinned L s qs x y hx0 hx1 hy0 hy1
      rw [hlen]
      simpa using hg (by omega) (by omega))
  refine ⟨ps1.map (fun p => if p.normal.length L > 0 then { p with normal := L.normalized p.normal }
    else { p with normal := ⟨0, 1, 0⟩ }), ?_, (h0.trans hk).trans (keepsPinned_map ps1 _ ?_)⟩
  · simp only [ClothSimulation.calculateNormals, hf]
  · intro p
    simp only [pinnedView]
    split_ifs <;> rfl

/-- The frame pipeline on a state where `update` makes no access outside the
particle list, step by step. -/
theorem update_chain_defined (L : FloatLib K) (s : ClothSimulation K) (dt : K)
    (hd : UpdateDefined s) (hp : s.paused = false) :
    ∃ ps2 ps4 ps5,
      (s.applyForces L).handleCollisions L = some { s.applyForces L with particles := ps2 } ∧
      repeatM (ClothSimulation.satisfyConstraints L) s.constraintIterations.toNat
        (ClothSimulation.updateParticles { s.applyForces L with particles := ps2 }
          (min dt s.timeStep)) = some { s with particles := ps4 } ∧
      ClothSimulation.calculateNormals L { s with particles := ps4 } =
        some { s with particles := ps5 } ∧
      s.update L dt = some { s with particles := ps5,
                                    simulationTime := s.simulationTime + min dt s.timeStep,
                                    renderDataDirty := true } ∧
      ps5.length = s.particles.length ∧
      ps5.map pinnedView = s.particles.map (dampedView s.damping) := by
  obtain ⟨hlen1, hview1⟩ := applyForces_view L s
  obtain ⟨ps2, h2, k2⟩ := handleCollisions_spec L (s.applyForces L)
  have k3 : KeepsPinned ps2 (ps2.map fun particle => particle.update (min dt s.timeStep)) := by
    apply keepsPinned_map
    intro p
    unfold ClothParticle.update pinnedView
    by_cases hpin : p.pinned = true
    · simp [hpin]
    · simp [hpin, ClothParticle.clearForces]
  obtain ⟨ps4, h4, k4⟩ := repeat_satisfyConstraints_defined L
    { s with particles := ps2.map fun particle => particle.update (min dt s.timeStep) }
    s.constraintIterations.toNat (by
      intro hn c hcm
      obtain ⟨i, j, e1, e2, hi, hj⟩ := hd.1 (by omega) c hcm
      refine ⟨i, j, e1, e2, ?_, ?_⟩
      · simp only [List.length_map]
        rw [k2.1, hlen1]
        exact hi
      · simp only [List.length_map]
        rw [k2.1, hlen1]
        exact hj)
  have e4 : ps4.length = s.particles.length := by
    rw [k4.1]
    simp only [List.length_map]
    rw [k2.1, hlen1]
  obtain ⟨ps5, h5, k5⟩ := calculateNormals_defined L { s with particles := ps4 } (by
    intro hW hH
    simp only [e4]
    exact hd.2 hW hH)
  refine ⟨ps2, ps4, ps5, h2, h4, h5, ?_, ?_, ?_⟩
  · unfold ClothSimulation.update
    rw [if_neg (by simp [hp])]
    simp only [h2, ClothSimulation.updateParticles]
    have h4b := h4
    simp only [ClothSimulation.applyForces] at h4b ⊢
    rw [h4b]
    simp only
    have h5b := h5
    simp only at h5b
    rw [h5b]
  · rw [k5.1, e4]
  · rw [k5.2, k4.2, k3.2, k2.2, hview1]

/-- A running `update` that returns was run on a state where it makes no access
outside the particle list. -/
theorem updateDefined_of_update (L : FloatLib K) (s t : ClothSimulation K) (dt : K)
    (hp : s.paused = false) (h : s.update L dt = some t) : UpdateDefined s := by
  obtain ⟨hlen1, _⟩ := applyForces_view L s
  obtain ⟨ps2, h2, k2⟩ := handleCollisions_spec L (s.applyForces L)
  have hlen3 : (ps2.map fun particle => particle.update (min dt s.timeStep)).length =
      s.particles.length := by
    simp only [List.length_map]
    rw [k2.1, hlen1]
  unfold ClothSimulation.update at h
  rw [if_neg (by simp [hp])] at h
  simp only [h2, ClothSimulation.updateParticles] at h
  split at h
  · cases h
  · rename_i s4 h4
    have hC : 0 < s.constraintIterations → ∀ c ∈ s.constraints, ∃ i j,
        c.particle1 = some i ∧ c.particle2 = some j ∧
        i < s.particles.length ∧ j < s.particles.length := by
      intro hpos c hc
      obtain ⟨k, hk⟩ : ∃ k, s.constraintIterations.toNat = k + 1 :=
        ⟨s.constraintIterations.toNat - 1, by omega⟩
      have h4b := h4
      simp only [ClothSimulation.applyForces] at h4b
      rw [hk] at h4b
      obtain ⟨s1, hs1⟩ := repeatM_succ_first _ _ _ _ h4b
      unfold ClothSimulation.satisfyConstraints at hs1
      simp only at hs1
      split at hs1
      · cases hs1
      · rename_i qs hf
        obtain ⟨i, j, e1, e2, hi, hj⟩ := foldlM_satisfy_valid L _ _ _ hf c hc
        rw [hlen3] at hi hj
        exact ⟨i, j, e1, e2, hi, hj⟩
    obtain ⟨ps4, g4, k4⟩ := repeat_satisfyConstraints_defined L
      { s with particles := ps2.map fun particle => particle.update (min dt s.timeStep) }
      s.constraintIterations.toNat (by
        intro hn c hcm
        obtain ⟨i, j, e1, e2, hi, hj⟩ := hC (by omega) c hcm
        exact ⟨i, j, e1, e2, by rw [hlen3]; exact hi, by rw [hlen3]; exact hj⟩)
    have h4c := h4
    simp only [ClothSimulation.applyForces] at h4c
    rw [g4] at h4c
    have hs4 : s4 = { s with particles := ps4 } := (Option.some.inj h4c).symm
    rw [hs4] at h
    split at h
    · cases h
    · rename_i s5 h5
      refine ⟨hC, ?_⟩
      intro hW hH
      have hv := calculateNormals_valid_of_some L _ _ h5 hW hH
      have e4 : ps4.length = s.particles.length := by
        rw [k4.1]
        exact hlen3
      simpa [e4] using hv

/-- C4: on every running state, `update(dt)` returns exactly when the state
keeps every access inside the particle list (valid constraint ends when a
constraint pass is made, the whole grid present when the grid has a quad).
On such a state it returns a state `s6` whose particles are those obtained by
the collision phase, then one integration call
`updateParticles(min(dt, timeStep))`, then the constraint iterations and the
normal pass; its elapsed time is the old one plus `min(dt, timeStep)`, which is
the old one plus `timeStep` whenever `dt ≥ timeStep`; and
`update(min(dt, timeStep))` returns the same state. -/
theorem C4_update_uses_clamped_step (L : FloatLib K) (s : ClothSimulation K) (dt : K)
    (hp : s.paused = false) :
    ((∃ t, s.update L dt = some t) ↔ UpdateDefined s) ∧
    (UpdateDefined s →
      ∃ s2 s4 s5 s6,
        (s.applyForces L).handleCollisions L = some s2 ∧
        repeatM (ClothSimulation.satisfyConstraints L) s.constraintIterations.toNat
          (s2.updateParticles (min dt s.timeStep)) = some s4 ∧
        s4.calculateNormals L = some s5 ∧
        s.update L dt = some s6 ∧
        s6.particles = s5.particles ∧
        s6.getSimulationTime = s.getSimulationTime + min dt s.timeStep ∧
        (s.timeStep ≤ dt → s6.getSimulationTime = s.getSimulationTime + s.timeStep) ∧
        s.update L (min dt s.timeStep) = some s6) := by
  have hchain : UpdateDefined s →
      ∃ s2 s4 s5 s6,
        (s.applyForces L).handleCollisions L = some s2 ∧
        repeatM (ClothSimulation.satisfyConstraints L) s.constraintIterations.toNat
          (s2.updateParticles (min dt s.timeStep)) = some s4 ∧
        s4.calculateNormals L = some s5 ∧
        s.update L dt = some s6 ∧
        s6.particles = s5.particles ∧
        s6.getSimulationTime = s.getSimulationTime + min dt s.timeStep ∧
        (s.timeStep ≤ dt → s6.getSimulationTime = s.getSimulationTime + s.timeStep) ∧
        s.update L (min dt s.timeStep) = some s6 := by
    intro hd
    obtain ⟨ps2, ps4, ps5, h2, h4, h5, hu, _, _⟩ := update_chain_defined L s dt hd hp
    refine ⟨_, _, _, _, h2, h4, h5, hu, rfl, rfl, ?_, ?_⟩
    · intro hle
      simp [ClothSimulation.getSimulationTime, min_eq_right hle]
    · rw [← hu]
      unfold ClothSimulation.update
      simp only [min_assoc, min_self]
  refine ⟨⟨?_, ?_⟩, hchain⟩
  · rintro ⟨t, ht⟩
    exact updateDefined_of_update L s t dt hp ht
  · intro hd
    obtain ⟨_, _, _, s6, _, _, _, hu, _⟩ := hchain hd
    exact ⟨s6, hu⟩

/-- C4 (witness): the free particle of the running 1 × 1 cloth, stepped with
`dt = 1`, which is larger than the time step `1/60`: it is integrated with the
step `1/60` (velocity `g/60`, height `2 + g/3600`), and the elapsed time is
`1/60`. -/
theorem C4_update_uses_clamped_step_witness :
    fallingState.paused = false ∧ UpdateDefined fallingState ∧
    (((∃ t, fallingState.update ratLib 1 = some t) ↔ UpdateDefined fallingState) ∧
      (UpdateDefined fallingState →
        ∃ s2 s4 s5 s6,
          (fallingState.applyForces ratLib).handleCollisions ratLib = some s2 ∧
          repeatM (ClothSimulation.satisfyConstraints ratLib)
            fallingState.constraintIterations.toNat
            (s2.updateParticles (min 1 fallingState.timeStep)) = some s4 ∧
          s4.calculateNormals ratLib = some s5 ∧
          fallingState.update ratLib 1 = some s6 ∧
          s6.particles = s5.particles ∧
          s6.getSimulationTime = fallingState.getSimulationTime + min 1 fallingState.timeStep ∧
          (fallingState.timeStep ≤ 1 →
            s6.getSimulationTime = fallingState.getSimulationTime + fallingState.timeStep) ∧
          fallingState.update ratLib (min 1 fallingState.timeStep) = some s6)) ∧
    (fallingState.update ratLib 1).map
        (fun t => (t.particles.map fun p => (p.position, p.velocity), t.simulationTime)) =
      some ([(⟨0, 2 - 981 / 360000, 0⟩, ⟨0, -(981 / 6000), 0⟩)], 1 / 60) :=
  ⟨rfl,
    ⟨fun _ c hc => by simp [fallingState, ClothSimulation.new] at hc,
     fun hW => absurd hW (by decide)⟩,
    C4_update_uses_clamped_step ratLib fallingState 1 rfl, by decide!⟩

/-- C4 (failing input): the state the shipped examples step, constructed with a
15 × 15 grid and never initialised, is running and has no particle, so the
first quad of `calculateNormals` reads element 0 of an empty particle list:
`update(0.016)` has no result and the elapsed time is not advanced.  After
`initialize()` the same call returns and the elapsed time is `0.016`. -/
theorem C4_update_undefined_on_constructed_state :
    constructedState.paused = false ∧ constructedState.particles = [] ∧
    constructedState.getParticle 0 0 = some 0 ∧
    ¬ UpdateDefined constructedState ∧
    constructedState.update ratLib (2 / 125) = none ∧
    ∃ s0 s1, constructedState.initialize0 ratLib = some s0 ∧
      s0.update ratLib (2 / 125) = some s1 ∧ s1.getSimulationTime = 2 / 125 := by
  have hnot : ¬ UpdateDefined constructedState := by
    intro hd
    have h := hd.2 (by decide) (by decide)
    exact absurd h (by decide)
  refine ⟨rfl, rfl, by decide, hnot, ?_, ?_⟩
  · cases h : constructedState.update ratLib (2 / 125) with
    | none => rfl
    | some t => exact absurd (updateDefined_of_update ratLib constructedState t _ rfl h) hnot
  · obtain ⟨ps, cs, hinit, _, hends, hlen, _⟩ := initialize0_spec ratLib constructedState
      (Or.inl (by decide))
    have hwf := wellFormed_initialize0 ratLib constructedState ps cs hends hlen
    obtain ⟨ps1, hu, _, _⟩ := update_spec ratLib _ (2 / 125) hwf rfl
    refine ⟨_, _, hinit, hu, ?_⟩
    show (0 : ℚ) + min (2 / 125) (1 / 60) = 2 / 125
    rw [min_eq_left (by norm_num)]
    norm_num

end DomainClaims

/-! ## Pinned particles across `update`, on the states the interface can produce -/

section ReachableClaims

variable {K : Type} [LinearOrderedField K]

theorem foldlM_invariant {α β : Type} (f : β → α → Option β) (P : β → Prop)
    (hstep : ∀ b a b1, P b → f b a = some b1 → P b1) :
    ∀ (l : List α) (b r : β), P b → l.foldlM f b = some r → P r := by
  intro l b r hb h
  exact foldlM_option_preserves f (fun (a b : β) => P a → P b) (fun _ h => h)
    (fun _ _ _ h1 h2 h => h2 (h1 h)) (fun b a b1 h hb => hstep b a b1 hb h) l b r h hb

/-- Whatever a running `update` returns differs from the old state in the
particle list, the elapsed time and the dirty flag only; the list keeps its
length, and each pinned particle keeps its position while its velocity is
multiplied by the damping factor. -/
theorem update_result (L : FloatLib K) (s t : ClothSimulation K) (dt : K)
    (hp : s.paused = false) (h : s.update L dt = some t) :
    ∃ ps, t = { s with particles := ps,
                       simulationTime := s.simulationTime + min dt s.timeStep,
                       renderDataDirty := true } ∧
      ps.length = s.particles.length ∧
      ps.map pinnedView = s.particles.map (dampedView s.damping) := by
  obtain ⟨_, _, ps5, _, _, _, hu, hl, hv⟩ :=
    update_chain_defined L s dt (updateDefined_of_update L s t dt hp h) hp
  rw [hu] at h
  exact ⟨ps5, (Option.some.inj h).symm, hl, hv⟩

theorem initialize0_result (L : FloatLib K) (s t : ClothSimulation K)
    (h : s.initialize0 L = some t) :
    WellFormed t ∧ ∀ p ∈ t.particles, p.velocity = ⟨0, 0, 0⟩ := by
  by_cases hg : 1 ≤ s.height ∨ s.width ≤ 0
  · obtain ⟨ps, cs, hinit, _, hends, hlen, hget⟩ := initialize0_spec L s hg
    rw [hinit] at h
    cases h
    refine ⟨wellFormed_initialize0 L s ps cs hends hlen, ?_⟩
    intro p hp
    have hp : p ∈ ps := hp
    obtain ⟨i, hi⟩ := List.getElem?_of_mem hp
    have hgi := hget i
    rw [hi] at hgi
    cases hf : (freshMesh s)[i]? with
    | none => rw [hf] at hgi; simp at hgi
    | some q =>
      rw [hf] at hgi
      simp only [Option.map_some', Option.some.injEq] at hgi
      obtain ⟨_, f2, _, _⟩ := pinTop_fields (K := K) s.width i q
      rw [hgi, f2]
      exact freshMesh_velocity s q (List.getElem?_mem hf)
  · rw [initialize0_fails L s (by omega) (by omega)] at h
    cases h

theorem keepsPinned_invariant {s : ClothSimulation K} (ps : List (ClothParticle K))
    (hinv : InterfaceInvariant s) (hk : KeepsPinned s.particles ps) :
    InterfaceInvariant { s with particles := ps } := by
  refine ⟨?_, pinned_at_rest_of_keeps hk hinv.2⟩
  rcases hinv.1 with hwf | ⟨he, hc⟩
  · left
    constructor
    · intro c hc
      obtain ⟨i, j, e1, e2, hi, hj⟩ := hwf.1 c hc
      refine ⟨i, j, e1, e2, ?_, ?_⟩
      · show i < ps.length
        rw [hk.1]
        exact hi
      · show j < ps.length
        rw [hk.1]
        exact hj
    · show s.width.toNat * s.height.toNat ≤ ps.length
      rw [hk.1]
      exact hwf.2
  · right
    refine ⟨?_, hc⟩
    show ps = []
    apply List.eq_nil_of_length_eq_zero
    rw [hk.1, he]
    rfl

/-- On a state of the interface, whatever `update` returns has kept every
pinned particle, and it satisfies the invariant again. -/
theorem update_invariant (L : FloatLib K) (t t1 : ClothSimulation K) (dt : K)
    (hinv : InterfaceInvariant t) (h : t.update L dt = some t1) :
    InterfaceInvariant t1 ∧ KeepsPinned t.particles t1.particles := by
  by_cases hp : t.paused = true
  · simp only [ClothSimulation.update, hp, if_true, Option.some.injEq] at h
    rw [← h]
    exact ⟨hinv, KeepsPinned.refl _⟩
  · obtain ⟨ps, rfl, hlen, hview⟩ := update_result L t t1 dt (by simpa using hp) h
    have hsame : t.particles.map (dampedView t.damping) = t.particles.map pinnedView := by
      apply List.map_congr_left
      intro p hp1
      unfold dampedView pinnedView
      by_cases hpin : p.pinned = true
      · rw [if_pos hpin, if_pos hpin, hinv.2 p hp1 hpin]
        simp [Vec3.scale]
      · rw [if_neg hpin, if_neg hpin]
    have hk : KeepsPinned t.particles ps := ⟨hlen, hview.trans hsame⟩
    exact ⟨keepsPinned_invariant ps hinv hk, hk⟩

theorem apiCall_invariant (L : FloatLib K) (t t1 : ClothSimulation K) (call : ApiCall K)
    (hinv : InterfaceInvariant t) (h : call.run L t = some t1) : InterfaceInvariant t1 := by
  cases call with
  | initialize0 =>
    obtain ⟨hwf, hv⟩ := initialize0_result L t t1 h
    exact ⟨Or.inl hwf, fun p hp _ => hv p hp⟩
  | initialize3 width height spacing =>
    obtain ⟨hwf, hv⟩ := initialize0_result L _ t1 h
    exact ⟨Or.inl hwf, fun p hp _ => hv p hp⟩
  | reset =>
    obtain ⟨hwf, hv⟩ := initialize0_result L t t1 h
    exact ⟨Or.inl hwf, fun p hp _ => hv p hp⟩
  | render =>
    simp only [ApiCall.run, ClothSimulation.render] at h
    by_cases he : t.particles.isEmpty = true
    · rw [if_pos he] at h
      cases h
      exact hinv
    · rw [if_neg he] at h
      rcases hinv.1 with hwf | ⟨hnil, _⟩
      · obtain ⟨ps, hc, hk⟩ := calculateNormals_spec L { t with renderDataDirty := false } hwf.2
        rw [hc] at h
        simp only at h
        split_ifs at h
        cases h
        exact keepsPinned_invariant (s := { t with renderDataDirty := false }) ps hinv hk
      · rw [hnil] at he
        exact absurd rfl he
  | step op =>
    cases op with
    | update dt => exact (update_invariant L t t1 dt hinv h).1
    | addCylinder c r hh => cases h; exact hinv
    | setGravity g => cases h; exact hinv
    | setWind w => cases h; exact hinv
    | setDamping d => cases h; exact hinv
    | setTimeStep d => cases h; exact hinv
    | setUseOGC b => cases h; exact hinv
    | setOGCContactRadius r => cases h; exact hinv
    | pause => cases h; exact hinv
    | resume => cases h; exact hinv

theorem reachable_invariant (L : FloatLib K) (W H : Int) (spacing : K)
    (calls : List (ApiCall K)) (t : ClothSimulation K)
    (h : runCalls L calls (ClothSimulation.new W H spacing) = some t) :
    InterfaceInvariant t :=
  foldlM_invariant (fun t call => ApiCall.run L t call) InterfaceInvariant
    (fun b a b1 hb h => apiCall_invariant L b b1 a hb h) calls _ t
    ⟨Or.inr ⟨rfl, rfl⟩, fun p hp => by cases hp⟩ h

/-- C1: let `t` be any state the public interface can produce: the result of
any sequence of `initialize()`, `initialize(w, h, s)`, `reset`, `render`,
`update`, `addCylinder`, the setters, `pause` and `resume` on a constructed
simulation.  Then every pinned particle of `t` is at rest; `update(dt)` returns
whenever `t` has a particle; and in whatever state `update(dt)` returns, the
particle list has the same length and every particle that was pinned is still
pinned, with exactly the same position and the same velocity. -/
theorem C1_pinned_unchanged_by_update (L : FloatLib K) (W H : Int) (spacing : K)
    (calls : List (ApiCall K)) (t : ClothSimulation K) (dt : K)
    (hreach : runCalls L calls (ClothSimulation.new W H spacing) = some t) :
    (∀ p ∈ t.particles, p.pinned = true → p.velocity = ⟨0, 0, 0⟩) ∧
    (t.particles ≠ [] → ∃ t1, t.update L dt = some t1) ∧
    ∀ t1, t.update L dt = some t1 →
      t1.particles.length = t.particles.length ∧
      ∀ (i : Nat) (p : ClothParticle K), t.particles[i]? = some p → p.pinned = true →
        ∃ q, t1.particles[i]? = some q ∧ q.pinned = true ∧ q.position = p.position ∧
          q.velocity = p.velocity := by
  have hinv := reachable_invariant L W H spacing calls t hreach
  refine ⟨hinv.2, ?_, ?_⟩
  · intro hne
    rcases hinv.1 with hwf | ⟨hnil, _⟩
    · by_cases hp : t.paused = true
      · exact ⟨t, by simp [ClothSimulation.update, hp]⟩
      · obtain ⟨ps, hu, _, _⟩ := update_spec L t dt hwf (by simpa using hp)
        exact ⟨_, hu⟩
    · exact absurd hnil hne
  · intro t1 h
    obtain ⟨_, hk⟩ := update_invariant L t t1 dt hinv h
    refine ⟨hk.1, ?_⟩
    intro i p hpi hpin
    exact @pinned_of_view K _ t.particles t1.particles pinnedView hk.2 i p
      (p.position, p.velocity) hpi (by simp [pinnedView, hpin])

/-- After `initialize(W, H, spacing)` with `W, H ≥ 1`, every list of calls of
`PublicOp` returns a state, and the particle at index 0 is pinned in it. -/
theorem runCalls_initialize3 (L : FloatLib K) (s : ClothSimulation K) (W H : Int)
    (spacing : K) (hW : 1 ≤ W) (hH : 1 ≤ H) (ops : List (PublicOp K)) :
    ∃ t q, runCalls L (ApiCall.initialize3 W H spacing :: ops.map ApiCall.step) s = some t ∧
      t.particles[0]? = some q ∧ q.pinned = true := by
  obtain ⟨ps, cs, hinit, _, hends, hlen, hget⟩ := initialize0_spec L
    { s with width := W, height := H, spacing := spacing } (Or.inl hH)
  have hwf0 := wellFormed_initialize0 L _ ps cs hends hlen
  have hz : ∀ p ∈ ps, p.pinned = true → p.velocity = ⟨0, 0, 0⟩ := by
    intro p hp _
    exact (initialize0_result L _ _ hinit).2 p hp
  obtain ⟨t, hrun, _, hk⟩ := foldlM_option_inv (fun t op => PublicOp.run L t op)
    (fun t => WellFormed t ∧ KeepsPinned ps t.particles) ops
    { s with width := W, height := H, spacing := spacing, particles := ps, constraints := cs,
             cylinders := [defaultCylinder], simulationTime := 0, renderDataDirty := true }
    ⟨hwf0, KeepsPinned.refl ps⟩ (by
      intro t op _ ht
      exact run_keepsPinned L ps hz op t ht.1 ht.2)
  have h0 : ps[0]? = some (pinTop W 0
      (ClothSimulation.meshParticle { s with width := W, height := H, spacing := spacing } 0 0)) := by
    have hm := freshMesh_getElem { s with width := W, height := H, spacing := spacing } 0 0
      le_rfl (show (0 : Int) < W by omega) le_rfl (show (0 : Int) < H by omega)
    have hidx : ((0 : Int) * W + 0).toNat = 0 := by simp
    have hm2 : (freshMesh { s with width := W, height := H, spacing := spacing })[0]? =
        some (ClothSimulation.meshParticle
          { s with width := W, height := H, spacing := spacing } 0 0) := by
      rw [← hidx]
      exact hm
    rw [hget 0, hm2]
    rfl
  have hpin : (pinTop W 0 (ClothSimulation.meshParticle
      { s with width := W, height := H, spacing := spacing } 0 0)).pinned = true := by
    unfold pinTop
    rw [if_pos ⟨by omega, by decide⟩]
  obtain ⟨q, hq, hqpin, _, _⟩ := @pinned_of_view K _ ps t.particles pinnedView hk.2 0 _
    (_, _) h0 (by simp [pinnedView, hpin]; exact ⟨rfl, rfl⟩)
  refine ⟨t, q, ?_, hq, hqpin⟩
  unfold runCalls
  rw [List.foldlM_cons]
  show (ClothSimulation.initialize0 L { s with width := W, height := H, spacing := spacing }).bind
    (fun t => (ops.map ApiCall.step).foldlM (fun t call => ApiCall.run L t call) t) = some t
  rw [hinit, Option.some_bind, List.foldlM_map]
  exact hrun

/-- C1 (witness): the 5 × 3 cloth initialised on a simulation constructed with
a 15 × 15 grid, then thirteen public calls; the state reached has a pinned
particle at index 0. -/
theorem C1_pinned_unchanged_by_update_witness :
    ∃ t q, runCalls ratLib (ApiCall.initialize3 5 3 (1 / 5) :: sampleOps.map ApiCall.step)
        (ClothSimulation.new 15 15 (1 / 5)) = some t ∧
      t.particles[0]? = some q ∧ q.pinned = true ∧
      (∀ p ∈ t.particles, p.pinned = true → p.velocity = ⟨0, 0, 0⟩) ∧
      (t.particles ≠ [] → ∃ t1, t.update ratLib (1 / 60) = some t1) ∧
      ∀ t1, t.update ratLib (1 / 60) = some t1 →
        t1.particles.length = t.particles.length ∧
        ∀ (i : Nat) (p : ClothParticle ℚ), t.particles[i]? = some p → p.pinned = true →
          ∃ q, t1.particles[i]? = some q ∧ q.pinned = true ∧ q.position = p.position ∧
            q.velocity = p.velocity := by
  obtain ⟨t, q, hrun, hq, hpin⟩ := runCalls_initialize3 ratLib
    (ClothSimulation.new 15 15 (1 / 5)) 5 3 (1 / 5) (by decide) (by decide) sampleOps
  exact ⟨t, q, hrun, hq, hpin,
    C1_pinned_unchanged_by_update ratLib 15 15 (1 / 5) _ t (1 / 60) hrun⟩

end ReachableClaims

/-! ## The basic correction in `float` arithmetic -/

section RoundingClaims

/-- The rounded integer is within one half of the number. -/
theorem roundHalfEven_near (q : ℚ) :
    q - 1 / 2 ≤ (roundHalfEven q : ℚ) ∧ (roundHalfEven q : ℚ) ≤ q + 1 / 2 := by
  have h1 : ((Rat.floor q : Int) : ℚ) ≤ q := Int.floor_le q
  have h2 : q < ((Rat.floor q : Int) : ℚ) + 1 := Int.lt_floor_add_one q
  unfold roundHalfEven
  simp only
  split_ifs with c1 c2 c3
  · constructor <;> linarith
  · push_cast
    constructor <;> linarith
  · constructor <;> linarith
  · push_cast
    constructor <;> linarith

/-- The rounded value is an integer multiple of the unit in the last place and
within half a unit of the number. -/
theorem round32_near (q : ℚ) (hq : q ≠ 0) :
    (∃ m : Int, round32 q = (m : ℚ) * pow2 (binaryExponent q - 23)) ∧
    q - pow2 (binaryExponent q - 23) / 2 ≤ round32 q ∧
    round32 q ≤ q + pow2 (binaryExponent q - 23) / 2 := by
  have hu : 0 < pow2 (binaryExponent q - 23) := by
    unfold pow2
    split_ifs <;> positivity
  obtain ⟨n1, n2⟩ := roundHalfEven_near (q / pow2 (binaryExponent q - 23))
  have e : round32 q = (roundHalfEven (q / pow2 (binaryExponent q - 23)) : ℚ) *
      pow2 (binaryExponent q - 23) := by
    unfold round32
    rw [if_neg hq]
  refine ⟨⟨_, e⟩, ?_, ?_⟩
  · rw [e]
    have := mul_le_mul_of_nonneg_right n1 hu.le
    rw [sub_mul, div_mul_cancel₀ _ hu.ne'] at this
    linarith
  · rw [e]
    have := mul_le_mul_of_nonneg_right n2 hu.le
    rw [add_mul, div_mul_cancel₀ _ hu.ne'] at this
    linarith

/-- The binary logarithm by halving is the position of the leading bit. -/
theorem log2Loop_spec : ∀ (fuel n : Nat), 1 ≤ n → n ≤ fuel →
    2 ^ log2Loop fuel n ≤ n ∧ n < 2 ^ (log2Loop fuel n + 1) := by
  intro fuel
  induction fuel with
  | zero => intro n h1 h2; omega
  | succ k ih =>
    intro n h1 h2
    unfold log2Loop
    split_ifs with h
    · have : n = 1 := by omega
      subst this
      simp
    · obtain ⟨a, b⟩ := ih (n / 2) (by omega) (by omega)
      rw [pow_succ, pow_succ]
      rw [pow_succ] at b
      constructor <;> omega

theorem floorLog2_spec (n : Nat) (h : 1 ≤ n) :
    2 ^ floorLog2 n ≤ n ∧ n < 2 ^ (floorLog2 n + 1) :=
  log2Loop_spec n n h le_rfl

theorem pow2_eq_zpow (e : Int) : pow2 e = (2 : ℚ) ^ e := by
  unfold pow2
  split_ifs with h
  · obtain ⟨k, rfl⟩ := Int.eq_ofNat_of_zero_le h
    simp
  · have h2 : 0 ≤ -e := by omega
    obtain ⟨k, hk⟩ := Int.eq_ofNat_of_zero_le h2
    have he : e = -(k : Int) := by omega
    rw [hk, he]
    simp

/-- The exponent brackets the number between two consecutive powers of two. -/
theorem binaryExponent_spec (q : ℚ) (hq : q ≠ 0) :
    pow2 (binaryExponent q) ≤ |q| ∧ |q| < pow2 (binaryExponent q + 1) := by
  have habs : (if q < 0 then -q else q) = |q| := by
    split_ifs with h
    · exact (abs_of_neg h).symm
    · exact (abs_of_nonneg (not_lt.1 h)).symm
  have hnum : q.num ≠ 0 := Rat.num_ne_zero.2 hq
  have hn1 : 1 ≤ q.num.natAbs := Int.natAbs_pos.2 hnum
  have hd1 : 1 ≤ q.den := q.den_pos
  obtain ⟨a1, a2⟩ := floorLog2_spec _ hn1
  obtain ⟨b1, b2⟩ := floorLog2_spec _ hd1
  have hq2 : |q| = (q.num.natAbs : ℚ) / (q.den : ℚ) := by
    conv_lhs => rw [← Rat.num_div_den q]
    rw [abs_div, Nat.abs_cast, Nat.cast_natAbs, Int.cast_abs]
  have hdpos : (0 : ℚ) < q.den := by exact_mod_cast q.den_pos
  have A1 : ((2 : ℚ) ^ floorLog2 q.num.natAbs) ≤ (q.num.natAbs : ℚ) := by exact_mod_cast a1
  have A2 : (q.num.natAbs : ℚ) < (2 : ℚ) ^ (floorLog2 q.num.natAbs + 1) := by exact_mod_cast a2
  have B1 : ((2 : ℚ) ^ floorLog2 q.den) ≤ (q.den : ℚ) := by exact_mod_cast b1
  have B2 : (q.den : ℚ) < (2 : ℚ) ^ (floorLog2 q.den + 1) := by exact_mod_cast b2
  -- bounds of |q| by powers of two
  have lo : (2 : ℚ) ^ ((floorLog2 q.num.natAbs : Int) - (floorLog2 q.den : Int) - 1) ≤ |q| := by
    rw [hq2, le_div_iff₀ hdpos]
    have e : (2 : ℚ) ^ ((floorLog2 q.num.natAbs : Int) - (floorLog2 q.den : Int) - 1) *
        (2 : ℚ) ^ (floorLog2 q.den + 1) = (2 : ℚ) ^ floorLog2 q.num.natAbs := by
      rw [← zpow_natCast (2 : ℚ) (floorLog2 q.den + 1), ← zpow_add₀ (by norm_num : (2 : ℚ) ≠ 0),
        ← zpow_natCast (2 : ℚ) (floorLog2 q.num.natAbs)]
      congr 1
      push_cast
      ring
    have hp : (0 : ℚ) < (2 : ℚ) ^ ((floorLog2 q.num.natAbs : Int) - (floorLog2 q.den : Int) - 1) := by
      positivity
    calc (2 : ℚ) ^ ((floorLog2 q.num.natAbs : Int) - (floorLog2 q.den : Int) - 1) * (q.den : ℚ)
        ≤ (2 : ℚ) ^ ((floorLog2 q.num.natAbs : Int) - (floorLog2 q.den : Int) - 1) *
            (2 : ℚ) ^ (floorLog2 q.den + 1) := by
          apply mul_le_mul_of_nonneg_left B2.le hp.le
      _ = (2 : ℚ) ^ floorLog2 q.num.natAbs := e
      _ ≤ _ := A1
  have hi : |q| < (2 : ℚ) ^ ((floorLog2 q.num.natAbs : Int) - (floorLog2 q.den : Int) + 1) := by
    rw [hq2, div_lt_iff₀ hdpos]
    have e : (2 : ℚ) ^ ((floorLog2 q.num.natAbs : Int) - (floorLog2 q.den : Int) + 1) *
        (2 : ℚ) ^ (floorLog2 q.den) = (2 : ℚ) ^ (floorLog2 q.num.natAbs + 1) := by
      rw [← zpow_natCast (2 : ℚ) (floorLog2 q.den), ← zpow_add₀ (by norm_num : (2 : ℚ) ≠ 0),
        ← zpow_natCast (2 : ℚ) (floorLog2 q.num.natAbs + 1)]
      congr 1
      push_cast
      ring
    have hp : (0 : ℚ) < (2 : ℚ) ^ ((floorLog2 q.num.natAbs : Int) - (floorLog2 q.den : Int) + 1) := by
      positivity
    calc (q.num.natAbs : ℚ) < (2 : ℚ) ^ (floorLog2 q.num.natAbs + 1) := A2
      _ = (2 : ℚ) ^ ((floorLog2 q.num.natAbs : Int) - (floorLog2 q.den : Int) + 1) *
            (2 : ℚ) ^ (floorLog2 q.den) := e.symm
      _ ≤ _ := mul_le_mul_of_nonneg_left B1 hp.le
  unfold binaryExponent
  simp only [habs, pow2_eq_zpow]
  split_ifs with h
  · refine ⟨lo, ?_⟩
    rw [sub_add_cancel]
    exact h
  · exact ⟨not_lt.1 h, hi⟩

theorem isqrtLoop_spec : ∀ (fuel lo hi n : Nat), lo * lo ≤ n → n < hi * hi →
    hi - lo ≤ 2 ^ fuel →
    isqrtLoop fuel lo hi n * isqrtLoop fuel lo hi n ≤ n ∧
      n < (isqrtLoop fuel lo hi n + 1) * (isqrtLoop fuel lo hi n + 1) := by
  intro fuel
  induction fuel with
  | zero =>
    intro lo hi n h1 h2 h3
    have hlt : lo < hi := Nat.mul_self_lt_mul_self_iff.1 (lt_of_le_of_lt h1 h2)
    have e : hi = lo + 1 := by
      simp only [pow_zero] at h3
      omega
    rw [e] at h2
    exact ⟨h1, h2⟩
  | succ k ih =>
    intro lo hi n h1 h2 h3
    have hlt : lo < hi := Nat.mul_self_lt_mul_self_iff.1 (lt_of_le_of_lt h1 h2)
    rw [pow_succ] at h3
    unfold isqrtLoop
    split_ifs with c1 c2
    · have e : hi = lo + 1 := by omega
      rw [e] at h2
      exact ⟨h1, h2⟩
    · exact ih _ _ _ c2 h2 (by omega)
    · exact ih _ _ _ h1 (not_le.1 c2) (by omega)

/-- The integer square root is the largest `r` with `r * r ≤ n`. -/
theorem isqrt_spec (n : Nat) : isqrt n * isqrt n ≤ n ∧ n < (isqrt n + 1) * (isqrt n + 1) := by
  unfold isqrt
  apply isqrtLoop_spec
  · exact Nat.zero_le _
  · nlinarith
  · rcases Nat.eq_zero_or_pos n with h | h
    · subst h
      exact Nat.one_le_two_pow
    · obtain ⟨_, b⟩ := floorLog2_spec n h
      rw [pow_succ]
      omega

/-- The value of `sqrt32` is a natural multiple `m * u` of the unit in the last
place, and `m` is within one half of `√q / u`: in squares,
`(m - 1/2)² ≤ q / u² ≤ (m + 1/2)²`. -/
theorem sqrt32_near (q : ℚ) (hq : 0 < q) :
    ∃ m : Nat, sqrt32 q = (m : ℚ) * pow2 (binaryExponent q / 2 - 23) ∧
      (m = 0 ∨ ((m : ℚ) - 1 / 2) * ((m : ℚ) - 1 / 2) ≤
        q / (pow2 (binaryExponent q / 2 - 23) * pow2 (binaryExponent q / 2 - 23))) ∧
      q / (pow2 (binaryExponent q / 2 - 23) * pow2 (binaryExponent q / 2 - 23)) ≤
        ((m : ℚ) + 1 / 2) * ((m : ℚ) + 1 / 2) := by
  have hu : 0 < pow2 (binaryExponent q / 2 - 23) := by
    unfold pow2
    split_ifs <;> positivity
  generalize hx : q / (pow2 (binaryExponent q / 2 - 23) * pow2 (binaryExponent q / 2 - 23)) = x
  have hx0 : 0 ≤ x := by
    rw [← hx]
    positivity
  have hf0 : 0 ≤ Rat.floor x := Int.floor_nonneg.2 hx0
  have f1 : ((Rat.floor x : Int) : ℚ) ≤ x := Int.floor_le x
  have f2 : x < ((Rat.floor x : Int) : ℚ) + 1 := Int.lt_floor_add_one x
  obtain ⟨s1, s2⟩ := isqrt_spec (Rat.floor x).toNat
  generalize hn : isqrt (Rat.floor x).toNat = n at s1 s2
  have hcast : (((Rat.floor x).toNat : Nat) : ℚ) = ((Rat.floor x : Int) : ℚ) := by
    have : (((Rat.floor x).toNat : Nat) : Int) = Rat.floor x := Int.toNat_of_nonneg hf0
    exact_mod_cast this
  have t1 : (n : ℚ) * n ≤ x := by
    have : ((n * n : Nat) : ℚ) ≤ (((Rat.floor x).toNat : Nat) : ℚ) := by exact_mod_cast s1
    push_cast at this
    linarith
  have t2 : x < ((n : ℚ) + 1) * ((n : ℚ) + 1) := by
    have : (((Rat.floor x).toNat : Nat) : ℚ) + 1 ≤ (((n + 1) * (n + 1) : Nat) : ℚ) := by
      exact_mod_cast s2
    push_cast at this
    linarith
  have e : sqrt32 q = ((if x < ((n : ℚ) + 1 / 2) * ((n : ℚ) + 1 / 2) then n
      else if ((n : ℚ) + 1 / 2) * ((n : ℚ) + 1 / 2) < x then n + 1
      else if n % 2 = 0 then n else n + 1 : Nat) : ℚ) * pow2 (binaryExponent q / 2 - 23) := by
    unfold sqrt32
    rw [if_neg (not_le.2 hq)]
    simp only [hx, hn]
  have hn0 : (0 : ℚ) ≤ n := Nat.cast_nonneg n
  have low : ∀ k : Nat, ((k : ℚ) = n) → (k = 0 ∨ ((k : ℚ) - 1 / 2) * ((k : ℚ) - 1 / 2) ≤ x) := by
    intro k hk
    rcases Nat.eq_zero_or_pos k with h | h
    · exact Or.inl h
    · right
      have h1 : (1 : ℚ) ≤ k := by exact_mod_cast h
      have e1 : ((k : ℚ) - 1 / 2) * ((k : ℚ) - 1 / 2) = (n : ℚ) * n - n + 1 / 4 := by
        rw [hk]
        ring
      rw [e1]
      rw [hk] at h1
      linarith
  have e2 : ((n : ℚ) + 1 - 1 / 2) * ((n : ℚ) + 1 - 1 / 2) =
      ((n : ℚ) + 1 / 2) * ((n : ℚ) + 1 / 2) := by ring
  have e3 : ((n : ℚ) + 1 + 1 / 2) * ((n : ℚ) + 1 + 1 / 2) =
      ((n : ℚ) + 1) * ((n : ℚ) + 1) + ((n : ℚ) + 1) + 1 / 4 := by ring
  refine ⟨_, e, ?_, ?_⟩
  · split_ifs with c1 c2 c3
    · exact low n rfl
    · right
      push_cast
      rw [e2]
      exact c2.le
    · exact low n rfl
    · right
      push_cast
      rw [e2]
      exact not_lt.1 c1
  · split_ifs with c1 c2 c3
    · exact c1.le
    · push_cast
      rw [e3]
      linarith
    · exact not_lt.1 c2
    · push_cast
      rw [e3]
      linarith

theorem defaultCylinder32_eq : defaultCylinder32 = (defaultCylinder : CylinderCollider ℚ) := by
  decide!


/-- Values of the two rounding functions: the literals `0.8f`, `0.1f`, `1e-6f`,
a `float` is left as it is, a tie goes to the even significand, and `sqrt` of
`2`, `3`, `9/4` and of a `float` squared and rounded. -/
theorem round32_values :
    round32 (8 / 10) = 13421773 / 16777216 ∧
    round32 (1 / 10) = 13421773 / 134217728 ∧
    round32 (1 / 1000000) = 8796093 / 8796093022208 ∧
    round32 (3 / 2 - 1 / 8388608) = 3 / 2 - 1 / 8388608 ∧
    round32 (1 + 1 / 16777216) = 1 ∧
    round32 (1 + 3 / 16777216) = 1 + 2 / 8388608 ∧
    round32 (-(1 + 3 / 16777216)) = -(1 + 2 / 8388608) ∧
    round32 16777217 = 16777216 ∧
    sqrt32 2 = 11863283 / 8388608 ∧
    sqrt32 3 = 14529495 / 8388608 ∧
    sqrt32 (9 / 4) = 3 / 2 ∧
    sqrt32 (round32 ((3 / 2 - 1 / 8388608) * (3 / 2 - 1 / 8388608))) = 3 / 2 - 1 / 8388608 := by
  decide!

/-- C25 (counterexample): in `float` arithmetic, with the collider that
`initialize()` adds (radius `1.5`), the free particle at radial distance
`d = 1.5 - 2⁻²³` inside the height band is hit, and `0.2 * d + 0.8 * r` is
`1.5 - 0.2 * 2⁻²³`, which is not a `float`: the corrected position is rounded
to `x = 1.5`, so the new radial distance is `r` itself, not strictly less than
`r`, and `checkCollision` reports no collision for the corrected particle.
Starting from `d = 1`, ten corrections in a row end on the surface as well. -/
theorem C25_rounded_correction_reaches_surface :
    nearSurfaceParticle.pinned = false ∧
    (defaultCylinder32.checkCollision32 nearSurfaceParticle ⟨0, 0, 0⟩ ⟨0, 0, 0⟩).hit = true ∧
    radialDistance32 defaultCylinder32 nearSurfaceParticle = 3 / 2 - 1 / 8388608 ∧
    round32 (1 / 1000000) ≤ radialDistance32 defaultCylinder32 nearSurfaceParticle ∧
    radialDistance32 defaultCylinder32 nearSurfaceParticle < defaultCylinder32.radius ∧
    (ClothSimulation.basicCollisionStep32 nearSurfaceParticle defaultCylinder32).position =
      ⟨3 / 2, -2, 0⟩ ∧
    radialDistance32 defaultCylinder32
        (ClothSimulation.basicCollisionStep32 nearSurfaceParticle defaultCylinder32) =
      defaultCylinder32.radius ∧
    radialDistance32 defaultCylinder32
        (ClothSimulation.basicCollisionStep32 nearSurfaceParticle defaultCylinder32) ≠
      2 / 10 * radialDistance32 defaultCylinder32 nearSurfaceParticle +
        8 / 10 * defaultCylinder32.radius ∧
    (defaultCylinder32.checkCollision32
        (ClothSimulation.basicCollisionStep32 nearSurfaceParticle defaultCylinder32)
        ⟨0, 0, 0⟩ ⟨0, 0, 0⟩).hit = false ∧
    (defaultCylinder32.checkCollision32 halfwayParticle ⟨0, 0, 0⟩ ⟨0, 0, 0⟩).hit = true ∧
    (defaultCylinder32.checkCollision32
        ((fun p => ClothSimulation.basicCollisionStep32 p defaultCylinder32)^[10] halfwayParticle)
        ⟨0, 0, 0⟩ ⟨0, 0, 0⟩).hit = false := by
  decide!

end RoundingClaims


end Physics
